import Mathlib

/-!
# KR-Engine mesh / scene interchange: a verification development

Shallow embedding of `Builds/MeshFile.hpp`, `Builds/MeshFile.cpp`, `Builds/DLL.cpp`
(`ReorderMeshFaces`) and `Builds/Mesh.cpp` (`MeshData3D::GetFaceIndices`).

Conventions
* a byte is a `Nat` below 256, a `u32` a `Nat` below `2^32`, a `size_t` a `Nat` below `2^64`;
  arithmetic that the C++ performs in `u32` is reduced `% 2^32` explicitly;
* an `f32` is carried as its 32-bit pattern (the serializer copies raw bytes only);
* `std::string` is the list of its bytes;
* a stream is the list of bytes still to be read; a read past the end, which leaves the C++
  stream failed and the destination indeterminate, is reported as `streamEnd`;
* a file is `Option Bytes`: `none` is a path that cannot be opened.
-/

namespace Kaey

/-- Raw bytes, each below 256. -/
abbrev Bytes := List Nat

/-- Failures of the embedded code: the C++ exceptions, failed assertions and the
operations whose behaviour the language leaves undefined. -/
inductive Error where
  | invalidArgument (value : Nat)
  | runtimeError
  | invalidMagic (expected found : Nat)
  | ioError
  | streamEnd
  | assertionFailure
  | outOfBounds
  | divisionByZero
  deriving DecidableEq, Repr

instance {ε α : Type} [DecidableEq ε] [DecidableEq α] : DecidableEq (Except ε α) :=
  fun a b =>
    match a, b with
    | .ok x, .ok y => if h : x = y then isTrue (by rw [h]) else isFalse (fun e => h (by cases e; rfl))
    | .error x, .error y =>
      if h : x = y then isTrue (by rw [h]) else isFalse (fun e => h (by cases e; rfl))
    | .ok _, .error _ => isFalse (fun e => by cases e)
    | .error _, .ok _ => isFalse (fun e => by cases e)

/-! ## Raw memory images of trivially copyable values (little-endian host) -/

/-- The `w` bytes of the unsigned integer `n`, least significant first: what
`stream.write((const char*)&value, sizeof(T))` emits for an integer of `w` bytes. -/
def toLE : Nat → Nat → Bytes
  | 0, _ => []
  | w + 1, n => (n % 256) :: toLE w (n / 256)

/-- The unsigned integer held by a little-endian byte image. -/
def fromLE : Bytes → Nat
  | [] => 0
  | b :: bs => b + 256 * fromLE bs

/-- Every element of the list is a byte. -/
def IsBytes (bs : Bytes) : Prop := ∀ b ∈ bs, b < 256

instance (bs : Bytes) : Decidable (IsBytes bs) := by unfold IsBytes; infer_instance

/-! ## Attribute catalog (`MeshFile.hpp` 6-43, `MeshFile.cpp` 7-27) -/

namespace Renderer

namespace MeshAttributeDomain
def Point : Nat := 0
def Edge : Nat := 1
def Face : Nat := 2
def Corner : Nat := 3
end MeshAttributeDomain

namespace MeshAttributeType
def Boolean : Nat := 0
def UInt8 : Nat := 1
def UInt16 : Nat := 2
def UInt32 : Nat := 3
def Float : Nat := 4
def Vec2 : Nat := 5
def Vec3 : Nat := 6
def Vec4 : Nat := 7
def Vec2Int : Nat := 8
def Vec3Int : Nat := 9
def Vec4Int : Nat := 10
def Vec2F16 : Nat := 11
def Vec3F16 : Nat := 12
def Vec4F16 : Nat := 13
end MeshAttributeType

/-- Modelled from the spec: `sizeof` of the scalar and vector types of the absent
`Kaey/Renderer/Utility.hpp`; a vector of `k` components of width `w` occupies `k * w`
bytes with no padding. -/
structure Sizeof where
  u8 : Nat := 1
  u16 : Nat := 2
  u32 : Nat := 4
  f32 : Nat := 4
  bool : Nat := 1
  Vector2 : Nat := 2 * 4
  Vector3 : Nat := 3 * 4
  Vector4 : Nat := 4 * 4
  Vector2I32 : Nat := 2 * 4
  Vector3I32 : Nat := 3 * 4
  Vector4I32 : Nat := 4 * 4
  Vector2F16 : Nat := 2 * 2
  Vector3F16 : Nat := 3 * 2
  Vector4F16 : Nat := 4 * 2
  Quaternion : Nat := 4 * 4

/-- The sizes of the host the format is written on. -/
def sizeof : Sizeof := {}

/-- C++ `u32 ByteSizeOfAttribute(MeshAttributeType type)`: the `switch` of `MeshFile.cpp` 9-26,
cases in source order, `default` throwing `invalid_argument`. -/
def ByteSizeOfAttribute (type : Nat) : Except Error Nat :=
  if type = MeshAttributeType.UInt8 then .ok sizeof.u8
  else if type = MeshAttributeType.UInt16 then .ok sizeof.u16
  else if type = MeshAttributeType.UInt32 then .ok sizeof.u32
  else if type = MeshAttributeType.Float then .ok sizeof.f32
  else if type = MeshAttributeType.Vec2 then .ok sizeof.Vector2
  else if type = MeshAttributeType.Vec3 then .ok sizeof.Vector3
  else if type = MeshAttributeType.Vec4 then .ok sizeof.Vector4
  else if type = MeshAttributeType.Vec2Int then .ok sizeof.Vector2I32
  else if type = MeshAttributeType.Vec3Int then .ok sizeof.Vector3I32
  else if type = MeshAttributeType.Vec4Int then .ok sizeof.Vector4I32
  else if type = MeshAttributeType.Boolean then .ok sizeof.bool
  else if type = MeshAttributeType.Vec2F16 then .ok sizeof.Vector2F16
  else if type = MeshAttributeType.Vec3F16 then .ok sizeof.Vector3F16
  else if type = MeshAttributeType.Vec4F16 then .ok sizeof.Vector4F16
  else .error (.invalidArgument type)

/-- The documented size table of the specification: for each enumerated type its
(component count, component width in bytes); nothing for any other value. -/
def documentedComponents (type : Nat) : Option (Nat × Nat) :=
  match type with
  | 0 => some (1, 1)   -- Boolean
  | 1 => some (1, 1)   -- UInt8
  | 2 => some (1, 2)   -- UInt16
  | 3 => some (1, 4)   -- UInt32
  | 4 => some (1, 4)   -- Float
  | 5 => some (2, 4)   -- Vec2
  | 6 => some (3, 4)   -- Vec3
  | 7 => some (4, 4)   -- Vec4
  | 8 => some (2, 4)   -- Vec2Int
  | 9 => some (3, 4)   -- Vec3Int
  | 10 => some (4, 4)  -- Vec4Int
  | 11 => some (2, 2)  -- Vec2F16
  | 12 => some (3, 2)  -- Vec3F16
  | 13 => some (4, 2)  -- Vec4F16
  | _ => none

end Renderer

/-! ## Generic serializer (`MeshFile.hpp` 270-471) -/

/-- An input stream reader: consumes a prefix of the remaining bytes or fails. -/
abbrev Reader (α : Type) := Bytes → Except Error (α × Bytes)

/-- C++ `stream.read(ptr, n)`: the next `n` bytes, failing when fewer remain. -/
def readBytes (n : Nat) : Reader Bytes := fun s =>
  if n ≤ s.length then .ok (s.take n, s.drop n) else .error .streamEnd

/-- C++ `Serializer<T>::Serialize` for a trivially copyable unsigned integer of `w` bytes. -/
def SerializeUInt (w : Nat) (value : Nat) : Bytes := toLE w value

/-- C++ `Serializer<T>::UnSerialize` for a trivially copyable unsigned integer of `w` bytes. -/
def UnSerializeUInt (w : Nat) : Reader Nat := fun s =>
  match readBytes w s with
  | .ok (raw, rest) => .ok (fromLE raw, rest)
  | .error e => .error e

/-- C++ `Serializer<bool>::Serialize`: one byte, 1 or 0. -/
def SerializeBool (b : Bool) : Bytes := SerializeUInt 1 (if b then 1 else 0)

/-- C++ `Serializer<bool>::UnSerialize`: one byte, read as true when non-zero. -/
def UnSerializeBool : Reader Bool := fun s =>
  match UnSerializeUInt 1 s with
  | .ok (v, rest) => .ok (decide (v ≠ 0), rest)
  | .error e => .error e

/-- C++ `Serializer<string>::Serialize`: `size()` as `size_t`, then the raw characters. -/
def SerializeString (str : Bytes) : Bytes := SerializeUInt 8 str.length ++ str

/-- C++ `Serializer<string>::UnSerialize`: read the size, resize, read that many characters. -/
def UnSerializeString : Reader Bytes := fun s =>
  match UnSerializeUInt 8 s with
  | .ok (size, rest) => readBytes size rest
  | .error e => .error e

/-- C++ `Serializer<vector<T>>::Serialize`: `size()` as `size_t`, then every element in order
through the element serializer. -/
def SerializeVector {α : Type} (elem : α → Bytes) (v : List α) : Bytes :=
  SerializeUInt 8 v.length ++ v.flatMap elem

/-- The loop `for (i = 0; i < size; ++i) ElementSerializer.UnSerialize(stream, v[i])`. -/
def readElements {α : Type} (elem : Reader α) : Nat → Reader (List α)
  | 0, s => .ok ([], s)
  | n + 1, s =>
    match elem s with
    | .ok (a, s1) =>
      match readElements elem n s1 with
      | .ok (as, s2) => .ok (a :: as, s2)
      | .error e => .error e
    | .error e => .error e

/-- C++ `Serializer<vector<T>>::UnSerialize` for a non-trivial `T`: read the size, resize,
then read the elements one by one. -/
def UnSerializeVector {α : Type} (elem : Reader α) : Reader (List α) := fun s =>
  match UnSerializeUInt 8 s with
  | .ok (size, rest) => readElements elem size rest
  | .error e => .error e

/-- Cut a raw block into `n` consecutive records of `w` bytes each. -/
def chunks (w : Nat) : Nat → Bytes → List Bytes
  | 0, _ => []
  | n + 1, raw => raw.take w :: chunks w n (raw.drop w)

/-- C++ `Serializer<vector<T>>::UnSerialize` for a trivial `T` of `w` bytes: read the size,
resize, then `stream.read((char*)v.data(), size * sizeof(T))` as one raw block; `decode`
is the value held by one record image. -/
def UnSerializeVectorTrivial {α : Type} (w : Nat) (decode : Bytes → α) : Reader (List α) :=
  fun s =>
  match UnSerializeUInt 8 s with
  | .ok (size, rest) =>
    match readBytes (size * w) rest with
    | .ok (raw, rest2) => .ok ((chunks w size raw).map decode, rest2)
    | .error e => .error e
  | .error e => .error e

/-! ## Mesh file data model (`MeshFile.hpp` 49-90) -/

namespace Renderer

structure MeshFileMaterial where
  Name : Bytes
  deriving DecidableEq, Repr

structure MeshFileMaterialRange where
  MaterialIndex : Nat
  Offset : Nat
  Count : Nat
  deriving DecidableEq, Repr

structure MeshFileMorph where
  Name : Bytes
  BaseName : Bytes
  Value : Nat
  Min : Nat
  Max : Nat
  Buffer : Bytes
  deriving DecidableEq, Repr

structure MeshFileAttribute where
  Name : Bytes
  Domain : Nat
  Type_ : Nat
  Buffer : Bytes
  Morphs : List MeshFileMorph
  deriving DecidableEq, Repr

structure MeshFile where
  Name : Bytes
  PointCount : Nat
  EdgeCount : Nat
  FaceCount : Nat
  CornerCount : Nat
  Attributes : List MeshFileAttribute
  UvIndices : List Nat
  Materials : List MeshFileMaterialRange
  deriving DecidableEq, Repr

/-! ### Values representable in the C++ types -/

/-- A `std::string` or `vector<u8>`: bytes, and a length that fits `size_t`. -/
def ValidBuffer (b : Bytes) : Prop := IsBytes b ∧ b.length < 2 ^ 64

def MeshFileMaterialRange.Valid (r : MeshFileMaterialRange) : Prop :=
  r.MaterialIndex < 2 ^ 32 ∧ r.Offset < 2 ^ 32 ∧ r.Count < 2 ^ 32

def MeshFileMorph.Valid (m : MeshFileMorph) : Prop :=
  ValidBuffer m.Name ∧ ValidBuffer m.BaseName ∧ m.Value < 2 ^ 32 ∧ m.Min < 2 ^ 32 ∧
    m.Max < 2 ^ 32 ∧ ValidBuffer m.Buffer

def MeshFileAttribute.Valid (a : MeshFileAttribute) : Prop :=
  ValidBuffer a.Name ∧ a.Domain < 256 ∧ a.Type_ < 256 ∧ ValidBuffer a.Buffer ∧
    a.Morphs.length < 2 ^ 64 ∧ ∀ m ∈ a.Morphs, m.Valid

def MeshFile.Valid (v : MeshFile) : Prop :=
  ValidBuffer v.Name ∧ v.PointCount < 2 ^ 32 ∧ v.EdgeCount < 2 ^ 32 ∧ v.FaceCount < 2 ^ 32 ∧
    v.CornerCount < 2 ^ 32 ∧
    (v.Attributes.length < 2 ^ 64 ∧ ∀ a ∈ v.Attributes, a.Valid) ∧
    (v.UvIndices.length < 2 ^ 64 ∧ ∀ i ∈ v.UvIndices, i < 2 ^ 32) ∧
    (v.Materials.length < 2 ^ 64 ∧ ∀ r ∈ v.Materials, r.Valid)

instance (b : Bytes) : Decidable (ValidBuffer b) := by unfold ValidBuffer; infer_instance
instance (r : MeshFileMaterialRange) : Decidable r.Valid := by
  unfold MeshFileMaterialRange.Valid; infer_instance
instance (m : MeshFileMorph) : Decidable m.Valid := by
  unfold MeshFileMorph.Valid; infer_instance
instance (a : MeshFileAttribute) : Decidable a.Valid := by
  unfold MeshFileAttribute.Valid; infer_instance
instance (v : MeshFile) : Decidable v.Valid := by
  unfold MeshFile.Valid; infer_instance

/-! ### Field-by-field serializers (`detail::ToTuple` fixes declaration order) -/

/-- Raw image of the trivially copyable `MeshFileMaterialRange` (three `u32`, no padding). -/
def MeshFileMaterialRange.Serialize (r : MeshFileMaterialRange) : Bytes :=
  toLE 4 r.MaterialIndex ++ toLE 4 r.Offset ++ toLE 4 r.Count

/-- The record held by a 12-byte image of `MeshFileMaterialRange`. -/
def MeshFileMaterialRange.ofRaw (raw : Bytes) : MeshFileMaterialRange :=
  { MaterialIndex := fromLE (raw.take 4)
    Offset := fromLE ((raw.drop 4).take 4)
    Count := fromLE ((raw.drop 8).take 4) }

def MeshFileMorph.Serialize (m : MeshFileMorph) : Bytes :=
  SerializeString m.Name ++ SerializeString m.BaseName ++ SerializeUInt 4 m.Value ++
    SerializeUInt 4 m.Min ++ SerializeUInt 4 m.Max ++ SerializeVector (SerializeUInt 1) m.Buffer

def MeshFileMorph.UnSerialize : Reader MeshFileMorph := fun s =>
  match UnSerializeString s with
  | .error e => .error e
  | .ok (name, s) =>
  match UnSerializeString s with
  | .error e => .error e
  | .ok (baseName, s) =>
  match UnSerializeUInt 4 s with
  | .error e => .error e
  | .ok (value, s) =>
  match UnSerializeUInt 4 s with
  | .error e => .error e
  | .ok (min, s) =>
  match UnSerializeUInt 4 s with
  | .error e => .error e
  | .ok (max, s) =>
  match UnSerializeVectorTrivial 1 fromLE s with
  | .error e => .error e
  | .ok (buffer, s) =>
    .ok ({ Name := name, BaseName := baseName, Value := value, Min := min, Max := max,
           Buffer := buffer }, s)

def MeshFileAttribute.Serialize (a : MeshFileAttribute) : Bytes :=
  SerializeString a.Name ++ SerializeUInt 1 a.Domain ++ SerializeUInt 1 a.Type_ ++
    SerializeVector (SerializeUInt 1) a.Buffer ++ SerializeVector MeshFileMorph.Serialize a.Morphs

def MeshFileAttribute.UnSerialize : Reader MeshFileAttribute := fun s =>
  match UnSerializeString s with
  | .error e => .error e
  | .ok (name, s) =>
  match UnSerializeUInt 1 s with
  | .error e => .error e
  | .ok (domain, s) =>
  match UnSerializeUInt 1 s with
  | .error e => .error e
  | .ok (type, s) =>
  match UnSerializeVectorTrivial 1 fromLE s with
  | .error e => .error e
  | .ok (buffer, s) =>
  match UnSerializeVector MeshFileMorph.UnSerialize s with
  | .error e => .error e
  | .ok (morphs, s) =>
    .ok ({ Name := name, Domain := domain, Type_ := type, Buffer := buffer, Morphs := morphs }, s)

def MeshFile.Serialize (v : MeshFile) : Bytes :=
  SerializeString v.Name ++ SerializeUInt 4 v.PointCount ++ SerializeUInt 4 v.EdgeCount ++
    SerializeUInt 4 v.FaceCount ++ SerializeUInt 4 v.CornerCount ++
    SerializeVector MeshFileAttribute.Serialize v.Attributes ++
    SerializeVector (SerializeUInt 4) v.UvIndices ++
    SerializeVector MeshFileMaterialRange.Serialize v.Materials

def MeshFile.UnSerialize : Reader MeshFile := fun s =>
  match UnSerializeString s with
  | .error e => .error e
  | .ok (name, s) =>
  match UnSerializeUInt 4 s with
  | .error e => .error e
  | .ok (pointCount, s) =>
  match UnSerializeUInt 4 s with
  | .error e => .error e
  | .ok (edgeCount, s) =>
  match UnSerializeUInt 4 s with
  | .error e => .error e
  | .ok (faceCount, s) =>
  match UnSerializeUInt 4 s with
  | .error e => .error e
  | .ok (cornerCount, s) =>
  match UnSerializeVector MeshFileAttribute.UnSerialize s with
  | .error e => .error e
  | .ok (attributes, s) =>
  match UnSerializeVectorTrivial 4 fromLE s with
  | .error e => .error e
  | .ok (uvIndices, s) =>
  match UnSerializeVectorTrivial 12 MeshFileMaterialRange.ofRaw s with
  | .error e => .error e
  | .ok (materials, s) =>
    .ok ({ Name := name, PointCount := pointCount, EdgeCount := edgeCount,
           FaceCount := faceCount, CornerCount := cornerCount, Attributes := attributes,
           UvIndices := uvIndices, Materials := materials }, s)

/-- C++ `constexpr u32 MeshFileMagic = 'K' << 0u | 'M' << 8u | 'F' << 16u | 0 << 24u`. -/
def MeshFileMagic : Nat := (75 <<< 0) ||| (77 <<< 8) ||| (70 <<< 16) ||| (0 <<< 24)

/-- C++ `constexpr u32 SceneFileMagic = 'K' << 0u | 'S' << 8u | 'C' << 16u | 0 << 24u`. -/
def SceneFileMagic : Nat := (75 <<< 0) ||| (83 <<< 8) ||| (67 <<< 16) ||| (0 <<< 24)

/-- C++ `MeshFile::Save`: nothing happens when the file cannot be opened; otherwise the opened
file is truncated and receives the magic followed by the serialized mesh. -/
def MeshFile.Save (v : MeshFile) (file : Option Bytes) : Option Bytes :=
  match file with
  | none => none
  | some _ => some (SerializeUInt 4 MeshFileMagic ++ v.Serialize)

/-- C++ `MeshFile::Load`: `system_error` when the file cannot be opened, `runtime_error` on a
magic mismatch, otherwise the deserialized body. -/
def MeshFile.Load (file : Option Bytes) : Except Error MeshFile :=
  match file with
  | none => .error .ioError
  | some s =>
    match UnSerializeUInt 4 s with
    | .error e => .error e
    | .ok (magic, s) =>
      if magic ≠ MeshFileMagic then .error (.invalidMagic MeshFileMagic magic)
      else
        match MeshFile.UnSerialize s with
        | .error e => .error e
        | .ok (mf, _) => .ok mf

/-! ## Scene file data model (`MeshFile.hpp` 97-140) -/

/-- C++ `struct ObjectInstance`. `Location`, `Rotation`, `RotationQuat` and `Scale` are carried as
the raw memory images of the trivially copyable `Vector3` / `Quaternion` of the absent
`Kaey/Renderer/Utility.hpp` (`sizeof.Vector3` and `sizeof.Quaternion` bytes);
`ViewportDisplay` is the `u32 Flags` of the anonymous display struct. -/
structure ObjectInstance where
  Name : Bytes
  DataIndex : Nat
  Location : Bytes
  RotationMode : Nat
  Rotation : Bytes
  RotationQuat : Bytes
  Scale : Bytes
  ViewportDisplay : Nat
  deriving DecidableEq, Repr

/-- C++ `struct Collection`: a child is a `unique_ptr<Collection>`, `none` being the null
pointer. -/
inductive Collection where
  | mk (Name : Bytes) (Children : List (Option Collection)) (ObjectIds : List Nat)
      (Flags : Nat)

namespace Collection
def Name : Collection → Bytes
  | .mk name _ _ _ => name
def Children : Collection → List (Option Collection)
  | .mk _ children _ _ => children
def ObjectIds : Collection → List Nat
  | .mk _ _ ids _ => ids
def Flags : Collection → Nat
  | .mk _ _ _ flags => flags
end Collection

structure SceneFile where
  Meshes : List MeshFile
  Objects : List ObjectInstance
  Materials : List MeshFileMaterial
  Collection : Option Collection

/-- A fixed-size raw image of `n` bytes. -/
def ValidRaw (n : Nat) (b : Bytes) : Prop := IsBytes b ∧ b.length = n

instance (n : Nat) (b : Bytes) : Decidable (ValidRaw n b) := by unfold ValidRaw; infer_instance

def ObjectInstance.Valid (o : ObjectInstance) : Prop :=
  ValidBuffer o.Name ∧ o.DataIndex < 2 ^ 32 ∧ ValidRaw sizeof.Vector3 o.Location ∧
    o.RotationMode < 256 ∧ ValidRaw sizeof.Vector3 o.Rotation ∧
    ValidRaw sizeof.Quaternion o.RotationQuat ∧ ValidRaw sizeof.Vector3 o.Scale ∧
    o.ViewportDisplay < 2 ^ 32

instance (o : ObjectInstance) : Decidable o.Valid := by
  unfold ObjectInstance.Valid; infer_instance

mutual
/-- Every string, list length and integer of the tree fits its C++ type. -/
def Collection.valid : Collection → Bool
  | .mk name children ids flags =>
    decide (ValidBuffer name) && decide (children.length < 2 ^ 64) && validChildren children &&
      decide (ids.length < 2 ^ 64) && ids.all (fun i => decide (i < 2 ^ 32)) &&
      decide (flags < 2 ^ 32)
def validChildren : List (Option Collection) → Bool
  | [] => true
  | c :: cs => validChild c && validChildren cs
def validChild : Option Collection → Bool
  | none => true
  | some c => c.valid
end

def SceneFile.Valid (s : SceneFile) : Prop :=
  (s.Meshes.length < 2 ^ 64 ∧ ∀ m ∈ s.Meshes, m.Valid) ∧
    (s.Objects.length < 2 ^ 64 ∧ ∀ o ∈ s.Objects, o.Valid) ∧
    (s.Materials.length < 2 ^ 64 ∧ ∀ m ∈ s.Materials, ValidBuffer m.Name) ∧
    validChild s.Collection = true

instance (s : SceneFile) : Decidable s.Valid := by unfold SceneFile.Valid; infer_instance

/-! ### Scene serializers -/

def MeshFileMaterial.Serialize (m : MeshFileMaterial) : Bytes := SerializeString m.Name

def MeshFileMaterial.UnSerialize : Reader MeshFileMaterial := fun s =>
  match UnSerializeString s with
  | .error e => .error e
  | .ok (name, s) => .ok ({ Name := name }, s)

def ObjectInstance.Serialize (o : ObjectInstance) : Bytes :=
  SerializeString o.Name ++ SerializeUInt 4 o.DataIndex ++ o.Location ++
    SerializeUInt 1 o.RotationMode ++ o.Rotation ++ o.RotationQuat ++ o.Scale ++
    SerializeUInt 4 o.ViewportDisplay

def ObjectInstance.UnSerialize : Reader ObjectInstance := fun s =>
  match UnSerializeString s with
  | .error e => .error e
  | .ok (name, s) =>
  match UnSerializeUInt 4 s with
  | .error e => .error e
  | .ok (dataIndex, s) =>
  match readBytes sizeof.Vector3 s with
  | .error e => .error e
  | .ok (location, s) =>
  match UnSerializeUInt 1 s with
  | .error e => .error e
  | .ok (rotationMode, s) =>
  match readBytes sizeof.Vector3 s with
  | .error e => .error e
  | .ok (rotation, s) =>
  match readBytes sizeof.Quaternion s with
  | .error e => .error e
  | .ok (rotationQuat, s) =>
  match readBytes sizeof.Vector3 s with
  | .error e => .error e
  | .ok (scale, s) =>
  match UnSerializeUInt 4 s with
  | .error e => .error e
  | .ok (flags, s) =>
    .ok ({ Name := name, DataIndex := dataIndex, Location := location,
           RotationMode := rotationMode, Rotation := rotation, RotationQuat := rotationQuat,
           Scale := scale, ViewportDisplay := flags }, s)

/-- C++ `Serializer<unique_ptr<T>>::Serialize`: the presence flag, then the pointee if any. -/
def SerializeUniquePtr {α : Type} (elem : α → Bytes) (v : Option α) : Bytes :=
  match v with
  | some x => SerializeBool true ++ elem x
  | none => SerializeBool false

/-- C++ `Serializer<unique_ptr<T>>::UnSerialize`: read the flag; when set, allocate a `T` and
read it, otherwise reset the pointer. -/
def UnSerializeUniquePtr {α : Type} (elem : Reader α) : Reader (Option α) := fun s =>
  match UnSerializeBool s with
  | .error e => .error e
  | .ok (hasValue, s) =>
    if hasValue then
      match elem s with
      | .error e => .error e
      | .ok (x, s) => .ok (some x, s)
    else .ok (none, s)

mutual
/-- C++ `Serializer<Collection>::Serialize`: name, children (count, then every owned pointer),
object ids, flags. -/
def Collection.Serialize : Collection → Bytes
  | .mk name children ids flags =>
    SerializeString name ++ (SerializeUInt 8 children.length ++ serializeChildren children) ++
      SerializeVector (SerializeUInt 4) ids ++ SerializeUInt 4 flags
/-- The element loop of `Serializer<vector<unique_ptr<Collection>>>::Serialize`. -/
def serializeChildren : List (Option Collection) → Bytes
  | [] => []
  | c :: cs => serializeChild c ++ serializeChildren cs
/-- C++ `Serializer<unique_ptr<Collection>>::Serialize`. -/
def serializeChild : Option Collection → Bytes
  | none => SerializeBool false
  | some c => SerializeBool true ++ c.Serialize
end

/-- C++ `Serializer<Collection>::UnSerialize`. The C++ recursion descends once per nesting
level of the stream; `depth` bounds the number of levels still allowed, and a stream of
`n` bytes cannot nest more than `n` levels. -/
def Collection.UnSerialize : Nat → Reader Collection
  | 0 => fun _ => .error .streamEnd
  | depth + 1 => fun s =>
    match UnSerializeString s with
    | .error e => .error e
    | .ok (name, s) =>
    match UnSerializeVector (UnSerializeUniquePtr (Collection.UnSerialize depth)) s with
    | .error e => .error e
    | .ok (children, s) =>
    match UnSerializeVectorTrivial 4 fromLE s with
    | .error e => .error e
    | .ok (ids, s) =>
    match UnSerializeUInt 4 s with
    | .error e => .error e
    | .ok (flags, s) => .ok (.mk name children ids flags, s)

mutual
/-- Number of nesting levels of a collection tree (a single collection has one). -/
def Collection.depth : Collection → Nat
  | .mk _ children _ _ => depthChildren children + 1
def depthChildren : List (Option Collection) → Nat
  | [] => 0
  | c :: cs => max (depthChild c) (depthChildren cs)
def depthChild : Option Collection → Nat
  | none => 0
  | some c => c.depth
end

def SceneFile.Serialize (v : SceneFile) : Bytes :=
  SerializeVector MeshFile.Serialize v.Meshes ++
    SerializeVector ObjectInstance.Serialize v.Objects ++
    SerializeVector MeshFileMaterial.Serialize v.Materials ++
    SerializeUniquePtr Collection.Serialize v.Collection

def SceneFile.UnSerialize : Reader SceneFile := fun s =>
  match UnSerializeVector MeshFile.UnSerialize s with
  | .error e => .error e
  | .ok (meshes, s) =>
  match UnSerializeVector ObjectInstance.UnSerialize s with
  | .error e => .error e
  | .ok (objects, s) =>
  match UnSerializeVector MeshFileMaterial.UnSerialize s with
  | .error e => .error e
  | .ok (materials, s) =>
  match UnSerializeUniquePtr (Collection.UnSerialize (s.length + 1)) s with
  | .error e => .error e
  | .ok (collection, s) =>
    .ok ({ Meshes := meshes, Objects := objects, Materials := materials,
           Collection := collection }, s)

/-- C++ `SceneFile::Save`: as `MeshFile::Save`, with the scene magic. -/
def SceneFile.Save (v : SceneFile) (file : Option Bytes) : Option Bytes :=
  match file with
  | none => none
  | some _ => some (SerializeUInt 4 SceneFileMagic ++ v.Serialize)

/-- C++ `SceneFile::Load`. -/
def SceneFile.Load (file : Option Bytes) : Except Error SceneFile :=
  match file with
  | none => .error .ioError
  | some s =>
    match UnSerializeUInt 4 s with
    | .error e => .error e
    | .ok (magic, s) =>
      if magic ≠ SceneFileMagic then .error (.invalidMagic SceneFileMagic magic)
      else
        match SceneFile.UnSerialize s with
        | .error e => .error e
        | .ok (sf, _) => .ok sf

/-! ### The documented on-disk layout of a mesh file -/

/-- A `w`-byte integer in little-endian order: byte `i` is `n / 256 ^ i % 256`. -/
def layoutInt (w n : Nat) : Bytes := (List.range w).map (fun i => n / 256 ^ i % 256)

/-- A text value: 64-bit length, then the raw bytes, no terminator. -/
def layoutString (s : Bytes) : Bytes := layoutInt 8 s.length ++ s

/-- A morph: name, base name, three 32-bit floats, length-prefixed buffer. -/
def layoutMorph (m : MeshFileMorph) : Bytes :=
  layoutString m.Name ++ layoutString m.BaseName ++
    (layoutInt 4 m.Value ++ layoutInt 4 m.Min ++ layoutInt 4 m.Max) ++
    (layoutInt 8 m.Buffer.length ++ m.Buffer)

/-- An attribute: name string, one byte domain, one byte type, buffer as 64-bit length plus
raw bytes, morph list as 64-bit count plus each morph. -/
def layoutAttribute (a : MeshFileAttribute) : Bytes :=
  layoutString a.Name ++ [a.Domain] ++ [a.Type_] ++
    (layoutInt 8 a.Buffer.length ++ a.Buffer) ++
    (layoutInt 8 a.Morphs.length ++ (a.Morphs.map layoutMorph).flatten)

/-- A material range: a 12-byte (MaterialIndex, Offset, Count) record. -/
def layoutMaterialRange (r : MeshFileMaterialRange) : Bytes :=
  layoutInt 4 r.MaterialIndex ++ layoutInt 4 r.Offset ++ layoutInt 4 r.Count

/-- The whole file: magic `K M F 0`, name, the four counts, the attribute list, the
UV-index list and the material-range list. -/
def layoutMeshFile (v : MeshFile) : Bytes :=
  [75, 77, 70, 0] ++ layoutString v.Name ++
    (layoutInt 4 v.PointCount ++ layoutInt 4 v.EdgeCount ++ layoutInt 4 v.FaceCount ++
      layoutInt 4 v.CornerCount) ++
    (layoutInt 8 v.Attributes.length ++ (v.Attributes.map layoutAttribute).flatten) ++
    (layoutInt 8 v.UvIndices.length ++ (v.UvIndices.map (layoutInt 4)).flatten) ++
    (layoutInt 8 v.Materials.length ++ (v.Materials.map layoutMaterialRange).flatten)

/-- A sample mesh file: empty name, an attribute with an empty buffer and no morph, an
attribute with one morph, no UV index, one material range. -/
def sampleMeshFile : MeshFile :=
  { Name := [], PointCount := 3, EdgeCount := 0, FaceCount := 1, CornerCount := 3,
    Attributes :=
      [ { Name := [112], Domain := 0, Type_ := 1, Buffer := [], Morphs := [] },
        { Name := [], Domain := 3, Type_ := 2, Buffer := [0, 0, 1, 0, 2, 0],
          Morphs := [ { Name := [107], BaseName := [], Value := 1065353216, Min := 0,
                        Max := 1065353216, Buffer := [255, 1] } ] } ],
    UvIndices := [], Materials := [ { MaterialIndex := 0, Offset := 0, Count := 1 } ] }

/-! ## Material reordering (`DLL.cpp` 67-108) -/

/-- The bytes of the string literal `"material_index"`. -/
def materialIndexName : Bytes :=
  [109, 97, 116, 101, 114, 105, 97, 108, 95, 105, 110, 100, 101, 120]

/-- C++ `span(data + off, len)`: the `len` bytes starting at byte `off`. -/
def slice (buf : Bytes) (off len : Nat) : Bytes := (buf.drop off).take len

/-- C++ `map<u32, vector<pair<size_t, size_t>>>`: entries in ascending key order. -/
abbrev RangeMap := List (Nat × List (Nat × Nat))

/-- C++ `matIdRanges[id].emplace_back(offset, count)`: the entry of `id` is created empty at
its place in key order when absent, then the pair is appended to it. -/
def RangeMap.emplaceBack : RangeMap → Nat → Nat × Nat → RangeMap
  | [], id, r => [(id, [r])]
  | (k, rs) :: tl, id, r =>
    if id < k then (id, [r]) :: (k, rs) :: tl
    else if id = k then (k, rs ++ [r]) :: tl
    else (k, rs) :: RangeMap.emplaceBack tl id r

/-- C++ `matIdRanges | vs::values`, the two nested loops over it flattened: every
(offset, count) pair, by ascending material id and, within an id, in insertion order. -/
def RangeMap.ranges (m : RangeMap) : List (Nat × Nat) := m.flatMap (fun e => e.2)

/-- The inner loop `do ++count; while (i + count < ids.size() && ids[i + count] == id);`
entered with the given `count`; `fuel` bounds the number of iterations. -/
def runLength (ids : List Nat) (i id : Nat) : Nat → Nat → Nat
  | 0, count => count
  | fuel + 1, count =>
    if i + (count + 1) < ids.length ∧ ids.getD (i + (count + 1)) 0 = id then
      runLength ids i id fuel (count + 1)
    else count + 1

/-- The scan loop `for (size_t i = 0; i < ids.size();) { ... i += count; }` from position
`i` with the map built so far; `fuel` bounds the number of iterations (every iteration
advances `i`, so `ids.length` iterations always suffice). -/
def scanRuns (ids : List Nat) : Nat → Nat → RangeMap → RangeMap
  | 0, _, m => m
  | fuel + 1, i, m =>
    if i < ids.length then
      let id := ids.getD i 0
      let count := runLength ids i id ids.length 0
      scanRuns ids fuel (i + count) (m.emplaceBack id (i, count))
    else m

/-- The map `matIdRanges` after the scan of the per-face material ids. -/
def matIdRanges (ids : List Nat) : RangeMap := scanRuns ids ids.length 0 []

/-- The body of the attribute loop that fills `atData`: the spans
`span(Buffer.data() + offset * byteSize, count * byteSize)` appended in iteration order.
Reading a span that leaves the buffer is undefined in C++ and reported as `outOfBounds`. -/
def gatherRanges (buf : Bytes) (byteSize : Nat) : List (Nat × Nat) → Except Error Bytes
  | [] => .ok []
  | (offset, count) :: rest =>
    if (offset + count) * byteSize ≤ buf.length then
      match gatherRanges buf byteSize rest with
      | .ok tl => .ok (slice buf (offset * byteSize) (count * byteSize) ++ tl)
      | .error e => .error e
    else .error .outOfBounds

/-- C++ `ByteSizeOfAttribute(attribute.Type) * (attribute.Domain == Corner ? cornerPerFace : 1)`,
a product of two `u32`. -/
def reorderByteSize (size cornerPerFace domain : Nat) : Nat :=
  (size * (if domain = MeshAttributeDomain.Corner then cornerPerFace else 1)) % 2 ^ 32

/-- One iteration of `for (auto& attribute : mf->Attributes)`: attributes of the Corner and
Face domains get their buffer rebuilt in `atData` and copied back over the start of the
buffer (`rn::copy(atData, attribute.Buffer.data())`). -/
def reorderAttribute (m : RangeMap) (cornerPerFace : Nat) (a : MeshFileAttribute) :
    Except Error MeshFileAttribute :=
  if a.Domain = MeshAttributeDomain.Corner ∨ a.Domain = MeshAttributeDomain.Face then
    match ByteSizeOfAttribute a.Type_ with
    | .error e => .error e
    | .ok size =>
      let byteSize := reorderByteSize size cornerPerFace a.Domain
      match gatherRanges a.Buffer byteSize m.ranges with
      | .error e => .error e
      | .ok atData =>
        if atData.length ≤ a.Buffer.length then
          .ok { a with Buffer := atData ++ a.Buffer.drop atData.length }
        else .error .outOfBounds
  else .ok a

/-- The attribute loop of `ReorderMeshFaces`. -/
def reorderAttributes (m : RangeMap) (cornerPerFace : Nat) :
    List MeshFileAttribute → Except Error (List MeshFileAttribute)
  | [] => .ok []
  | a :: rest =>
    match reorderAttribute m cornerPerFace a with
    | .error e => .error e
    | .ok a' =>
      match reorderAttributes m cornerPerFace rest with
      | .error e => .error e
      | .ok rest' => .ok (a' :: rest')

/-- C++ `for (auto& count : ranges | vs::values) r.Count += count;` on the `u32` field, from 0. -/
def sumCounts (ranges : List (Nat × Nat)) : Nat :=
  ranges.foldl (fun acc r => (acc + r.2) % 2 ^ 32) 0

/-- The last loop of `ReorderMeshFaces`: the `i`-th entry of the map, in ascending id order,
rewrites `Offset` and `Count` of `mf->Materials[i]`; indexing past the end of `Materials`
is undefined in C++ and reported as `outOfBounds`. -/
def updateMaterials : List (List (Nat × Nat)) → Nat → Nat → List MeshFileMaterialRange →
    Except Error (List MeshFileMaterialRange)
  | [], _, _, mats => .ok mats
  | ranges :: rest, i, offset, mats =>
    match mats.get? i with
    | none => .error .outOfBounds
    | some r =>
      let count := sumCounts ranges
      updateMaterials rest (i + 1) ((offset + count) % 2 ^ 32)
        (mats.set i { r with Offset := offset, Count := count })

/-- C++ `span((u32*)it->Buffer.data(), mf->FaceCount)`: the first `n` 32-bit values of the
buffer; the scan reads all of them, which is undefined when the buffer is shorter. -/
def readIds (buf : Bytes) (n : Nat) : Except Error (List Nat) :=
  if 4 * n ≤ buf.length then .ok ((chunks 4 n buf).map fromLE) else .error .outOfBounds

/-- C++ `void ReorderMeshFaces(MeshFile* mf)`. -/
def ReorderMeshFaces (mf : MeshFile) : Except Error MeshFile :=
  if mf.Materials.length ≤ 1 then .ok mf
  else
    match mf.Attributes.find? (fun a => a.Name = materialIndexName) with
    | none => .ok mf
    | some it =>
      match readIds it.Buffer mf.FaceCount with
      | .error e => .error e
      | .ok ids =>
        let m := matIdRanges ids
        if mf.FaceCount = 0 then .error .divisionByZero
        else
          let cornerPerFace := mf.CornerCount / mf.FaceCount
          match reorderAttributes m cornerPerFace mf.Attributes with
          | .error e => .error e
          | .ok attributes =>
            match updateMaterials (m.map (fun e => e.2)) 0 0 mf.Materials with
            | .error e => .error e
            | .ok materials => .ok { mf with Attributes := attributes, Materials := materials }

/-- The order in which the faces are laid out by the rebuilt buffers: the faces of every
run, run after run in the iteration order of the map. -/
def faceOrder (ids : List Nat) : List Nat :=
  (matIdRanges ids).ranges.flatMap (fun r => List.range' r.1 r.2)

/-! ### Auxiliary notions for the analysis of the scan -/

/-- The runs `(id, (offset, count))` in the order in which the scan loop emplaces them. -/
def runSeq (ids : List Nat) : Nat → Nat → List (Nat × (Nat × Nat))
  | 0, _ => []
  | fuel + 1, i =>
    if i < ids.length then
      let id := ids.getD i 0
      let count := runLength ids i id ids.length 0
      (id, (i, count)) :: runSeq ids fuel (i + count)
    else []

/-- The runs tile the faces `i .. ids.length`: consecutive, non-empty, and every face of a
run carries the id of the run. -/
def Tiles (ids : List Nat) : Nat → List (Nat × (Nat × Nat)) → Prop
  | i, [] => i = ids.length
  | i, (id, (off, cnt)) :: rest =>
    off = i ∧ 1 ≤ cnt ∧ i + cnt ≤ ids.length ∧ (∀ j, j < cnt → ids.getD (i + j) 0 = id) ∧
      Tiles ids (i + cnt) rest

/-- The (offset, count) pairs of the runs of material `k`, in scan order. -/
def runsOf (k : Nat) (runs : List (Nat × (Nat × Nat))) : List (Nat × Nat) :=
  (runs.filter (fun x => x.1 = k)).map (fun x => x.2)

/-- C++ `matIdRanges.at(k)`, empty when the key is absent. -/
def RangeMap.bucket : RangeMap → Nat → List (Nat × Nat)
  | [], _ => []
  | (k', rs) :: tl, k => if k' = k then rs else RangeMap.bucket tl k

/-- The map holds, for every material id, the runs of that id among `processed`, in scan
order, under strictly ascending keys and without empty entries. -/
def MapInv (m : RangeMap) (processed : List (Nat × (Nat × Nat))) : Prop :=
  m.Pairwise (fun e f => e.1 < f.1) ∧ (∀ e ∈ m, e.2 ≠ []) ∧
    ∀ k, m.bucket k = runsOf k processed

/-- A face `a` is laid out before a face `b` by a stable sort on the material id. -/
def FaceBefore (ids : List Nat) (a b : Nat) : Prop :=
  ids.getD a 0 < ids.getD b 0 ∨ (ids.getD a 0 = ids.getD b 0 ∧ a < b)

instance (ids : List Nat) : IsAntisymm Nat (FaceBefore ids) where
  antisymm a b hab hba := by
    unfold FaceBefore at hab hba
    omega

/-- The element of face (or corner block) `f` in a buffer of `byteSize`-byte elements. -/
def element (buf : Bytes) (byteSize f : Nat) : Bytes := slice buf (f * byteSize) byteSize

/-- The attribute loop can process the attribute: when it is of the Corner or Face domain
its type has a size and its buffer holds `ids.length` blocks of `byteSize` bytes. -/
def Reorderable (ids : List Nat) (cornerPerFace : Nat) (a : MeshFileAttribute) : Prop :=
  a.Domain = MeshAttributeDomain.Corner ∨ a.Domain = MeshAttributeDomain.Face →
    ∃ size, ByteSizeOfAttribute a.Type_ = .ok size ∧
      ids.length * reorderByteSize size cornerPerFace a.Domain ≤ a.Buffer.length

/-- The attribute as the attribute loop leaves it: the blocks of the faces in face order,
followed by whatever the buffer holds after the last block. -/
def reorderedAttribute (ids : List Nat) (cornerPerFace : Nat) (a : MeshFileAttribute) :
    MeshFileAttribute :=
  if a.Domain = MeshAttributeDomain.Corner ∨ a.Domain = MeshAttributeDomain.Face then
    match ByteSizeOfAttribute a.Type_ with
    | .error _ => a
    | .ok size =>
      { a with Buffer :=
          (faceOrder ids).flatMap (element a.Buffer (reorderByteSize size cornerPerFace a.Domain))
            ++ a.Buffer.drop (ids.length * reorderByteSize size cornerPerFace a.Domain) }
  else a

/-- The element count of a domain (`MeshFileAddAttribute`, `DLL.cpp` 252-262). -/
def MeshFile.elementCount (mf : MeshFile) (domain : Nat) : Option Nat :=
  if domain = MeshAttributeDomain.Point then some mf.PointCount
  else if domain = MeshAttributeDomain.Edge then some mf.EdgeCount
  else if domain = MeshAttributeDomain.Face then some mf.FaceCount
  else if domain = MeshAttributeDomain.Corner then some mf.CornerCount
  else none

/-- The data-model invariant of an attribute: a valid domain and type, and a buffer of
exactly `elementCount(domain) * byteSize(type)` bytes. -/
def MeshFileAttribute.Sized (mf : MeshFile) (a : MeshFileAttribute) : Prop :=
  match mf.elementCount a.Domain, ByteSizeOfAttribute a.Type_ with
  | some n, .ok size => a.Buffer.length = n * size
  | _, _ => False

instance (mf : MeshFile) (a : MeshFileAttribute) : Decidable (a.Sized mf) := by
  unfold MeshFileAttribute.Sized; split <;> infer_instance

/-- A sample mesh with four faces of material ids 2, 2, 1, 2, two corners per face, a
Face-domain `UInt8` attribute and a Corner-domain `UInt8` attribute; the materials are
passed in. -/
def sampleReorderMesh (materials : List MeshFileMaterialRange) : MeshFile :=
  { Name := [], PointCount := 4, EdgeCount := 0, FaceCount := 4, CornerCount := 8,
    Attributes :=
      [ { Name := materialIndexName, Domain := MeshAttributeDomain.Face,
          Type_ := MeshAttributeType.UInt32,
          Buffer := [2, 0, 0, 0, 2, 0, 0, 0, 1, 0, 0, 0, 2, 0, 0, 0], Morphs := [] },
        { Name := [102], Domain := MeshAttributeDomain.Face, Type_ := MeshAttributeType.UInt8,
          Buffer := [10, 11, 12, 13], Morphs := [] },
        { Name := [99], Domain := MeshAttributeDomain.Corner, Type_ := MeshAttributeType.UInt8,
          Buffer := [0, 1, 10, 11, 20, 21, 30, 31], Morphs := [] } ],
    UvIndices := [], Materials := materials }

/-- The sample mesh of ids 2, 2, 1, 2 as `ReorderMeshFaces` leaves it when its two material
ranges are those of the materials 1 and 2. -/
def sampleReorderedMesh : MeshFile :=
  { Name := [], PointCount := 4, EdgeCount := 0, FaceCount := 4, CornerCount := 8,
    Attributes :=
      [ { Name := materialIndexName, Domain := MeshAttributeDomain.Face,
          Type_ := MeshAttributeType.UInt32,
          Buffer := [1, 0, 0, 0, 2, 0, 0, 0, 2, 0, 0, 0, 2, 0, 0, 0], Morphs := [] },
        { Name := [102], Domain := MeshAttributeDomain.Face, Type_ := MeshAttributeType.UInt8,
          Buffer := [12, 10, 11, 13], Morphs := [] },
        { Name := [99], Domain := MeshAttributeDomain.Corner, Type_ := MeshAttributeType.UInt8,
          Buffer := [20, 21, 0, 1, 10, 11, 30, 31], Morphs := [] } ],
    UvIndices := [], Materials := [⟨1, 0, 1⟩, ⟨2, 1, 3⟩] }

/-- A sample mesh whose `material_index` attribute is declared on the Point domain, so that
the attribute loop leaves it alone: two faces of ids 1, 0 and a Face-domain `UInt8`
attribute. -/
def samplePointIndexMesh (faceBuffer : Bytes) (materials : List MeshFileMaterialRange) :
    MeshFile :=
  { Name := [], PointCount := 2, EdgeCount := 0, FaceCount := 2, CornerCount := 2,
    Attributes :=
      [ { Name := materialIndexName, Domain := MeshAttributeDomain.Point,
          Type_ := MeshAttributeType.UInt32, Buffer := [1, 0, 0, 0, 0, 0, 0, 0], Morphs := [] },
        { Name := [102], Domain := MeshAttributeDomain.Face, Type_ := MeshAttributeType.UInt8,
          Buffer := faceBuffer, Morphs := [] } ],
    UvIndices := [], Materials := materials }

/-! ## GPU attribute store (`Mesh.hpp`, `Mesh.cpp`) -/

/-- Modelled from the spec: the bump-style index allocator `GPUVirtualMemoryAllocator` of the
absent `Kaey/Renderer/Renderer.hpp`, which "hands out element-aligned offsets" from a
fixed-capacity buffer, never reclaims, and treats exhaustion as a fatal precondition
violation. `Cursor` is the first free byte. -/
structure GPUVirtualMemoryAllocator where
  Capacity : Nat
  Cursor : Nat
  deriving DecidableEq, Repr

/-- Modelled from the spec: `AllocateIndex32<T>(count)` with `elementSize = sizeof(T)`: the
index, in elements, of the first element-aligned free slot, which is then reserved for
`count` elements. -/
def GPUVirtualMemoryAllocator.AllocateIndex32 (a : GPUVirtualMemoryAllocator)
    (elementSize count : Nat) : Except Error (Nat × GPUVirtualMemoryAllocator) :=
  let first := (a.Cursor + elementSize - 1) / elementSize
  if (first + count) * elementSize ≤ a.Capacity then
    .ok (first, { a with Cursor := (first + count) * elementSize })
  else .error .assertionFailure

/-- The allocators of `class SceneData` (the device buffers themselves hold no state the
host code reads back). -/
structure SceneData where
  SceneAllocator : GPUVirtualMemoryAllocator
  AttributeAllocator : GPUVirtualMemoryAllocator
  deriving DecidableEq, Repr

structure MeshMorph where
  Name : Bytes
  Value : Nat
  Min : Nat
  Max : Nat
  deriving DecidableEq, Repr

/-- C++ `struct MeshAttribute::MeshAttributeMorphs`; the pointer `Attribute` is the position of
the pointee in the attribute list of the mesh, `none` for `nullptr`. -/
structure MeshAttributeMorphs where
  ValuesIndexOffset : Nat := 0
  Values : List MeshMorph := []
  Attribute : Option Nat := none
  deriving DecidableEq, Repr

structure MeshAttribute where
  Name : Bytes
  Domain : Nat
  Type_ : Nat
  IndexOffset : Nat
  Buffer : Bytes
  ElementSize : Nat
  Morphs : MeshAttributeMorphs := {}
  deriving DecidableEq, Repr

/-- C++ `class MeshData2`; `data` is the state of the `SceneData` the mesh points to. -/
structure MeshData2 where
  data : SceneData
  pointCount : Nat
  faceCount : Nat
  cornerCount : Nat
  attributes : List MeshAttribute := []
  MaterialRanges : List (Nat × Nat) := []
  deriving DecidableEq, Repr

/-- The fields of `UniformMesh` (absent `Slang/TestPipeline.hpp`) that `Mesh.cpp` writes. -/
structure UniformMesh where
  PointCount : Nat := 0
  FaceCount : Nat := 0
  CornerCount : Nat := 0
  PointOfCornerOffset : Nat := 0
  PositionOffset : Nat := 0
  NormalOffset : Nat := 0
  NormalOfFaceOffset : Nat := 0
  FaceOfPointOffset : Nat := 0
  FaceIndexOfPointOffset : Nat := 0
  UseU32Indices : Bool := false
  UseF32Normals : Bool := false
  UvOffset : Nat := 0
  TangentOffset : Nat := 0
  deriving DecidableEq, Repr

/-- C++ `class MeshData3D : public MeshData2`; `faceIndices` and the entries of `uvMaps` are
positions in the attribute list, `Uniform` is the mesh record in the scene buffer. -/
structure MeshData3D extends MeshData2 where
  name : Bytes
  meshIndex : Nat
  faceIndices : Option Nat := none
  uvMaps : List Nat := []
  Uniform : UniformMesh := {}
  deriving DecidableEq, Repr

/-- C++ `MeshData2::FindAttribute`: the position of the first attribute of that name; nothing
for the empty name. -/
def MeshData2.FindAttribute (m : MeshData2) (name : Bytes) : Option Nat :=
  if name = [] then none
  else
    let i := m.attributes.findIdx (fun a => a.Name = name)
    if i < m.attributes.length then some i else none

/-- The element type `T` of `AllocateIndex32<T>` and of `sizeof(T)` selected by the two
conditional chains of `MeshData2::AddAttribute` (`Mesh.cpp` 57-86); `Boolean` is in neither
chain. -/
def attributeElementSize (type : Nat) : Except Error Nat :=
  if type = MeshAttributeType.UInt8 then .ok sizeof.u8
  else if type = MeshAttributeType.UInt16 then .ok sizeof.u16
  else if type = MeshAttributeType.UInt32 then .ok sizeof.u32
  else if type = MeshAttributeType.Float then .ok sizeof.f32
  else if type = MeshAttributeType.Vec2 then .ok sizeof.Vector2
  else if type = MeshAttributeType.Vec3 then .ok sizeof.Vector3
  else if type = MeshAttributeType.Vec4 then .ok sizeof.Vector4
  else if type = MeshAttributeType.Vec2Int then .ok sizeof.Vector2
  else if type = MeshAttributeType.Vec3Int then .ok sizeof.Vector3
  else if type = MeshAttributeType.Vec4Int then .ok sizeof.Vector4
  else if type = MeshAttributeType.Vec2F16 then .ok sizeof.Vector2F16
  else if type = MeshAttributeType.Vec3F16 then .ok sizeof.Vector3F16
  else if type = MeshAttributeType.Vec4F16 then .ok sizeof.Vector4F16
  else .error .runtimeError

/-- C++ `MeshData2::AddAttribute`: returns the position of the new attribute. The assertion on
the name comes first; the element count is a `u32` sum; the buffer is zero-filled. -/
def MeshData2.AddAttribute (m : MeshData2) (name : Bytes) (domain type extraCount : Nat) :
    Except Error (Nat × MeshData2) :=
  if m.FindAttribute name ≠ none then .error .assertionFailure
  else
    let domainCount : Except Error Nat :=
      if domain = MeshAttributeDomain.Point then .ok m.pointCount
      else if domain = MeshAttributeDomain.Face then .ok m.faceCount
      else if domain = MeshAttributeDomain.Corner then .ok m.cornerCount
      else .error .runtimeError
    match domainCount with
    | .error e => .error e
    | .ok count0 =>
      let count := (count0 + extraCount) % 2 ^ 32
      match attributeElementSize type with
      | .error e => .error e
      | .ok size =>
        match m.data.AttributeAllocator.AllocateIndex32 size count with
        | .error e => .error e
        | .ok (offset, allocator) =>
          .ok (m.attributes.length,
            { m with
              data := { m.data with AttributeAllocator := allocator }
              attributes := m.attributes ++
                [{ Name := name, Domain := domain, Type_ := type, IndexOffset := offset,
                   Buffer := List.replicate (size * count) 0, ElementSize := size }] })

/-- The bytes of the string literal `"FaceIndex"`. -/
def faceIndexName : Bytes := [70, 97, 99, 101, 73, 110, 100, 101, 120]

/-- C++ `span[i]` on a buffer viewed as `w`-byte unsigned integers; reading past the buffer is
undefined in C++ and reported as `outOfBounds`. -/
def readAt (w : Nat) (buf : Bytes) (i : Nat) : Except Error Nat :=
  if (i + 1) * w ≤ buf.length then .ok (fromLE (slice buf (i * w) w)) else .error .outOfBounds

/-- C++ `*it++ = (Int)value` for every value in turn, from the start of the buffer, `Int` being
`w` bytes wide; writing past the buffer is undefined in C++ and reported as `outOfBounds`. -/
def writeValues (w : Nat) (values : List Nat) (buf : Bytes) : Except Error Bytes :=
  if values.length * w ≤ buf.length then
    .ok (values.flatMap (toLE w) ++ buf.drop (values.length * w))
  else .error .outOfBounds

/-- The (faceId, cornerId) pairs in the order of the nested loops
`for faceId : irange(FaceCount)`, `for cornerId : iota(CornerPerFace * faceId) | take(CornerPerFace)`;
`CornerPerFace = CornerCount / FaceCount` is only evaluated inside the outer loop. -/
def cornerVisits (faceCount cornerCount : Nat) : List (Nat × Nat) :=
  (List.range faceCount).flatMap (fun faceId =>
    (List.range' ((cornerCount / faceCount) * faceId % 2 ^ 32) (cornerCount / faceCount)).map
      (fun cornerId => (faceId, cornerId)))

/-- The body of `createCorners` over the remaining visits:
`vertexId = pointsOfCorner[cornerId]; facesOfVertices[vertexId].emplace_back(faceId);
++emplaceCount`. -/
def createCorners (w : Nat) (pointsOfCorner : Bytes) :
    List (Nat × Nat) → List (List Nat) → Nat → Except Error (List (List Nat) × Nat)
  | [], facesOfVertices, emplaceCount => .ok (facesOfVertices, emplaceCount)
  | (faceId, cornerId) :: rest, facesOfVertices, emplaceCount =>
    match readAt w pointsOfCorner cornerId with
    | .error e => .error e
    | .ok vertexId =>
      match facesOfVertices.get? vertexId with
      | none => .error .outOfBounds
      | some faces =>
        createCorners w pointsOfCorner rest (facesOfVertices.set vertexId (faces ++ [faceId]))
          ((emplaceCount + 1) % 2 ^ 32)

/-- The values `*faceIt++ = index; index += u32(faces.size())` of `createFaceIndices`: one
per bucket, the running `u32` sum of the sizes of the buckets before it. -/
def faceListValues : List (List Nat) → Nat → List Nat
  | [], _ => []
  | faces :: rest, index => index :: faceListValues rest ((index + faces.length) % 2 ^ 32)

/-- The first `n` values of a buffer viewed as `w`-byte unsigned integers (a typed `span`
over `Buffer.data()`), undefined in C++ and reported as `outOfBounds` when the buffer is
shorter. -/
def readValues (w : Nat) (buf : Bytes) (n : Nat) : Except Error (List Nat) :=
  if n * w ≤ buf.length then .ok ((chunks w n buf).map fromLE) else .error .outOfBounds

/-- C++ `KR_GETTER_DEF(MeshData3D, FaceIndices)`, i.e. `GetFaceIndices()`: returns the position of
the `FaceIndex` attribute. A `MeshData3D` is only ever built by its constructor, which adds
the five attributes that the getters `PointOfCorner` (`Attributes[0]`) and `FaceList`
(`Attributes[4]`) return; a state with fewer attributes, which no C++ object can be in, is
reported as `outOfBounds`. In `createFaceIndices` the writes through `faceIndexIt` and
`faceIt` alternate, but they go to the buffers of two different attributes. -/
def MeshData3D.GetFaceIndices (m : MeshData3D) : Except Error (Nat × MeshData3D) :=
  match m.faceIndices with
  | some fi => .ok (fi, m)
  | none =>
    match m.attributes.get? 0, m.attributes.get? 4 with
    | some pointOfCorner, some _ =>
      let w := if pointOfCorner.Type_ = MeshAttributeType.UInt32 then 4 else 2
      match createCorners w pointOfCorner.Buffer (cornerVisits m.faceCount m.cornerCount)
          (List.replicate ((m.pointCount + 1) % 2 ^ 32) []) 0 with
      | .error e => .error e
      | .ok (facesOfVertices, emplaceCount) =>
        let faceIndexType :=
          if m.faceCount ≤ 65535 then MeshAttributeType.UInt16 else MeshAttributeType.UInt32
        match m.toMeshData2.AddAttribute faceIndexName MeshAttributeDomain.Point faceIndexType
            ((emplaceCount + 2 ^ 32 - m.pointCount) % 2 ^ 32) with
        | .error e => .error e
        | .ok (fi, m2) =>
          match m2.attributes.get? fi, m2.attributes.get? 4 with
          | some faceIndex, some faceList =>
            let wi := if m.faceCount ≤ 65535 then 2 else 4
            match writeValues wi facesOfVertices.flatten faceIndex.Buffer with
            | .error e => .error e
            | .ok indexBuffer =>
              match writeValues 4 (faceListValues facesOfVertices 0) faceList.Buffer with
              | .error e => .error e
              | .ok listBuffer =>
                let attributes :=
                  (m2.attributes.set fi { faceIndex with Buffer := indexBuffer }).set 4
                    { faceList with Buffer := listBuffer }
                .ok (fi,
                  { m with
                    toMeshData2 := { m2 with attributes := attributes }
                    faceIndices := some fi
                    Uniform := { m.Uniform with FaceIndexOfPointOffset := faceIndex.IndexOffset } })
          | _, _ => .error .outOfBounds
    | _, _ => .error .outOfBounds

/-! ### Auxiliary notions for the analysis of `GetFaceIndices` -/

/-- The face ids of the corners that reference point `v`, in ascending corner order; `pts`
is the point index of every corner and `cpf` the number of corners per face. -/
def facesOfPoint (pts : List Nat) (cpf v : Nat) : List Nat :=
  ((List.range pts.length).filter (fun c => pts.getD c 0 = v)).map (fun c => c / cpf)

/-- The buckets after the given visits have been added to the buckets `B`. -/
def addVisits (pts : List Nat) (B : List (List Nat)) (visits : List (Nat × Nat)) :
    List (List Nat) :=
  (List.range B.length).map (fun v =>
    B.getD v [] ++ (visits.filter (fun x => pts.getD x.2 0 = v)).map (fun x => x.1))

/-- The `FaceIndex` attribute with the given allocation offset and buffer. -/
def faceIndexAttribute (faceCount offset : Nat) (buffer : Bytes) : MeshAttribute :=
  { Name := faceIndexName, Domain := MeshAttributeDomain.Point,
    Type_ := if faceCount ≤ 65535 then MeshAttributeType.UInt16 else MeshAttributeType.UInt32,
    IndexOffset := offset, Buffer := buffer,
    ElementSize := if faceCount ≤ 65535 then 2 else 4 }

/-- The mesh after the first `GetFaceIndices`, given the allocation made for `FaceIndex`, the
old `FaceList` attribute and the two buffers written. -/
def afterGetFaceIndices (m : MeshData3D) (offset : Nat) (allocator : GPUVirtualMemoryAllocator)
    (faceList : MeshAttribute) (indexBuffer listBuffer : Bytes) : MeshData3D :=
  { m with
    data := { m.data with AttributeAllocator := allocator }
    attributes :=
      ((m.attributes ++ [faceIndexAttribute m.faceCount offset []]).set m.attributes.length
        (faceIndexAttribute m.faceCount offset indexBuffer)).set 4
          { faceList with Buffer := listBuffer }
    faceIndices := some m.attributes.length
    Uniform := { m.Uniform with FaceIndexOfPointOffset := offset } }

/-- A sample `MeshData3D` with 2 points and 3 faces of one corner each, the corners
referencing the points 0, 1, 0; the five attributes are those of the constructor, with
16-bit point indices. -/
def sampleMeshData3D : MeshData3D :=
  { data := { SceneAllocator := { Capacity := 4096, Cursor := 64 },
              AttributeAllocator := { Capacity := 4096, Cursor := 45 } },
    pointCount := 2, faceCount := 3, cornerCount := 3,
    attributes :=
      [ { Name := [80], Domain := MeshAttributeDomain.Corner, Type_ := MeshAttributeType.UInt16,
          IndexOffset := 0, Buffer := [0, 0, 1, 0, 0, 0], ElementSize := 2 },
        { Name := [78, 70], Domain := MeshAttributeDomain.Face,
          Type_ := MeshAttributeType.Vec3F16, IndexOffset := 1,
          Buffer := List.replicate 18 0, ElementSize := 6 },
        { Name := [80, 111], Domain := MeshAttributeDomain.Point,
          Type_ := MeshAttributeType.Vec3, IndexOffset := 2,
          Buffer := List.replicate 24 0, ElementSize := 12 },
        { Name := [78], Domain := MeshAttributeDomain.Point,
          Type_ := MeshAttributeType.Vec3F16, IndexOffset := 8,
          Buffer := List.replicate 12 0, ElementSize := 6 },
        { Name := [70, 76], Domain := MeshAttributeDomain.Point,
          Type_ := MeshAttributeType.UInt32, IndexOffset := 8,
          Buffer := List.replicate 12 0, ElementSize := 4 } ],
    name := [], meshIndex := 0 }

/-- A sample scene: one mesh, one object, one material and a root collection with a null
child, an empty child and a child that has a child of its own. -/
def sampleSceneFile : SceneFile :=
  { Meshes := [sampleMeshFile],
    Objects := [ { Name := [111], DataIndex := 0, Location := List.replicate 12 0,
                   RotationMode := 1, Rotation := List.replicate 12 7,
                   RotationQuat := List.replicate 16 255, Scale := List.replicate 12 1,
                   ViewportDisplay := 5 } ],
    Materials := [ { Name := [109, 97, 116] } ],
    Collection := some (.mk [114] [none, some (.mk [] [] [] 0),
      some (.mk [97] [some (.mk [98] [] [0] 15)] [0, 0] 3)] [] 1) }

/-- A sample scene without meshes, objects, materials or root collection. -/
def emptySceneFile : SceneFile :=
  { Meshes := [], Objects := [], Materials := [], Collection := none }

end Renderer

/-- A reader that fails only by reaching the end of the stream. -/
def Reader.EndOnly {α : Type} (r : Reader α) : Prop :=
  ∀ s e, r s = .error e → e = .streamEnd

namespace Renderer

/-! ### Morph targets (`Mesh.cpp` 90-104) -/

/-- A `MeshAttribute*` argument as one mesh sees it: the attribute at a position of its own
attribute list, or an attribute that is not in that list (one of another mesh, say). -/
inductive MeshAttributePtr where
  | own (index : Nat)
  | foreign (pointee : MeshAttribute)
  deriving DecidableEq, Repr

/-- C++ `*at`; a position past the end of the list stands for a dangling pointer, whose
dereference is undefined. -/
def MeshData2.deref (m : MeshData2) : MeshAttributePtr → Option MeshAttribute
  | .own index => m.attributes.get? index
  | .foreign pointee => some pointee

/-- C++ `rn::contains(Attributes, at)`. -/
def MeshData2.containsPtr (m : MeshData2) : MeshAttributePtr → Bool
  | .own index => decide (index < m.attributes.length)
  | .foreign _ => false

/-- The attribute list after an assignment through `at`. -/
def MeshData2.store (m : MeshData2) (at_ : MeshAttributePtr) (value : MeshAttribute) :
    List MeshAttribute :=
  match at_ with
  | .own index => m.attributes.set index value
  | .foreign _ => m.attributes

/-- The conditional chain `Domain == Point ? PointCount : Domain == Face ? FaceCount :
Domain == Corner ? CornerCount : throw runtime_error("!")` of `Mesh.cpp` 51-55 and 94-98. -/
def MeshData2.domainCount (m : MeshData2) (domain : Nat) : Except Error Nat :=
  if domain = MeshAttributeDomain.Point then .ok m.pointCount
  else if domain = MeshAttributeDomain.Face then .ok m.faceCount
  else if domain = MeshAttributeDomain.Corner then .ok m.cornerCount
  else .error .runtimeError

/-- C++ `vector::resize(n, value)`. -/
def resize {α : Type} (v : List α) (n : Nat) (value : α) : List α :=
  v.take n ++ List.replicate (n - v.length) value

/-- The bit pattern of the `f32` value 1 (the `f32` value 0 has the pattern 0). -/
def f32One : Nat := 0x3F800000

/-- The value `{ {}, 0, 0, 1 }` of `MeshMorph { Name, Value, Min, Max }` that
`AddAttributeMorphs` fills `Morphs.Values` with. -/
def defaultMeshMorph : MeshMorph := { Name := [], Value := 0, Min := 0, Max := f32One }

/-- C++ `MeshData2::AddAttributeMorphs`: returns the position of the morph attribute. The two
assertions come first; the extra count `count * shapeCount` is a `u32` product. -/
def MeshData2.AddAttributeMorphs (m : MeshData2) (at_ : MeshAttributePtr) (shapeCount : Nat) :
    Except Error (Nat × MeshData2) :=
  match m.deref at_ with
  | none => .error .outOfBounds
  | some a =>
    if a.Morphs.Attribute ≠ none then .error .assertionFailure
    else if m.containsPtr at_ = false then .error .assertionFailure
    else
      match m.domainCount a.Domain with
      | .error e => .error e
      | .ok count =>
        match m.AddAttribute [] a.Domain a.Type_ (count * shapeCount % 2 ^ 32) with
        | .error e => .error e
        | .ok (res, m1) =>
          match m1.data.AttributeAllocator.AllocateIndex32 sizeof.f32 shapeCount with
          | .error e => .error e
          | .ok (valuesIndexOffset, allocator) =>
            .ok (res,
              { m1 with
                data := { m1.data with AttributeAllocator := allocator }
                attributes := m1.store at_
                  { a with
                    Morphs :=
                      { ValuesIndexOffset := valuesIndexOffset
                        Values := resize a.Morphs.Values shapeCount defaultMeshMorph
                        Attribute := some res } } })

/-! ### The `MeshData3D` constructor and UV maps (`Mesh.cpp` 153-178, 267-278) -/

/-- The bytes of the string literal `"PointOfCorner"`. -/
def pointOfCornerName : Bytes := [80, 111, 105, 110, 116, 79, 102, 67, 111, 114, 110, 101, 114]

/-- The bytes of the string literal `"NormalOfFace"`. -/
def normalOfFaceName : Bytes := [78, 111, 114, 109, 97, 108, 79, 102, 70, 97, 99, 101]

/-- The bytes of the string literal `"Position"`. -/
def positionAttributeName : Bytes := [80, 111, 115, 105, 116, 105, 111, 110]

/-- The bytes of the string literal `"Normal"`. -/
def normalName : Bytes := [78, 111, 114, 109, 97, 108]

/-- The bytes of the string literal `"FaceList"`. -/
def faceListName : Bytes := [70, 97, 99, 101, 76, 105, 115, 116]

/-- C++ `"TangentOf{}"_f(name)`. -/
def tangentOfName (name : Bytes) : Bytes := [84, 97, 110, 103, 101, 110, 116, 79, 102] ++ name

/-- C++ `MeshData3D::MeshData3D`. `uniformMeshSize` is `sizeof(UniformMesh)` of the absent
`Slang/TestPipeline.hpp` and `sceneBuffer i` the content of record `i` of the mapped scene
buffer before the construction, which keeps the fields the constructor does not assign. -/
def MeshData3D.new (uniformMeshSize : Nat) (sceneBuffer : Nat → UniformMesh) (data : SceneData)
    (name : Bytes) (pointCount faceCount cornerCount : Nat) : Except Error MeshData3D :=
  match data.SceneAllocator.AllocateIndex32 uniformMeshSize 1 with
  | .error e => .error e
  | .ok (meshIndex, sceneAllocator) =>
    let m0 : MeshData2 :=
      { data := { data with SceneAllocator := sceneAllocator }, pointCount := pointCount,
        faceCount := faceCount, cornerCount := cornerCount }
    let pointIndexType :=
      if pointCount ≤ 65535 then MeshAttributeType.UInt16 else MeshAttributeType.UInt32
    match m0.AddAttribute pointOfCornerName MeshAttributeDomain.Corner pointIndexType 0 with
    | .error e => .error e
    | .ok (_, m1) =>
    match m1.AddAttribute normalOfFaceName MeshAttributeDomain.Face MeshAttributeType.Vec3F16 0 with
    | .error e => .error e
    | .ok (_, m2) =>
    match m2.AddAttribute positionAttributeName MeshAttributeDomain.Point
        MeshAttributeType.Vec3 0 with
    | .error e => .error e
    | .ok (_, m3) =>
    match m3.AddAttribute normalName MeshAttributeDomain.Point MeshAttributeType.Vec3F16 0 with
    | .error e => .error e
    | .ok (_, m4) =>
    match m4.AddAttribute faceListName MeshAttributeDomain.Point MeshAttributeType.UInt32 1 with
    | .error e => .error e
    | .ok (_, m5) =>
      match m5.attributes.get? 0, m5.attributes.get? 1, m5.attributes.get? 2,
          m5.attributes.get? 3, m5.attributes.get? 4 with
      | some pointOfCorner, some normalOfFace, some position, some normal, some faceList =>
        .ok
          { toMeshData2 := m5
            name := name
            meshIndex := meshIndex
            faceIndices := none
            uvMaps := []
            Uniform :=
              { sceneBuffer meshIndex with
                PointCount := pointCount
                FaceCount := faceCount
                CornerCount := cornerCount
                PointOfCornerOffset := pointOfCorner.IndexOffset
                PositionOffset := position.IndexOffset
                NormalOffset := normal.IndexOffset
                NormalOfFaceOffset := normalOfFace.IndexOffset
                FaceOfPointOffset := faceList.IndexOffset
                UseU32Indices := decide (pointOfCorner.Type_ = MeshAttributeType.UInt32)
                UseF32Normals := false
                UvOffset := 2 ^ 32 - 1 } }
      | _, _, _, _, _ => .error .outOfBounds

/-- C++ `MeshData3D::AddUvMap`: returns the position of the UV attribute. -/
def MeshData3D.AddUvMap (m : MeshData3D) (name : Bytes) : Except Error (Nat × MeshData3D) :=
  match m.toMeshData2.AddAttribute name MeshAttributeDomain.Corner MeshAttributeType.Vec2F16 0 with
  | .error e => .error e
  | .ok (uv, m1) =>
    match m1.attributes.get? uv with
    | none => .error .outOfBounds
    | some uvAttribute =>
      match m1.AddAttribute (tangentOfName uvAttribute.Name) MeshAttributeDomain.Corner
          MeshAttributeType.Vec3F16 0 with
      | .error e => .error e
      | .ok (tg, m2) =>
        match m2.attributes.get? tg with
        | none => .error .outOfBounds
        | some tgAttribute =>
          .ok (uv,
            { m with
              toMeshData2 := m2
              Uniform :=
                if m.uvMaps = [] then
                  { m.Uniform with
                    UvOffset := uvAttribute.IndexOffset
                    TangentOffset := tgAttribute.IndexOffset }
                else m.Uniform
              uvMaps := m.uvMaps ++ [uv] })

/-! ### Sequences of calls on one mesh -/

/-- The arguments of one `AddAttribute` call. -/
structure AddAttributeArgs where
  name : Bytes
  domain : Nat
  type : Nat
  extraCount : Nat
  deriving DecidableEq, Repr

/-- Successive `AddAttribute` calls on one `MeshData2`, every one of which succeeds. -/
def MeshData2.addAttributes (m : MeshData2) : List AddAttributeArgs → Except Error MeshData2
  | [] => .ok m
  | c :: rest =>
    match m.AddAttribute c.name c.domain c.type c.extraCount with
    | .error e => .error e
    | .ok (_, m1) => m1.addAttributes rest

/-- One call of a public member function that adds to a `MeshData3D`. -/
inductive MeshCall where
  | addAttribute (name : Bytes) (domain type extraCount : Nat)
  | addAttributeMorphs (at_ : MeshAttributePtr) (shapeCount : Nat)
  | addUvMap (name : Bytes)
  | getFaceIndices
  deriving DecidableEq, Repr

/-- The mesh after one call. -/
def MeshData3D.call (m : MeshData3D) : MeshCall → Except Error MeshData3D
  | .addAttribute name domain type extraCount =>
    match m.toMeshData2.AddAttribute name domain type extraCount with
    | .error e => .error e
    | .ok (_, m1) => .ok { m with toMeshData2 := m1 }
  | .addAttributeMorphs at_ shapeCount =>
    match m.toMeshData2.AddAttributeMorphs at_ shapeCount with
    | .error e => .error e
    | .ok (_, m1) => .ok { m with toMeshData2 := m1 }
  | .addUvMap name =>
    match m.AddUvMap name with
    | .error e => .error e
    | .ok (_, m1) => .ok m1
  | .getFaceIndices =>
    match m.GetFaceIndices with
    | .error e => .error e
    | .ok (_, m1) => .ok m1

/-- The mesh after a sequence of calls, every one of which succeeds. -/
def MeshData3D.calls (m : MeshData3D) : List MeshCall → Except Error MeshData3D
  | [] => .ok m
  | c :: rest =>
    match m.call c with
    | .error e => .error e
    | .ok m1 => m1.calls rest

/-! ### Auxiliary notions for sequences of calls -/

/-- The number of elements an attribute holds. -/
def MeshAttribute.elementCount (a : MeshAttribute) : Nat := a.Buffer.length / a.ElementSize

/-- What is fixed about an attribute once it has been added: its name, domain, type, offset,
element size and buffer size. -/
def MeshAttribute.shape (a : MeshAttribute) : Bytes × Nat × Nat × Nat × Nat × Nat :=
  (a.Name, a.Domain, a.Type_, a.IndexOffset, a.ElementSize, a.Buffer.length)

/-- The mesh `m'` has the counts of `m` and its catalog starts with the attributes of `m`, in
their positions and with their shapes. -/
def KeepsCatalog (m m' : MeshData2) : Prop :=
  m'.pointCount = m.pointCount ∧ m'.faceCount = m.faceCount ∧
    m'.cornerCount = m.cornerCount ∧
    ∃ added, m'.attributes.map MeshAttribute.shape =
      m.attributes.map MeshAttribute.shape ++ added

/-- Catalog positions 0 to 4 hold the five mandatory attributes of a `MeshData3D`. -/
def MeshData3D.FixedCatalog (m : MeshData3D) : Prop :=
  ∃ pointOfCorner normalOfFace position normal faceList,
    m.attributes.get? 0 = some pointOfCorner ∧ m.attributes.get? 1 = some normalOfFace ∧
    m.attributes.get? 2 = some position ∧ m.attributes.get? 3 = some normal ∧
    m.attributes.get? 4 = some faceList ∧
    pointOfCorner.Name = pointOfCornerName ∧
    pointOfCorner.Domain = MeshAttributeDomain.Corner ∧
    pointOfCorner.Type_ =
      (if m.pointCount ≤ 65535 then MeshAttributeType.UInt16 else MeshAttributeType.UInt32) ∧
    normalOfFace.Name = normalOfFaceName ∧ normalOfFace.Domain = MeshAttributeDomain.Face ∧
    normalOfFace.Type_ = MeshAttributeType.Vec3F16 ∧
    position.Name = positionAttributeName ∧ position.Domain = MeshAttributeDomain.Point ∧
    position.Type_ = MeshAttributeType.Vec3 ∧
    normal.Name = normalName ∧ normal.Domain = MeshAttributeDomain.Point ∧
    normal.Type_ = MeshAttributeType.Vec3F16 ∧
    faceList.Name = faceListName ∧ faceList.Domain = MeshAttributeDomain.Point ∧
    faceList.Type_ = MeshAttributeType.UInt32 ∧ faceList.elementCount = m.pointCount + 1

/-- The call is an `AddUvMap`. -/
def MeshCall.isAddUvMap : MeshCall → Bool
  | .addUvMap _ => true
  | _ => false

/-! ### Scene loader (`Mesh.cpp` 280-326) -/

/-- C++ `struct LoadedScene`; a null `unique_ptr<MeshData3D>` is `none`. Every mesh carries the
state of the shared `SceneData` as it was when the mesh was last touched. -/
structure LoadedScene where
  MeshDatas : List (Option MeshData3D)
  Objects : List ObjectInstance
  Collection : Option Collection

/-- The bytes of the string literal `"position"`. -/
def positionName : Bytes := [112, 111, 115, 105, 116, 105, 111, 110]

/-- The bytes of the string literal `".corner_vert"`. -/
def cornerVertName : Bytes := [46, 99, 111, 114, 110, 101, 114, 95, 118, 101, 114, 116]

/-- C++ `rn::copy(src, dst.data() + offset)`; writing past the destination is undefined in C++
and reported as `outOfBounds`. -/
def copyAt (src dst : Bytes) (offset : Nat) : Except Error Bytes :=
  if offset + src.length ≤ dst.length then
    .ok (dst.take offset ++ src ++ dst.drop (offset + src.length))
  else .error .outOfBounds

/-- C++ `rn::copy(src, (u8*)Attributes[index]->Buffer.data())`. -/
def MeshData3D.copyToAttribute (m : MeshData3D) (index : Nat) (src : Bytes) :
    Except Error MeshData3D :=
  match m.attributes.get? index with
  | none => .error .outOfBounds
  | some a =>
    match copyAt src a.Buffer 0 with
    | .error e => .error e
    | .ok buffer =>
      .ok { m with
            toMeshData2 :=
              { m.toMeshData2 with attributes := m.attributes.set index { a with Buffer := buffer } } }

/-- The loop over `pos->Morphs | indexed` of `LoadSceneFile`: morph `i` sets the four fields of
`Values[i]` and its buffer is copied to the running position `it` of the morph attribute. -/
def copyMorphs : List MeshFileMorph → Nat → Nat → List MeshMorph → Bytes →
    Except Error (List MeshMorph × Bytes)
  | [], _, _, values, buffer => .ok (values, buffer)
  | morph :: rest, i, it, values, buffer =>
    if i < values.length then
      match copyAt morph.Buffer buffer it with
      | .error e => .error e
      | .ok buffer1 =>
        copyMorphs rest (i + 1) (it + morph.Buffer.length)
          (values.set i
            { Name := morph.Name, Value := morph.Value, Min := morph.Min, Max := morph.Max })
          buffer1
    else .error .outOfBounds

/-- The block `if (auto count = pos->Morphs.size(); count > 1)` of `LoadSceneFile`, with
`mp = mesh->Position`, that is `Attributes[2]`. -/
def loadMorphs (mesh : MeshData3D) (pos : MeshFileAttribute) : Except Error MeshData3D :=
  if pos.Morphs.length > 1 then
    match mesh.toMeshData2.AddAttributeMorphs (.own 2) (pos.Morphs.length % 2 ^ 32) with
    | .error e => .error e
    | .ok (mAtt, m1) =>
      match m1.attributes.get? 2, m1.attributes.get? mAtt with
      | some mp, some morphAttribute =>
        match copyMorphs pos.Morphs 0 0 mp.Morphs.Values morphAttribute.Buffer with
        | .error e => .error e
        | .ok (values, buffer) =>
          .ok { mesh with
                toMeshData2 :=
                  { m1 with
                    attributes :=
                      (m1.attributes.set 2 { mp with Morphs := { mp.Morphs with Values := values } }).set
                        mAtt { morphAttribute with Buffer := buffer } } }
      | _, _ => .error .outOfBounds
  else .ok mesh

/-- The loop `for (auto& uvIndex : mf.UvIndices)` of `LoadSceneFile`; the source span holds
`CornerCount` values of `Vector2F16`. -/
def loadUvMaps (mf : MeshFile) : List Nat → MeshData3D → Except Error MeshData3D
  | [], mesh => .ok mesh
  | uvIndex :: rest, mesh =>
    match mf.Attributes.get? uvIndex with
    | none => .error .outOfBounds
    | some uv =>
      if uv.Type_ ≠ MeshAttributeType.Vec2F16 then .error .assertionFailure
      else
        match mesh.AddUvMap uv.Name with
        | .error e => .error e
        | .ok (uvAtt, m1) =>
          if mf.CornerCount * sizeof.Vector2F16 ≤ uv.Buffer.length then
            match m1.copyToAttribute uvAtt (uv.Buffer.take (mf.CornerCount * sizeof.Vector2F16)) with
            | .error e => .error e
            | .ok m2 => loadUvMaps mf rest m2
          else .error .outOfBounds

/-- The body of the `vs::transform` lambda of `LoadSceneFile` for one mesh of the file;
`sceneData` is the state of the shared `SceneData` before and, in the result, after. An
iterator `find_if` returns at the end of the list is dereferenced, which is undefined and
reported as `outOfBounds`. -/
def loadMeshFile (uniformMeshSize : Nat) (sceneBuffer : Nat → UniformMesh) (sceneData : SceneData)
    (mf : MeshFile) : Except Error (Option MeshData3D × SceneData) :=
  if mf.FaceCount = 0 then .ok (none, sceneData)
  else if mf.CornerCount % mf.FaceCount ≠ 0 then .error .assertionFailure
  else
    match MeshData3D.new uniformMeshSize sceneBuffer sceneData mf.Name mf.PointCount mf.FaceCount
        mf.CornerCount with
    | .error e => .error e
    | .ok mesh =>
      match mf.Attributes.find? (fun a => a.Name = positionName) with
      | none => .error .outOfBounds
      | some pos =>
        match mesh.copyToAttribute 2 pos.Buffer with
        | .error e => .error e
        | .ok mesh1 =>
          match loadMorphs mesh1 pos with
          | .error e => .error e
          | .ok mesh2 =>
            match mf.Attributes.find? (fun a => a.Name = cornerVertName) with
            | none => .error .outOfBounds
            | some cvs =>
              match mesh2.copyToAttribute 0 cvs.Buffer with
              | .error e => .error e
              | .ok mesh3 =>
                match loadUvMaps mf mf.UvIndices mesh3 with
                | .error e => .error e
                | .ok mesh4 =>
                  .ok (some { mesh4 with
                              MaterialRanges := mf.Materials.map (fun r => (r.Offset, r.Count)) },
                    mesh4.data)

/-- The `vs::transform` over `sf.Meshes`, in order, threading the shared `SceneData`. -/
def loadMeshFiles (uniformMeshSize : Nat) (sceneBuffer : Nat → UniformMesh) :
    SceneData → List MeshFile → Except Error (List (Option MeshData3D) × SceneData)
  | sceneData, [] => .ok ([], sceneData)
  | sceneData, mf :: rest =>
    match loadMeshFile uniformMeshSize sceneBuffer sceneData mf with
    | .error e => .error e
    | .ok (mesh, sceneData1) =>
      match loadMeshFiles uniformMeshSize sceneBuffer sceneData1 rest with
      | .error e => .error e
      | .ok (meshes, sceneData2) => .ok (mesh :: meshes, sceneData2)

/-- C++ `LoadSceneFile(sceneData, path)`: the loaded scene and the state of `sceneData`
afterwards. -/
def LoadSceneFile (uniformMeshSize : Nat) (sceneBuffer : Nat → UniformMesh) (sceneData : SceneData)
    (file : Option Bytes) : Except Error (LoadedScene × SceneData) :=
  match SceneFile.Load file with
  | .error e => .error e
  | .ok sf =>
    match loadMeshFiles uniformMeshSize sceneBuffer sceneData sf.Meshes with
    | .error e => .error e
    | .ok (meshes, sceneData1) =>
      .ok ({ MeshDatas := meshes, Objects := sf.Objects, Collection := sf.Collection }, sceneData1)

/-- The mesh `m'` is the mesh `m` as far as its name and counts go. -/
def SameMesh (m m' : MeshData3D) : Prop :=
  m'.name = m.name ∧ m'.pointCount = m.pointCount ∧ m'.faceCount = m.faceCount ∧
    m'.cornerCount = m.cornerCount

/-- What `LoadSceneFile` makes of one mesh of the file: null exactly for a mesh without
faces, otherwise a mesh of the same name and counts whose material ranges are the
`(Offset, Count)` pairs of the file, in order. -/
def LoadedFrom (mf : MeshFile) (entry : Option MeshData3D) : Prop :=
  (entry = none ↔ mf.FaceCount = 0) ∧
    ∀ mesh, entry = some mesh →
      mesh.name = mf.Name ∧ mesh.pointCount = mf.PointCount ∧ mesh.faceCount = mf.FaceCount ∧
        mesh.cornerCount = mf.CornerCount ∧
        mesh.MaterialRanges = mf.Materials.map (fun r => (r.Offset, r.Count))

/-! ### What the scene loader requires of a mesh file -/

/-- The names of the five attributes of a newly constructed `MeshData3D`. -/
def mandatoryNames : List Bytes :=
  [pointOfCornerName, normalOfFaceName, positionAttributeName, normalName, faceListName]

/-- UV maps of these names can be added in turn to a catalog whose names are `used`: when its
turn comes, a name other than the empty one is not in use, and neither is the name of its
tangent attribute. -/
def FreshUvNames : List Bytes → List Bytes → Prop
  | _, [] => True
  | used, name :: rest =>
    (name = [] ∨ name ∉ used) ∧ tangentOfName name ∉ used ∧
      FreshUvNames (used ++ [name, tangentOfName name]) rest

/-- The names of the attributes the UV indices of a mesh file refer to. -/
def MeshFile.uvNames (mf : MeshFile) : List Bytes :=
  mf.UvIndices.map (fun i => ((mf.Attributes.get? i).map (fun a => a.Name)).getD [])

/-- The shape keys of the `position` attribute that the loader copies: all of them when
there is more than one, none otherwise. -/
def MeshFile.shapeKeys (mf : MeshFile) : List MeshFileMorph :=
  match mf.Attributes.find? (fun a => a.Name = positionName) with
  | some pos => if pos.Morphs.length > 1 then pos.Morphs else []
  | none => []

/-- A mesh file the loader can load: without faces, or with 32-bit counts and uniform
topology, a `position` and a `.corner_vert` attribute that fit the buffers of the mesh,
shape keys of one delta per point whose total fits 32 bits, UV indices that refer to
Vec2F16 attributes with a value per corner, and UV names that do not clash. -/
def MeshFile.WellFormed (mf : MeshFile) : Prop :=
  mf.FaceCount = 0 ∨
    (mf.PointCount < 2 ^ 32 ∧ mf.FaceCount < 2 ^ 32 ∧ mf.CornerCount < 2 ^ 32 ∧
      mf.CornerCount % mf.FaceCount = 0 ∧
      (∃ pos, mf.Attributes.find? (fun a => a.Name = positionName) = some pos ∧
        pos.Buffer.length ≤ 12 * mf.PointCount ∧
        (1 < pos.Morphs.length →
          pos.Morphs.length < 2 ^ 32 ∧ mf.PointCount * (pos.Morphs.length + 1) < 2 ^ 32 ∧
            ∀ morph ∈ pos.Morphs, morph.Buffer.length ≤ 12 * mf.PointCount)) ∧
      (∃ cvs, mf.Attributes.find? (fun a => a.Name = cornerVertName) = some cvs ∧
        cvs.Buffer.length ≤ (if mf.PointCount ≤ 65535 then 2 else 4) * mf.CornerCount) ∧
      (∀ i ∈ mf.UvIndices, ∃ uv, mf.Attributes.get? i = some uv ∧
        uv.Type_ = MeshAttributeType.Vec2F16 ∧ mf.CornerCount * 4 ≤ uv.Buffer.length) ∧
      FreshUvNames mandatoryNames mf.uvNames)

/-- An upper bound of the bytes of the attribute buffer that loading the mesh file takes:
every attribute with one element more for its alignment. -/
def MeshFile.attributeBytes (mf : MeshFile) : Nat :=
  if mf.FaceCount = 0 then 0
  else
    (mf.CornerCount + 1) * 4 + (mf.FaceCount + 1) * 6 + (mf.PointCount + 1) * 12 +
      (mf.PointCount + 1) * 6 + (mf.PointCount + 2) * 4 +
      (if mf.shapeKeys = [] then 0
        else (mf.PointCount * (mf.shapeKeys.length + 1) + 1) * 12 + (mf.shapeKeys.length + 1) * 4) +
      mf.UvIndices.length * ((mf.CornerCount + 1) * 4 + (mf.CornerCount + 1) * 6)

/-! ### Samples for the attribute store -/

/-- A scene with room in both buffers. -/
def sampleSceneData : SceneData :=
  { SceneAllocator := { Capacity := 4096, Cursor := 64 },
    AttributeAllocator := { Capacity := 4096, Cursor := 0 } }

/-- A `MeshData2` of 4 points, 2 faces and 6 corners without attributes. -/
def sampleMeshData2 : MeshData2 :=
  { data := sampleSceneData, pointCount := 4, faceCount := 2, cornerCount := 6 }

/-- The attribute that `AddAttribute(name, Point, UInt8)` adds first to `sampleMeshData2`. -/
def samplePointAttribute (name : Bytes) : MeshAttribute :=
  { Name := name, Domain := MeshAttributeDomain.Point, Type_ := MeshAttributeType.UInt8,
    IndexOffset := 0, Buffer := [0, 0, 0, 0], ElementSize := 1 }

/-- The mesh `sampleMeshData2` after `AddAttribute(name, Point, UInt8)`. -/
def sampleMeshWithAttribute (name : Bytes) : MeshData2 :=
  { data := { sampleSceneData with AttributeAllocator := { Capacity := 4096, Cursor := 4 } },
    pointCount := 4, faceCount := 2, cornerCount := 6,
    attributes := [samplePointAttribute name] }

/-- The index ranges `[IndexOffset, IndexOffset + elementCount)` of two attributes do not
overlap. -/
def IndexRangesDisjoint (a b : MeshAttribute) : Prop :=
  a.IndexOffset + a.elementCount ≤ b.IndexOffset ∨ b.IndexOffset + b.elementCount ≤ a.IndexOffset

instance (a b : MeshAttribute) : Decidable (IndexRangesDisjoint a b) := by
  unfold IndexRangesDisjoint; infer_instance

/-- The byte ranges `[IndexOffset * ElementSize, IndexOffset * ElementSize + Buffer.size())`
of the attribute buffer that `MeshData3D::Write` uploads two attributes to do not overlap. -/
def ByteRangesDisjoint (a b : MeshAttribute) : Prop :=
  a.IndexOffset * a.ElementSize + a.Buffer.length ≤ b.IndexOffset * b.ElementSize ∨
    b.IndexOffset * b.ElementSize + b.Buffer.length ≤ a.IndexOffset * a.ElementSize

instance (a b : MeshAttribute) : Decidable (ByteRangesDisjoint a b) := by
  unfold ByteRangesDisjoint; infer_instance

/-- The attributes lie one after the other in the attribute buffer, below the cursor, and
each buffer holds a whole number of elements. -/
def Packed (m : MeshData2) : Prop :=
  m.attributes.Pairwise (fun a b =>
      a.IndexOffset * a.ElementSize + a.Buffer.length ≤ b.IndexOffset * b.ElementSize) ∧
    ∀ a ∈ m.attributes,
      a.IndexOffset * a.ElementSize + a.Buffer.length ≤ m.data.AttributeAllocator.Cursor ∧
        0 < a.ElementSize ∧ a.ElementSize ∣ a.Buffer.length

/-- The mesh `sampleMeshData2` after `AddAttribute("a", Point, UInt8)` and
`AddAttribute("b", Point, UInt16)`. -/
def sampleMeshTwoAttributes : MeshData2 :=
  { data := { sampleSceneData with AttributeAllocator := { Capacity := 4096, Cursor := 12 } },
    pointCount := 4, faceCount := 2, cornerCount := 6,
    attributes :=
      [ samplePointAttribute [97],
        { Name := [98], Domain := MeshAttributeDomain.Point, Type_ := MeshAttributeType.UInt16,
          IndexOffset := 2, Buffer := [0, 0, 0, 0, 0, 0, 0, 0], ElementSize := 2 } ] }

/-- The calls `AddAttribute("a", Point, UInt8)` and `AddAttribute("b", Point, UInt16)`. -/
def sampleAttributeCalls : List AddAttributeArgs :=
  [ { name := [97], domain := MeshAttributeDomain.Point, type := MeshAttributeType.UInt8,
      extraCount := 0 },
    { name := [98], domain := MeshAttributeDomain.Point, type := MeshAttributeType.UInt16,
      extraCount := 0 } ]

/-- The nameless attribute `AddAttributeMorphs` adds for the attribute `a`, given its
allocation, its element size and the number of elements. -/
def morphAttributeOf (a : MeshAttribute) (offset size elements : Nat) : MeshAttribute :=
  { Name := [], Domain := a.Domain, Type_ := a.Type_, IndexOffset := offset,
    Buffer := List.replicate (size * elements) 0, ElementSize := size }

/-- The attribute `a` after `AddAttributeMorphs` has filled in its `Morphs`. -/
def withMorphs (a : MeshAttribute) (valuesIndexOffset shapeCount res : Nat) : MeshAttribute :=
  { a with
    Morphs :=
      { ValuesIndexOffset := valuesIndexOffset
        Values := resize a.Morphs.Values shapeCount defaultMeshMorph
        Attribute := some res } }

/-- The mesh `sampleMeshWithAttribute "a"` after `AddAttributeMorphs(at, 2)` on its attribute. -/
def sampleMeshWithMorphs : MeshData2 :=
  { data := { sampleSceneData with AttributeAllocator := { Capacity := 4096, Cursor := 24 } },
    pointCount := 4, faceCount := 2, cornerCount := 6,
    attributes :=
      [ { samplePointAttribute [97] with
          Morphs :=
            { ValuesIndexOffset := 4, Values := [defaultMeshMorph, defaultMeshMorph],
              Attribute := some 1 } },
        { Name := [], Domain := MeshAttributeDomain.Point, Type_ := MeshAttributeType.UInt8,
          IndexOffset := 4, Buffer := List.replicate 12 0, ElementSize := 1 } ] }

/-- The attribute `AddAttribute` creates: `count` zero elements of `size` bytes at `offset`. -/
def zeroAttribute (name : Bytes) (domain type offset size count : Nat) : MeshAttribute :=
  { Name := name, Domain := domain, Type_ := type, IndexOffset := offset,
    Buffer := List.replicate (size * count) 0, ElementSize := size }

/-- The mesh `MeshData3D(data, "m", 2, 1, 3)`, one triangle on two points, built on
`sampleSceneData` with 64-byte uniform records, all zero before. -/
def sampleConstructedMesh : MeshData3D :=
  { data :=
      { SceneAllocator := { Capacity := 4096, Cursor := 128 },
        AttributeAllocator := { Capacity := 4096, Cursor := 60 } },
    pointCount := 2, faceCount := 1, cornerCount := 3,
    attributes :=
      [ zeroAttribute pointOfCornerName MeshAttributeDomain.Corner MeshAttributeType.UInt16 0 2 3,
        zeroAttribute normalOfFaceName MeshAttributeDomain.Face MeshAttributeType.Vec3F16 1 6 1,
        zeroAttribute positionAttributeName MeshAttributeDomain.Point MeshAttributeType.Vec3 1 12 2,
        zeroAttribute normalName MeshAttributeDomain.Point MeshAttributeType.Vec3F16 6 6 2,
        zeroAttribute faceListName MeshAttributeDomain.Point MeshAttributeType.UInt32 12 4 3 ],
    name := [109], meshIndex := 1,
    Uniform :=
      { PointCount := 2, FaceCount := 1, CornerCount := 3, PointOfCornerOffset := 0,
        PositionOffset := 1, NormalOffset := 6, NormalOfFaceOffset := 1, FaceOfPointOffset := 12,
        UvOffset := 4294967295 } }

/-- The mesh `sampleConstructedMesh` after `AddAttribute("x", Face, UInt32)`. -/
def sampleMeshBeforeUv : MeshData3D :=
  { sampleConstructedMesh with
    data :=
      { SceneAllocator := { Capacity := 4096, Cursor := 128 },
        AttributeAllocator := { Capacity := 4096, Cursor := 64 } }
    attributes := sampleConstructedMesh.attributes ++
      [zeroAttribute [120] MeshAttributeDomain.Face MeshAttributeType.UInt32 15 4 1] }

/-- The mesh `sampleMeshBeforeUv` after `AddUvMap("u")`. -/
def sampleMeshFirstUv : MeshData3D :=
  { sampleMeshBeforeUv with
    data :=
      { SceneAllocator := { Capacity := 4096, Cursor := 128 },
        AttributeAllocator := { Capacity := 4096, Cursor := 96 } }
    attributes := sampleMeshBeforeUv.attributes ++
      [ zeroAttribute [117] MeshAttributeDomain.Corner MeshAttributeType.Vec2F16 16 4 3,
        zeroAttribute (tangentOfName [117]) MeshAttributeDomain.Corner MeshAttributeType.Vec3F16
          13 6 3 ]
    uvMaps := [6]
    Uniform := { sampleMeshBeforeUv.Uniform with UvOffset := 16, TangentOffset := 13 } }

/-- The mesh `sampleMeshFirstUv` after `GetFaceIndices()` and `AddUvMap("v")`. -/
def sampleMeshSecondUv : MeshData3D :=
  { sampleMeshFirstUv with
    data :=
      { SceneAllocator := { Capacity := 4096, Cursor := 128 },
        AttributeAllocator := { Capacity := 4096, Cursor := 138 } }
    attributes :=
      (sampleMeshFirstUv.attributes.set 4
        { zeroAttribute faceListName MeshAttributeDomain.Point MeshAttributeType.UInt32 12 4 3 with
          Buffer := [0, 0, 0, 0, 3, 0, 0, 0, 3, 0, 0, 0] }) ++
      [ zeroAttribute faceIndexName MeshAttributeDomain.Point MeshAttributeType.UInt16 48 2 3,
        zeroAttribute [118] MeshAttributeDomain.Corner MeshAttributeType.Vec2F16 26 4 3,
        zeroAttribute (tangentOfName [118]) MeshAttributeDomain.Corner MeshAttributeType.Vec3F16
          20 6 3 ]
    faceIndices := some 8
    uvMaps := [6, 9]
    Uniform := { sampleMeshFirstUv.Uniform with FaceIndexOfPointOffset := 48 } }

/-- The calls `GetFaceIndices()` and `AddUvMap("v")`. -/
def sampleLaterCalls : List MeshCall := [.getFaceIndices, .addUvMap [118]]

/-- The calls `AddAttribute("x", Face, UInt32)`, `AddUvMap("u")`, `GetFaceIndices()` and
`AddUvMap("v")`. -/
def sampleMeshCalls : List MeshCall :=
  [.addAttribute [120] MeshAttributeDomain.Face MeshAttributeType.UInt32 0, .addUvMap [117]] ++
    sampleLaterCalls

/-- A mesh file of one triangle: positions with two shape keys, 16-bit corner indices, one
UV map and one material range. -/
def sampleTriangleFile : MeshFile :=
  { Name := [116], PointCount := 3, EdgeCount := 3, FaceCount := 1, CornerCount := 3,
    Attributes :=
      [ { Name := positionName, Domain := MeshAttributeDomain.Point,
          Type_ := MeshAttributeType.Vec3, Buffer := List.replicate 36 5,
          Morphs :=
            [ { Name := [97], BaseName := [], Value := 0, Min := 0, Max := f32One,
                Buffer := List.replicate 36 1 },
              { Name := [98], BaseName := [97], Value := f32One, Min := 0, Max := f32One,
                Buffer := List.replicate 36 2 } ] },
        { Name := cornerVertName, Domain := MeshAttributeDomain.Corner,
          Type_ := MeshAttributeType.UInt16, Buffer := [0, 0, 1, 0, 2, 0], Morphs := [] },
        { Name := [117], Domain := MeshAttributeDomain.Corner,
          Type_ := MeshAttributeType.Vec2F16, Buffer := List.replicate 12 7, Morphs := [] } ],
    UvIndices := [2], Materials := [⟨0, 0, 1⟩] }

/-- A mesh file without points, faces or attributes. -/
def sampleEmptyMeshFile : MeshFile :=
  { Name := [101], PointCount := 0, EdgeCount := 0, FaceCount := 0, CornerCount := 0,
    Attributes := [], UvIndices := [], Materials := [] }

/-- A scene of the two sample mesh files with the objects, materials and collections of
`sampleSceneFile`. -/
def sampleLoadableScene : SceneFile :=
  { Meshes := [sampleTriangleFile, sampleEmptyMeshFile], Objects := sampleSceneFile.Objects,
    Materials := sampleSceneFile.Materials, Collection := sampleSceneFile.Collection }

/-- The mesh `LoadSceneFile` builds from `sampleTriangleFile` on `sampleSceneData`. -/
def sampleLoadedTriangle : MeshData3D :=
  { data :=
      { SceneAllocator := { Capacity := 4096, Cursor := 128 },
        AttributeAllocator := { Capacity := 4096, Cursor := 234 } },
    pointCount := 3, faceCount := 1, cornerCount := 3,
    attributes :=
      [ { zeroAttribute pointOfCornerName MeshAttributeDomain.Corner MeshAttributeType.UInt16
            0 2 3 with Buffer := [0, 0, 1, 0, 2, 0] },
        zeroAttribute normalOfFaceName MeshAttributeDomain.Face MeshAttributeType.Vec3F16 1 6 1,
        { zeroAttribute positionAttributeName MeshAttributeDomain.Point MeshAttributeType.Vec3
            1 12 3 with
          Buffer := List.replicate 36 5
          Morphs :=
            { ValuesIndexOffset := 48,
              Values :=
                [ { Name := [97], Value := 0, Min := 0, Max := f32One },
                  { Name := [98], Value := f32One, Min := 0, Max := f32One } ],
              Attribute := some 5 } },
        zeroAttribute normalName MeshAttributeDomain.Point MeshAttributeType.Vec3F16 8 6 3,
        zeroAttribute faceListName MeshAttributeDomain.Point MeshAttributeType.UInt32 17 4 4,
        { zeroAttribute [] MeshAttributeDomain.Point MeshAttributeType.Vec3 7 12 9 with
          Buffer := List.replicate 36 1 ++ List.replicate 36 2 ++ List.replicate 36 0 },
        { zeroAttribute [117] MeshAttributeDomain.Corner MeshAttributeType.Vec2F16 50 4 3 with
          Buffer := List.replicate 12 7 },
        zeroAttribute (tangentOfName [117]) MeshAttributeDomain.Corner MeshAttributeType.Vec3F16
          36 6 3 ],
    MaterialRanges := [(0, 1)],
    name := [116], meshIndex := 1, uvMaps := [6],
    Uniform :=
      { PointCount := 3, FaceCount := 1, CornerCount := 3, PointOfCornerOffset := 0,
        PositionOffset := 1, NormalOffset := 8, NormalOfFaceOffset := 1, FaceOfPointOffset := 17,
        UvOffset := 50, TangentOffset := 36 } }

/-- The scene `LoadSceneFile` returns for the file of `sampleLoadableScene`. -/
def sampleLoadedScene : LoadedScene :=
  { MeshDatas := [some sampleLoadedTriangle, none], Objects := sampleSceneFile.Objects,
    Collection := sampleSceneFile.Collection }

end Renderer

/-! ## The ordered-map serializer (`MeshFile.hpp` 420-442) -/

/-- C++ `std::map<A, B>`: the entries in ascending key order. -/
abbrev OrderedMap (α β : Type) := List (α × β)

/-- C++ `m[key] = value` on a `std::map` ordered by `less`: the entry of an equivalent key
gets the value assigned, otherwise a new entry is inserted at its place in key order. -/
def OrderedMap.assign {α β : Type} (less : α → α → Bool) :
    OrderedMap α β → α → β → OrderedMap α β
  | [], k, v => [(k, v)]
  | (k', v') :: tl, k, v =>
    if less k k' then (k, v) :: (k', v') :: tl
    else if less k' k then (k', v') :: OrderedMap.assign less tl k v
    else (k', v) :: tl

/-- C++ `Serializer<map<A, B>>::Serialize`: `size()` as `size_t`, then every pair in key
order, each as its first and its second member (`Serializer<pair<A, B>>`). -/
def SerializeMap {α β : Type} (key : α → Bytes) (value : β → Bytes) (m : OrderedMap α β) :
    Bytes :=
  SerializeUInt 8 m.length ++ m.flatMap (fun p => key p.1 ++ value p.2)

/-- The loop `for (i = 0; i < size; ++i) { pair<A, B> p; UnSerialize(stream, p);
m[move(p.first)] = move(p.second); }` on the destination map `m`. -/
def readEntries {α β : Type} (less : α → α → Bool) (key : Reader α) (value : Reader β) :
    Nat → OrderedMap α β → Reader (OrderedMap α β)
  | 0, m, s => .ok (m, s)
  | n + 1, m, s =>
    match key s with
    | .error e => .error e
    | .ok (k, s1) =>
      match value s1 with
      | .error e => .error e
      | .ok (v, s2) => readEntries less key value n (m.assign less k v) s2

/-- C++ `Serializer<map<A, B>>::UnSerialize` on the destination map `m`: read the size, then
read and assign that many pairs; the destination is passed in because the function starts
from what it holds. -/
def UnSerializeMap {α β : Type} (less : α → α → Bool) (key : Reader α) (value : Reader β)
    (m : OrderedMap α β) : Reader (OrderedMap α β) := fun s =>
  match UnSerializeUInt 8 s with
  | .ok (size, rest) => readEntries less key value size m rest
  | .error e => .error e

/-- C++ `std::less<u32>`. -/
def lessNat (a b : Nat) : Bool := decide (a < b)

namespace Renderer

/-! ### The UV conversion in exact arithmetic (`DLL.cpp` 237-243) -/

/-- C++ `std::modf(v, &i)` in exact arithmetic: the pair of the returned fractional part and
the integral part stored through the pointer; the integral part is `v` rounded toward zero
and both parts have the sign of `v`. -/
def modf (v : ℚ) : ℚ × ℚ :=
  let i : ℤ := v.num.tdiv v.den
  (v - i, i)

/-- The body of the lambda of the UV conversion on the `y` component, in exact arithmetic:
`float y; v.y = 1 - std::modf(v.y, &y); v.y += y;`. -/
def uvConvertY (vy : ℚ) : ℚ :=
  let (frac, y) := modf vy
  let vy := 1 - frac
  vy + y

/-! ### Samples for the material reordering -/

/-- A sample mesh with two material ranges and no attribute named `material_index`. -/
def sampleNoIndexMesh : MeshFile :=
  { Name := [], PointCount := 2, EdgeCount := 0, FaceCount := 2, CornerCount := 2,
    Attributes :=
      [ { Name := [102], Domain := MeshAttributeDomain.Face, Type_ := MeshAttributeType.UInt8,
          Buffer := [10, 11], Morphs := [] } ],
    UvIndices := [], Materials := [⟨0, 0, 2⟩, ⟨1, 0, 2⟩] }

/-- A sample mesh without faces: `CreateMeshFile` with the counts 1, 0, 0, 0, a Face-domain
`UInt32` attribute `material_index` (of no element) and two `MeshFileAddMaterial` calls. -/
def sampleNoFacesMesh : MeshFile :=
  { Name := [], PointCount := 1, EdgeCount := 0, FaceCount := 0, CornerCount := 0,
    Attributes :=
      [ { Name := materialIndexName, Domain := MeshAttributeDomain.Face,
          Type_ := MeshAttributeType.UInt32, Buffer := [], Morphs := [] } ],
    UvIndices := [], Materials := [⟨0, 0, 0⟩, ⟨1, 0, 0⟩] }

/-- The material ranges tile the faces from `offset` on: every entry starts where the entry
before it ends, and the last one ends at `faceCount`. -/
def MaterialsTile : List MeshFileMaterialRange → Nat → Nat → Prop
  | [], offset, faceCount => offset = faceCount
  | r :: rest, offset, faceCount =>
    r.Offset = offset ∧ MaterialsTile rest (offset + r.Count) faceCount

instance : ∀ (mats : List MeshFileMaterialRange) (offset faceCount : Nat),
    Decidable (MaterialsTile mats offset faceCount)
  | [], offset, faceCount => by unfold MaterialsTile; infer_instance
  | r :: rest, offset, faceCount => by
    unfold MaterialsTile
    have := instDecidableMaterialsTile rest (offset + r.Count) faceCount
    infer_instance

/-! ### Samples for the face adjacency -/

/-- The five constructor attributes of `MeshData3D(data, "m", 6, 2, 4)` on `sampleSceneData`,
the point-of-corner buffer holding the points 0, 5, 5, 2 of the four corners; the buffer of
`FaceList` is passed in. -/
def sampleSparseAttributes (faceList : Bytes) : List MeshAttribute :=
  [ { zeroAttribute pointOfCornerName MeshAttributeDomain.Corner MeshAttributeType.UInt16 0 2 4
        with Buffer := [0, 0, 5, 0, 5, 0, 2, 0] },
    zeroAttribute normalOfFaceName MeshAttributeDomain.Face MeshAttributeType.Vec3F16 2 6 2,
    zeroAttribute positionAttributeName MeshAttributeDomain.Point MeshAttributeType.Vec3 2 12 6,
    zeroAttribute normalName MeshAttributeDomain.Point MeshAttributeType.Vec3F16 16 6 6,
    { zeroAttribute faceListName MeshAttributeDomain.Point MeshAttributeType.UInt32 33 4 7
        with Buffer := faceList } ]

/-- A mesh with fewer corners than points: 6 points, 2 faces of 2 corners each, before the
first `GetFaceIndices`. -/
def sampleSparseMesh : MeshData3D :=
  { data :=
      { SceneAllocator := { Capacity := 4096, Cursor := 128 },
        AttributeAllocator := { Capacity := 4096, Cursor := 160 } },
    pointCount := 6, faceCount := 2, cornerCount := 4,
    attributes := sampleSparseAttributes (List.replicate 28 0),
    name := [109], meshIndex := 1,
    Uniform :=
      { PointCount := 6, FaceCount := 2, CornerCount := 4, PointOfCornerOffset := 0,
        PositionOffset := 2, NormalOffset := 16, NormalOfFaceOffset := 2, FaceOfPointOffset := 33,
        UvOffset := 4294967295 } }

/-- The mesh `sampleSparseMesh` after the first `GetFaceIndices`. -/
def sampleSparseMeshIndexed : MeshData3D :=
  { data :=
      { SceneAllocator := { Capacity := 4096, Cursor := 128 },
        AttributeAllocator := { Capacity := 4096, Cursor := 168 } },
    pointCount := 6, faceCount := 2, cornerCount := 4,
    attributes :=
      sampleSparseAttributes
          [0, 0, 0, 0, 1, 0, 0, 0, 1, 0, 0, 0, 2, 0, 0, 0, 2, 0, 0, 0, 2, 0, 0, 0, 4, 0, 0, 0] ++
        [ { zeroAttribute faceIndexName MeshAttributeDomain.Point MeshAttributeType.UInt16 80 2 4
              with Buffer := [0, 0, 1, 0, 0, 0, 1, 0] } ],
    name := [109], meshIndex := 1, faceIndices := some 5,
    Uniform :=
      { PointCount := 6, FaceCount := 2, CornerCount := 4, PointOfCornerOffset := 0,
        PositionOffset := 2, NormalOffset := 16, NormalOfFaceOffset := 2, FaceOfPointOffset := 33,
        FaceIndexOfPointOffset := 80, UvOffset := 4294967295 } }

/-! ### The exporter interface (`DLL.cpp` 226-311) -/

/-- C++ `CreateMeshFile`: `new MeshFile{ name, pointCount, edgeCount, faceCount, cornerCount, {} }`. -/
def CreateMeshFile (name : Bytes) (pointCount edgeCount faceCount cornerCount : Nat) : MeshFile :=
  { Name := name, PointCount := pointCount, EdgeCount := edgeCount, FaceCount := faceCount,
    CornerCount := cornerCount, Attributes := [], UvIndices := [], Materials := [] }

/-- The floating-point operations of the UV conversion (`DLL.cpp` 237-243), on bit patterns:
`flipY` is the `f32` computation `v.y = 1 - std::modf(v.y, &y); v.y += y` and `toF16` the
conversion of one component to half precision by `(Vector2F16)v`, of the absent
`Kaey/Renderer/Utility.hpp`. -/
structure UvOps where
  flipY : Nat → Nat
  toF16 : Nat → Nat

/-- The lambda of the UV conversion on the image of one `Vector2` (`x` then `y`, four bytes
each): the image of the `Vector2F16`, two bytes per component. -/
def UvOps.convert (ops : UvOps) (v : Bytes) : Bytes :=
  toLE 2 (ops.toF16 (fromLE (v.take 4))) ++ toLE 2 (ops.toF16 (ops.flipY (fromLE (v.drop 4))))

/-- C++ `std::swap(v.y, v.z)` on the image of one `Vector3`. -/
def swapYZ (v : Bytes) : Bytes := v.take 4 ++ (v.drop 8).take 4 ++ (v.drop 4).take 4

/-- C++ `MeshFileAddAttribute`, lines 252-275, reached when neither conversion applies: the
element count of the domain (`invalid_argument` for any other domain), the byte size of the
type, the copy `vector(buffer, buffer + size * count)` with the `u32` product
`size * count`, the swap of `y` and `z` in every `Vector3`, and the two `emplace_back`.
`buffer` is the memory readable from the pointer passed in; reading past it is undefined in
C++ and reported as `outOfBounds`. -/
def storeAttribute (mf : MeshFile) (name : Bytes) (domain type : Nat) (buffer : Bytes)
    (isUv : Bool) : Except Error MeshFile :=
  match mf.elementCount domain with
  | none => .error (.invalidArgument domain)
  | some count =>
    match ByteSizeOfAttribute type with
    | .error e => .error e
    | .ok size =>
      let n := (size * count) % 2 ^ 32
      if buffer.length < n then .error .outOfBounds
      else
        let vec := buffer.take n
        let swapped : Except Error Bytes :=
          if type = MeshAttributeType.Vec3 then
            if count * 12 ≤ vec.length then
              .ok ((chunks 12 count vec).flatMap swapYZ ++ vec.drop (count * 12))
            else .error .outOfBounds
          else .ok vec
        match swapped with
        | .error e => .error e
        | .ok vec =>
          .ok { mf with
                UvIndices :=
                  if isUv then mf.UvIndices ++ [mf.Attributes.length % 2 ^ 32] else mf.UvIndices
                Attributes := mf.Attributes ++
                  [{ Name := name, Domain := domain, Type_ := type, Buffer := vec, Morphs := [] }] }

/-- C++ `MeshFileAddAttribute` from line 246 on, reached when the UV conversion does not
apply: the indices of `.corner_vert` are narrowed to `u16` when the mesh has at most 65535
points, and the function calls itself with the type `UInt16` and `isUv = false`, which
brings it to line 252 (the test of line 233 fails on `isUv`, the test of line 246 on the
type). -/
def addIndexAttribute (mf : MeshFile) (name : Bytes) (domain type : Nat) (buffer : Bytes)
    (isUv : Bool) : Except Error MeshFile :=
  if type ≠ MeshAttributeType.UInt16 ∧ name = cornerVertName ∧ mf.PointCount ≤ 65535 then
    if domain ≠ MeshAttributeDomain.Corner then .error .assertionFailure
    else if buffer.length < 4 * mf.CornerCount then .error .outOfBounds
    else
      storeAttribute mf name domain MeshAttributeType.UInt16
        ((chunks 4 mf.CornerCount buffer).flatMap (fun v => toLE 2 (fromLE v))) false
  else storeAttribute mf name domain type buffer isUv

/-- C++ `void MeshFileAddAttribute(MeshFile* mf, const char* name, MeshAttributeDomain domain,
MeshAttributeType type, const u8* buffer, bool isUv)`: a UV map that is not yet `Vec2F16`
is converted and the function calls itself with the type `Vec2F16`, which brings it to
line 246 (the test of line 233 fails on the type). -/
def MeshFileAddAttribute (ops : UvOps) (mf : MeshFile) (name : Bytes) (domain type : Nat)
    (buffer : Bytes) (isUv : Bool) : Except Error MeshFile :=
  if isUv = true ∧ type ≠ MeshAttributeType.Vec2F16 then
    if domain ≠ MeshAttributeDomain.Corner then .error .assertionFailure
    else if type ≠ MeshAttributeType.Vec2 then .error .assertionFailure
    else if buffer.length < 8 * mf.CornerCount then .error .outOfBounds
    else
      addIndexAttribute mf name domain MeshAttributeType.Vec2F16
        ((chunks 8 mf.CornerCount buffer).flatMap ops.convert) true
  else addIndexAttribute mf name domain type buffer isUv

/-- The type under which `MeshFileAddAttribute` stores the attribute: `Vec2F16` for a
converted UV map, `UInt16` for narrowed `.corner_vert` indices, the given type otherwise. -/
def storedType (mf : MeshFile) (name : Bytes) (type : Nat) (isUv : Bool) : Nat :=
  let t1 :=
    if isUv = true ∧ type ≠ MeshAttributeType.Vec2F16 then MeshAttributeType.Vec2F16 else type
  if t1 ≠ MeshAttributeType.UInt16 ∧ name = cornerVertName ∧ mf.PointCount ≤ 65535 then
    MeshAttributeType.UInt16
  else t1

/-- C++ `MeshFileAddShapeKey`: the first attribute named `position` (asserted to exist) gets
a morph with a copy of `PointCount * sizeof(Vector3)` bytes of the buffer. -/
def MeshFileAddShapeKey (mf : MeshFile) (name relativeName : Bytes) (value min max : Nat)
    (buffer : Bytes) : Except Error MeshFile :=
  let i := mf.Attributes.findIdx (fun a => a.Name = positionName)
  match mf.Attributes.get? i with
  | none => .error .assertionFailure
  | some it =>
    if buffer.length < mf.PointCount * sizeof.Vector3 then .error .outOfBounds
    else
      .ok { mf with
            Attributes := mf.Attributes.set i
              { it with
                Morphs := it.Morphs ++
                  [{ Name := name, BaseName := relativeName, Value := value, Min := min,
                     Max := max, Buffer := buffer.take (mf.PointCount * sizeof.Vector3) }] } }

/-- C++ `MeshFileAddMaterial`: `mf->Materials.emplace_back(id, 0, mf->FaceCount)`. -/
def MeshFileAddMaterial (mf : MeshFile) (id : Nat) : MeshFile :=
  { mf with Materials := mf.Materials ++ [⟨id, 0, mf.FaceCount⟩] }

/-- C++ `SceneFileAddMesh`: the faces are reordered, then the mesh is moved to the end of
the meshes of the scene. -/
def SceneFileAddMesh (scene : SceneFile) (mf : MeshFile) : Except Error SceneFile :=
  match ReorderMeshFaces mf with
  | .error e => .error e
  | .ok mf' => .ok { scene with Meshes := scene.Meshes ++ [mf'] }

/-- A call of the exporter interface on a mesh file; `reorder` is the `ReorderMeshFaces`
that `SceneFileAddMesh` runs on it. -/
inductive ExportCall where
  | addAttribute (name : Bytes) (domain type : Nat) (buffer : Bytes) (isUv : Bool)
  | addShapeKey (name relativeName : Bytes) (value min max : Nat) (buffer : Bytes)
  | addMaterial (id : Nat)
  | reorder
  deriving DecidableEq, Repr

/-- The mesh file after one call. -/
def MeshFile.exportCall (ops : UvOps) (mf : MeshFile) : ExportCall → Except Error MeshFile
  | .addAttribute name domain type buffer isUv =>
    MeshFileAddAttribute ops mf name domain type buffer isUv
  | .addShapeKey name relativeName value min max buffer =>
    MeshFileAddShapeKey mf name relativeName value min max buffer
  | .addMaterial id => .ok (MeshFileAddMaterial mf id)
  | .reorder => ReorderMeshFaces mf

/-- The mesh file after a sequence of calls, every one of which succeeds. -/
def MeshFile.exportCalls (ops : UvOps) (mf : MeshFile) : List ExportCall → Except Error MeshFile
  | [] => .ok mf
  | c :: rest =>
    match mf.exportCall ops c with
    | .error e => .error e
    | .ok mf1 => mf1.exportCalls ops rest

/-- The size of an attribute buffer as `MeshFileAddAttribute` computes it: the `u32` product
of the element count of the domain and the byte size of the type. -/
def MeshFileAttribute.SizedU32 (mf : MeshFile) (a : MeshFileAttribute) : Prop :=
  ∃ n size, mf.elementCount a.Domain = some n ∧ ByteSizeOfAttribute a.Type_ = .ok size ∧
    a.Buffer.length = n * size % 2 ^ 32

/-- What is fixed about an attribute of a mesh file once it has been added. -/
def MeshFileAttribute.shape (a : MeshFileAttribute) : Bytes × Nat × Nat × Nat :=
  (a.Name, a.Domain, a.Type_, a.Buffer.length)

/-- The invariant of a mesh file built through the exporter interface: every attribute
buffer has the computed size and every UV index is the position of a `Vec2F16` attribute. -/
def MeshFile.Built (mf : MeshFile) : Prop :=
  (∀ a ∈ mf.Attributes, a.SizedU32 mf) ∧
    ∀ i ∈ mf.UvIndices, ∃ a, mf.Attributes.get? i = some a ∧
      a.Type_ = MeshAttributeType.Vec2F16

/-- Sample float operations: `flipY` sets the lowest bit and `toF16` keeps the upper half of
the pattern. -/
def sampleUvOps : UvOps := { flipY := fun y => y ||| 1, toF16 := fun x => x / 65536 }

/-- A sample sequence of exporter calls on a triangle with three points: the positions, the
corner indices (narrowed to `u16`), a UV map given as `Vec2`, a UV map given as `Vec2F16`,
a shape key, the face material ids, two materials and the reordering. -/
def sampleExportCalls : List ExportCall :=
  [ .addAttribute positionName MeshAttributeDomain.Point MeshAttributeType.Vec3
      ((List.range 36).map (fun i => i)) false,
    .addAttribute cornerVertName MeshAttributeDomain.Corner MeshAttributeType.UInt32
      [0, 0, 0, 0, 1, 0, 0, 0, 2, 0, 0, 0] false,
    .addAttribute [117] MeshAttributeDomain.Corner MeshAttributeType.Vec2
      ((List.range 24).map (fun i => 100 + i)) true,
    .addAttribute [118] MeshAttributeDomain.Corner MeshAttributeType.Vec2F16
      ((List.range 12).map (fun i => 200 + i)) true,
    .addShapeKey [107] [] 0 0 f32One (List.replicate 36 7),
    .addAttribute materialIndexName MeshAttributeDomain.Face MeshAttributeType.UInt32
      [1, 0, 0, 0] false,
    .addMaterial 0, .addMaterial 1, .reorder ]

/-- The mesh file that `sampleExportCalls` makes of `CreateMeshFile("t", 3, 3, 1, 3)` with
`sampleUvOps`. -/
def sampleExportedMesh : MeshFile :=
  { Name := [116], PointCount := 3, EdgeCount := 3, FaceCount := 1, CornerCount := 3,
    Attributes :=
      [ { Name := positionName, Domain := MeshAttributeDomain.Point,
          Type_ := MeshAttributeType.Vec3,
          Buffer := [0, 1, 2, 3, 8, 9, 10, 11, 4, 5, 6, 7, 12, 13, 14, 15, 20, 21, 22, 23, 16, 17,
            18, 19, 24, 25, 26, 27, 32, 33, 34, 35, 28, 29, 30, 31],
          Morphs := [ { Name := [107], BaseName := [], Value := 0, Min := 0, Max := f32One,
                        Buffer := List.replicate 36 7 } ] },
        { Name := cornerVertName, Domain := MeshAttributeDomain.Corner,
          Type_ := MeshAttributeType.UInt16, Buffer := [0, 0, 1, 0, 2, 0], Morphs := [] },
        { Name := [117], Domain := MeshAttributeDomain.Corner,
          Type_ := MeshAttributeType.Vec2F16,
          Buffer := [102, 103, 106, 107, 110, 111, 114, 115, 118, 119, 122, 123], Morphs := [] },
        { Name := [118], Domain := MeshAttributeDomain.Corner,
          Type_ := MeshAttributeType.Vec2F16,
          Buffer := [200, 201, 202, 203, 204, 205, 206, 207, 208, 209, 210, 211], Morphs := [] },
        { Name := materialIndexName, Domain := MeshAttributeDomain.Face,
          Type_ := MeshAttributeType.UInt32, Buffer := [1, 0, 0, 0], Morphs := [] } ],
    UvIndices := [2, 3], Materials := [⟨0, 0, 1⟩, ⟨1, 0, 1⟩] }

/-- The exporter calls that build `sampleNoFacesMesh` from `CreateMeshFile("", 1, 0, 0, 0)`. -/
def sampleNoFacesCalls : List ExportCall :=
  [ .addAttribute materialIndexName MeshAttributeDomain.Face MeshAttributeType.UInt32 [] false,
    .addMaterial 0, .addMaterial 1 ]

/-- The exporter calls that build the sample mesh of face ids 2, 2, 1, 2 with three
materials from `CreateMeshFile("", 4, 0, 4, 8)`. -/
def sampleThreeMaterialCalls : List ExportCall :=
  [ .addAttribute materialIndexName MeshAttributeDomain.Face MeshAttributeType.UInt32
      [2, 0, 0, 0, 2, 0, 0, 0, 1, 0, 0, 0, 2, 0, 0, 0] false,
    .addAttribute [102] MeshAttributeDomain.Face MeshAttributeType.UInt8 [10, 11, 12, 13] false,
    .addAttribute [99] MeshAttributeDomain.Corner MeshAttributeType.UInt8
      [0, 1, 10, 11, 20, 21, 30, 31] false,
    .addMaterial 0, .addMaterial 1, .addMaterial 2 ]

end Renderer

end Kaey

/-! # Theorems -/

namespace Kaey

namespace Renderer

/-- The `switch` agrees with the documented table. -/
theorem ByteSizeOfAttribute_eq_documented (t : Nat) : ByteSizeOfAttribute t =
    match documentedComponents t with
    | some (k, w) => .ok (k * w)
    | none => .error (.invalidArgument t) := by
  unfold ByteSizeOfAttribute documentedComponents
  rcases Nat.lt_or_ge t 14 with h | h
  · interval_cases t <;> rfl
  · obtain ⟨m, rfl⟩ : ∃ m, t = m + 14 := ⟨t - 14, by omega⟩
    simp [MeshAttributeType.UInt8, MeshAttributeType.UInt16, MeshAttributeType.UInt32,
      MeshAttributeType.Float, MeshAttributeType.Vec2, MeshAttributeType.Vec3,
      MeshAttributeType.Vec4, MeshAttributeType.Vec2Int, MeshAttributeType.Vec3Int,
      MeshAttributeType.Vec4Int, MeshAttributeType.Boolean, MeshAttributeType.Vec2F16,
      MeshAttributeType.Vec3F16, MeshAttributeType.Vec4F16]

theorem documentedComponents_isSome (t : Nat) :
    (documentedComponents t).isSome = decide (t < 14) := by
  unfold documentedComponents
  rcases Nat.lt_or_ge t 14 with h | h
  · interval_cases t <;> rfl
  · obtain ⟨m, rfl⟩ : ∃ m, t = m + 14 := ⟨t - 14, by omega⟩
    simp

theorem ByteSizeOfAttribute_bounds (t size : Nat) (h : ByteSizeOfAttribute t = .ok size) :
    1 ≤ size ∧ size ≤ 16 := by
  rw [ByteSizeOfAttribute_eq_documented] at h
  unfold documentedComponents at h
  rcases Nat.lt_or_ge t 14 with ht | ht
  · interval_cases t <;> simp at h <;> omega
  · obtain ⟨m, rfl⟩ : ∃ m, t = m + 14 := ⟨t - 14, by omega⟩
    simp at h

/-- C9. For every value `t` (every 8-bit value in particular), `ByteSizeOfAttribute t` returns
the documented size, component count times component width, when `t` is one of the 14
enumerated types (the values below 14), and fails with the invalid-argument error carrying
`t` for every other value; the 14 sizes are Boolean 1, UInt8 1, UInt16 2, UInt32 4,
Float 4, Vec2 8, Vec3 12, Vec4 16, Vec2Int 8, Vec3Int 12, Vec4Int 16, Vec2F16 4, Vec3F16 6,
Vec4F16 8. -/
theorem ByteSizeOfAttribute_documented :
    (∀ t : Nat, ByteSizeOfAttribute t =
      match documentedComponents t with
      | some (k, w) => .ok (k * w)
      | none => .error (.invalidArgument t)) ∧
    (∀ t : Nat, (documentedComponents t).isSome = decide (t < 14)) ∧
    (List.range 14).map ByteSizeOfAttribute =
      [.ok 1, .ok 1, .ok 2, .ok 4, .ok 4, .ok 8, .ok 12, .ok 16, .ok 8, .ok 12, .ok 16,
       .ok 4, .ok 6, .ok 8] :=
  ⟨ByteSizeOfAttribute_eq_documented, documentedComponents_isSome, by decide⟩

end Renderer

/-! ## Little-endian images -/

theorem toLE_length (w n : Nat) : (toLE w n).length = w := by
  induction w generalizing n with
  | zero => rfl
  | succ w ih => simp [toLE, ih]

theorem fromLE_toLE (w n : Nat) (h : n < 256 ^ w) : fromLE (toLE w n) = n := by
  induction w generalizing n with
  | zero => simp at h; subst h; rfl
  | succ w ih =>
    have h2 : n / 256 < 256 ^ w := by
      rw [Nat.div_lt_iff_lt_mul (by norm_num)]
      rw [pow_succ] at h
      exact h
    simp only [toLE, fromLE, ih _ h2]
    omega

/-- The byte at position `i` of a little-endian image is `n / 256 ^ i % 256`. -/
theorem toLE_eq_map (w n : Nat) :
    toLE w n = (List.range w).map (fun i => n / 256 ^ i % 256) := by
  induction w generalizing n with
  | zero => rfl
  | succ w ih =>
    rw [toLE, ih, List.range_succ_eq_map]
    simp only [List.map_cons, pow_zero, Nat.div_one, List.map_map]
    congr 1
    apply List.map_congr_left
    intro i _
    simp [Function.comp, pow_succ, Nat.div_div_eq_div_mul, Nat.mul_comm]

/-! ## Reader round trips -/

theorem readBytes_append (b rest : Bytes) :
    readBytes b.length (b ++ rest) = .ok (b, rest) := by
  simp [readBytes]

theorem UnSerializeUInt_Serialize (w n : Nat) (h : n < 256 ^ w) (rest : Bytes) :
    UnSerializeUInt w (SerializeUInt w n ++ rest) = .ok (n, rest) := by
  unfold UnSerializeUInt SerializeUInt
  have := readBytes_append (toLE w n) rest
  rw [toLE_length] at this
  rw [this]
  simp only [fromLE_toLE w n h]

theorem UnSerializeBool_Serialize (b : Bool) (rest : Bytes) :
    UnSerializeBool (SerializeBool b ++ rest) = .ok (b, rest) := by
  unfold UnSerializeBool SerializeBool
  rw [UnSerializeUInt_Serialize 1 _ (by cases b <;> simp)]
  cases b <;> simp

theorem UnSerializeString_Serialize (str : Bytes) (h : str.length < 2 ^ 64) (rest : Bytes) :
    UnSerializeString (SerializeString str ++ rest) = .ok (str, rest) := by
  unfold UnSerializeString SerializeString
  rw [List.append_assoc, UnSerializeUInt_Serialize 8 _ (by norm_num; exact h)]
  exact readBytes_append str rest

theorem readElements_flatMap {α : Type} (ser : α → Bytes) (elem : Reader α) (v : List α)
    (h : ∀ a ∈ v, ∀ rest, elem (ser a ++ rest) = .ok (a, rest)) (rest : Bytes) :
    readElements elem v.length (v.flatMap ser ++ rest) = .ok (v, rest) := by
  induction v with
  | nil => rfl
  | cons a v ih =>
    simp only [List.length_cons, List.flatMap_cons, List.append_assoc, readElements]
    rw [h a (List.mem_cons_self _ _)]
    simp only
    rw [ih (fun b hb => h b (List.mem_cons_of_mem _ hb))]

theorem UnSerializeVector_Serialize {α : Type} (ser : α → Bytes) (elem : Reader α)
    (v : List α) (hlen : v.length < 2 ^ 64)
    (h : ∀ a ∈ v, ∀ rest, elem (ser a ++ rest) = .ok (a, rest)) (rest : Bytes) :
    UnSerializeVector elem (SerializeVector ser v ++ rest) = .ok (v, rest) := by
  unfold UnSerializeVector SerializeVector
  rw [List.append_assoc, UnSerializeUInt_Serialize 8 _ (by norm_num; exact hlen)]
  exact readElements_flatMap ser elem v h rest

theorem length_flatMap_const {α : Type} (ser : α → Bytes) (w : Nat) (v : List α)
    (h : ∀ a ∈ v, (ser a).length = w) : (v.flatMap ser).length = v.length * w := by
  induction v with
  | nil => simp
  | cons a v ih =>
    simp only [List.flatMap_cons, List.length_append, List.length_cons]
    rw [h a (List.mem_cons_self _ _), ih (fun b hb => h b (List.mem_cons_of_mem _ hb))]
    ring

theorem chunks_flatMap {α : Type} (ser : α → Bytes) (w : Nat) (v : List α)
    (h : ∀ a ∈ v, (ser a).length = w) :
    chunks w v.length (v.flatMap ser) = v.map ser := by
  induction v with
  | nil => rfl
  | cons a v ih =>
    have ha := h a (List.mem_cons_self _ _)
    simp only [List.length_cons, List.flatMap_cons, chunks, List.map_cons]
    rw [← ha, List.take_left, List.drop_left, ha, ih (fun b hb => h b (List.mem_cons_of_mem _ hb))]

theorem UnSerializeVectorTrivial_Serialize {α : Type} (ser : α → Bytes) (w : Nat)
    (decode : Bytes → α) (v : List α) (hlen : v.length < 2 ^ 64)
    (h : ∀ a ∈ v, (ser a).length = w ∧ decode (ser a) = a) (rest : Bytes) :
    UnSerializeVectorTrivial w decode (SerializeVector ser v ++ rest) = .ok (v, rest) := by
  unfold UnSerializeVectorTrivial SerializeVector
  rw [List.append_assoc, UnSerializeUInt_Serialize 8 _ (by norm_num; exact hlen)]
  have hl := length_flatMap_const ser w v (fun a ha => (h a ha).1)
  have := readBytes_append (v.flatMap ser) rest
  rw [hl] at this
  simp only [this]
  rw [chunks_flatMap ser w v (fun a ha => (h a ha).1), List.map_map]
  congr 2
  conv_rhs => rw [← List.map_id v]
  apply List.map_congr_left
  intro a ha
  exact (h a ha).2

namespace Renderer

theorem UnSerialize_byteVector (buf : Bytes) (h : ValidBuffer buf) (rest : Bytes) :
    UnSerializeVectorTrivial 1 fromLE (SerializeVector (SerializeUInt 1) buf ++ rest)
      = .ok (buf, rest) := by
  apply UnSerializeVectorTrivial_Serialize _ _ _ _ h.2
  intro b hb
  exact ⟨toLE_length 1 b, fromLE_toLE 1 b (by simpa using h.1 b hb)⟩

theorem UnSerialize_u32Vector (v : List Nat) (hlen : v.length < 2 ^ 64)
    (h : ∀ i ∈ v, i < 2 ^ 32) (rest : Bytes) :
    UnSerializeVectorTrivial 4 fromLE (SerializeVector (SerializeUInt 4) v ++ rest)
      = .ok (v, rest) := by
  apply UnSerializeVectorTrivial_Serialize _ _ _ _ hlen
  intro b hb
  exact ⟨toLE_length 4 b, fromLE_toLE 4 b (by have := h b hb; norm_num at this ⊢; exact this)⟩

theorem MeshFileMaterialRange_length_Serialize (r : MeshFileMaterialRange) :
    r.Serialize.length = 12 := by
  simp [MeshFileMaterialRange.Serialize, toLE_length]

theorem MeshFileMaterialRange_ofRaw_Serialize (r : MeshFileMaterialRange) (h : r.Valid) :
    MeshFileMaterialRange.ofRaw r.Serialize = r := by
  obtain ⟨h1, h2, h3⟩ := h
  have e1 : (toLE 4 r.MaterialIndex).length = 4 := toLE_length _ _
  have e2 : (toLE 4 r.Offset).length = 4 := toLE_length _ _
  have e3 : (toLE 4 r.Count).length = 4 := toLE_length _ _
  have t1 : (r.Serialize).take 4 = toLE 4 r.MaterialIndex := by
    unfold MeshFileMaterialRange.Serialize
    rw [List.append_assoc, List.take_append_of_le_length (by omega), List.take_of_length_le (by omega)]
  have t2 : ((r.Serialize).drop 4).take 4 = toLE 4 r.Offset := by
    unfold MeshFileMaterialRange.Serialize
    rw [List.append_assoc, List.drop_append_of_le_length (by omega), List.drop_of_length_le (by omega),
      List.nil_append, List.take_append_of_le_length (by omega), List.take_of_length_le (by omega)]
  have t3 : ((r.Serialize).drop 8).take 4 = toLE 4 r.Count := by
    unfold MeshFileMaterialRange.Serialize
    have : (toLE 4 r.MaterialIndex ++ toLE 4 r.Offset).length = 8 := by simp [e1, e2]
    rw [← this, List.drop_left, List.take_of_length_le (by omega)]
  unfold MeshFileMaterialRange.ofRaw
  rw [t1, t2, t3, fromLE_toLE 4 _ (by norm_num at h1 ⊢; exact h1),
    fromLE_toLE 4 _ (by norm_num at h2 ⊢; exact h2), fromLE_toLE 4 _ (by norm_num at h3 ⊢; exact h3)]

theorem MeshFileMorph_UnSerialize_Serialize (m : MeshFileMorph) (h : m.Valid) (rest : Bytes) :
    MeshFileMorph.UnSerialize (m.Serialize ++ rest) = .ok (m, rest) := by
  obtain ⟨hn, hb, hv, hmin, hmax, hbuf⟩ := h
  unfold MeshFileMorph.UnSerialize MeshFileMorph.Serialize
  simp only [List.append_assoc]
  rw [UnSerializeString_Serialize _ hn.2]; dsimp only
  rw [UnSerializeString_Serialize _ hb.2]; dsimp only
  rw [UnSerializeUInt_Serialize 4 _ (by norm_num at hv ⊢; exact hv)]; dsimp only
  rw [UnSerializeUInt_Serialize 4 _ (by norm_num at hmin ⊢; exact hmin)]; dsimp only
  rw [UnSerializeUInt_Serialize 4 _ (by norm_num at hmax ⊢; exact hmax)]; dsimp only
  rw [UnSerialize_byteVector _ hbuf]

theorem MeshFileAttribute_UnSerialize_Serialize (a : MeshFileAttribute) (h : a.Valid)
    (rest : Bytes) :
    MeshFileAttribute.UnSerialize (a.Serialize ++ rest) = .ok (a, rest) := by
  obtain ⟨hn, hd, ht, hbuf, hlen, hm⟩ := h
  unfold MeshFileAttribute.UnSerialize MeshFileAttribute.Serialize
  simp only [List.append_assoc]
  rw [UnSerializeString_Serialize _ hn.2]; dsimp only
  rw [UnSerializeUInt_Serialize 1 _ (by simpa using hd)]; dsimp only
  rw [UnSerializeUInt_Serialize 1 _ (by simpa using ht)]; dsimp only
  rw [UnSerialize_byteVector _ hbuf]; dsimp only
  rw [UnSerializeVector_Serialize MeshFileMorph.Serialize _ _ hlen
    (fun m hmem r => MeshFileMorph_UnSerialize_Serialize m (hm m hmem) r)]

theorem MeshFile_UnSerialize_Serialize (v : MeshFile) (h : v.Valid) (rest : Bytes) :
    MeshFile.UnSerialize (v.Serialize ++ rest) = .ok (v, rest) := by
  obtain ⟨hn, hp, he, hf, hc, ⟨hal, ha⟩, ⟨hul, hu⟩, ⟨hml, hm⟩⟩ := h
  unfold MeshFile.UnSerialize MeshFile.Serialize
  simp only [List.append_assoc]
  rw [UnSerializeString_Serialize _ hn.2]; dsimp only
  rw [UnSerializeUInt_Serialize 4 _ (by norm_num at hp ⊢; exact hp)]; dsimp only
  rw [UnSerializeUInt_Serialize 4 _ (by norm_num at he ⊢; exact he)]; dsimp only
  rw [UnSerializeUInt_Serialize 4 _ (by norm_num at hf ⊢; exact hf)]; dsimp only
  rw [UnSerializeUInt_Serialize 4 _ (by norm_num at hc ⊢; exact hc)]; dsimp only
  rw [UnSerializeVector_Serialize MeshFileAttribute.Serialize _ _ hal
    (fun a hmem r => MeshFileAttribute_UnSerialize_Serialize a (ha a hmem) r)]; dsimp only
  rw [UnSerialize_u32Vector _ hul hu]; dsimp only
  rw [UnSerializeVectorTrivial_Serialize MeshFileMaterialRange.Serialize 12 _ _ hml
    (fun r hr => ⟨MeshFileMaterialRange_length_Serialize r, MeshFileMaterialRange_ofRaw_Serialize r (hm r hr)⟩)]

theorem MeshFileMagic_lt : MeshFileMagic < 256 ^ 4 := by decide

/-- C1. Round trip of the mesh file: for every `MeshFile` value representable in the C++
types, and whatever the opened file held before, `MeshFile::Load` applied to the file
written by `MeshFile::Save` succeeds and returns the value itself, so every field (name,
the four counts, the attributes with their name, domain, type, buffer and morphs in
order, the UV indices and the material ranges) is read back unchanged. -/
theorem MeshFile_Load_Save (v : MeshFile) (old : Bytes) (h : v.Valid) :
    MeshFile.Load (v.Save (some old)) = .ok v := by
  unfold MeshFile.Load MeshFile.Save
  simp only
  rw [UnSerializeUInt_Serialize 4 _ MeshFileMagic_lt]
  simp only [ne_eq, not_true_eq_false, ↓reduceIte]
  have := MeshFile_UnSerialize_Serialize v h []
  rw [List.append_nil] at this
  rw [this]

theorem MeshFile_Load_Save_witness :
    sampleMeshFile.Valid ∧ MeshFile.Load (sampleMeshFile.Save (some [1, 2, 3])) = .ok sampleMeshFile :=
  ⟨by decide, MeshFile_Load_Save sampleMeshFile [1, 2, 3] (by decide)⟩

theorem toLE_eq_layoutInt (w n : Nat) : toLE w n = layoutInt w n := toLE_eq_map w n

theorem SerializeString_eq_layout (s : Bytes) : SerializeString s = layoutString s := by
  simp [SerializeString, layoutString, SerializeUInt, toLE_eq_layoutInt]

theorem flatMap_byte_id (b : Bytes) (h : IsBytes b) : b.flatMap (SerializeUInt 1) = b := by
  induction b with
  | nil => rfl
  | cons x xs ih =>
    have hx : x < 256 := h x (List.mem_cons_self _ _)
    have : SerializeUInt 1 x = [x] := by
      simp [SerializeUInt, toLE, Nat.mod_eq_of_lt hx]
    rw [List.flatMap_cons, this, ih (fun y hy => h y (List.mem_cons_of_mem _ hy))]
    rfl

theorem MeshFileMorph_Serialize_eq_layout (m : MeshFileMorph) (h : m.Valid) :
    m.Serialize = layoutMorph m := by
  obtain ⟨-, -, -, -, -, hbuf⟩ := h
  simp [MeshFileMorph.Serialize, layoutMorph, SerializeString_eq_layout, SerializeVector,
    SerializeUInt, toLE_eq_layoutInt]
  simpa [SerializeUInt] using flatMap_byte_id _ hbuf.1

theorem flatMap_congr_mem {α β : Type} (l : List α) (f g : α → List β)
    (h : ∀ a ∈ l, f a = g a) : l.flatMap f = (l.map g).flatten := by
  induction l with
  | nil => rfl
  | cons a l ih =>
    simp only [List.flatMap_cons, List.map_cons, List.flatten_cons]
    rw [h a (List.mem_cons_self _ _), ih (fun b hb => h b (List.mem_cons_of_mem _ hb))]

theorem MeshFileAttribute_Serialize_eq_layout (a : MeshFileAttribute) (h : a.Valid) :
    a.Serialize = layoutAttribute a := by
  obtain ⟨-, hd, ht, hbuf, -, hm⟩ := h
  have e1 : SerializeUInt 1 a.Domain = [a.Domain] := by
    simp [SerializeUInt, toLE, Nat.mod_eq_of_lt hd]
  have e2 : SerializeUInt 1 a.Type_ = [a.Type_] := by
    simp [SerializeUInt, toLE, Nat.mod_eq_of_lt ht]
  unfold MeshFileAttribute.Serialize layoutAttribute SerializeVector
  rw [e1, e2, flatMap_byte_id _ hbuf.1, SerializeString_eq_layout,
    flatMap_congr_mem _ _ layoutMorph (fun m hmem => MeshFileMorph_Serialize_eq_layout m (hm m hmem))]
  simp [SerializeUInt, toLE_eq_layoutInt]

/-- C10. On-disk layout of a mesh file: for every `MeshFile` value representable in the
C++ types, the bytes `MeshFile::Save` leaves in the opened file are exactly the documented
layout: the four bytes `K M F 0`, the name as a 64-bit length and its raw bytes, the four
counts as 32-bit values, the attribute list as a 64-bit count and each attribute (name
string, one byte domain, one byte type, length-prefixed buffer, counted morph list), the
UV-index list as a 64-bit count and 32-bit indices, the material-range list as a 64-bit
count and 12-byte records; integers little-endian, fields in declaration order. -/
theorem MeshFile_Save_eq_layout (v : MeshFile) (old : Bytes) (h : v.Valid) :
    v.Save (some old) = some (layoutMeshFile v) := by
  obtain ⟨-, -, -, -, -, ⟨-, ha⟩, -, -⟩ := h
  have hmagic : SerializeUInt 4 MeshFileMagic = [75, 77, 70, 0] := by decide
  unfold MeshFile.Save MeshFile.Serialize layoutMeshFile SerializeVector
  simp only [Option.some.injEq]
  rw [hmagic, SerializeString_eq_layout,
    flatMap_congr_mem _ _ layoutAttribute (fun a hmem => MeshFileAttribute_Serialize_eq_layout a (ha a hmem)),
    flatMap_congr_mem v.UvIndices (SerializeUInt 4) (layoutInt 4) (fun i _ => toLE_eq_layoutInt 4 i),
    flatMap_congr_mem v.Materials _ layoutMaterialRange (fun r _ => by
      simp [MeshFileMaterialRange.Serialize, layoutMaterialRange, toLE_eq_layoutInt])]
  simp [SerializeUInt, toLE_eq_layoutInt]

theorem MeshFile_Save_eq_layout_witness :
    sampleMeshFile.Valid ∧
      sampleMeshFile.Save (some []) = some (layoutMeshFile sampleMeshFile) :=
  ⟨by decide, MeshFile_Save_eq_layout sampleMeshFile [] (by decide)⟩

theorem UnSerializeUniquePtr_none {α : Type} (ser : α → Bytes) (elem : Reader α) (rest : Bytes) :
    UnSerializeUniquePtr elem (SerializeUniquePtr ser none ++ rest) = .ok (none, rest) := by
  unfold UnSerializeUniquePtr SerializeUniquePtr
  simp only [UnSerializeBool_Serialize]
  rfl

theorem UnSerializeUniquePtr_some {α : Type} (ser : α → Bytes) (elem : Reader α) (x : α)
    (rest : Bytes) (h : elem (ser x ++ rest) = .ok (x, rest)) :
    UnSerializeUniquePtr elem (SerializeUniquePtr ser (some x) ++ rest) = .ok (some x, rest) := by
  unfold UnSerializeUniquePtr SerializeUniquePtr
  simp only [List.append_assoc, UnSerializeBool_Serialize, ↓reduceIte, h]

theorem serializeChild_eq (c : Option Collection) :
    serializeChild c = SerializeUniquePtr Collection.Serialize c := by
  cases c <;> simp [serializeChild, SerializeUniquePtr]

theorem serializeChildren_eq (cs : List (Option Collection)) :
    serializeChildren cs = cs.flatMap (SerializeUniquePtr Collection.Serialize) := by
  induction cs with
  | nil => rfl
  | cons c cs ih => simp [serializeChildren, ih, serializeChild_eq]

/-- The serializer of a collection is the generic vector / owned-pointer serializer applied
to its fields in declaration order. -/
theorem Collection_Serialize_eq (name : Bytes) (children : List (Option Collection))
    (ids : List Nat) (flags : Nat) :
    (Collection.mk name children ids flags).Serialize =
      SerializeString name ++
        SerializeVector (SerializeUniquePtr Collection.Serialize) children ++
        SerializeVector (SerializeUInt 4) ids ++ SerializeUInt 4 flags := by
  simp [Collection.Serialize, SerializeVector, serializeChildren_eq]

mutual
theorem Collection_UnSerialize_Serialize : ∀ (c : Collection) (d : Nat), c.valid = true →
    c.depth ≤ d → ∀ rest, Collection.UnSerialize d (c.Serialize ++ rest) = .ok (c, rest)
  | .mk name children ids flags, d, hv, hd, rest => by
    simp only [Collection.valid, Bool.and_eq_true, decide_eq_true_eq, List.all_eq_true] at hv
    obtain ⟨⟨⟨⟨⟨hn, hcl⟩, hc⟩, hil⟩, hi⟩, hf⟩ := hv
    simp only [Collection.depth] at hd
    obtain ⟨d, rfl⟩ : ∃ d', d = d' + 1 := ⟨d - 1, by omega⟩
    have hch := children_UnSerialize_Serialize children d hc (by omega)
    rw [Collection_Serialize_eq]
    unfold Collection.UnSerialize
    simp only [List.append_assoc]
    rw [UnSerializeString_Serialize _ hn.2]; dsimp only
    rw [UnSerializeVector_Serialize (SerializeUniquePtr Collection.Serialize) _ _ hcl hch]
    dsimp only
    rw [UnSerialize_u32Vector _ hil hi]; dsimp only
    rw [UnSerializeUInt_Serialize 4 _ (by norm_num at hf ⊢; exact hf)]
theorem children_UnSerialize_Serialize : ∀ (cs : List (Option Collection)) (d : Nat),
    validChildren cs = true → depthChildren cs ≤ d → ∀ c ∈ cs, ∀ rest,
      UnSerializeUniquePtr (Collection.UnSerialize d)
        (SerializeUniquePtr Collection.Serialize c ++ rest) = .ok (c, rest)
  | [], _, _, _, c, hc, _ => by simp at hc
  | c0 :: cs, d, hv, hd, c, hc, rest => by
    simp only [validChildren, Bool.and_eq_true] at hv
    simp only [depthChildren] at hd
    rcases List.mem_cons.mp hc with rfl | hmem
    · exact child_UnSerialize_Serialize c d hv.1 (by omega) rest
    · exact children_UnSerialize_Serialize cs d hv.2 (by omega) c hmem rest
theorem child_UnSerialize_Serialize : ∀ (c : Option Collection) (d : Nat),
    validChild c = true → depthChild c ≤ d → ∀ rest,
      UnSerializeUniquePtr (Collection.UnSerialize d)
        (SerializeUniquePtr Collection.Serialize c ++ rest) = .ok (c, rest)
  | none, _, _, _, rest => UnSerializeUniquePtr_none _ _ rest
  | some c, d, hv, hd, rest =>
    UnSerializeUniquePtr_some _ _ c rest
      (Collection_UnSerialize_Serialize c d (by simpa [validChild] using hv)
        (by simpa [depthChild] using hd) rest)
end

mutual
theorem Collection_depth_le_length : ∀ c : Collection, c.depth ≤ c.Serialize.length
  | .mk name children ids flags => by
    have := depthChildren_le_length children
    simp only [Collection.depth, Collection.Serialize, List.length_append, SerializeUInt,
      toLE_length, SerializeString]
    omega
theorem depthChildren_le_length : ∀ cs : List (Option Collection),
    depthChildren cs ≤ (serializeChildren cs).length
  | [] => by simp [depthChildren]
  | c :: cs => by
    have h1 := depthChild_le_length c
    have h2 := depthChildren_le_length cs
    simp only [depthChildren, serializeChildren, List.length_append]
    omega
theorem depthChild_le_length : ∀ c : Option Collection,
    depthChild c ≤ (serializeChild c).length
  | none => by simp [depthChild]
  | some c => by
    have := Collection_depth_le_length c
    simp only [depthChild, serializeChild, List.length_append]
    omega
end

theorem MeshFileMaterial_UnSerialize_Serialize (m : MeshFileMaterial) (h : ValidBuffer m.Name)
    (rest : Bytes) : MeshFileMaterial.UnSerialize (m.Serialize ++ rest) = .ok (m, rest) := by
  unfold MeshFileMaterial.UnSerialize MeshFileMaterial.Serialize
  rw [UnSerializeString_Serialize _ h.2]

theorem readBytes_raw (n : Nat) (b : Bytes) (h : ValidRaw n b) (rest : Bytes) :
    readBytes n (b ++ rest) = .ok (b, rest) := by
  have := readBytes_append b rest
  rwa [h.2] at this

theorem ObjectInstance_UnSerialize_Serialize (o : ObjectInstance) (h : o.Valid) (rest : Bytes) :
    ObjectInstance.UnSerialize (o.Serialize ++ rest) = .ok (o, rest) := by
  obtain ⟨hn, hd, hl, hm, hr, hq, hs, hf⟩ := h
  unfold ObjectInstance.UnSerialize ObjectInstance.Serialize
  simp only [List.append_assoc]
  rw [UnSerializeString_Serialize _ hn.2]; dsimp only
  rw [UnSerializeUInt_Serialize 4 _ (by norm_num at hd ⊢; exact hd)]; dsimp only
  rw [readBytes_raw _ _ hl]; dsimp only
  rw [UnSerializeUInt_Serialize 1 _ (by simpa using hm)]; dsimp only
  rw [readBytes_raw _ _ hr]; dsimp only
  rw [readBytes_raw _ _ hq]; dsimp only
  rw [readBytes_raw _ _ hs]; dsimp only
  rw [UnSerializeUInt_Serialize 4 _ (by norm_num at hf ⊢; exact hf)]

theorem SceneFile_UnSerialize_Serialize (v : SceneFile) (h : v.Valid) :
    SceneFile.UnSerialize v.Serialize = .ok (v, []) := by
  obtain ⟨⟨hml, hm⟩, ⟨hol, ho⟩, ⟨hmatl, hmat⟩, hc⟩ := h
  unfold SceneFile.UnSerialize SceneFile.Serialize
  simp only [List.append_assoc]
  rw [UnSerializeVector_Serialize MeshFile.Serialize _ _ hml
    (fun m hmem r => MeshFile_UnSerialize_Serialize m (hm m hmem) r)]; dsimp only
  rw [UnSerializeVector_Serialize ObjectInstance.Serialize _ _ hol
    (fun o hmem r => ObjectInstance_UnSerialize_Serialize o (ho o hmem) r)]; dsimp only
  rw [UnSerializeVector_Serialize MeshFileMaterial.Serialize _ _ hmatl
    (fun m hmem r => MeshFileMaterial_UnSerialize_Serialize m (hmat m hmem) r)]; dsimp only
  have hd : depthChild v.Collection ≤
      (SerializeUniquePtr Collection.Serialize v.Collection).length + 1 := by
    have := depthChild_le_length v.Collection
    rw [serializeChild_eq] at this
    omega
  have := child_UnSerialize_Serialize v.Collection _ hc hd []
  rw [List.append_nil] at this
  rw [this]

theorem SceneFileMagic_lt : SceneFileMagic < 256 ^ 4 := by decide

/-- C2. Round trip of the scene file: for every `SceneFile` value representable in the C++
types (any lists of meshes, objects and materials, a root collection that is absent or a
finite tree of any depth and branching, null children included), and whatever the opened
file held before, `SceneFile::Load` applied to the file written by `SceneFile::Save` returns
the value itself: an absent root is read back as absent and every collection of the tree
comes back with the same name, children in the same order, object ids and flags. -/
theorem SceneFile_Load_Save (v : SceneFile) (old : Bytes) (h : v.Valid) :
    SceneFile.Load (v.Save (some old)) = .ok v := by
  unfold SceneFile.Load SceneFile.Save
  simp only
  rw [UnSerializeUInt_Serialize 4 _ SceneFileMagic_lt]
  simp only [ne_eq, not_true_eq_false, ↓reduceIte]
  rw [SceneFile_UnSerialize_Serialize v h]

theorem SceneFile_Load_Save_witness :
    (sampleSceneFile.Valid ∧ SceneFile.Load (sampleSceneFile.Save (some [])) = .ok sampleSceneFile) ∧
    (emptySceneFile.Valid ∧ SceneFile.Load (emptySceneFile.Save (some [9])) = .ok emptySceneFile) :=
  ⟨⟨by decide, SceneFile_Load_Save sampleSceneFile [] (by decide)⟩,
   ⟨by decide, SceneFile_Load_Save emptySceneFile [9] (by decide)⟩⟩

/-! ## The scan of the material ids -/

theorem runLength_spec (ids : List Nat) (i id : Nat) :
    ∀ (fuel count : Nat), i + count < ids.length → (∀ j, j ≤ count → ids.getD (i + j) 0 = id) →
      ids.length - (i + count) ≤ fuel →
      count + 1 ≤ runLength ids i id fuel count ∧
        i + runLength ids i id fuel count ≤ ids.length ∧
        ∀ j, j < runLength ids i id fuel count → ids.getD (i + j) 0 = id := by
  intro fuel
  induction fuel with
  | zero => intro count h1 _ h3; omega
  | succ fuel ih =>
    intro count h1 h2 h3
    unfold runLength
    split
    · rename_i hc
      have := ih (count + 1) hc.1 (fun j hj => by
        rcases Nat.lt_or_ge j (count + 1) with h | h
        · exact h2 j (by omega)
        · have : j = count + 1 := by omega
          subst this; exact hc.2) (by omega)
      refine ⟨by omega, this.2.1, this.2.2⟩
    · refine ⟨le_refl _, by omega, fun j hj => h2 j (by omega)⟩

theorem scanRuns_eq_foldl (ids : List Nat) :
    ∀ (fuel i : Nat) (m : RangeMap),
      scanRuns ids fuel i m = (runSeq ids fuel i).foldl (fun m r => m.emplaceBack r.1 r.2) m := by
  intro fuel
  induction fuel with
  | zero => intro i m; rfl
  | succ fuel ih =>
    intro i m
    unfold scanRuns runSeq
    split
    · simp only [List.foldl_cons]
      exact ih _ _
    · rfl

theorem runSeq_tiles (ids : List Nat) :
    ∀ (fuel i : Nat), i ≤ ids.length → ids.length - i ≤ fuel → Tiles ids i (runSeq ids fuel i) := by
  intro fuel
  induction fuel with
  | zero =>
    intro i h1 h2
    simp only [runSeq, Tiles]
    omega
  | succ fuel ih =>
    intro i h1 h2
    unfold runSeq
    split
    · rename_i hi
      have hs := runLength_spec ids i (ids.getD i 0) ids.length 0 (by simpa using hi)
        (fun j hj => by have : j = 0 := by omega
                        subst this; rfl) (by omega)
      simp only [Tiles]
      refine ⟨trivial, by omega, hs.2.1, hs.2.2, ih _ hs.2.1 (by omega)⟩
    · simp only [Tiles]; omega

/-- The map built by the scan is the fold of `emplaceBack` over a tiling of all faces. -/
theorem matIdRanges_eq (ids : List Nat) :
    matIdRanges ids =
        (runSeq ids ids.length 0).foldl (fun (m : RangeMap) r => m.emplaceBack r.1 r.2) [] ∧
      Tiles ids 0 (runSeq ids ids.length 0) :=
  ⟨scanRuns_eq_foldl ids _ _ _, runSeq_tiles ids _ _ (Nat.zero_le _) (by omega)⟩

/-! ### Consequences of a tiling -/

theorem Tiles_mem (ids : List Nat) : ∀ (runs : List (Nat × (Nat × Nat))) (i : Nat),
    Tiles ids i runs → ∀ r ∈ runs, i ≤ r.2.1 ∧ 1 ≤ r.2.2 ∧ r.2.1 + r.2.2 ≤ ids.length ∧
      ∀ j, j < r.2.2 → ids.getD (r.2.1 + j) 0 = r.1 := by
  intro runs
  induction runs with
  | nil => intro i _ r hr; simp at hr
  | cons x rest ih =>
    intro i h r hr
    obtain ⟨id, off, cnt⟩ := x
    simp only [Tiles] at h
    obtain ⟨rfl, h1, h2, h3, h4⟩ := h
    rcases List.mem_cons.mp hr with rfl | hmem
    · exact ⟨le_refl _, h1, h2, h3⟩
    · have := ih _ h4 r hmem
      exact ⟨by omega, this.2⟩

/-- Runs are disjoint and laid out in increasing offset order. -/
theorem Tiles_pairwise (ids : List Nat) : ∀ (runs : List (Nat × (Nat × Nat))) (i : Nat),
    Tiles ids i runs → runs.Pairwise (fun r s => r.2.1 + r.2.2 ≤ s.2.1) := by
  intro runs
  induction runs with
  | nil => intro i _; exact List.Pairwise.nil
  | cons x rest ih =>
    intro i h
    obtain ⟨id, off, cnt⟩ := x
    simp only [Tiles] at h
    obtain ⟨rfl, h1, h2, h3, h4⟩ := h
    refine List.Pairwise.cons (fun s hs => ?_) (ih _ h4)
    exact (Tiles_mem ids rest _ h4 s hs).1

/-- The runs cover exactly the faces `i .. ids.length`, in order. -/
theorem Tiles_cover (ids : List Nat) : ∀ (runs : List (Nat × (Nat × Nat))) (i : Nat),
    Tiles ids i runs →
      runs.flatMap (fun r => List.range' r.2.1 r.2.2) = List.range' i (ids.length - i) := by
  intro runs
  induction runs with
  | nil => intro i h; simp only [Tiles] at h; subst h; simp
  | cons x rest ih =>
    intro i h
    obtain ⟨id, off, cnt⟩ := x
    simp only [Tiles] at h
    obtain ⟨rfl, h1, h2, h3, h4⟩ := h
    simp only [List.flatMap_cons, ih _ h4]
    rw [List.range'_append_1]
    congr 1
    omega

/-- The ids from face `i` on are the ids of the runs, each repeated over its run. -/
theorem Tiles_ids (ids : List Nat) : ∀ (runs : List (Nat × (Nat × Nat))) (i : Nat),
    Tiles ids i runs →
      ids.drop i = runs.flatMap (fun r => List.replicate r.2.2 r.1) := by
  intro runs
  induction runs with
  | nil => intro i h; simp only [Tiles] at h; subst h; simp
  | cons x rest ih =>
    intro i h
    obtain ⟨id, off, cnt⟩ := x
    simp only [Tiles] at h
    obtain ⟨rfl, h1, h2, h3, h4⟩ := h
    simp only [List.flatMap_cons, ← ih _ h4]
    have : ids.drop off = (ids.drop off).take cnt ++ (ids.drop off).drop cnt :=
      (List.take_append_drop _ _).symm
    rw [this, List.drop_drop]
    congr 1
    · apply List.ext_getElem
      · simp; omega
      · intro j hj1 hj2
        simp only [List.length_replicate] at hj2
        have := h3 j hj2
        rw [List.getD_eq_getElem _ _ (by omega)] at this
        simp [this]

/-! ## The ordered map of runs -/

theorem emplaceBack_keys (id : Nat) (r : Nat × Nat) : ∀ (m : RangeMap),
    ∀ e ∈ m.emplaceBack id r, e.1 = id ∨ ∃ f ∈ m, f.1 = e.1 := by
  intro m
  induction m with
  | nil => intro e he; simp only [RangeMap.emplaceBack, List.mem_singleton] at he; subst he; simp
  | cons x tl ih =>
    obtain ⟨k, rs⟩ := x
    intro e he
    unfold RangeMap.emplaceBack at he
    split at he
    · rcases List.mem_cons.mp he with rfl | h
      · simp
      · exact Or.inr ⟨e, h, rfl⟩
    · split at he
      · rcases List.mem_cons.mp he with rfl | h
        · exact Or.inr ⟨(k, rs), List.mem_cons_self _ _, rfl⟩
        · exact Or.inr ⟨e, List.mem_cons_of_mem _ h, rfl⟩
      · rcases List.mem_cons.mp he with rfl | h
        · exact Or.inr ⟨(k, rs), List.mem_cons_self _ _, rfl⟩
        · rcases ih e h with h1 | ⟨f, hf, hfe⟩
          · exact Or.inl h1
          · exact Or.inr ⟨f, List.mem_cons_of_mem _ hf, hfe⟩

theorem emplaceBack_sorted (id : Nat) (r : Nat × Nat) : ∀ (m : RangeMap),
    m.Pairwise (fun e f => e.1 < f.1) → (m.emplaceBack id r).Pairwise (fun e f => e.1 < f.1) := by
  intro m
  induction m with
  | nil => intro _; simp [RangeMap.emplaceBack]
  | cons x tl ih =>
    obtain ⟨k, rs⟩ := x
    intro h
    have hhd := (List.pairwise_cons.mp h).1
    have htl := (List.pairwise_cons.mp h).2
    unfold RangeMap.emplaceBack
    split
    · rename_i hlt
      refine List.Pairwise.cons (fun f hf => ?_) h
      rcases List.mem_cons.mp hf with rfl | hf
      · exact hlt
      · exact lt_trans hlt (hhd f hf)
    · split
      · exact List.Pairwise.cons (fun f hf => hhd f hf) htl
      · refine List.Pairwise.cons (fun f hf => ?_) (ih htl)
        rcases emplaceBack_keys id r tl f hf with h1 | ⟨g, hg, hgf⟩
        · simp only at *; omega
        · rw [← hgf]; exact hhd g hg

theorem emplaceBack_nonempty (id : Nat) (r : Nat × Nat) : ∀ (m : RangeMap),
    (∀ e ∈ m, e.2 ≠ []) → ∀ e ∈ m.emplaceBack id r, e.2 ≠ [] := by
  intro m
  induction m with
  | nil => intro _ e he; simp only [RangeMap.emplaceBack, List.mem_singleton] at he; subst he; simp
  | cons x tl ih =>
    obtain ⟨k, rs⟩ := x
    intro h e he
    unfold RangeMap.emplaceBack at he
    split at he
    · rcases List.mem_cons.mp he with rfl | he
      · simp
      · exact h e he
    · split at he
      · rcases List.mem_cons.mp he with rfl | he
        · simp
        · exact h e (List.mem_cons_of_mem _ he)
      · rcases List.mem_cons.mp he with rfl | he
        · exact h _ (List.mem_cons_self _ _)
        · exact ih (fun f hf => h f (List.mem_cons_of_mem _ hf)) e he

theorem bucket_eq_nil_of_lt (k : Nat) : ∀ (m : RangeMap),
    (∀ e ∈ m, k < e.1) → m.bucket k = [] := by
  intro m
  induction m with
  | nil => intro _; rfl
  | cons x tl ih =>
    obtain ⟨k', rs⟩ := x
    intro h
    have := h (k', rs) (List.mem_cons_self _ _)
    simp only at this
    simp only [RangeMap.bucket]
    rw [if_neg (by omega)]
    exact ih (fun e he => h e (List.mem_cons_of_mem _ he))

theorem emplaceBack_bucket (id : Nat) (r : Nat × Nat) (k : Nat) : ∀ (m : RangeMap),
    m.Pairwise (fun e f => e.1 < f.1) →
      (m.emplaceBack id r).bucket k = if k = id then m.bucket id ++ [r] else m.bucket k := by
  intro m
  induction m with
  | nil =>
    intro _
    simp only [RangeMap.emplaceBack, RangeMap.bucket]
    by_cases hk : k = id
    · simp [hk]
    · have : ¬ id = k := fun h => hk h.symm
      simp [hk, this]
  | cons x tl ih =>
    obtain ⟨k', rs⟩ := x
    intro h
    have hhd := (List.pairwise_cons.mp h).1
    have htl := (List.pairwise_cons.mp h).2
    unfold RangeMap.emplaceBack
    split
    · rename_i hlt
      by_cases hk : k = id
      · subst hk
        have hnil : RangeMap.bucket ((k', rs) :: tl) k = [] :=
          bucket_eq_nil_of_lt k _ (fun e he => by
            rcases List.mem_cons.mp he with rfl | he
            · exact hlt
            · exact lt_trans hlt (hhd e he))
        rw [if_pos rfl, hnil]
        simp [RangeMap.bucket]
      · have : ¬ id = k := fun h => hk h.symm
        simp only [RangeMap.bucket, this, hk, if_false]
    · split
      · rename_i hne heq
        subst heq
        by_cases hk : k = id
        · subst hk
          simp [RangeMap.bucket]
        · have : ¬ id = k := fun h => hk h.symm
          simp [RangeMap.bucket, hk, this]
      · rename_i hne1 hne2
        simp only [RangeMap.bucket]
        by_cases hk' : k' = k
        · subst hk'
          have : ¬ k' = id := fun h => hne2 h.symm
          simp [this]
        · simp only [hk', if_false]
          rw [ih htl]
          by_cases hk : k = id
          · subst hk
            simp [hk']
          · simp [hk]

theorem bucket_of_mem : ∀ (m : RangeMap), m.Pairwise (fun e f => e.1 < f.1) →
    ∀ e ∈ m, m.bucket e.1 = e.2 := by
  intro m
  induction m with
  | nil => intro _ e he; simp at he
  | cons x tl ih =>
    obtain ⟨k', rs⟩ := x
    intro h e he
    have hhd := (List.pairwise_cons.mp h).1
    have htl := (List.pairwise_cons.mp h).2
    rcases List.mem_cons.mp he with rfl | he
    · simp [RangeMap.bucket]
    · have := hhd e he
      simp only at this
      simp only [RangeMap.bucket]
      rw [if_neg (by omega)]
      exact ih htl e he

theorem bucket_ne_nil_mem : ∀ (m : RangeMap) (k : Nat), m.bucket k ≠ [] →
    ∃ e ∈ m, e.1 = k := by
  intro m
  induction m with
  | nil => intro k h; simp [RangeMap.bucket] at h
  | cons x tl ih =>
    obtain ⟨k', rs⟩ := x
    intro k h
    simp only [RangeMap.bucket] at h
    by_cases hk : k' = k
    · exact ⟨(k', rs), List.mem_cons_self _ _, hk⟩
    · rw [if_neg hk] at h
      obtain ⟨e, he, hek⟩ := ih k h
      exact ⟨e, List.mem_cons_of_mem _ he, hek⟩

theorem emplaceBack_ranges_perm (id : Nat) (r : Nat × Nat) : ∀ (m : RangeMap),
    (m.emplaceBack id r).ranges.Perm (r :: m.ranges) := by
  intro m
  induction m with
  | nil => simp [RangeMap.emplaceBack, RangeMap.ranges]
  | cons x tl ih =>
    obtain ⟨k, rs⟩ := x
    unfold RangeMap.emplaceBack
    split
    · simp [RangeMap.ranges]
    · split
      · simp only [RangeMap.ranges, List.flatMap_cons, List.append_assoc]
        exact List.perm_middle
      · simp only [RangeMap.ranges, List.flatMap_cons]
        have h1 : (rs ++ (RangeMap.emplaceBack tl id r).ranges).Perm
            (rs ++ r :: RangeMap.ranges tl) := List.Perm.append_left rs ih
        exact h1.trans List.perm_middle

theorem runsOf_append_singleton (k id : Nat) (r : Nat × Nat)
    (p : List (Nat × (Nat × Nat))) :
    runsOf k (p ++ [(id, r)]) = if k = id then runsOf k p ++ [r] else runsOf k p := by
  unfold runsOf
  by_cases hk : k = id
  · subst hk; simp [List.filter_append]
  · have : ¬ id = k := fun h => hk h.symm
    simp [List.filter_append, hk, this]

theorem MapInv_emplaceBack (m : RangeMap) (p : List (Nat × (Nat × Nat))) (id : Nat)
    (r : Nat × Nat) (h : MapInv m p) : MapInv (m.emplaceBack id r) (p ++ [(id, r)]) := by
  obtain ⟨h1, h2, h3⟩ := h
  refine ⟨emplaceBack_sorted id r m h1, emplaceBack_nonempty id r m h2, fun k => ?_⟩
  rw [emplaceBack_bucket id r k m h1, runsOf_append_singleton]
  by_cases hk : k = id
  · subst hk; simp [h3]
  · simp [hk, h3]

theorem MapInv_foldl : ∀ (rest p : List (Nat × (Nat × Nat))) (m : RangeMap), MapInv m p →
    MapInv (rest.foldl (fun (m : RangeMap) r => m.emplaceBack r.1 r.2) m) (p ++ rest) ∧
      (rest.foldl (fun (m : RangeMap) r => m.emplaceBack r.1 r.2) m).ranges.Perm
        (m.ranges ++ rest.map (fun x => x.2)) := by
  intro rest
  induction rest with
  | nil => intro p m h; simpa using h
  | cons x rest ih =>
    intro p m h
    have := ih (p ++ [x]) (m.emplaceBack x.1 x.2) (MapInv_emplaceBack m p x.1 x.2 h)
    simp only [List.foldl_cons, List.append_assoc, List.singleton_append, List.map_cons] at this ⊢
    refine ⟨this.1, this.2.trans ?_⟩
    have hp := (emplaceBack_ranges_perm x.1 x.2 m).append_right (rest.map fun x => x.2)
    have hmid : (x.2 :: (RangeMap.ranges m ++ rest.map fun x => x.2)).Perm
        (RangeMap.ranges m ++ x.2 :: rest.map fun x => x.2) := List.perm_middle.symm
    exact hp.trans (by simpa using hmid)

/-- The map of the scan: ascending keys, and under each key the runs of that material in
scan order; its pairs are a rearrangement of the runs. -/
theorem matIdRanges_inv (ids : List Nat) :
    MapInv (matIdRanges ids) (runSeq ids ids.length 0) ∧
      (matIdRanges ids).ranges.Perm ((runSeq ids ids.length 0).map (fun x => x.2)) := by
  have h := MapInv_foldl (runSeq ids ids.length 0) [] []
    ⟨List.Pairwise.nil, by simp, fun k => by simp [RangeMap.bucket, runsOf]⟩
  rw [← (matIdRanges_eq ids).1] at h
  simpa [RangeMap.ranges] using h

/-! ## The face order is the stable sort by material id -/

theorem faceOrder_perm (ids : List Nat) : (faceOrder ids).Perm (List.range ids.length) := by
  have h := (matIdRanges_inv ids).2
  have hc := Tiles_cover ids _ 0 (matIdRanges_eq ids).2
  unfold faceOrder
  refine (List.Perm.flatMap_right _ h).trans ?_
  rw [List.flatMap_map, hc, List.range_eq_range']
  simp

theorem mem_runsOf (k : Nat) (r : Nat × Nat) (runs : List (Nat × (Nat × Nat))) :
    r ∈ runsOf k runs ↔ (k, r) ∈ runs := by
  unfold runsOf
  simp only [List.mem_map, List.mem_filter, decide_eq_true_eq]
  constructor
  · rintro ⟨x, ⟨hx, rfl⟩, rfl⟩; exact hx
  · intro h; exact ⟨(k, r), ⟨h, rfl⟩, rfl⟩

theorem runsOf_pairwise (k : Nat) (runs : List (Nat × (Nat × Nat)))
    (h : runs.Pairwise (fun r s => r.2.1 + r.2.2 ≤ s.2.1)) :
    (runsOf k runs).Pairwise (fun r s => r.1 + r.2 ≤ s.1) := by
  unfold runsOf
  rw [List.pairwise_map]
  exact h.filter _

/-- Every face laid out from the entry of key `k` has material id `k`. -/
theorem faceOrder_bucket_id (ids : List Nat) (e : Nat × List (Nat × Nat))
    (he : e ∈ matIdRanges ids) (a : Nat) (ha : a ∈ e.2.flatMap (fun r => List.range' r.1 r.2)) :
    a < ids.length ∧ ids.getD a 0 = e.1 := by
  obtain ⟨⟨h1, _, h3⟩, _⟩ := matIdRanges_inv ids
  have ht := (matIdRanges_eq ids).2
  rw [List.mem_flatMap] at ha
  obtain ⟨r, hr, har⟩ := ha
  have hb := bucket_of_mem _ h1 e he
  rw [h3] at hb
  rw [← hb, mem_runsOf] at hr
  have := Tiles_mem ids _ 0 ht _ hr
  simp only at this
  rw [List.mem_range'_1] at har
  obtain ⟨j, rfl⟩ : ∃ j, a = r.1 + j := ⟨a - r.1, by omega⟩
  exact ⟨by omega, this.2.2.2 j (by omega)⟩

theorem faceOrder_pairwise (ids : List Nat) : (faceOrder ids).Pairwise (FaceBefore ids) := by
  obtain ⟨⟨h1, _, h3⟩, _⟩ := matIdRanges_inv ids
  have ht := (matIdRanges_eq ids).2
  unfold faceOrder RangeMap.ranges
  rw [List.flatMap_assoc, List.pairwise_flatMap]
  constructor
  · intro e he
    have hb := bucket_of_mem _ h1 e he
    rw [h3] at hb
    rw [List.pairwise_flatMap]
    constructor
    · intro r hr
      rw [← hb, mem_runsOf] at hr
      have hmem := Tiles_mem ids _ 0 ht _ hr
      simp only at hmem
      have : (List.range' r.1 r.2).Pairwise (· < ·) := List.pairwise_lt_range' _ _
      refine List.Pairwise.imp_of_mem ?_ this
      intro a b ha hb' hab
      rw [List.mem_range'_1] at ha hb'
      obtain ⟨j, rfl⟩ : ∃ j, a = r.1 + j := ⟨a - r.1, by omega⟩
      obtain ⟨j', rfl⟩ : ∃ j, b = r.1 + j := ⟨b - r.1, by omega⟩
      right
      exact ⟨by rw [hmem.2.2.2 j (by omega), hmem.2.2.2 j' (by omega)], hab⟩
    · have hp := runsOf_pairwise e.1 _ (Tiles_pairwise ids _ 0 ht)
      rw [hb] at hp
      refine List.Pairwise.imp_of_mem ?_ hp
      intro r s hr hs hrs a ha b hb'
      have ida := faceOrder_bucket_id ids e he a (List.mem_flatMap.mpr ⟨r, hr, ha⟩)
      have idb := faceOrder_bucket_id ids e he b (List.mem_flatMap.mpr ⟨s, hs, hb'⟩)
      rw [List.mem_range'_1] at ha hb'
      right
      exact ⟨by rw [ida.2, idb.2], by omega⟩
  · refine List.Pairwise.imp_of_mem ?_ h1
    intro e f he hf hef a ha b hb
    have ida := faceOrder_bucket_id ids e he a ha
    have idb := faceOrder_bucket_id ids f hf b hb
    left
    rw [ida.2, idb.2]
    exact hef

/-- A list of faces that is a rearrangement of `0 .. n-1` and is laid out by `FaceBefore`
is the face order: the stable sort by material id is unique. -/
theorem faceOrder_unique (ids : List Nat) (l : List Nat) (hp : l.Perm (List.range ids.length))
    (hs : l.Pairwise (FaceBefore ids)) : l = faceOrder ids :=
  List.eq_of_perm_of_sorted (hp.trans (faceOrder_perm ids).symm) hs (faceOrder_pairwise ids)

/-! ## Rebuilding a buffer -/

theorem slice_add (buf : Bytes) (a x y : Nat) :
    slice buf a (x + y) = slice buf a x ++ slice buf (a + x) y := by
  unfold slice
  rw [List.take_add, List.drop_drop]

/-- A span of `c` elements from element `o` on is the elements `o .. o+c-1` in order. -/
theorem slice_eq_elements (buf : Bytes) (bs : Nat) : ∀ (c o : Nat),
    slice buf (o * bs) (c * bs) = (List.range' o c).flatMap (element buf bs) := by
  intro c
  induction c with
  | zero => intro o; simp [slice]
  | succ c ih =>
    intro o
    rw [List.range'_succ, List.flatMap_cons, ← ih (o + 1)]
    have : (c + 1) * bs = bs + c * bs := by ring
    rw [this, slice_add]
    unfold element
    congr 2
    ring

theorem gatherRanges_eq (buf : Bytes) (bs : Nat) : ∀ (ranges : List (Nat × Nat)),
    (∀ r ∈ ranges, (r.1 + r.2) * bs ≤ buf.length) →
      gatherRanges buf bs ranges =
        .ok ((ranges.flatMap (fun r => List.range' r.1 r.2)).flatMap (element buf bs)) := by
  intro ranges
  induction ranges with
  | nil => intro _; rfl
  | cons r rest ih =>
    obtain ⟨o, c⟩ := r
    intro h
    unfold gatherRanges
    rw [if_pos (h (o, c) (List.mem_cons_self _ _)),
      ih (fun r hr => h r (List.mem_cons_of_mem _ hr))]
    simp only [List.flatMap_cons, List.flatMap_append, slice_eq_elements]

theorem gatherRanges_bounds (buf : Bytes) (bs : Nat) : ∀ (ranges : List (Nat × Nat)) (x : Bytes),
    gatherRanges buf bs ranges = .ok x → ∀ r ∈ ranges, (r.1 + r.2) * bs ≤ buf.length := by
  intro ranges
  induction ranges with
  | nil => intro _ _ r hr; simp at hr
  | cons r0 rest ih =>
    obtain ⟨o, c⟩ := r0
    intro x h r hr
    unfold gatherRanges at h
    split at h
    · rename_i hb
      split at h
      · rename_i tl htl
        rcases List.mem_cons.mp hr with rfl | hr
        · exact hb
        · exact ih tl htl r hr
      · cases h
    · cases h

theorem element_length (buf : Bytes) (bs f : Nat) (h : (f + 1) * bs ≤ buf.length) :
    (element buf bs f).length = bs := by
  unfold element slice
  rw [List.length_take, List.length_drop]
  have : (f + 1) * bs = f * bs + bs := by ring
  omega

theorem flatMap_element_length (buf : Bytes) (bs : Nat) (l : List Nat) (n : Nat)
    (hl : ∀ f ∈ l, f < n) (hb : n * bs ≤ buf.length) :
    (l.flatMap (element buf bs)).length = l.length * bs := by
  apply length_flatMap_const
  intro f hf
  apply element_length
  have := hl f hf
  calc (f + 1) * bs ≤ n * bs := Nat.mul_le_mul_right _ (by omega)
    _ ≤ buf.length := hb

/-- The elements `0 .. n-1` in order are the first `n * bs` bytes. -/
theorem flatMap_element_range (buf : Bytes) (bs n : Nat) :
    (List.range n).flatMap (element buf bs) = buf.take (n * bs) := by
  rw [List.range_eq_range', ← slice_eq_elements]
  simp [slice]

theorem mem_ranges_bound (ids : List Nat) (r : Nat × Nat) (hr : r ∈ (matIdRanges ids).ranges) :
    r.1 + r.2 ≤ ids.length := by
  have hp := (matIdRanges_inv ids).2
  have := (hp.mem_iff).mp hr
  rw [List.mem_map] at this
  obtain ⟨x, hx, rfl⟩ := this
  exact (Tiles_mem ids _ 0 (matIdRanges_eq ids).2 x hx).2.2.1

theorem mem_faceOrder_lt (ids : List Nat) (f : Nat) (hf : f ∈ faceOrder ids) : f < ids.length := by
  have := ((faceOrder_perm ids).mem_iff).mp hf
  simpa using this

theorem faceOrder_length (ids : List Nat) : (faceOrder ids).length = ids.length := by
  simpa using (faceOrder_perm ids).length_eq

/-- The buffer rebuilt from the map of the scan holds the elements in face order. -/
theorem gatherRanges_matIdRanges (buf : Bytes) (bs : Nat) (ids : List Nat)
    (h : ids.length * bs ≤ buf.length) :
    gatherRanges buf bs (matIdRanges ids).ranges =
      .ok ((faceOrder ids).flatMap (element buf bs)) := by
  rw [gatherRanges_eq]
  · rfl
  · intro r hr
    calc (r.1 + r.2) * bs ≤ ids.length * bs := Nat.mul_le_mul_right _ (mem_ranges_bound ids r hr)
      _ ≤ buf.length := h

/-! ## The attribute loop -/

theorem gatherRanges_length (buf : Bytes) (bs : Nat) (ids : List Nat) (x : Bytes)
    (h : gatherRanges buf bs (matIdRanges ids).ranges = .ok x) :
    x = (faceOrder ids).flatMap (element buf bs) ∧ x.length = ids.length * bs := by
  have hb := gatherRanges_bounds buf bs _ x h
  rw [gatherRanges_eq buf bs _ hb] at h
  have hx : x = (faceOrder ids).flatMap (element buf bs) := by
    cases h; rfl
  refine ⟨hx, ?_⟩
  rw [hx, ← faceOrder_length ids]
  apply length_flatMap_const
  intro f hf
  apply element_length
  unfold faceOrder at hf
  rw [List.mem_flatMap] at hf
  obtain ⟨r, hr, hfr⟩ := hf
  rw [List.mem_range'_1] at hfr
  calc (f + 1) * bs ≤ (r.1 + r.2) * bs := Nat.mul_le_mul_right _ (by omega)
    _ ≤ buf.length := hb r hr

theorem reorderAttribute_iff (ids : List Nat) (cpf : Nat) (a a' : MeshFileAttribute) :
    reorderAttribute (matIdRanges ids) cpf a = .ok a' ↔
      Reorderable ids cpf a ∧ a' = reorderedAttribute ids cpf a := by
  unfold reorderAttribute Reorderable reorderedAttribute
  by_cases hd : a.Domain = MeshAttributeDomain.Corner ∨ a.Domain = MeshAttributeDomain.Face
  · simp only [hd, if_true, forall_const]
    cases hsz : ByteSizeOfAttribute a.Type_ with
    | error e => simp
    | ok size =>
      simp only [Except.ok.injEq, exists_eq_left']
      constructor
      · intro h
        split at h
        · cases h
        · rename_i atData hg
          obtain ⟨hx, hl⟩ := gatherRanges_length _ _ _ _ hg
          split at h
          · rename_i hle
            cases h
            rw [hl] at hle
            refine ⟨hle, ?_⟩
            subst hx
            rw [hl]
          · cases h
      · rintro ⟨hle, rfl⟩
        rw [gatherRanges_matIdRanges _ _ _ hle]
        have hl := flatMap_element_length a.Buffer (reorderByteSize size cpf a.Domain)
          (faceOrder ids) ids.length (fun f hf => mem_faceOrder_lt ids f hf) hle
        rw [faceOrder_length] at hl
        simp only [hl, hle, if_true]
  · simp only [hd, if_false, false_implies, true_and, Except.ok.injEq]
    exact eq_comm

theorem reorderAttributes_iff (ids : List Nat) (cpf : Nat) :
    ∀ (as as' : List MeshFileAttribute),
      reorderAttributes (matIdRanges ids) cpf as = .ok as' ↔
        (∀ a ∈ as, Reorderable ids cpf a) ∧ as' = as.map (reorderedAttribute ids cpf) := by
  intro as
  induction as with
  | nil =>
    intro as'
    simp only [reorderAttributes, Except.ok.injEq, List.not_mem_nil, false_implies,
      implies_true, List.map_nil, true_and]
    exact eq_comm
  | cons a rest ih =>
    intro as'
    unfold reorderAttributes
    constructor
    · intro h
      split at h
      · cases h
      · rename_i b hb
        split at h
        · cases h
        · rename_i rest' hrest
          cases h
          obtain ⟨h1, h2⟩ := (reorderAttribute_iff ids cpf a b).mp hb
          obtain ⟨h3, h4⟩ := (ih rest').mp hrest
          refine ⟨fun x hx => ?_, by rw [h2, h4]; rfl⟩
          rcases List.mem_cons.mp hx with rfl | hx
          · exact h1
          · exact h3 x hx
    · rintro ⟨h1, rfl⟩
      rw [(reorderAttribute_iff ids cpf a _).mpr ⟨h1 a (List.mem_cons_self _ _), rfl⟩]
      simp only
      rw [(ih _).mpr ⟨fun x hx => h1 x (List.mem_cons_of_mem _ hx), rfl⟩]
      rfl

/-! ## The material loop -/

theorem updateMaterials_ok : ∀ (vals : List (List (Nat × Nat))) (i off : Nat)
    (mats : List MeshFileMaterialRange), i + vals.length ≤ mats.length →
      ∃ mats', updateMaterials vals i off mats = .ok mats' ∧ mats'.length = mats.length := by
  intro vals
  induction vals with
  | nil => intro i off mats _; exact ⟨mats, rfl, rfl⟩
  | cons v rest ih =>
    intro i off mats h
    simp only [List.length_cons] at h
    unfold updateMaterials
    have hi : i < mats.length := by omega
    rw [List.get?_eq_get hi]
    simp only
    obtain ⟨mats', h1, h2⟩ := ih (i + 1) ((off + sumCounts v) % 2 ^ 32)
      (mats.set i { mats.get ⟨i, hi⟩ with Offset := off, Count := sumCounts v })
      (by simp only [List.length_set]; omega)
    exact ⟨mats', h1, by rw [h2, List.length_set]⟩

/-! ## The distinct material ids -/

theorem mem_matIdRanges_keys (ids : List Nat) (k : Nat) :
    k ∈ (matIdRanges ids).map (fun e => e.1) ↔ k ∈ ids := by
  obtain ⟨⟨h1, h2, h3⟩, _⟩ := matIdRanges_inv ids
  have ht := (matIdRanges_eq ids).2
  constructor
  · intro h
    rw [List.mem_map] at h
    obtain ⟨e, he, rfl⟩ := h
    have hb := bucket_of_mem _ h1 e he
    rw [h3] at hb
    have hne := h2 e he
    rw [← hb] at hne
    obtain ⟨r, hr⟩ := List.exists_mem_of_ne_nil _ hne
    rw [mem_runsOf] at hr
    have := Tiles_mem ids _ 0 ht _ hr
    simp only at this
    have h0 := this.2.2.2 0 (by omega)
    rw [Nat.add_zero, List.getD_eq_getElem _ _ (by omega)] at h0
    rw [← h0]
    exact List.getElem_mem _
  · intro h
    have hi := Tiles_ids ids _ 0 ht
    rw [List.drop_zero] at hi
    rw [hi, List.mem_flatMap] at h
    obtain ⟨x, hx, hkx⟩ := h
    have : k = x.1 := (List.mem_replicate.mp hkx).2
    have hr : x.2 ∈ runsOf k (runSeq ids ids.length 0) := by
      rw [mem_runsOf, this]; exact hx
    rw [← h3] at hr
    obtain ⟨e, he, hek⟩ := bucket_ne_nil_mem _ k (List.ne_nil_of_mem hr)
    exact List.mem_map.mpr ⟨e, he, hek⟩

theorem matIdRanges_keys_sorted (ids : List Nat) :
    ((matIdRanges ids).map (fun e => e.1)).Pairwise (· < ·) := by
  rw [List.pairwise_map]
  exact (matIdRanges_inv ids).1.1

/-- The map has one entry per distinct material id in use. -/
theorem matIdRanges_length (ids : List Nat) : (matIdRanges ids).length = ids.dedup.length := by
  have hn : ((matIdRanges ids).map (fun e => e.1)).Nodup :=
    (matIdRanges_keys_sorted ids).imp (fun h => Nat.ne_of_lt h)
  have hp : ((matIdRanges ids).map (fun e => e.1)).Perm ids.dedup :=
    (List.perm_ext_iff_of_nodup hn (List.nodup_dedup ids)).mpr (fun k => by
      rw [mem_matIdRanges_keys, List.mem_dedup])
  simpa using hp.length_eq

/-! ## `ReorderMeshFaces` as a whole -/

theorem chunks_length (w : Nat) : ∀ (n : Nat) (raw : Bytes), (chunks w n raw).length = n := by
  intro n
  induction n with
  | zero => intro _; rfl
  | succ n ih => intro raw; simp [chunks, ih]

theorem readIds_length (buf : Bytes) (n : Nat) (ids : List Nat)
    (h : readIds buf n = .ok ids) : ids.length = n ∧ 4 * n ≤ buf.length := by
  unfold readIds at h
  split at h
  · rename_i hle
    cases h
    exact ⟨by simp [chunks_length], hle⟩
  · cases h

/-- What `ReorderMeshFaces` does when it reaches the loops: every attribute is replaced by
its reordered form and the materials by the outcome of the material loop. -/
theorem ReorderMeshFaces_eq (mf : MeshFile) (it : MeshFileAttribute) (ids : List Nat)
    (hmat : 2 ≤ mf.Materials.length)
    (hfind : mf.Attributes.find? (fun a => a.Name = materialIndexName) = some it)
    (hread : readIds it.Buffer mf.FaceCount = .ok ids)
    (hface : mf.FaceCount ≠ 0)
    (hre : ∀ a ∈ mf.Attributes, Reorderable ids (mf.CornerCount / mf.FaceCount) a)
    (hcount : ids.dedup.length ≤ mf.Materials.length) :
    ∃ mats', updateMaterials ((matIdRanges ids).map (fun e => e.2)) 0 0 mf.Materials = .ok mats' ∧
      mats'.length = mf.Materials.length ∧
      ReorderMeshFaces mf = .ok { mf with
        Attributes := mf.Attributes.map (reorderedAttribute ids (mf.CornerCount / mf.FaceCount)),
        Materials := mats' } := by
  obtain ⟨mats', hm1, hm2⟩ := updateMaterials_ok ((matIdRanges ids).map (fun e => e.2)) 0 0
    mf.Materials (by simp only [List.length_map, matIdRanges_length]; omega)
  refine ⟨mats', hm1, hm2, ?_⟩
  unfold ReorderMeshFaces
  rw [if_neg (by omega), hfind]
  simp only [hread, hface, if_false]
  rw [(reorderAttributes_iff ids _ _ _).mpr ⟨hre, rfl⟩]
  simp only [hm1]

theorem Sized_reorderable (mf : MeshFile) (a : MeshFileAttribute) (ids : List Nat)
    (hl : ids.length = mf.FaceCount)
    (hs : a.Domain = MeshAttributeDomain.Face ∨ a.Domain = MeshAttributeDomain.Corner →
      a.Sized mf) :
    Reorderable ids (mf.CornerCount / mf.FaceCount) a := by
  intro hd
  have hs := hs hd.symm
  unfold MeshFileAttribute.Sized MeshFile.elementCount at hs
  rcases hd with hd | hd
  · rw [hd] at hs ⊢
    simp only [MeshAttributeDomain.Corner, MeshAttributeDomain.Point, MeshAttributeDomain.Edge,
      MeshAttributeDomain.Face] at hs
    norm_num at hs
    split at hs
    · rename_i n size h1 h2
      cases h1
      refine ⟨size, h2, ?_⟩
      rw [hs, hl]
      unfold reorderByteSize
      rw [if_pos rfl]
      calc mf.FaceCount * (size * (mf.CornerCount / mf.FaceCount) % 2 ^ 32)
          ≤ mf.FaceCount * (size * (mf.CornerCount / mf.FaceCount)) :=
            Nat.mul_le_mul_left _ (Nat.mod_le _ _)
        _ = (mf.FaceCount * (mf.CornerCount / mf.FaceCount)) * size := by ring
        _ ≤ mf.CornerCount * size := Nat.mul_le_mul_right _ (Nat.mul_div_le _ _)
    · exact hs.elim
  · rw [hd] at hs ⊢
    simp only [MeshAttributeDomain.Corner, MeshAttributeDomain.Point, MeshAttributeDomain.Edge,
      MeshAttributeDomain.Face] at hs
    norm_num at hs
    split at hs
    · rename_i n size h1 h2
      cases h1
      refine ⟨size, h2, ?_⟩
      rw [hs, hl]
      unfold reorderByteSize
      rw [if_neg (by decide), Nat.mul_one]
      exact Nat.mul_le_mul_left _ (Nat.mod_le _ _)
    · exact hs.elim

theorem Sized_face (mf : MeshFile) (a : MeshFileAttribute) (size : Nat)
    (hd : a.Domain = MeshAttributeDomain.Face) (hs : a.Sized mf)
    (hsz : ByteSizeOfAttribute a.Type_ = .ok size) : a.Buffer.length = mf.FaceCount * size := by
  unfold MeshFileAttribute.Sized MeshFile.elementCount at hs
  rw [hd, hsz] at hs
  simpa [MeshAttributeDomain.Corner, MeshAttributeDomain.Point, MeshAttributeDomain.Edge,
    MeshAttributeDomain.Face] using hs

theorem Sized_corner (mf : MeshFile) (a : MeshFileAttribute) (size : Nat)
    (hd : a.Domain = MeshAttributeDomain.Corner) (hs : a.Sized mf)
    (hsz : ByteSizeOfAttribute a.Type_ = .ok size) : a.Buffer.length = mf.CornerCount * size := by
  unfold MeshFileAttribute.Sized MeshFile.elementCount at hs
  rw [hd, hsz] at hs
  simpa [MeshAttributeDomain.Corner, MeshAttributeDomain.Point, MeshAttributeDomain.Edge,
    MeshAttributeDomain.Face] using hs

theorem reorderedAttribute_fields (ids : List Nat) (cpf : Nat) (a : MeshFileAttribute) :
    (reorderedAttribute ids cpf a).Name = a.Name ∧
      (reorderedAttribute ids cpf a).Domain = a.Domain ∧
      (reorderedAttribute ids cpf a).Type_ = a.Type_ ∧
      (reorderedAttribute ids cpf a).Morphs = a.Morphs := by
  unfold reorderedAttribute
  split
  · split <;> simp
  · simp

theorem reorderedAttribute_face (ids : List Nat) (cpf : Nat) (a : MeshFileAttribute) (size : Nat)
    (hd : a.Domain = MeshAttributeDomain.Face) (hsz : ByteSizeOfAttribute a.Type_ = .ok size)
    (hlen : a.Buffer.length = ids.length * size) :
    (reorderedAttribute ids cpf a).Buffer = (faceOrder ids).flatMap (element a.Buffer size) := by
  have hb := ByteSizeOfAttribute_bounds _ _ hsz
  have hbs : reorderByteSize size cpf a.Domain = size := by
    unfold reorderByteSize
    rw [hd, if_neg (by decide), Nat.mul_one, Nat.mod_eq_of_lt (by omega)]
  unfold reorderedAttribute
  rw [if_pos (Or.inr hd), hsz]
  simp only [hbs]
  rw [List.drop_of_length_le (by omega), List.append_nil]

theorem reorderedAttribute_corner (ids : List Nat) (cpf : Nat) (a : MeshFileAttribute)
    (size : Nat) (hd : a.Domain = MeshAttributeDomain.Corner)
    (hsz : ByteSizeOfAttribute a.Type_ = .ok size) (hsmall : size * cpf < 2 ^ 32)
    (hlen : a.Buffer.length = ids.length * (size * cpf)) :
    (reorderedAttribute ids cpf a).Buffer =
      (faceOrder ids).flatMap (element a.Buffer (size * cpf)) := by
  have hbs : reorderByteSize size cpf a.Domain = size * cpf := by
    unfold reorderByteSize
    rw [hd, if_pos rfl, Nat.mod_eq_of_lt hsmall]
  unfold reorderedAttribute
  rw [if_pos (Or.inl hd), hsz]
  simp only [hbs]
  rw [List.drop_of_length_le (by omega), List.append_nil]

theorem forall₂_map_self {α β : Type} (R : α → β → Prop) (f : α → β) (l : List α)
    (h : ∀ a ∈ l, R a (f a)) : List.Forall₂ R l (l.map f) := by
  induction l with
  | nil => exact List.Forall₂.nil
  | cons a l ih =>
    exact List.Forall₂.cons (h a (List.mem_cons_self _ _))
      (ih (fun b hb => h b (List.mem_cons_of_mem _ hb)))

/-- C3. For a mesh with `FaceCount > 0`, at least two material ranges and a Face-domain
attribute named `material_index` whose buffer holds the per-face ids `ids`, every Face- and
Corner-domain attribute being sized by the data model and the faces using no more distinct
ids than there are material ranges, `ReorderMeshFaces` completes; the new face order
`faceOrder ids` is a rearrangement of the faces `0 .. FaceCount-1` in which an earlier face
has a smaller material id or the same id and a smaller original index (the stable sort by
id); every attribute keeps its position, name, domain, type and morphs, and the buffer of
every Face-domain attribute, `material_index` included, holds the original per-face
elements in that order. For ids 2, 2, 1, 2 the order is the original faces 2, 0, 1, 3. -/
theorem ReorderMeshFaces_face_buffers (mf : MeshFile) (it : MeshFileAttribute) (ids : List Nat)
    (hface : 0 < mf.FaceCount)
    (hmat : 2 ≤ mf.Materials.length)
    (hfind : mf.Attributes.find? (fun a => a.Name = materialIndexName) = some it)
    (hit : it.Domain = MeshAttributeDomain.Face)
    (hread : readIds it.Buffer mf.FaceCount = .ok ids)
    (hsized : ∀ a ∈ mf.Attributes,
      a.Domain = MeshAttributeDomain.Face ∨ a.Domain = MeshAttributeDomain.Corner → a.Sized mf)
    (hcount : ids.dedup.length ≤ mf.Materials.length) :
    ∃ mf', ReorderMeshFaces mf = .ok mf' ∧
      (faceOrder ids).Perm (List.range mf.FaceCount) ∧
      (faceOrder ids).Pairwise (FaceBefore ids) ∧
      List.Forall₂ (fun a a' =>
        a'.Name = a.Name ∧ a'.Domain = a.Domain ∧ a'.Type_ = a.Type_ ∧ a'.Morphs = a.Morphs ∧
        (a.Domain = MeshAttributeDomain.Face → ∀ size, ByteSizeOfAttribute a.Type_ = .ok size →
          a'.Buffer = (faceOrder ids).flatMap (element a.Buffer size)))
        mf.Attributes mf'.Attributes ∧
      (∃ it' ∈ mf'.Attributes, it'.Name = materialIndexName ∧
        ∀ size, ByteSizeOfAttribute it.Type_ = .ok size →
          it'.Buffer = (faceOrder ids).flatMap (element it.Buffer size)) ∧
      faceOrder [2, 2, 1, 2] = [2, 0, 1, 3] := by
  obtain ⟨hl, _⟩ := readIds_length _ _ _ hread
  obtain ⟨mats', _, _, hok⟩ := ReorderMeshFaces_eq mf it ids hmat hfind hread (by omega)
    (fun a ha => Sized_reorderable mf a ids hl (hsized a ha)) hcount
  have hfield : ∀ a ∈ mf.Attributes, a.Domain = MeshAttributeDomain.Face →
      ∀ size, ByteSizeOfAttribute a.Type_ = .ok size →
        (reorderedAttribute ids (mf.CornerCount / mf.FaceCount) a).Buffer =
          (faceOrder ids).flatMap (element a.Buffer size) := by
    intro a ha hd size hsz
    exact reorderedAttribute_face ids _ a size hd hsz
      (by rw [hl]; exact Sized_face mf a size hd (hsized a ha (Or.inl hd)) hsz)
  have hmem : it ∈ mf.Attributes := List.mem_of_find?_eq_some hfind
  have hname : it.Name = materialIndexName := by
    simpa using List.find?_some hfind
  refine ⟨_, hok, by rw [← hl]; exact faceOrder_perm ids, faceOrder_pairwise ids, ?_, ?_,
    by decide⟩
  · apply forall₂_map_self
    intro a ha
    have hf := reorderedAttribute_fields ids (mf.CornerCount / mf.FaceCount) a
    exact ⟨hf.1, hf.2.1, hf.2.2.1, hf.2.2.2, hfield a ha⟩
  · refine ⟨reorderedAttribute ids (mf.CornerCount / mf.FaceCount) it,
      List.mem_map.mpr ⟨it, hmem, rfl⟩, ?_, hfield it hmem hit⟩
    rw [(reorderedAttribute_fields ids _ it).1, hname]

theorem ReorderMeshFaces_face_buffers_witness :
    (0 < (sampleReorderMesh [⟨1, 0, 4⟩, ⟨2, 0, 4⟩]).FaceCount ∧
      2 ≤ (sampleReorderMesh [⟨1, 0, 4⟩, ⟨2, 0, 4⟩]).Materials.length ∧
      (∀ a ∈ (sampleReorderMesh [⟨1, 0, 4⟩, ⟨2, 0, 4⟩]).Attributes,
        a.Domain = MeshAttributeDomain.Face ∨ a.Domain = MeshAttributeDomain.Corner →
          a.Sized (sampleReorderMesh [⟨1, 0, 4⟩, ⟨2, 0, 4⟩])) ∧
      [2, 2, 1, 2].dedup.length ≤ (sampleReorderMesh [⟨1, 0, 4⟩, ⟨2, 0, 4⟩]).Materials.length) ∧
    ∃ mf', ReorderMeshFaces (sampleReorderMesh [⟨1, 0, 4⟩, ⟨2, 0, 4⟩]) = .ok mf' :=
  ⟨⟨by decide, by decide, by decide, by decide⟩,
    (ReorderMeshFaces_face_buffers (sampleReorderMesh [⟨1, 0, 4⟩, ⟨2, 0, 4⟩])
      { Name := materialIndexName, Domain := MeshAttributeDomain.Face,
        Type_ := MeshAttributeType.UInt32,
        Buffer := [2, 0, 0, 0, 2, 0, 0, 0, 1, 0, 0, 0, 2, 0, 0, 0], Morphs := [] }
      [2, 2, 1, 2] (by decide) (by decide) (by decide) (by decide) (by decide) (by decide)
      (by decide)).imp (fun _ h => h.1)⟩

theorem element_scaled (buf : Bytes) (size cpf f : Nat) :
    element buf (size * cpf) f = (List.range' (f * cpf) cpf).flatMap (element buf size) := by
  rw [← slice_eq_elements]
  unfold element
  congr 1
  · ring
  · ring

/-- C4. Under the preconditions of C3 and `CornerCount` divisible by `FaceCount`,
`ReorderMeshFaces` completes and the buffer of every Corner-domain attribute holds, for each
face taken in the new face order `faceOrder ids` (the stable sort of the faces by material
id), that face's block of `cornersPerFace = CornerCount / FaceCount` consecutive corner
elements, unchanged and in its original internal order: the corners are laid out in the
order obtained by replacing every face `f` of the face order by its corners
`f * cornersPerFace .. f * cornersPerFace + cornersPerFace - 1`. The buffer is taken to have
fewer than `2^32` bytes, as every buffer that `MeshFileAddAttribute` builds has (its byte
length is a `u32` product), so that the `u32` block size does not wrap. -/
theorem ReorderMeshFaces_corner_buffers (mf : MeshFile) (it : MeshFileAttribute)
    (ids : List Nat)
    (hface : 0 < mf.FaceCount)
    (hmat : 2 ≤ mf.Materials.length)
    (hfind : mf.Attributes.find? (fun a => a.Name = materialIndexName) = some it)
    (hread : readIds it.Buffer mf.FaceCount = .ok ids)
    (hsized : ∀ a ∈ mf.Attributes,
      a.Domain = MeshAttributeDomain.Face ∨ a.Domain = MeshAttributeDomain.Corner → a.Sized mf)
    (hcount : ids.dedup.length ≤ mf.Materials.length)
    (hdiv : mf.FaceCount ∣ mf.CornerCount) :
    ∃ mf', ReorderMeshFaces mf = .ok mf' ∧
      (faceOrder ids).Perm (List.range mf.FaceCount) ∧
      (faceOrder ids).Pairwise (FaceBefore ids) ∧
      List.Forall₂ (fun a a' =>
        a'.Name = a.Name ∧ a'.Domain = a.Domain ∧ a'.Type_ = a.Type_ ∧ a'.Morphs = a.Morphs ∧
        (a.Domain = MeshAttributeDomain.Corner →
          ∀ size, ByteSizeOfAttribute a.Type_ = .ok size → a.Buffer.length < 2 ^ 32 →
            a'.Buffer = (faceOrder ids).flatMap
                (element a.Buffer (size * (mf.CornerCount / mf.FaceCount))) ∧
              a'.Buffer = ((faceOrder ids).flatMap (fun f =>
                  List.range' (f * (mf.CornerCount / mf.FaceCount))
                    (mf.CornerCount / mf.FaceCount))).flatMap (element a.Buffer size)))
        mf.Attributes mf'.Attributes := by
  obtain ⟨hl, _⟩ := readIds_length _ _ _ hread
  obtain ⟨mats', _, _, hok⟩ := ReorderMeshFaces_eq mf it ids hmat hfind hread (by omega)
    (fun a ha => Sized_reorderable mf a ids hl (hsized a ha)) hcount
  refine ⟨_, hok, by rw [← hl]; exact faceOrder_perm ids, faceOrder_pairwise ids, ?_⟩
  apply forall₂_map_self
  intro a ha
  have hf := reorderedAttribute_fields ids (mf.CornerCount / mf.FaceCount) a
  refine ⟨hf.1, hf.2.1, hf.2.2.1, hf.2.2.2, fun hd size hsz hbuf => ?_⟩
  have hlen : a.Buffer.length = ids.length * (size * (mf.CornerCount / mf.FaceCount)) := by
    rw [Sized_corner mf a size hd (hsized a ha (Or.inr hd)) hsz, hl]
    conv_lhs => rw [← Nat.mul_div_cancel' hdiv]
    ring
  have hsmall : size * (mf.CornerCount / mf.FaceCount) < 2 ^ 32 := by
    refine lt_of_le_of_lt ?_ hbuf
    rw [hlen]
    exact Nat.le_mul_of_pos_left _ (by omega)
  have h1 := reorderedAttribute_corner ids _ a size hd hsz hsmall hlen
  refine ⟨h1, ?_⟩
  rw [h1, List.flatMap_assoc]
  congr 1
  funext f
  exact element_scaled a.Buffer size _ f

theorem ReorderMeshFaces_corner_buffers_witness :
    (0 < (sampleReorderMesh [⟨1, 0, 4⟩, ⟨2, 0, 4⟩]).FaceCount ∧
      2 ≤ (sampleReorderMesh [⟨1, 0, 4⟩, ⟨2, 0, 4⟩]).Materials.length ∧
      (∀ a ∈ (sampleReorderMesh [⟨1, 0, 4⟩, ⟨2, 0, 4⟩]).Attributes,
        a.Domain = MeshAttributeDomain.Face ∨ a.Domain = MeshAttributeDomain.Corner →
          a.Sized (sampleReorderMesh [⟨1, 0, 4⟩, ⟨2, 0, 4⟩])) ∧
      [2, 2, 1, 2].dedup.length ≤ (sampleReorderMesh [⟨1, 0, 4⟩, ⟨2, 0, 4⟩]).Materials.length ∧
      (sampleReorderMesh [⟨1, 0, 4⟩, ⟨2, 0, 4⟩]).FaceCount ∣
        (sampleReorderMesh [⟨1, 0, 4⟩, ⟨2, 0, 4⟩]).CornerCount) ∧
    ∃ mf', ReorderMeshFaces (sampleReorderMesh [⟨1, 0, 4⟩, ⟨2, 0, 4⟩]) = .ok mf' :=
  ⟨⟨by decide, by decide, by decide, by decide, by decide⟩,
    (ReorderMeshFaces_corner_buffers (sampleReorderMesh [⟨1, 0, 4⟩, ⟨2, 0, 4⟩])
      { Name := materialIndexName, Domain := MeshAttributeDomain.Face,
        Type_ := MeshAttributeType.UInt32,
        Buffer := [2, 0, 0, 0, 2, 0, 0, 0, 1, 0, 0, 0, 2, 0, 0, 0], Morphs := [] }
      [2, 2, 1, 2] (by decide) (by decide) (by decide) (by decide) (by decide) (by decide)
      (by decide)).imp (fun _ h => h.1)⟩

/-- C5 (failing input). Face ids 2, 2, 1, 2. With three material ranges of `MaterialIndex`
0, 1, 2 (material 0 has no face) the range of the smallest id in use, material 1, is
written into the first entry, whose `MaterialIndex` is 0; the entry of material 1 receives
offset 1, count 3, the range of material 2; the entry of material 2 keeps offset 0,
count 4. Only when the entries are exactly the ids in use, in ascending order, does each
entry receive the range of its own material. -/
theorem ReorderMeshFaces_materials_by_position :
    (ReorderMeshFaces (sampleReorderMesh [⟨0, 0, 4⟩, ⟨1, 0, 4⟩, ⟨2, 0, 4⟩])).map
        (fun mf => mf.Materials) =
      .ok [⟨0, 0, 1⟩, ⟨1, 1, 3⟩, ⟨2, 0, 4⟩] ∧
    (ReorderMeshFaces (sampleReorderMesh [⟨1, 0, 4⟩, ⟨2, 0, 4⟩])).map
        (fun mf => mf.Materials) =
      .ok [⟨1, 0, 1⟩, ⟨2, 1, 3⟩] := by
  decide

/-! ## A second application of the reordering -/

theorem chunks_eq_elements (w : Nat) : ∀ (n : Nat) (raw : Bytes),
    chunks w n raw = (List.range n).map (element raw w) := by
  intro n
  induction n with
  | zero => intro _; rfl
  | succ n ih =>
    intro raw
    rw [chunks, ih, List.range_succ_eq_map, List.map_cons, List.map_map]
    congr 1
    · simp [element, slice]
    · apply List.map_congr_left
      intro f _
      simp only [Function.comp, element, slice, List.drop_drop]
      congr 2
      rw [Nat.succ_eq_add_one]
      ring

theorem chunks_flatMap_append {α : Type} (g : α → Bytes) (w : Nat) (l : List α) (rest : Bytes)
    (h : ∀ a ∈ l, (g a).length = w) :
    chunks w l.length (l.flatMap g ++ rest) = l.map g := by
  induction l with
  | nil => rfl
  | cons a l ih =>
    have ha := h a (List.mem_cons_self _ _)
    simp only [List.length_cons, List.flatMap_cons, chunks, List.map_cons, List.append_assoc]
    rw [← ha, List.take_left, List.drop_left, ha,
      ih (fun b hb => h b (List.mem_cons_of_mem _ hb))]

/-- The ids read from a buffer are the 32-bit values of its 4-byte elements. -/
theorem readIds_eq (buf : Bytes) (n : Nat) (ids : List Nat) (h : readIds buf n = .ok ids) :
    ids = (List.range n).map (fun f => fromLE (element buf 4 f)) := by
  unfold readIds at h
  split at h
  · cases h
    rw [chunks_eq_elements, List.map_map]
    rfl
  · cases h

theorem readIds_getD (buf : Bytes) (n : Nat) (ids : List Nat) (h : readIds buf n = .ok ids)
    (f : Nat) (hf : f < n) : ids.getD f 0 = fromLE (element buf 4 f) := by
  rw [readIds_eq buf n ids h, List.getD_eq_getElem _ _ (by simpa using hf)]
  simp

/-- The ids read back from the reordered `material_index` buffer are the original ids taken
in face order. -/
theorem readIds_reordered (buf : Bytes) (n : Nat) (ids : List Nat) (rest : Bytes)
    (h : readIds buf n = .ok ids) :
    readIds ((faceOrder ids).flatMap (element buf 4) ++ rest) n =
      .ok ((faceOrder ids).map (fun f => ids.getD f 0)) := by
  obtain ⟨hl, hb⟩ := readIds_length buf n ids h
  have hel : ∀ f ∈ faceOrder ids, (element buf 4 f).length = 4 := by
    intro f hf
    apply element_length
    have := mem_faceOrder_lt ids f hf
    omega
  have hlen : ((faceOrder ids).flatMap (element buf 4)).length = n * 4 := by
    rw [length_flatMap_const _ 4 _ hel, faceOrder_length, hl]
  unfold readIds
  rw [if_pos (by rw [List.length_append, hlen]; omega)]
  have := chunks_flatMap_append (element buf 4) 4 (faceOrder ids) rest hel
  rw [faceOrder_length, hl] at this
  rw [this, List.map_map]
  congr 1
  apply List.map_congr_left
  intro f hf
  have := mem_faceOrder_lt ids f hf
  simp only [Function.comp]
  rw [readIds_getD buf n ids h f (by omega)]

theorem map_getD_range (ids : List Nat) :
    (List.range ids.length).map (fun f => ids.getD f 0) = ids := by
  apply List.ext_getElem
  · simp
  · intro i h1 h2
    simp only [List.getElem_map, List.getElem_range]
    rw [List.getD_eq_getElem _ _ h2]

/-- The ids in face order: a rearrangement of the ids, in ascending order. -/
theorem sortedIds_perm (ids : List Nat) :
    ((faceOrder ids).map (fun f => ids.getD f 0)).Perm ids := by
  have := (faceOrder_perm ids).map (fun f => ids.getD f 0)
  rwa [map_getD_range] at this

theorem sortedIds_sorted (ids : List Nat) :
    ((faceOrder ids).map (fun f => ids.getD f 0)).Pairwise (· ≤ ·) := by
  rw [List.pairwise_map]
  refine (faceOrder_pairwise ids).imp ?_
  intro a b hab
  unfold FaceBefore at hab
  omega

/-- On ids that are already in ascending order the face order is the identity. -/
theorem faceOrder_of_sorted (ids : List Nat) (h : ids.Pairwise (· ≤ ·)) :
    faceOrder ids = List.range ids.length := by
  symm
  apply faceOrder_unique ids _ (List.Perm.refl _)
  have hlt : (List.range ids.length).Pairwise (· < ·) := List.pairwise_lt_range _
  refine List.Pairwise.imp_of_mem ?_ hlt
  intro a b ha hb hab
  rw [List.mem_range] at ha hb
  have hle : ids.getD a 0 ≤ ids.getD b 0 := by
    rw [List.getD_eq_getElem _ _ ha, List.getD_eq_getElem _ _ hb]
    exact List.pairwise_iff_getElem.mp h a b ha hb hab
  unfold FaceBefore
  omega

theorem reorderedAttribute_length (ids : List Nat) (cpf : Nat) (a : MeshFileAttribute)
    (h : Reorderable ids cpf a) :
    (reorderedAttribute ids cpf a).Buffer.length = a.Buffer.length := by
  unfold reorderedAttribute
  split
  · rename_i hd
    obtain ⟨size, hsz, hle⟩ := h hd
    rw [hsz]
    simp only [List.length_append, List.length_drop]
    rw [flatMap_element_length a.Buffer _ (faceOrder ids) ids.length
      (fun f hf => mem_faceOrder_lt ids f hf) hle, faceOrder_length]
    omega
  · rfl

/-- When the face order is the identity the attribute loop rewrites every buffer with its
own content. -/
theorem reorderedAttribute_id (ids : List Nat) (cpf : Nat) (a : MeshFileAttribute)
    (h : faceOrder ids = List.range ids.length) : reorderedAttribute ids cpf a = a := by
  unfold reorderedAttribute
  split
  · split
    · rfl
    · rw [h, flatMap_element_range, List.take_append_drop]
  · rfl

theorem Reorderable_reordered (ids ids' : List Nat) (cpf : Nat) (a : MeshFileAttribute)
    (hl : ids'.length = ids.length) (h : Reorderable ids cpf a) :
    Reorderable ids' cpf (reorderedAttribute ids cpf a) := by
  have hf := reorderedAttribute_fields ids cpf a
  intro hd
  rw [hf.2.1] at hd
  obtain ⟨size, hsz, hle⟩ := h hd
  refine ⟨size, by rw [hf.2.2.1]; exact hsz, ?_⟩
  rw [reorderedAttribute_length ids cpf a h, hf.2.1, hl]
  exact hle

theorem find?_map_reordered (ids : List Nat) (cpf : Nat) (as : List MeshFileAttribute) :
    (as.map (reorderedAttribute ids cpf)).find? (fun a => a.Name = materialIndexName) =
      (as.find? (fun a => a.Name = materialIndexName)).map (reorderedAttribute ids cpf) := by
  induction as with
  | nil => rfl
  | cons a as ih =>
    simp only [List.map_cons, List.find?_cons, (reorderedAttribute_fields ids cpf a).1]
    split
    · rfl
    · exact ih

/-! ### The material loop, again -/

theorem updateMaterials_length_eq : ∀ (vals : List (List (Nat × Nat))) (i off : Nat)
    (mats mats' : List MeshFileMaterialRange), updateMaterials vals i off mats = .ok mats' →
      mats'.length = mats.length := by
  intro vals
  induction vals with
  | nil => intro _ _ _ _ h; cases h; rfl
  | cons v rest ih =>
    intro i off mats mats' h
    unfold updateMaterials at h
    split at h
    · cases h
    · have := ih _ _ _ _ h
      rw [this, List.length_set]

theorem updateMaterials_congr : ∀ (vals vals' : List (List (Nat × Nat))) (i off : Nat)
    (mats : List MeshFileMaterialRange), vals.map sumCounts = vals'.map sumCounts →
      updateMaterials vals i off mats = updateMaterials vals' i off mats := by
  intro vals
  induction vals with
  | nil =>
    intro vals' i off mats h
    cases vals' with
    | nil => rfl
    | cons _ _ => simp at h
  | cons v rest ih =>
    intro vals' i off mats h
    cases vals' with
    | nil => simp at h
    | cons v' rest' =>
      simp only [List.map_cons, List.cons.injEq] at h
      unfold updateMaterials
      rw [h.1]
      split
      · rfl
      · exact ih _ _ _ _ h.2

theorem updateMaterials_get_lt : ∀ (vals : List (List (Nat × Nat))) (i off : Nat)
    (mats mats' : List MeshFileMaterialRange), updateMaterials vals i off mats = .ok mats' →
      ∀ j, j < i → mats'.get? j = mats.get? j := by
  intro vals
  induction vals with
  | nil => intro _ _ _ _ h j _; cases h; rfl
  | cons v rest ih =>
    intro i off mats mats' h j hj
    unfold updateMaterials at h
    split at h
    · cases h
    · rw [ih _ _ _ _ h j (by omega)]
      simp only [List.get?_eq_getElem?]
      rw [List.getElem?_set_ne (by omega)]

theorem updateMaterials_idem : ∀ (vals : List (List (Nat × Nat))) (i off : Nat)
    (mats mats' : List MeshFileMaterialRange), updateMaterials vals i off mats = .ok mats' →
      updateMaterials vals i off mats' = .ok mats' := by
  intro vals
  induction vals with
  | nil => intro _ _ _ _ _; rfl
  | cons v rest ih =>
    intro i off mats mats' h
    unfold updateMaterials at h
    split at h
    · cases h
    · rename_i r hr
      have hi : i < mats.length := by
        by_contra hc
        rw [List.get?_eq_none.mpr (by omega)] at hr
        cases hr
      have hget := updateMaterials_get_lt _ _ _ _ _ h i (by omega)
      simp only [List.get?_eq_getElem?] at hget
      rw [List.getElem?_set_self (by omega)] at hget
      unfold updateMaterials
      simp only [List.get?_eq_getElem?, hget]
      have hset : mats'.set i { r with Offset := off, Count := sumCounts v } = mats' := by
        apply List.ext_getElem?
        intro j
        by_cases hj : i = j
        · subst hj
          rw [List.getElem?_set_self (by
            rw [updateMaterials_length_eq _ _ _ _ _ h, List.length_set]; exact hi), hget]
        · rw [List.getElem?_set_ne hj]
      rw [hset]
      exact ih _ _ _ _ h

theorem sumCounts_eq (rs : List (Nat × Nat)) :
    sumCounts rs = (rs.map (fun r => r.2)).sum % 2 ^ 32 := by
  have h : ∀ (rs : List (Nat × Nat)) (a : Nat),
      rs.foldl (fun acc r => (acc + r.2) % 2 ^ 32) (a % 2 ^ 32) =
        (a + (rs.map (fun r => r.2)).sum) % 2 ^ 32 := by
    intro rs
    induction rs with
    | nil => intro a; simp
    | cons r rest ih =>
      intro a
      simp only [List.foldl_cons, List.map_cons, List.sum_cons]
      rw [Nat.mod_add_mod, ih (a + r.2), Nat.add_assoc]
  have := h rs 0
  simpa [sumCounts] using this

theorem runsOf_sum (k : Nat) : ∀ (runs : List (Nat × (Nat × Nat))),
    ((runsOf k runs).map (fun r => r.2)).sum =
      (runs.flatMap (fun r => List.replicate r.2.2 r.1)).count k := by
  intro runs
  induction runs with
  | nil => rfl
  | cons x rest ih =>
    simp only [List.flatMap_cons, List.count_append, List.count_replicate, ← ih]
    unfold runsOf
    by_cases hk : x.1 = k
    · simp [List.filter_cons, hk]
    · have : ¬ (x.1 == k) = true := by simpa using hk
      simp [List.filter_cons, hk, this]

/-- The counts of the material loop are, key by key, the number of faces of each id. -/
theorem matIdRanges_counts (ids : List Nat) :
    (matIdRanges ids).map (fun e => sumCounts e.2) =
      ((matIdRanges ids).map (fun e => e.1)).map (fun k => ids.count k % 2 ^ 32) := by
  obtain ⟨⟨h1, _, h3⟩, _⟩ := matIdRanges_inv ids
  have ht := (matIdRanges_eq ids).2
  have hi := Tiles_ids ids _ 0 ht
  rw [List.drop_zero] at hi
  rw [List.map_map]
  apply List.map_congr_left
  intro e he
  have hb := bucket_of_mem _ h1 e he
  rw [h3] at hb
  simp only [Function.comp]
  rw [sumCounts_eq, ← hb, runsOf_sum, ← hi]

theorem matIdRanges_keys_perm (ids ids' : List Nat) (hp : ids'.Perm ids) :
    (matIdRanges ids').map (fun e => e.1) = (matIdRanges ids).map (fun e => e.1) := by
  have hs' := matIdRanges_keys_sorted ids'
  have hs := matIdRanges_keys_sorted ids
  have hperm : ((matIdRanges ids').map (fun e => e.1)).Perm
      ((matIdRanges ids).map (fun e => e.1)) :=
    (List.perm_ext_iff_of_nodup (hs'.imp (fun h => Nat.ne_of_lt h))
      (hs.imp (fun h => Nat.ne_of_lt h))).mpr (fun k => by
        rw [mem_matIdRanges_keys, mem_matIdRanges_keys, hp.mem_iff])
  exact List.eq_of_perm_of_sorted hperm hs' hs

theorem matIdRanges_counts_perm (ids ids' : List Nat) (hp : ids'.Perm ids) :
    (matIdRanges ids').map (fun e => sumCounts e.2) =
      (matIdRanges ids).map (fun e => sumCounts e.2) := by
  rw [matIdRanges_counts, matIdRanges_counts, matIdRanges_keys_perm ids ids' hp]
  apply List.map_congr_left
  intro k _
  rw [hp.count_eq]

/-- C6 (counterexample). A mesh on which `ReorderMeshFaces` completes and on which a second
application undoes the first: `material_index` is declared on the Point domain, so its
buffer keeps the ids 1, 0 while the Face-domain buffer 10, 20 becomes 20, 10 and then
10, 20 again. -/
theorem ReorderMeshFaces_twice_differs :
    ReorderMeshFaces (samplePointIndexMesh [10, 20] [⟨0, 0, 2⟩, ⟨1, 0, 2⟩]) =
        .ok (samplePointIndexMesh [20, 10] [⟨0, 0, 1⟩, ⟨1, 1, 1⟩]) ∧
      ReorderMeshFaces (samplePointIndexMesh [20, 10] [⟨0, 0, 1⟩, ⟨1, 1, 1⟩]) =
        .ok (samplePointIndexMesh [10, 20] [⟨0, 0, 1⟩, ⟨1, 1, 1⟩]) ∧
      samplePointIndexMesh [10, 20] [⟨0, 0, 1⟩, ⟨1, 1, 1⟩] ≠
        samplePointIndexMesh [20, 10] [⟨0, 0, 1⟩, ⟨1, 1, 1⟩] := by
  decide

/-- C6 (amended). Material reordering is idempotent on every mesh whose `material_index`
attribute (the one the search finds) is a Face-domain attribute of a 4-byte type, so that
it is reordered together with the other buffers: if `ReorderMeshFaces` completes on such a
mesh, a second application completes as well and leaves the mesh, every attribute buffer
and every material range included, exactly as the first application left it. -/
theorem ReorderMeshFaces_idempotent (mf mf' : MeshFile)
    (hidx : ∀ it, mf.Attributes.find? (fun a => a.Name = materialIndexName) = some it →
      it.Domain = MeshAttributeDomain.Face ∧ ByteSizeOfAttribute it.Type_ = .ok 4)
    (h : ReorderMeshFaces mf = .ok mf') : ReorderMeshFaces mf' = .ok mf' := by
  unfold ReorderMeshFaces at h
  split at h
  · cases h
    unfold ReorderMeshFaces
    rename_i hm
    rw [if_pos hm]
  · rename_i hm
    split at h
    · rename_i hnone
      cases h
      unfold ReorderMeshFaces
      rw [if_neg hm, hnone]
    · rename_i it hfind
      obtain ⟨hdom, hsz⟩ := hidx it hfind
      split at h
      · cases h
      · rename_i ids hread
        simp only at h
        split at h
        · cases h
        · rename_i hface
          split at h
          · cases h
          · rename_i attrs hattrs
            split at h
            · cases h
            · rename_i mats hmats
              cases h
              obtain ⟨hre, rfl⟩ := (reorderAttributes_iff ids _ _ _).mp hattrs
              obtain ⟨hl, hb⟩ := readIds_length _ _ _ hread
              -- the ids read back by the second application
              have hbuf : (reorderedAttribute ids (mf.CornerCount / mf.FaceCount) it).Buffer =
                  (faceOrder ids).flatMap (element it.Buffer 4) ++
                    it.Buffer.drop (ids.length * 4) := by
                unfold reorderedAttribute
                rw [if_pos (Or.inr hdom), hsz]
                simp only [reorderByteSize, hdom]
                rw [if_neg (by decide)]
                norm_num
              have hread' := readIds_reordered it.Buffer mf.FaceCount ids
                (it.Buffer.drop (ids.length * 4)) hread
              rw [← hbuf] at hread'
              have hp := sortedIds_perm ids
              have hl' : ((faceOrder ids).map (fun f => ids.getD f 0)).length = ids.length :=
                hp.length_eq
              have hid := faceOrder_of_sorted _ (sortedIds_sorted ids)
              -- the second application
              unfold ReorderMeshFaces
              simp only
              rw [if_neg (by rw [updateMaterials_length_eq _ _ _ _ _ hmats]; exact hm),
                find?_map_reordered, hfind]
              simp only [Option.map_some', hread', hface, if_false]
              rw [(reorderAttributes_iff _ _ _ _).mpr
                ⟨fun a ha => by
                  obtain ⟨a0, ha0, rfl⟩ := List.mem_map.mp ha
                  exact Reorderable_reordered ids _ _ a0 hl' (hre a0 ha0), rfl⟩]
              simp only
              rw [updateMaterials_congr _ ((matIdRanges ids).map (fun e => e.2)) 0 0 mats
                (by simpa [List.map_map, Function.comp] using matIdRanges_counts_perm ids _ hp),
                updateMaterials_idem _ _ _ _ _ hmats]
              simp only [Except.ok.injEq, MeshFile.mk.injEq, and_true, true_and]
              rw [List.map_map]
              apply List.map_congr_left
              intro a _
              exact reorderedAttribute_id _ _ _ hid

theorem ReorderMeshFaces_idempotent_witness :
    (∀ it, (sampleReorderMesh [⟨1, 0, 4⟩, ⟨2, 0, 4⟩]).Attributes.find?
          (fun a => a.Name = materialIndexName) = some it →
        it.Domain = MeshAttributeDomain.Face ∧ ByteSizeOfAttribute it.Type_ = .ok 4) ∧
      ReorderMeshFaces (sampleReorderMesh [⟨1, 0, 4⟩, ⟨2, 0, 4⟩]) = .ok sampleReorderedMesh ∧
      ReorderMeshFaces sampleReorderedMesh = .ok sampleReorderedMesh :=
  have hidx : ∀ it, (sampleReorderMesh [⟨1, 0, 4⟩, ⟨2, 0, 4⟩]).Attributes.find?
        (fun a => a.Name = materialIndexName) = some it →
      it.Domain = MeshAttributeDomain.Face ∧ ByteSizeOfAttribute it.Type_ = .ok 4 := by
    intro it hit
    have h0 : ((sampleReorderMesh [⟨1, 0, 4⟩, ⟨2, 0, 4⟩]).Attributes.find?
        (fun a => a.Name = materialIndexName)).all
          (fun a => decide (a.Domain = MeshAttributeDomain.Face ∧
            ByteSizeOfAttribute a.Type_ = .ok 4)) = true := by
      decide
    rw [hit] at h0
    simpa using h0
  have h1 : ReorderMeshFaces (sampleReorderMesh [⟨1, 0, 4⟩, ⟨2, 0, 4⟩]) =
      .ok sampleReorderedMesh := by decide
  ⟨hidx, h1, ReorderMeshFaces_idempotent _ _ hidx h1⟩

/-! ## Face adjacency (`GetFaceIndices`) -/

/-- With `CornerCount` divisible by `FaceCount` the nested loops visit every corner once, in
ascending order, each with the face it belongs to. -/
theorem cornerVisits_eq (faceCount cornerCount : Nat) (hdiv : faceCount ∣ cornerCount)
    (hc : cornerCount < 2 ^ 32) :
    cornerVisits faceCount cornerCount =
      (List.range cornerCount).map (fun c => (c / (cornerCount / faceCount), c)) := by
  obtain ⟨k, rfl⟩ := hdiv
  rcases Nat.eq_zero_or_pos faceCount with h0 | hpos
  · subst h0; simp [cornerVisits]
  rw [Nat.mul_div_cancel_left k hpos]
  unfold cornerVisits
  rw [Nat.mul_div_cancel_left k hpos]
  have hmod : ∀ f ∈ List.range faceCount, k * f % 2 ^ 32 = k * f := by
    intro f hf
    rw [List.mem_range] at hf
    apply Nat.mod_eq_of_lt
    calc k * f ≤ k * faceCount := Nat.mul_le_mul_left _ (by omega)
      _ = faceCount * k := Nat.mul_comm _ _
      _ < 2 ^ 32 := hc
  have hgen : ∀ n, (List.range n).flatMap (fun f =>
      (List.range' (k * f) k).map (fun c => (f, c))) =
        (List.range (n * k)).map (fun c => (c / k, c)) := by
    intro n
    induction n with
    | zero => simp
    | succ n ih =>
      rw [List.range_succ, List.flatMap_append, ih]
      have : (n + 1) * k = n * k + k := by ring
      rw [this, List.range_add, List.map_append]
      congr 1
      simp only [List.flatMap_cons, List.flatMap_nil, List.append_nil, List.map_map]
      rw [List.range_eq_range', List.range'_eq_map_range, List.range'_eq_map_range]
      simp only [List.map_map]
      apply List.map_congr_left
      intro j hj
      rw [List.mem_range] at hj
      simp only [Function.comp, Nat.zero_add]
      have hk : 0 < k := by omega
      have : (n * k + j) / k = n := by
        rw [Nat.mul_comm n k, Nat.mul_add_div hk, Nat.div_eq_of_lt hj]
        rfl
      rw [this, Nat.mul_comm k n]
  rw [← hgen faceCount]
  apply List.flatMap_congr
  intro f hf
  rw [hmod f hf]

theorem readValues_eq (w : Nat) (buf : Bytes) (n : Nat) (vals : List Nat)
    (h : readValues w buf n = .ok vals) :
    vals = (List.range n).map (fun f => fromLE (element buf w f)) ∧ n * w ≤ buf.length := by
  unfold readValues at h
  split at h
  · rename_i hle
    cases h
    rw [chunks_eq_elements, List.map_map]
    exact ⟨rfl, hle⟩
  · cases h

theorem readAt_of_readValues (w : Nat) (buf : Bytes) (n : Nat) (vals : List Nat)
    (h : readValues w buf n = .ok vals) (c : Nat) (hc : c < n) :
    readAt w buf c = .ok (vals.getD c 0) := by
  obtain ⟨hv, hle⟩ := readValues_eq w buf n vals h
  unfold readAt
  have : (c + 1) * w ≤ buf.length :=
    le_trans (Nat.mul_le_mul_right _ (by omega)) hle
  rw [if_pos this, hv, List.getD_eq_getElem _ _ (by simpa using hc)]
  simp [element]

theorem addVisits_nil (pts : List Nat) (B : List (List Nat)) : addVisits pts B [] = B := by
  unfold addVisits
  apply List.ext_getElem
  · simp
  · intro i h1 h2
    simp [List.getElem?_eq_getElem h2]

theorem addVisits_cons (pts : List Nat) (B : List (List Nat)) (f c : Nat)
    (rest : List (Nat × Nat)) :
    addVisits pts (B.set (pts.getD c 0) (B.getD (pts.getD c 0) [] ++ [f])) rest =
      addVisits pts B ((f, c) :: rest) := by
  unfold addVisits
  rw [List.length_set]
  apply List.map_congr_left
  intro u hu
  rw [List.mem_range] at hu
  by_cases huv : pts.getD c 0 = u
  · subst huv
    rw [List.getD_eq_getElem _ _ (by rw [List.length_set]; exact hu)]
    simp [List.filter_cons]
  · rw [List.getD_eq_getElem _ _ (by rw [List.length_set]; exact hu),
      List.getElem_set_ne huv, List.getD_eq_getElem _ _ hu, List.filter_cons]
    simp only [huv, decide_False, Bool.false_eq_true, if_false]

/-- The corner loop: every visited corner appends its face to the bucket of its point. -/
theorem createCorners_eq (w : Nat) (buf : Bytes) (n : Nat) (pts : List Nat)
    (hread : readValues w buf n = .ok pts) :
    ∀ (visits : List (Nat × Nat)) (B : List (List Nat)) (e : Nat),
      (∀ x ∈ visits, x.2 < n) → (∀ p ∈ pts, p < B.length) →
        createCorners w buf visits B e =
          .ok (addVisits pts B visits, if visits = [] then e else (e + visits.length) % 2 ^ 32) := by
  have hlen : pts.length = n := by
    rw [(readValues_eq w buf n pts hread).1]; simp
  intro visits
  induction visits with
  | nil => intro B e _ _; simp [createCorners, addVisits_nil]
  | cons x rest ih =>
    obtain ⟨f, c⟩ := x
    intro B e hx hp
    have hc : c < n := hx (f, c) (List.mem_cons_self _ _)
    have hv : pts.getD c 0 < B.length := by
      rw [List.getD_eq_getElem _ _ (by omega)]
      exact hp _ (List.getElem_mem _)
    unfold createCorners
    rw [readAt_of_readValues w buf n pts hread c hc]
    simp only [List.get?_eq_getElem?, List.getElem?_eq_getElem hv]
    rw [ih _ _ (fun y hy => hx y (List.mem_cons_of_mem _ hy))
      (fun p hp' => by rw [List.length_set]; exact hp p hp')]
    have := addVisits_cons pts B f c rest
    rw [List.getD_eq_getElem _ _ hv] at this
    rw [this]
    congr 2
    by_cases hr : rest = []
    · subst hr; simp
    · simp only [hr, if_false, List.length_cons]
      rw [Nat.mod_add_mod]
      congr 1
      omega

theorem faceListValues_length : ∀ (B : List (List Nat)) (i : Nat),
    (faceListValues B i).length = B.length := by
  intro B
  induction B with
  | nil => intro _; rfl
  | cons f rest ih => intro i; simp [faceListValues, ih]

/-- The value recorded for bucket `p` is the number of face ids in the buckets before it. -/
theorem faceListValues_getD : ∀ (B : List (List Nat)) (i p : Nat), i < 2 ^ 32 →
    p < B.length →
      (faceListValues B i).getD p 0 = (i + (B.take p).flatten.length) % 2 ^ 32 := by
  intro B
  induction B with
  | nil => intro i p _ hp; simp at hp
  | cons f rest ih =>
    intro i p hi hp
    cases p with
    | zero =>
      have := Nat.mod_eq_of_lt hi
      simp only [faceListValues, List.getD_cons_zero, List.take_zero, List.flatten_nil,
        List.length_nil, Nat.add_zero]
      omega
    | succ p =>
      simp only [faceListValues, List.getD_cons_succ, List.take_succ_cons, List.flatten_cons,
        List.length_append]
      rw [ih _ p (Nat.mod_lt _ (by norm_num)) (by simpa using hp), Nat.mod_add_mod,
        Nat.add_assoc]

theorem countP_lt_succ (pts : List Nat) (p : Nat) :
    pts.countP (fun x => x < p + 1) = pts.countP (fun x => x < p) + pts.count p := by
  induction pts with
  | nil => rfl
  | cons x rest ih =>
    simp only [List.countP_cons, List.count_cons, ih]
    by_cases h1 : x < p
    · have h2 : x < p + 1 := by omega
      have h3 : ¬ x = p := by omega
      simp [h1, h2, h3]
      omega
    · by_cases h2 : x = p
      · subst h2; simp; omega
      · have h3 : ¬ x < p + 1 := by omega
        simp [h1, h2, h3]

theorem facesOfPoint_length (pts : List Nat) (cpf v : Nat) :
    (facesOfPoint pts cpf v).length = pts.count v := by
  unfold facesOfPoint
  rw [List.length_map]
  conv_rhs => rw [← map_getD_range pts]
  rw [List.count_eq_countP, List.countP_map, List.countP_eq_length_filter]
  congr 1

/-- The face ids in the buckets before `p` are as many as the corners that reference a point
smaller than `p`. -/
theorem flatten_take_length (pts : List Nat) (cpf : Nat) : ∀ (p : Nat),
    (((List.range p).map (facesOfPoint pts cpf)).flatten).length =
      pts.countP (fun x => x < p) := by
  intro p
  induction p with
  | zero => simp
  | succ p ih =>
    rw [List.range_succ, List.map_append, List.flatten_append, List.length_append, ih,
      countP_lt_succ]
    simp [facesOfPoint_length]

/-- After all corners have been visited, bucket `v` holds the faces of point `v`. -/
theorem addVisits_all (pts : List Nat) (cpf size : Nat) :
    addVisits pts (List.replicate size [])
        ((List.range pts.length).map (fun c => (c / cpf, c))) =
      (List.range size).map (facesOfPoint pts cpf) := by
  unfold addVisits facesOfPoint
  rw [List.length_replicate]
  apply List.map_congr_left
  intro v hv
  rw [List.mem_range] at hv
  rw [List.getD_eq_getElem _ _ (by simpa using hv)]
  simp only [List.getElem_replicate, List.nil_append, List.filter_map, List.map_map]
  rfl

theorem facesOfPoint_eq_nil (pts : List Nat) (cpf v : Nat) (h : ∀ p ∈ pts, p ≠ v) :
    facesOfPoint pts cpf v = [] := by
  unfold facesOfPoint
  rw [List.map_eq_nil_iff, List.filter_eq_nil_iff]
  intro c hc
  rw [List.mem_range] at hc
  simp only [decide_eq_true_eq]
  rw [List.getD_eq_getElem _ _ hc]
  exact h _ (List.getElem_mem _)

theorem readValues_writeValues (w : Nat) (vals : List Nat) (buf : Bytes)
    (hv : ∀ x ∈ vals, x < 256 ^ w) (hle : vals.length * w ≤ buf.length) :
    ∃ buf', writeValues w vals buf = .ok buf' ∧ buf'.length = buf.length ∧
      readValues w buf' vals.length = .ok vals := by
  have hl : (vals.flatMap (toLE w)).length = vals.length * w :=
    length_flatMap_const _ w _ (fun a _ => toLE_length w a)
  refine ⟨vals.flatMap (toLE w) ++ buf.drop (vals.length * w), ?_, ?_, ?_⟩
  · unfold writeValues
    rw [if_pos hle]
  · rw [List.length_append, hl, List.length_drop]
    omega
  · unfold readValues
    rw [if_pos (by rw [List.length_append, hl]; omega),
      chunks_flatMap_append (toLE w) w vals _ (fun a _ => toLE_length w a), List.map_map]
    congr 1
    conv_rhs => rw [← List.map_id vals]
    apply List.map_congr_left
    intro a ha
    exact fromLE_toLE w a (hv a ha)

theorem AddAttribute_point (m : MeshData2) (name : Bytes) (type extraCount size : Nat)
    (offset : Nat) (allocator : GPUVirtualMemoryAllocator)
    (hname : m.FindAttribute name = none)
    (hsize : attributeElementSize type = .ok size)
    (halloc : m.data.AttributeAllocator.AllocateIndex32 size
      ((m.pointCount + extraCount) % 2 ^ 32) = .ok (offset, allocator)) :
    m.AddAttribute name MeshAttributeDomain.Point type extraCount =
      .ok (m.attributes.length,
        { m with
          data := { m.data with AttributeAllocator := allocator }
          attributes := m.attributes ++
            [{ Name := name, Domain := MeshAttributeDomain.Point, Type_ := type,
               IndexOffset := offset,
               Buffer := List.replicate (size * ((m.pointCount + extraCount) % 2 ^ 32)) 0,
               ElementSize := size }] }) := by
  unfold MeshData2.AddAttribute
  rw [if_neg (by simp [hname])]
  simp only [if_true, hsize, halloc]

theorem u32_sub_add (P C : Nat) (hP : P < 2 ^ 32) (hC : C < 2 ^ 32) :
    (P + (C + 2 ^ 32 - P) % 2 ^ 32) % 2 ^ 32 = C := by
  norm_num at hP hC ⊢
  omega

theorem attributeElementSize_faceIndex (faceCount : Nat) :
    attributeElementSize
        (if faceCount ≤ 65535 then MeshAttributeType.UInt16 else MeshAttributeType.UInt32) =
      .ok (if faceCount ≤ 65535 then 2 else 4) := by
  split <;> rfl

/-- The first call of `GetFaceIndices` on a well-formed mesh: the new attribute `FaceIndex`
is appended, its buffer holds the flattened buckets and the buffer of `FaceList` holds the
running offsets. -/
theorem GetFaceIndices_eq (m : MeshData3D) (pts : List Nat) (poc fl : MeshAttribute)
    (offset : Nat) (allocator : GPUVirtualMemoryAllocator)
    (hnull : m.faceIndices = none)
    (hP : m.pointCount + 1 < 2 ^ 32) (hC : m.cornerCount < 2 ^ 32)
    (hdiv : m.faceCount ∣ m.cornerCount)
    (h0 : m.attributes.get? 0 = some poc)
    (hread : readValues (if poc.Type_ = MeshAttributeType.UInt32 then 4 else 2) poc.Buffer
      m.cornerCount = .ok pts)
    (hlt : ∀ p ∈ pts, p < m.pointCount)
    (h4 : m.attributes.get? 4 = some fl)
    (hfl : (m.pointCount + 1) * 4 ≤ fl.Buffer.length)
    (hname : m.toMeshData2.FindAttribute faceIndexName = none)
    (halloc : m.data.AttributeAllocator.AllocateIndex32 (if m.faceCount ≤ 65535 then 2 else 4)
      m.cornerCount = .ok (offset, allocator)) :
    ∃ ib lb, m.GetFaceIndices =
        .ok (m.attributes.length, afterGetFaceIndices m offset allocator fl ib lb) ∧
      readValues (if m.faceCount ≤ 65535 then 2 else 4) ib m.cornerCount =
        .ok ((List.range (m.pointCount + 1)).map
          (facesOfPoint pts (m.cornerCount / m.faceCount))).flatten ∧
      readValues 4 lb (m.pointCount + 1) =
        .ok (faceListValues ((List.range (m.pointCount + 1)).map
          (facesOfPoint pts (m.cornerCount / m.faceCount))) 0) := by
  have hlen : pts.length = m.cornerCount := by
    rw [(readValues_eq _ _ _ _ hread).1]; simp
  have h5 : 4 < m.attributes.length := by
    by_contra hc
    rw [List.get?_eq_none.mpr (by omega)] at h4
    cases h4
  -- the corner loop
  have hcc := createCorners_eq _ poc.Buffer m.cornerCount pts hread
    ((List.range m.cornerCount).map (fun c => (c / (m.cornerCount / m.faceCount), c)))
    (List.replicate (m.pointCount + 1) []) 0
    (fun x hx => by
      rw [List.mem_map] at hx
      obtain ⟨c, hc, rfl⟩ := hx
      simpa using hc)
    (fun p hp => by
      rw [List.length_replicate]
      exact Nat.lt_succ_of_lt (hlt p hp))
  have hB := addVisits_all pts (m.cornerCount / m.faceCount) (m.pointCount + 1)
  rw [hlen] at hB
  rw [hB] at hcc
  have hcount : (if (List.range m.cornerCount).map
        (fun c => (c / (m.cornerCount / m.faceCount), c)) = [] then 0
      else (0 + ((List.range m.cornerCount).map
        (fun c => (c / (m.cornerCount / m.faceCount), c))).length) % 2 ^ 32) = m.cornerCount := by
    split
    · rename_i he
      have := congrArg List.length he
      simpa using this.symm
    · simp only [List.length_map, List.length_range, Nat.zero_add]
      exact Nat.mod_eq_of_lt hC
  rw [hcount] at hcc
  -- the new attribute
  have hadd := AddAttribute_point m.toMeshData2 faceIndexName
    (if m.faceCount ≤ 65535 then MeshAttributeType.UInt16 else MeshAttributeType.UInt32)
    ((m.cornerCount + 2 ^ 32 - m.pointCount) % 2 ^ 32)
    (if m.faceCount ≤ 65535 then 2 else 4) offset allocator hname
    (attributeElementSize_faceIndex m.faceCount)
    (by rw [u32_sub_add _ _ (by omega) hC]; exact halloc)
  rw [u32_sub_add _ _ (by omega) hC] at hadd
  -- the values written
  have hflat : (((List.range (m.pointCount + 1)).map
      (facesOfPoint pts (m.cornerCount / m.faceCount))).flatten).length = m.cornerCount := by
    rw [flatten_take_length, ← hlen, List.countP_eq_length]
    intro p hp
    simpa using Nat.lt_succ_of_lt (hlt p hp)
  have hvals : ∀ x ∈ ((List.range (m.pointCount + 1)).map
      (facesOfPoint pts (m.cornerCount / m.faceCount))).flatten,
        x < 256 ^ (if m.faceCount ≤ 65535 then 2 else 4) := by
    intro x hx
    rw [List.mem_flatten] at hx
    obtain ⟨l, hl, hxl⟩ := hx
    rw [List.mem_map] at hl
    obtain ⟨v, _, rfl⟩ := hl
    have hcpos : 0 < m.cornerCount := by
      unfold facesOfPoint at hxl
      rw [List.mem_map] at hxl
      obtain ⟨c, hc, _⟩ := hxl
      rw [List.mem_filter, List.mem_range] at hc
      omega
    obtain ⟨k, hk⟩ := hdiv
    have hfpos : 0 < m.faceCount := by
      rcases Nat.eq_zero_or_pos m.faceCount with h | h
      · rw [h] at hk; omega
      · exact h
    have hkpos : 0 < k := by
      rcases Nat.eq_zero_or_pos k with h | h
      · rw [h] at hk; omega
      · exact h
    have hcpf : m.cornerCount / m.faceCount = k := by
      rw [hk, Nat.mul_div_cancel_left k hfpos]
    rw [hcpf] at hxl
    have hxlt : x < m.faceCount := by
      unfold facesOfPoint at hxl
      rw [List.mem_map] at hxl
      obtain ⟨c, hc, rfl⟩ := hxl
      rw [List.mem_filter, List.mem_range, hlen, hk] at hc
      rw [Nat.div_lt_iff_lt_mul hkpos]
      exact hc.1
    have hF : m.faceCount < 2 ^ 32 := by
      calc m.faceCount ≤ m.faceCount * k := Nat.le_mul_of_pos_right _ hkpos
        _ = m.cornerCount := hk.symm
        _ < 2 ^ 32 := hC
    split
    · norm_num; omega
    · norm_num at hF ⊢; omega
  obtain ⟨ib, hib1, _, hib3⟩ := readValues_writeValues (if m.faceCount ≤ 65535 then 2 else 4)
    ((List.range (m.pointCount + 1)).map (facesOfPoint pts (m.cornerCount / m.faceCount))).flatten
    (List.replicate ((if m.faceCount ≤ 65535 then 2 else 4) * m.cornerCount) 0) hvals
    (by rw [hflat, List.length_replicate, Nat.mul_comm])
  obtain ⟨lb, hlb1, _, hlb3⟩ := readValues_writeValues 4
    (faceListValues ((List.range (m.pointCount + 1)).map
      (facesOfPoint pts (m.cornerCount / m.faceCount))) 0) fl.Buffer
    (fun x hx => by
      obtain ⟨i, hi, rfl⟩ := List.getElem_of_mem hx
      rw [faceListValues_length] at hi
      have := faceListValues_getD _ 0 i (by norm_num) hi
      rw [List.getD_eq_getElem _ _ (by rw [faceListValues_length]; exact hi)] at this
      rw [this]
      have := Nat.mod_lt (0 + (List.take i ((List.range (m.pointCount + 1)).map
        (facesOfPoint pts (m.cornerCount / m.faceCount)))).flatten.length)
        (show 0 < 2 ^ 32 by norm_num)
      norm_num at this ⊢
      exact this)
    (by rw [faceListValues_length]; simpa using hfl)
  rw [hflat] at hib3
  rw [faceListValues_length, List.length_map, List.length_range] at hlb3
  -- the attribute list
  have hg1 : ∀ (x : MeshAttribute), (m.attributes ++ [x]).get? m.attributes.length = some x := by
    intro x
    rw [List.get?_eq_getElem?, List.getElem?_append_right (le_refl _)]
    simp
  have hg4 : ∀ (x : MeshAttribute), (m.attributes ++ [x]).get? 4 = some fl := by
    intro x
    rw [List.get?_eq_getElem?, List.getElem?_append_left h5, ← List.get?_eq_getElem?, h4]
  refine ⟨ib, lb, ?_, hib3, hlb3⟩
  unfold MeshData3D.GetFaceIndices
  rw [hnull]
  simp only [h0, h4]
  rw [cornerVisits_eq _ _ hdiv hC, Nat.mod_eq_of_lt hP, hcc]
  simp only [hadd, hg1, hg4, hib1, hlb1]
  simp only [afterGetFaceIndices, faceIndexAttribute, List.set_append_right, le_refl,
    Nat.sub_self, List.set_cons_zero]

theorem get?_afterGetFaceIndices (m : MeshData3D) (offset : Nat)
    (allocator : GPUVirtualMemoryAllocator) (fl : MeshAttribute) (ib lb : Bytes)
    (h5 : 4 < m.attributes.length) :
    (afterGetFaceIndices m offset allocator fl ib lb).attributes.get? 4 =
        some { fl with Buffer := lb } ∧
      (afterGetFaceIndices m offset allocator fl ib lb).attributes.get? m.attributes.length =
        some (faceIndexAttribute m.faceCount offset ib) := by
  unfold afterGetFaceIndices
  simp only [List.get?_eq_getElem?]
  constructor
  · rw [List.getElem?_set_self (by simp; omega)]
  · rw [List.getElem?_set_ne (by omega), List.getElem?_set_self (by simp)]

theorem take_map_range {α : Type} (f : Nat → α) (p n : Nat) (h : p ≤ n) :
    ((List.range n).map f).take p = (List.range p).map f := by
  rw [← List.map_take, List.take_range, Nat.min_eq_left h]

/-- The running offsets are the numbers of corners at smaller points. -/
theorem faceListValues_facesOfPoint (pts : List Nat) (cpf P p : Nat) (hp : p ≤ P)
    (hlen : pts.length < 2 ^ 32) :
    (faceListValues ((List.range (P + 1)).map (facesOfPoint pts cpf)) 0).getD p 0 =
      pts.countP (fun x => x < p) := by
  rw [faceListValues_getD _ 0 p (by norm_num) (by simp; omega), Nat.zero_add,
    take_map_range _ _ _ (by omega), flatten_take_length]
  apply Nat.mod_eq_of_lt
  exact lt_of_le_of_lt (List.countP_le_length _) hlen

theorem flatten_drop_take (B : List (List Nat)) (p : Nat) (hp : p < B.length) :
    (B.flatten.drop (B.take p).flatten.length).take (B.getD p []).length = B.getD p [] := by
  have hB : B = B.take p ++ B.getD p [] :: B.drop (p + 1) := by
    rw [List.getD_eq_getElem _ _ hp]
    exact (List.take_append_drop p B).symm.trans (by rw [List.drop_eq_getElem_cons hp])
  have key : ((B.take p ++ B.getD p [] :: B.drop (p + 1)).flatten.drop
      (B.take p).flatten.length).take (B.getD p []).length = B.getD p [] := by
    rw [List.flatten_append, List.flatten_cons, List.drop_left, List.take_left]
  rwa [← hB] at key

/-- C7. For a `MeshData3D` holding its five constructor attributes, with `CornerCount`
divisible by `FaceCount`, point-of-corner indices `pts` all smaller than `PointCount`, no
attribute named `FaceIndex` yet and room in the attribute allocator, the first
`GetFaceIndices` succeeds and afterwards the `FaceList` attribute (position 4) holds, for
every `p` from 0 to `PointCount` inclusive, the number of corners whose point index is
smaller than `p`. Hence `FaceList[0] = 0`, `FaceList` is non-decreasing,
`FaceList[p+1] - FaceList[p]` is the number of corners at point `p`, and the sentinel
`FaceList[PointCount]` is `CornerCount`. For 2 points and corner-to-point indices
0, 1, 0 the list is 0, 2, 3. -/
theorem GetFaceIndices_FaceList (m : MeshData3D) (pts : List Nat) (poc fl : MeshAttribute)
    (offset : Nat) (allocator : GPUVirtualMemoryAllocator)
    (hnull : m.faceIndices = none)
    (hP : m.pointCount + 1 < 2 ^ 32) (hC : m.cornerCount < 2 ^ 32)
    (hdiv : m.faceCount ∣ m.cornerCount)
    (h0 : m.attributes.get? 0 = some poc)
    (hread : readValues (if poc.Type_ = MeshAttributeType.UInt32 then 4 else 2) poc.Buffer
      m.cornerCount = .ok pts)
    (hlt : ∀ p ∈ pts, p < m.pointCount)
    (h4 : m.attributes.get? 4 = some fl)
    (hfl : (m.pointCount + 1) * 4 ≤ fl.Buffer.length)
    (hname : m.toMeshData2.FindAttribute faceIndexName = none)
    (halloc : m.data.AttributeAllocator.AllocateIndex32 (if m.faceCount ≤ 65535 then 2 else 4)
      m.cornerCount = .ok (offset, allocator)) :
    (∃ m' fl' faceList, m.GetFaceIndices = .ok (m.attributes.length, m') ∧
      m'.attributes.get? 4 = some fl' ∧ fl'.Name = fl.Name ∧
      readValues 4 fl'.Buffer (m.pointCount + 1) = .ok faceList ∧
      (∀ p, p ≤ m.pointCount → faceList.getD p 0 = pts.countP (fun x => x < p)) ∧
      faceList.getD 0 0 = 0 ∧
      (∀ p, p < m.pointCount → faceList.getD p 0 ≤ faceList.getD (p + 1) 0 ∧
        faceList.getD (p + 1) 0 - faceList.getD p 0 = pts.count p) ∧
      faceList.getD m.pointCount 0 = m.cornerCount) ∧
    (sampleMeshData3D.GetFaceIndices.bind (fun r =>
      match r.2.attributes.get? 4 with
      | some a => readValues 4 a.Buffer 3
      | none => .error .outOfBounds)) = .ok [0, 2, 3] := by
  refine ⟨?_, by decide⟩
  have hlen : pts.length = m.cornerCount := by
    rw [(readValues_eq _ _ _ _ hread).1]; simp
  have h5 : 4 < m.attributes.length := by
    by_contra hc
    rw [List.get?_eq_none.mpr (by omega)] at h4
    cases h4
  obtain ⟨ib, lb, hok, _, hlb⟩ := GetFaceIndices_eq m pts poc fl offset allocator hnull hP hC
    hdiv h0 hread hlt h4 hfl hname halloc
  have hval : ∀ p, p ≤ m.pointCount →
      (faceListValues ((List.range (m.pointCount + 1)).map
        (facesOfPoint pts (m.cornerCount / m.faceCount))) 0).getD p 0 =
          pts.countP (fun x => x < p) :=
    fun p hp => faceListValues_facesOfPoint pts _ _ p hp (by rw [hlen]; exact hC)
  refine ⟨_, _, _, hok, (get?_afterGetFaceIndices m offset allocator fl ib lb h5).1, rfl, hlb,
    hval, ?_, ?_, ?_⟩
  · rw [hval 0 (Nat.zero_le _)]
    simp
  · intro p hp
    rw [hval p (by omega), hval (p + 1) (by omega), countP_lt_succ]
    omega
  · rw [hval _ (le_refl _), ← hlen, List.countP_eq_length]
    intro p hp
    simpa using hlt p hp

theorem GetFaceIndices_FaceList_witness :
    (sampleMeshData3D.faceIndices = none ∧
      sampleMeshData3D.faceCount ∣ sampleMeshData3D.cornerCount ∧
      (∀ p ∈ [0, 1, 0], p < sampleMeshData3D.pointCount) ∧
      sampleMeshData3D.toMeshData2.FindAttribute faceIndexName = none) ∧
    ∃ m', sampleMeshData3D.GetFaceIndices = .ok (5, m') :=
  ⟨⟨by decide, by decide, by decide, by decide⟩,
    (GetFaceIndices_FaceList sampleMeshData3D [0, 1, 0]
      { Name := [80], Domain := MeshAttributeDomain.Corner, Type_ := MeshAttributeType.UInt16,
        IndexOffset := 0, Buffer := [0, 0, 1, 0, 0, 0], ElementSize := 2 }
      { Name := [70, 76], Domain := MeshAttributeDomain.Point,
        Type_ := MeshAttributeType.UInt32, IndexOffset := 8,
        Buffer := List.replicate 12 0, ElementSize := 4 }
      23 { Capacity := 4096, Cursor := 52 }
      (by decide) (by decide) (by decide) (by decide) (by decide) (by decide) (by decide)
      (by decide) (by decide) (by decide) (by decide)).1.imp (fun _ h => by
        obtain ⟨_, _, h, _⟩ := h
        exact h)⟩

/-- C8. Under the preconditions of C7, after the first `GetFaceIndices` the flattened
`FaceIndex` array is grouped by ascending point id: it is the concatenation, over the
points `0 .. PointCount-1` in order, of the face ids of the corners that reference the
point, listed in ascending corner order (a face that references the point through `k`
corners appears `k` times), and for every point `p` its elements at the positions
`FaceList[p] .. FaceList[p+1]-1` are exactly that list of point `p`. For 2 points and
corner-to-point indices 0, 1, 0 the array is 0, 2, 1. -/
theorem GetFaceIndices_FaceIndex (m : MeshData3D) (pts : List Nat) (poc fl : MeshAttribute)
    (offset : Nat) (allocator : GPUVirtualMemoryAllocator)
    (hnull : m.faceIndices = none)
    (hP : m.pointCount + 1 < 2 ^ 32) (hC : m.cornerCount < 2 ^ 32)
    (hdiv : m.faceCount ∣ m.cornerCount)
    (h0 : m.attributes.get? 0 = some poc)
    (hread : readValues (if poc.Type_ = MeshAttributeType.UInt32 then 4 else 2) poc.Buffer
      m.cornerCount = .ok pts)
    (hlt : ∀ p ∈ pts, p < m.pointCount)
    (h4 : m.attributes.get? 4 = some fl)
    (hfl : (m.pointCount + 1) * 4 ≤ fl.Buffer.length)
    (hname : m.toMeshData2.FindAttribute faceIndexName = none)
    (halloc : m.data.AttributeAllocator.AllocateIndex32 (if m.faceCount ≤ 65535 then 2 else 4)
      m.cornerCount = .ok (offset, allocator)) :
    (∃ m' fi' fl' faceIndex faceList, m.GetFaceIndices = .ok (m.attributes.length, m') ∧
      m'.attributes.get? m.attributes.length = some fi' ∧ fi'.Name = faceIndexName ∧
      m'.attributes.get? 4 = some fl' ∧
      readValues (if m.faceCount ≤ 65535 then 2 else 4) fi'.Buffer m.cornerCount =
        .ok faceIndex ∧
      readValues 4 fl'.Buffer (m.pointCount + 1) = .ok faceList ∧
      faceIndex = (List.range m.pointCount).flatMap
        (facesOfPoint pts (m.cornerCount / m.faceCount)) ∧
      (∀ p, p < m.pointCount →
        (faceIndex.drop (faceList.getD p 0)).take (faceList.getD (p + 1) 0 - faceList.getD p 0) =
          facesOfPoint pts (m.cornerCount / m.faceCount) p)) ∧
    (sampleMeshData3D.GetFaceIndices.bind (fun r =>
      match r.2.attributes.get? r.1 with
      | some a => readValues 2 a.Buffer 3
      | none => .error .outOfBounds)) = .ok [0, 2, 1] := by
  refine ⟨?_, by decide⟩
  have hlen : pts.length = m.cornerCount := by
    rw [(readValues_eq _ _ _ _ hread).1]; simp
  have h5 : 4 < m.attributes.length := by
    by_contra hc
    rw [List.get?_eq_none.mpr (by omega)] at h4
    cases h4
  obtain ⟨ib, lb, hok, hib, hlb⟩ := GetFaceIndices_eq m pts poc fl offset allocator hnull hP hC
    hdiv h0 hread hlt h4 hfl hname halloc
  have hget := get?_afterGetFaceIndices m offset allocator fl ib lb h5
  have hval : ∀ p, p ≤ m.pointCount →
      (faceListValues ((List.range (m.pointCount + 1)).map
        (facesOfPoint pts (m.cornerCount / m.faceCount))) 0).getD p 0 =
          ((((List.range (m.pointCount + 1)).map
            (facesOfPoint pts (m.cornerCount / m.faceCount))).take p).flatten).length := by
    intro p hp
    rw [faceListValues_facesOfPoint pts _ _ p hp (by rw [hlen]; exact hC),
      take_map_range _ _ _ (by omega), flatten_take_length]
  refine ⟨_, _, _, _, _, hok, hget.2, rfl, hget.1, hib, hlb, ?_, ?_⟩
  · rw [List.range_succ, List.map_append, List.flatten_append, List.map_singleton,
      List.flatten_singleton,
      facesOfPoint_eq_nil pts _ m.pointCount (fun p hp => Nat.ne_of_lt (hlt p hp)),
      List.append_nil]
    rfl
  · intro p hp
    have hB := flatten_drop_take ((List.range (m.pointCount + 1)).map
      (facesOfPoint pts (m.cornerCount / m.faceCount))) p (by simp; omega)
    have hg : ((List.range (m.pointCount + 1)).map
        (facesOfPoint pts (m.cornerCount / m.faceCount))).getD p [] =
          facesOfPoint pts (m.cornerCount / m.faceCount) p := by
      rw [List.getD_eq_getElem _ _ (by simp; omega)]
      simp
    rw [hg] at hB
    rw [hval p (by omega), hval (p + 1) (by omega)]
    have hstep : ((((List.range (m.pointCount + 1)).map
        (facesOfPoint pts (m.cornerCount / m.faceCount))).take (p + 1)).flatten).length =
        ((((List.range (m.pointCount + 1)).map
          (facesOfPoint pts (m.cornerCount / m.faceCount))).take p).flatten).length +
          (facesOfPoint pts (m.cornerCount / m.faceCount) p).length := by
      rw [take_map_range _ _ _ (by omega), take_map_range _ _ _ (by omega), List.range_succ,
        List.map_append, List.flatten_append, List.length_append]
      simp
    rw [hstep, Nat.add_sub_cancel_left]
    exact hB

theorem GetFaceIndices_FaceIndex_witness :
    (sampleMeshData3D.faceIndices = none ∧
      sampleMeshData3D.faceCount ∣ sampleMeshData3D.cornerCount ∧
      (∀ p ∈ [0, 1, 0], p < sampleMeshData3D.pointCount) ∧
      sampleMeshData3D.toMeshData2.FindAttribute faceIndexName = none) ∧
    ∃ m', sampleMeshData3D.GetFaceIndices = .ok (5, m') :=
  ⟨⟨by decide, by decide, by decide, by decide⟩,
    (GetFaceIndices_FaceIndex sampleMeshData3D [0, 1, 0]
      { Name := [80], Domain := MeshAttributeDomain.Corner, Type_ := MeshAttributeType.UInt16,
        IndexOffset := 0, Buffer := [0, 0, 1, 0, 0, 0], ElementSize := 2 }
      { Name := [70, 76], Domain := MeshAttributeDomain.Point,
        Type_ := MeshAttributeType.UInt32, IndexOffset := 8,
        Buffer := List.replicate 12 0, ElementSize := 4 }
      23 { Capacity := 4096, Cursor := 52 }
      (by decide) (by decide) (by decide) (by decide) (by decide) (by decide) (by decide)
      (by decide) (by decide) (by decide) (by decide)).1.imp (fun _ h => by
        obtain ⟨_, _, _, _, h, _⟩ := h
        exact h)⟩

end Renderer

/-! ## Rejection of a wrong magic -/

theorem readBytes_endOnly (n : Nat) : Reader.EndOnly (readBytes n) := by
  intro s e h
  unfold readBytes at h
  split at h
  · cases h
  · cases h; rfl

theorem UnSerializeUInt_endOnly (w : Nat) : Reader.EndOnly (UnSerializeUInt w) := by
  intro s e h
  unfold UnSerializeUInt at h
  split at h
  · cases h
  · next heq => cases h; exact readBytes_endOnly w s _ heq

theorem UnSerializeBool_endOnly : Reader.EndOnly UnSerializeBool := by
  intro s e h
  unfold UnSerializeBool at h
  split at h
  · cases h
  · next heq => cases h; exact UnSerializeUInt_endOnly 1 s _ heq

theorem UnSerializeString_endOnly : Reader.EndOnly UnSerializeString := by
  intro s e h
  unfold UnSerializeString at h
  split at h
  · exact readBytes_endOnly _ _ _ h
  · next heq => cases h; exact UnSerializeUInt_endOnly 8 s _ heq

theorem readElements_endOnly {α : Type} (elem : Reader α) (he : Reader.EndOnly elem) (n : Nat) :
    Reader.EndOnly (readElements elem n) := by
  induction n with
  | zero => intro s e h; cases h
  | succ n ih =>
    intro s e h
    simp only [readElements] at h
    split at h
    · split at h
      · cases h
      · next heq => cases h; exact ih _ _ heq
    · next heq => cases h; exact he _ _ heq

theorem UnSerializeVector_endOnly {α : Type} (elem : Reader α) (he : Reader.EndOnly elem) :
    Reader.EndOnly (UnSerializeVector elem) := by
  intro s e h
  unfold UnSerializeVector at h
  split at h
  · exact readElements_endOnly elem he _ _ _ h
  · next heq => cases h; exact UnSerializeUInt_endOnly 8 s _ heq

theorem UnSerializeVectorTrivial_endOnly {α : Type} (w : Nat) (decode : Bytes → α) :
    Reader.EndOnly (UnSerializeVectorTrivial w decode) := by
  intro s e h
  unfold UnSerializeVectorTrivial at h
  split at h
  · split at h
    · cases h
    · next heq => cases h; exact readBytes_endOnly _ _ _ heq
  · next heq => cases h; exact UnSerializeUInt_endOnly 8 s _ heq

namespace Renderer

theorem UnSerializeUniquePtr_endOnly {α : Type} (elem : Reader α) (he : Reader.EndOnly elem) :
    Reader.EndOnly (UnSerializeUniquePtr elem) := by
  intro s e h
  unfold UnSerializeUniquePtr at h
  split at h
  · next heq => cases h; exact UnSerializeBool_endOnly s _ heq
  · split at h
    · split at h
      · next heq => cases h; exact he _ _ heq
      · cases h
    · cases h

theorem MeshFileMorph_UnSerialize_endOnly : Reader.EndOnly MeshFileMorph.UnSerialize := by
  intro s e h
  unfold MeshFileMorph.UnSerialize at h
  repeat' split at h
  all_goals first
    | cases h; done
    | (rename_i heq; cases h; first
        | exact UnSerializeString_endOnly _ _ heq
        | exact UnSerializeUInt_endOnly _ _ _ heq
        | exact UnSerializeVectorTrivial_endOnly _ _ _ _ heq)

theorem MeshFileAttribute_UnSerialize_endOnly : Reader.EndOnly MeshFileAttribute.UnSerialize := by
  intro s e h
  unfold MeshFileAttribute.UnSerialize at h
  repeat' split at h
  all_goals first
    | cases h; done
    | (rename_i heq; cases h; first
        | exact UnSerializeString_endOnly _ _ heq
        | exact UnSerializeUInt_endOnly _ _ _ heq
        | exact UnSerializeVectorTrivial_endOnly _ _ _ _ heq
        | exact UnSerializeVector_endOnly _ MeshFileMorph_UnSerialize_endOnly _ _ heq)

theorem MeshFile_UnSerialize_endOnly : Reader.EndOnly MeshFile.UnSerialize := by
  intro s e h
  unfold MeshFile.UnSerialize at h
  repeat' split at h
  all_goals first
    | cases h; done
    | (rename_i heq; cases h; first
        | exact UnSerializeString_endOnly _ _ heq
        | exact UnSerializeUInt_endOnly _ _ _ heq
        | exact UnSerializeVectorTrivial_endOnly _ _ _ _ heq
        | exact UnSerializeVector_endOnly _ MeshFileAttribute_UnSerialize_endOnly _ _ heq)

theorem MeshFileMaterial_UnSerialize_endOnly : Reader.EndOnly MeshFileMaterial.UnSerialize := by
  intro s e h
  unfold MeshFileMaterial.UnSerialize at h
  split at h
  · next heq => cases h; exact UnSerializeString_endOnly _ _ heq
  · cases h

theorem ObjectInstance_UnSerialize_endOnly : Reader.EndOnly ObjectInstance.UnSerialize := by
  intro s e h
  unfold ObjectInstance.UnSerialize at h
  repeat' split at h
  all_goals first
    | cases h; done
    | (rename_i heq; cases h; first
        | exact UnSerializeString_endOnly _ _ heq
        | exact UnSerializeUInt_endOnly _ _ _ heq
        | exact readBytes_endOnly _ _ _ heq)

theorem Collection_UnSerialize_endOnly (depth : Nat) :
    Reader.EndOnly (Collection.UnSerialize depth) := by
  induction depth with
  | zero => intro s e h; cases h; rfl
  | succ depth ih =>
    intro s e h
    simp only [Collection.UnSerialize] at h
    repeat' split at h
    all_goals first
      | cases h; done
      | (rename_i heq; cases h; first
          | exact UnSerializeString_endOnly _ _ heq
          | exact UnSerializeUInt_endOnly _ _ _ heq
          | exact UnSerializeVectorTrivial_endOnly _ _ _ _ heq
          | exact UnSerializeVector_endOnly _ (UnSerializeUniquePtr_endOnly _ ih) _ _ heq)

theorem SceneFile_UnSerialize_endOnly : Reader.EndOnly SceneFile.UnSerialize := by
  intro s e h
  unfold SceneFile.UnSerialize at h
  repeat' split at h
  all_goals first
    | cases h; done
    | (rename_i heq; cases h; first
        | exact UnSerializeVector_endOnly _ MeshFile_UnSerialize_endOnly _ _ heq
        | exact UnSerializeVector_endOnly _ ObjectInstance_UnSerialize_endOnly _ _ heq
        | exact UnSerializeVector_endOnly _ MeshFileMaterial_UnSerialize_endOnly _ _ heq
        | exact UnSerializeUniquePtr_endOnly _ (Collection_UnSerialize_endOnly _) _ _ heq)

/-- The magic read from a stream of at least four bytes is the value of its first four
bytes. -/
theorem UnSerializeUInt_four (s : Bytes) (h4 : 4 ≤ s.length) :
    UnSerializeUInt 4 s = .ok (fromLE (s.take 4), s.drop 4) := by
  simp [UnSerializeUInt, readBytes, h4]

/-- Four bytes are determined by the integer they hold. -/
theorem fromLE_four_eq (s : Bytes) (hs : IsBytes s) (h4 : 4 ≤ s.length) (a b c d : Nat)
    (ha : a < 256) (hb : b < 256) (hc : c < 256) (hd : d < 256) :
    fromLE (s.take 4) = fromLE [a, b, c, d] ↔ s.take 4 = [a, b, c, d] := by
  match s, h4 with
  | x :: y :: z :: w :: rest, _ =>
    have hx : x < 256 := hs x (by simp)
    have hy : y < 256 := hs y (by simp)
    have hz : z < 256 := hs z (by simp)
    have hw : w < 256 := hs w (by simp)
    simp only [List.take_succ_cons, List.take_zero, fromLE, List.cons.injEq, and_true]
    constructor
    · intro h; omega
    · rintro ⟨rfl, rfl, rfl, rfl⟩; rfl

theorem MeshFile_Load_magic (s : Bytes) (hs : IsBytes s) (h4 : 4 ≤ s.length) :
    ((∃ expected found, MeshFile.Load (some s) = .error (.invalidMagic expected found)) ↔
        s.take 4 ≠ [75, 77, 70, 0]) ∧
      (s.take 4 ≠ [75, 77, 70, 0] →
        MeshFile.Load (some s) = .error (.invalidMagic MeshFileMagic (fromLE (s.take 4)))) := by
  have hm : fromLE (s.take 4) = MeshFileMagic ↔ s.take 4 = [75, 77, 70, 0] :=
    fromLE_four_eq s hs h4 75 77 70 0 (by decide) (by decide) (by decide) (by decide)
  have hbad : s.take 4 ≠ [75, 77, 70, 0] →
      MeshFile.Load (some s) = .error (.invalidMagic MeshFileMagic (fromLE (s.take 4))) := by
    intro hne
    have : fromLE (s.take 4) ≠ MeshFileMagic := fun h => hne (hm.1 h)
    simp only [MeshFile.Load, UnSerializeUInt_four s h4, ne_eq, this, not_false_eq_true,
      ↓reduceIte]
  refine ⟨⟨?_, fun hne => ⟨_, _, hbad hne⟩⟩, hbad⟩
  rintro ⟨expected, found, h⟩ heq
  have hmagic : fromLE (s.take 4) = MeshFileMagic := hm.2 heq
  simp only [MeshFile.Load, UnSerializeUInt_four s h4, ne_eq, hmagic, not_true_eq_false,
    ↓reduceIte] at h
  split at h
  · next e herr =>
    have := MeshFile_UnSerialize_endOnly _ _ herr
    subst this
    cases h
  · cases h

theorem SceneFile_Load_magic (s : Bytes) (hs : IsBytes s) (h4 : 4 ≤ s.length) :
    ((∃ expected found, SceneFile.Load (some s) = .error (.invalidMagic expected found)) ↔
        s.take 4 ≠ [75, 83, 67, 0]) ∧
      (s.take 4 ≠ [75, 83, 67, 0] →
        SceneFile.Load (some s) = .error (.invalidMagic SceneFileMagic (fromLE (s.take 4)))) := by
  have hm : fromLE (s.take 4) = SceneFileMagic ↔ s.take 4 = [75, 83, 67, 0] :=
    fromLE_four_eq s hs h4 75 83 67 0 (by decide) (by decide) (by decide) (by decide)
  have hbad : s.take 4 ≠ [75, 83, 67, 0] →
      SceneFile.Load (some s) = .error (.invalidMagic SceneFileMagic (fromLE (s.take 4))) := by
    intro hne
    have : fromLE (s.take 4) ≠ SceneFileMagic := fun h => hne (hm.1 h)
    simp only [SceneFile.Load, UnSerializeUInt_four s h4, ne_eq, this, not_false_eq_true,
      ↓reduceIte]
  refine ⟨⟨?_, fun hne => ⟨_, _, hbad hne⟩⟩, hbad⟩
  rintro ⟨expected, found, h⟩ heq
  have hmagic : fromLE (s.take 4) = SceneFileMagic := hm.2 heq
  simp only [SceneFile.Load, UnSerializeUInt_four s h4, ne_eq, hmagic, not_true_eq_false,
    ↓reduceIte] at h
  split at h
  · next e herr =>
    have := SceneFile_UnSerialize_endOnly _ _ herr
    subst this
    cases h
  · cases h

/-- C11. For every openable stream `s` of at least four bytes, `MeshFile::Load` raises the
invalid-magic error (and so returns no `MeshFile`) if and only if the first four bytes
differ from `K`, `M`, `F`, 0, the error naming the expected magic and the value found;
`SceneFile::Load` does the same for `K`, `S`, `C`, 0. In particular whatever
`SceneFile::Save` writes is rejected by `MeshFile::Load` and whatever `MeshFile::Save`
writes is rejected by `SceneFile::Load`, for every value saved and whatever the opened
file held before. -/
theorem Load_rejects_wrong_magic (s : Bytes) (hs : IsBytes s) (h4 : 4 ≤ s.length) :
    ((∃ expected found, MeshFile.Load (some s) = .error (.invalidMagic expected found)) ↔
        s.take 4 ≠ [75, 77, 70, 0]) ∧
      (s.take 4 ≠ [75, 77, 70, 0] →
        MeshFile.Load (some s) = .error (.invalidMagic MeshFileMagic (fromLE (s.take 4)))) ∧
      ((∃ expected found, SceneFile.Load (some s) = .error (.invalidMagic expected found)) ↔
        s.take 4 ≠ [75, 83, 67, 0]) ∧
      (s.take 4 ≠ [75, 83, 67, 0] →
        SceneFile.Load (some s) = .error (.invalidMagic SceneFileMagic (fromLE (s.take 4)))) ∧
      (∀ (v : SceneFile) (old : Bytes), ∃ written, v.Save (some old) = some written ∧
        MeshFile.Load (some written) = .error (.invalidMagic MeshFileMagic SceneFileMagic)) ∧
      (∀ (v : MeshFile) (old : Bytes), ∃ written, v.Save (some old) = some written ∧
        SceneFile.Load (some written) = .error (.invalidMagic SceneFileMagic MeshFileMagic)) := by
  refine ⟨(MeshFile_Load_magic s hs h4).1, (MeshFile_Load_magic s hs h4).2,
    (SceneFile_Load_magic s hs h4).1, (SceneFile_Load_magic s hs h4).2, ?_, ?_⟩
  · intro v old
    refine ⟨_, rfl, ?_⟩
    unfold MeshFile.Load
    simp only
    rw [UnSerializeUInt_Serialize 4 _ SceneFileMagic_lt]
    rfl
  · intro v old
    refine ⟨_, rfl, ?_⟩
    unfold SceneFile.Load
    simp only
    rw [UnSerializeUInt_Serialize 4 _ MeshFileMagic_lt]
    rfl

theorem Load_rejects_wrong_magic_witness :
    IsBytes [75, 83, 67, 0, 9] ∧ 4 ≤ [75, 83, 67, 0, 9].length ∧
      MeshFile.Load (some [75, 83, 67, 0, 9]) =
        .error (.invalidMagic MeshFileMagic SceneFileMagic) ∧
      ¬ ∃ expected found,
        SceneFile.Load (some [75, 83, 67, 0, 9]) = .error (.invalidMagic expected found) :=
  have h := Load_rejects_wrong_magic [75, 83, 67, 0, 9] (by decide) (by decide)
  ⟨by decide, by decide, h.2.1 (by decide), fun hex => h.2.2.1.1 hex rfl⟩

/-! ## Adding an attribute -/

theorem FindAttribute_eq_none_iff (m : MeshData2) (name : Bytes) :
    m.FindAttribute name = none ↔ name = [] ∨ ∀ a ∈ m.attributes, a.Name ≠ name := by
  unfold MeshData2.FindAttribute
  by_cases hn : name = []
  · simp [hn]
  · simp only [hn, ↓reduceIte, false_or]
    constructor
    · intro h a ha hname
      have hlt : List.findIdx (fun a => decide (a.Name = name)) m.attributes <
          m.attributes.length :=
        List.findIdx_lt_length_of_exists ⟨a, ha, by simp [hname]⟩
      simp [hlt] at h
    · intro h
      have : ¬ List.findIdx (fun a => decide (a.Name = name)) m.attributes <
          m.attributes.length := by
        intro hlt
        have := List.findIdx_getElem (w := hlt)
        simp only [decide_eq_true_eq] at this
        exact h _ (List.getElem_mem _) this
      simp [this]

theorem FindAttribute_append_new (m : MeshData2) (a : MeshAttribute) (hne : a.Name ≠ [])
    (hnone : m.FindAttribute a.Name = none) (attrs : List MeshAttribute)
    (hattrs : attrs = m.attributes ++ [a]) (m' : MeshData2) (hm' : m'.attributes = attrs) :
    m'.FindAttribute a.Name = some m.attributes.length := by
  have hall : ∀ b ∈ m.attributes, b.Name ≠ a.Name := by
    rcases (FindAttribute_eq_none_iff m a.Name).1 hnone with h | h
    · exact absurd h hne
    · exact h
  unfold MeshData2.FindAttribute
  rw [if_neg hne, hm', hattrs]
  have hidx : List.findIdx (fun b => decide (b.Name = a.Name)) (m.attributes ++ [a]) =
      m.attributes.length := by
    rw [List.findIdx_append]
    have hnot : ¬ List.findIdx (fun b => decide (b.Name = a.Name)) m.attributes <
        m.attributes.length := by
      intro hlt
      have := List.findIdx_getElem (w := hlt)
      simp only [decide_eq_true_eq] at this
      exact hall _ (List.getElem_mem _) this
    rw [if_neg hnot]
    simp [List.findIdx_cons]
  simp [hidx]

/-- The body of `AddAttribute`, with the count chain named. -/
theorem AddAttribute_def (m : MeshData2) (name : Bytes) (domain type extraCount : Nat) :
    m.AddAttribute name domain type extraCount =
      if m.FindAttribute name ≠ none then .error .assertionFailure
      else
        match m.domainCount domain with
        | .error e => .error e
        | .ok count =>
          match attributeElementSize type with
          | .error e => .error e
          | .ok size =>
            match m.data.AttributeAllocator.AllocateIndex32 size
                ((count + extraCount) % 2 ^ 32) with
            | .error e => .error e
            | .ok (offset, allocator) =>
              .ok (m.attributes.length,
                { m with
                  data := { m.data with AttributeAllocator := allocator }
                  attributes := m.attributes ++
                    [{ Name := name, Domain := domain, Type_ := type, IndexOffset := offset,
                       Buffer := List.replicate (size * ((count + extraCount) % 2 ^ 32)) 0,
                       ElementSize := size }] }) := by
  rfl

/-- What a successful `AddAttribute` has done. -/
theorem AddAttribute_inv (m m' : MeshData2) (name : Bytes) (domain type extraCount i : Nat)
    (h : m.AddAttribute name domain type extraCount = .ok (i, m')) :
    m.FindAttribute name = none ∧
      ∃ count size offset allocator,
        m.domainCount domain = .ok count ∧ attributeElementSize type = .ok size ∧
        m.data.AttributeAllocator.AllocateIndex32 size ((count + extraCount) % 2 ^ 32) =
          .ok (offset, allocator) ∧
        i = m.attributes.length ∧
        m' = { m with
               data := { m.data with AttributeAllocator := allocator }
               attributes := m.attributes ++
                 [{ Name := name, Domain := domain, Type_ := type, IndexOffset := offset,
                    Buffer := List.replicate (size * ((count + extraCount) % 2 ^ 32)) 0,
                    ElementSize := size }] } := by
  rw [AddAttribute_def] at h
  split at h
  · cases h
  · next hfind =>
    refine ⟨by simpa using hfind, ?_⟩
    cases hcount : m.domainCount domain with
    | error e => rw [hcount] at h; cases h
    | ok count =>
      cases hsize : attributeElementSize type with
      | error e => rw [hcount, hsize] at h; cases h
      | ok size =>
        cases halloc : m.data.AttributeAllocator.AllocateIndex32 size
            ((count + extraCount) % 2 ^ 32) with
        | error e => rw [hcount, hsize] at h; simp only [halloc] at h; cases h
        | ok r =>
          obtain ⟨offset, allocator⟩ := r
          rw [hcount, hsize] at h
          simp only [halloc, Except.ok.injEq, Prod.mk.injEq] at h
          exact ⟨count, size, offset, allocator, rfl, rfl, halloc, h.1.symm, h.2.symm⟩

/-- When `AddAttribute` succeeds. -/
theorem AddAttribute_eq (m : MeshData2) (name : Bytes) (domain type extraCount : Nat)
    (count size offset : Nat) (allocator : GPUVirtualMemoryAllocator)
    (hname : m.FindAttribute name = none)
    (hcount : m.domainCount domain = .ok count)
    (hsize : attributeElementSize type = .ok size)
    (halloc : m.data.AttributeAllocator.AllocateIndex32 size
      ((count + extraCount) % 2 ^ 32) = .ok (offset, allocator)) :
    m.AddAttribute name domain type extraCount =
      .ok (m.attributes.length,
        { m with
          data := { m.data with AttributeAllocator := allocator }
          attributes := m.attributes ++
            [{ Name := name, Domain := domain, Type_ := type, IndexOffset := offset,
               Buffer := List.replicate (size * ((count + extraCount) % 2 ^ 32)) 0,
               ElementSize := size }] }) := by
  rw [AddAttribute_def, if_neg (by simp [hname]), hcount, hsize]
  simp only [halloc]

/-- The element size `AddAttribute` uses is the catalog size of the type. -/
theorem attributeElementSize_eq_ByteSize (type size : Nat)
    (h : attributeElementSize type = .ok size) : ByteSizeOfAttribute type = .ok size := by
  rcases Nat.lt_or_ge type 14 with ht | ht
  · interval_cases type <;> first | exact h | cases h
  · obtain ⟨k, rfl⟩ : ∃ k, type = k + 14 := ⟨type - 14, by omega⟩
    simp [attributeElementSize, MeshAttributeType.UInt8, MeshAttributeType.UInt16,
      MeshAttributeType.UInt32, MeshAttributeType.Float, MeshAttributeType.Vec2,
      MeshAttributeType.Vec3, MeshAttributeType.Vec4, MeshAttributeType.Vec2Int,
      MeshAttributeType.Vec3Int, MeshAttributeType.Vec4Int, MeshAttributeType.Vec2F16,
      MeshAttributeType.Vec3F16, MeshAttributeType.Vec4F16] at h

theorem domainCount_cases (m : MeshData2) (domain count : Nat)
    (h : m.domainCount domain = .ok count) :
    (domain = MeshAttributeDomain.Point ∧ count = m.pointCount) ∨
      (domain = MeshAttributeDomain.Face ∧ count = m.faceCount) ∨
      (domain = MeshAttributeDomain.Corner ∧ count = m.cornerCount) := by
  unfold MeshData2.domainCount at h
  split at h
  · next hd => cases h; exact Or.inl ⟨hd, rfl⟩
  · split at h
    · next hd => cases h; exact Or.inr (Or.inl ⟨hd, rfl⟩)
    · split at h
      · next hd => cases h; exact Or.inr (Or.inr ⟨hd, rfl⟩)
      · cases h

/-- C12 (as stated, refuted). On a mesh that already holds an attribute with the empty name
(the mesh that `AddAttribute` with the empty name makes of the sample mesh without
attributes), `AddAttribute` with the empty name does not fail: it adds a second attribute
with the empty name and allocates its four bytes. -/
theorem AddAttribute_empty_name_again :
    sampleMeshData2.AddAttribute [] MeshAttributeDomain.Point MeshAttributeType.UInt8 0 =
        .ok (0, sampleMeshWithAttribute []) ∧
      (∃ a ∈ (sampleMeshWithAttribute []).attributes, a.Name = []) ∧
      (sampleMeshWithAttribute []).AddAttribute [] MeshAttributeDomain.Point
          MeshAttributeType.UInt8 0 =
        .ok (1,
          { sampleMeshWithAttribute [] with
            data :=
              { sampleSceneData with AttributeAllocator := { Capacity := 4096, Cursor := 8 } }
            attributes :=
              [samplePointAttribute [], { samplePointAttribute [] with IndexOffset := 4 }] }) := by
  decide

/-- C12 (amended). For every non-empty name, `MeshData2::AddAttribute(name, ...)` fails with
the precondition violation (the failed assertion) whenever an attribute with that name
already exists on the mesh, whatever the domain, type and extra count; the failure is the
first thing the function does, so no attribute has been added and nothing allocated. -/
theorem AddAttribute_existing_name (m : MeshData2) (name : Bytes)
    (domain type extraCount : Nat) (hne : name ≠ [])
    (hex : ∃ a ∈ m.attributes, a.Name = name) :
    m.AddAttribute name domain type extraCount = .error .assertionFailure := by
  have hfind : m.FindAttribute name ≠ none := by
    intro hnone
    rcases (FindAttribute_eq_none_iff m name).1 hnone with h | h
    · exact hne h
    · obtain ⟨a, ha, hname⟩ := hex
      exact h a ha hname
  rw [AddAttribute_def, if_pos hfind]

theorem AddAttribute_existing_name_witness :
    ([97] : Bytes) ≠ [] ∧ (∃ a ∈ (sampleMeshWithAttribute [97]).attributes, a.Name = [97]) ∧
      (sampleMeshWithAttribute [97]).AddAttribute [97] MeshAttributeDomain.Face
          MeshAttributeType.Vec3 7 = .error .assertionFailure :=
  ⟨by decide, by decide,
    AddAttribute_existing_name (sampleMeshWithAttribute [97]) [97] MeshAttributeDomain.Face
      MeshAttributeType.Vec3 7 (by decide) (by decide)⟩

/-- C13. A successful `MeshData2::AddAttribute(name, domain, type, extraCount)` with a non-empty
name returns the position of exactly one appended attribute: the catalog is the old catalog
followed by it, so every earlier attribute keeps its position, offset and buffer; the new
attribute has that name, domain and type, its element size is `ByteSizeOfAttribute(type)`,
its element count is the `u32` sum of the count of its domain (PointCount, FaceCount or
CornerCount) and `extraCount`, which is the plain sum whenever that fits 32 bits, its
buffer has element count times element size bytes, all zero, and `FindAttribute(name)`
returns it afterwards. The counts of the mesh are unchanged. -/
theorem AddAttribute_appends (m m' : MeshData2) (name : Bytes)
    (domain type extraCount i : Nat) (hne : name ≠ [])
    (h : m.AddAttribute name domain type extraCount = .ok (i, m')) :
    ∃ count size a,
      ((domain = MeshAttributeDomain.Point ∧ count = m.pointCount) ∨
        (domain = MeshAttributeDomain.Face ∧ count = m.faceCount) ∨
        (domain = MeshAttributeDomain.Corner ∧ count = m.cornerCount)) ∧
      ByteSizeOfAttribute type = .ok size ∧
      i = m.attributes.length ∧ m'.attributes = m.attributes ++ [a] ∧
      (∀ j b, m.attributes.get? j = some b → m'.attributes.get? j = some b) ∧
      m'.attributes.get? i = some a ∧
      a.Name = name ∧ a.Domain = domain ∧ a.Type_ = type ∧ a.ElementSize = size ∧
      a.Buffer = List.replicate ((count + extraCount) % 2 ^ 32 * size) 0 ∧
      a.Buffer.length = (count + extraCount) % 2 ^ 32 * size ∧
      (count + extraCount < 2 ^ 32 → a.Buffer.length = (count + extraCount) * size) ∧
      (∀ x ∈ a.Buffer, x = 0) ∧
      m'.FindAttribute name = some i ∧
      m'.pointCount = m.pointCount ∧ m'.faceCount = m.faceCount ∧
      m'.cornerCount = m.cornerCount := by
  obtain ⟨hnone, count, size, offset, allocator, hcount, hsize, -, hi, hm'⟩ :=
    AddAttribute_inv m m' name domain type extraCount i h
  refine ⟨count, size,
    { Name := name, Domain := domain, Type_ := type, IndexOffset := offset,
      Buffer := List.replicate (size * ((count + extraCount) % 2 ^ 32)) 0,
      ElementSize := size }, domainCount_cases m domain count hcount,
    attributeElementSize_eq_ByteSize type size hsize, hi, by rw [hm'], ?_, ?_, rfl, rfl, rfl,
    rfl, by simp only [Nat.mul_comm], by simp [Nat.mul_comm], ?_, ?_, ?_, by rw [hm'],
    by rw [hm'], by rw [hm']⟩
  · intro j b hj
    rw [hm']
    simp only [List.get?_eq_getElem?] at hj ⊢
    obtain ⟨hlt, hb⟩ := List.getElem?_eq_some_iff.1 hj
    rw [List.getElem?_append_left hlt]
    exact hj
  · rw [hm', hi]
    simp
  · intro hlt
    simp only [List.length_replicate, Nat.mod_eq_of_lt hlt, Nat.mul_comm]
  · intro x hx
    exact (List.mem_replicate.1 hx).2
  · rw [hi]
    exact FindAttribute_append_new m _ hne hnone _ rfl m' (by rw [hm'])

theorem AddAttribute_appends_witness :
    ([97] : Bytes) ≠ [] ∧
      sampleMeshData2.AddAttribute [97] MeshAttributeDomain.Point MeshAttributeType.UInt8 0 =
        .ok (0, sampleMeshWithAttribute [97]) ∧
      ∃ count size a,
        ((MeshAttributeDomain.Point = MeshAttributeDomain.Point ∧
            count = sampleMeshData2.pointCount) ∨
          (MeshAttributeDomain.Point = MeshAttributeDomain.Face ∧
            count = sampleMeshData2.faceCount) ∨
          (MeshAttributeDomain.Point = MeshAttributeDomain.Corner ∧
            count = sampleMeshData2.cornerCount)) ∧
        ByteSizeOfAttribute MeshAttributeType.UInt8 = .ok size ∧
        0 = sampleMeshData2.attributes.length ∧
        (sampleMeshWithAttribute [97]).attributes = sampleMeshData2.attributes ++ [a] ∧
        (∀ j b, sampleMeshData2.attributes.get? j = some b →
          (sampleMeshWithAttribute [97]).attributes.get? j = some b) ∧
        (sampleMeshWithAttribute [97]).attributes.get? 0 = some a ∧
        a.Name = [97] ∧ a.Domain = MeshAttributeDomain.Point ∧
        a.Type_ = MeshAttributeType.UInt8 ∧ a.ElementSize = size ∧
        a.Buffer = List.replicate ((count + 0) % 2 ^ 32 * size) 0 ∧
        a.Buffer.length = (count + 0) % 2 ^ 32 * size ∧
        (count + 0 < 2 ^ 32 → a.Buffer.length = (count + 0) * size) ∧
        (∀ x ∈ a.Buffer, x = 0) ∧
        (sampleMeshWithAttribute [97]).FindAttribute [97] = some 0 ∧
        (sampleMeshWithAttribute [97]).pointCount = sampleMeshData2.pointCount ∧
        (sampleMeshWithAttribute [97]).faceCount = sampleMeshData2.faceCount ∧
        (sampleMeshWithAttribute [97]).cornerCount = sampleMeshData2.cornerCount :=
  ⟨by decide, by decide,
    AddAttribute_appends sampleMeshData2 (sampleMeshWithAttribute [97]) [97]
      MeshAttributeDomain.Point MeshAttributeType.UInt8 0 0 (by decide) (by decide)⟩

/-! ## The regions of successive attributes -/

/-- What a successful allocation returns: the first element-aligned slot at or after the
cursor, the cursor moving past the reserved elements. -/
theorem AllocateIndex32_inv (a a' : GPUVirtualMemoryAllocator) (size count offset : Nat)
    (hsize : 0 < size) (h : a.AllocateIndex32 size count = .ok (offset, a')) :
    a.Cursor ≤ offset * size ∧ a'.Cursor = (offset + count) * size ∧
      a'.Capacity = a.Capacity ∧ a'.Cursor ≤ a'.Capacity := by
  unfold GPUVirtualMemoryAllocator.AllocateIndex32 at h
  simp only at h
  split at h
  · next hle =>
    simp only [Except.ok.injEq, Prod.mk.injEq] at h
    obtain ⟨h1, h2⟩ := h
    subst h2
    subst h1
    refine ⟨?_, rfl, rfl, hle⟩
    have hdiv := Nat.div_add_mod (a.Cursor + size - 1) size
    have hmod := Nat.mod_lt (a.Cursor + size - 1) hsize
    rw [Nat.mul_comm] at hdiv
    omega
  · cases h

theorem attributeElementSize_pos (type size : Nat)
    (h : attributeElementSize type = .ok size) : 0 < size :=
  (ByteSizeOfAttribute_bounds type size (attributeElementSize_eq_ByteSize type size h)).1

theorem AddAttribute_packed (m m' : MeshData2) (name : Bytes) (domain type extraCount i : Nat)
    (hp : Packed m) (h : m.AddAttribute name domain type extraCount = .ok (i, m')) :
    Packed m' ∧ m'.attributes.map (fun a => a.Name) = m.attributes.map (fun a => a.Name) ++ [name] := by
  obtain ⟨-, count, size, offset, allocator, -, hsize, halloc, -, hm'⟩ :=
    AddAttribute_inv m m' name domain type extraCount i h
  have hpos := attributeElementSize_pos type size hsize
  obtain ⟨hcur, hcur', -, -⟩ := AllocateIndex32_inv _ _ size _ offset hpos halloc
  subst hm'
  refine ⟨⟨?_, ?_⟩, by simp⟩
  · simp only [List.pairwise_append, List.pairwise_cons, List.not_mem_nil, false_implies,
      implies_true, List.Pairwise.nil, and_self, List.mem_singleton, forall_eq, true_and]
    refine ⟨hp.1, fun a ha => ?_⟩
    have := (hp.2 a ha).1
    omega
  · intro a ha
    simp only [List.mem_append, List.mem_singleton] at ha
    rcases ha with ha | rfl
    · have := hp.2 a ha
      refine ⟨?_, this.2⟩
      simp only
      rw [hcur']
      have h1 := this.1
      have : offset * size ≤ (offset + (count + extraCount) % 2 ^ 32) * size :=
        Nat.mul_le_mul_right _ (Nat.le_add_right _ _)
      omega
    · simp only [List.length_replicate]
      rw [hcur']
      refine ⟨?_, hpos, Dvd.intro _ rfl⟩
      rw [Nat.add_mul, Nat.mul_comm size]

theorem addAttributes_packed (calls : List AddAttributeArgs) (m m' : MeshData2)
    (hp : Packed m) (h : m.addAttributes calls = .ok m') :
    Packed m' ∧
      m'.attributes.map (fun a => a.Name) =
        m.attributes.map (fun a => a.Name) ++ calls.map (fun c => c.name) := by
  induction calls generalizing m with
  | nil =>
    simp only [MeshData2.addAttributes, Except.ok.injEq] at h
    subst h
    exact ⟨hp, by simp⟩
  | cons c rest ih =>
    simp only [MeshData2.addAttributes] at h
    split at h
    · cases h
    · next i m1 h1 =>
      obtain ⟨hp1, hn1⟩ := AddAttribute_packed m m1 _ _ _ _ i hp h1
      obtain ⟨hp', hn'⟩ := ih m1 hp1 h
      exact ⟨hp', by rw [hn', hn1]; simp⟩

/-- C14 (as stated, refuted). After `AddAttribute("a", Point, UInt8)` and
`AddAttribute("b", Point, UInt16)` on a mesh of four points the two attributes hold the
index ranges `[0, 4)` and `[2, 6)`, which overlap: an offset counts elements of the
attribute's own type. -/
theorem AddAttribute_index_ranges_overlap :
    sampleMeshData2.addAttributes sampleAttributeCalls = .ok sampleMeshTwoAttributes ∧
      sampleMeshTwoAttributes.attributes.map (fun a => (a.IndexOffset, a.elementCount)) =
        [(0, 4), (2, 4)] ∧
      ¬ sampleMeshTwoAttributes.attributes.Pairwise IndexRangesDisjoint := by
  decide

/-- C14 (amended). For every sequence of successful `AddAttribute` calls on a newly
constructed `MeshData2`, attribute `i` of the catalog being the one the `i`-th call
returned, the regions of any two distinct attributes in the attribute buffer do not
overlap: the byte range `[IndexOffset * ElementSize, IndexOffset * ElementSize + size)` of
the earlier one ends where the later one starts or before, and the index ranges
`[IndexOffset, IndexOffset + elementCount)` of two attributes of the same element size do
not overlap either. -/
theorem AddAttribute_ranges_disjoint (m0 m : MeshData2) (calls : List AddAttributeArgs)
    (h0 : m0.attributes = []) (h : m0.addAttributes calls = .ok m) :
    m.attributes.map (fun a => a.Name) = calls.map (fun c => c.name) ∧
      ∀ i j a b, i < j → m.attributes.get? i = some a → m.attributes.get? j = some b →
        a.IndexOffset * a.ElementSize + a.Buffer.length ≤ b.IndexOffset * b.ElementSize ∧
          ByteRangesDisjoint a b ∧
          (a.ElementSize = b.ElementSize →
            a.IndexOffset + a.elementCount ≤ b.IndexOffset ∧ IndexRangesDisjoint a b) := by
  have hp0 : Packed m0 := by
    unfold Packed
    rw [h0]
    exact ⟨List.Pairwise.nil, fun a ha => by cases ha⟩
  obtain ⟨hp, hn⟩ := addAttributes_packed calls m0 m hp0 h
  refine ⟨by rw [hn, h0]; rfl, ?_⟩
  intro i j a b hij ha hb
  simp only [List.get?_eq_getElem?] at ha hb
  obtain ⟨hi, hai⟩ := List.getElem?_eq_some_iff.1 ha
  obtain ⟨hj, hbj⟩ := List.getElem?_eq_some_iff.1 hb
  have hle := List.pairwise_iff_getElem.1 hp.1 i j hi hj hij
  rw [hai, hbj] at hle
  have hmem : a ∈ m.attributes := hai ▸ List.getElem_mem _
  obtain ⟨-, hpos, k, hk⟩ := hp.2 a hmem
  refine ⟨hle, Or.inl hle, fun hsz => ?_⟩
  have hcount : a.elementCount = k := by
    unfold MeshAttribute.elementCount
    rw [hk, Nat.mul_div_cancel_left _ hpos]
  have : a.IndexOffset + a.elementCount ≤ b.IndexOffset := by
    rw [hcount]
    rw [hk, ← hsz, Nat.mul_comm a.ElementSize k, ← Nat.add_mul] at hle
    exact Nat.le_of_mul_le_mul_right hle hpos
  exact ⟨this, Or.inl this⟩

theorem AddAttribute_ranges_disjoint_witness :
    sampleMeshData2.attributes = [] ∧
      sampleMeshData2.addAttributes sampleAttributeCalls = .ok sampleMeshTwoAttributes ∧
      sampleMeshTwoAttributes.attributes.map (fun a => a.Name) =
        sampleAttributeCalls.map (fun c => c.name) ∧
      ∀ i j a b, i < j → sampleMeshTwoAttributes.attributes.get? i = some a →
        sampleMeshTwoAttributes.attributes.get? j = some b →
        a.IndexOffset * a.ElementSize + a.Buffer.length ≤ b.IndexOffset * b.ElementSize ∧
          ByteRangesDisjoint a b ∧
          (a.ElementSize = b.ElementSize →
            a.IndexOffset + a.elementCount ≤ b.IndexOffset ∧ IndexRangesDisjoint a b) :=
  ⟨by decide, by decide,
    AddAttribute_ranges_disjoint sampleMeshData2 sampleMeshTwoAttributes sampleAttributeCalls
      (by decide) (by decide)⟩

/-! ## Morph targets -/

theorem FindAttribute_nil (m : MeshData2) : m.FindAttribute [] = none := by
  simp [MeshData2.FindAttribute]

/-- An allocation succeeds whenever the bytes asked for, and one element more for the
alignment, fit above the cursor. -/
theorem AllocateIndex32_ok (a : GPUVirtualMemoryAllocator) (size count : Nat)
    (hsize : 0 < size) (hroom : a.Cursor + (count + 1) * size ≤ a.Capacity) :
    ∃ offset a', a.AllocateIndex32 size count = .ok (offset, a') ∧
      a'.Cursor ≤ a.Cursor + (count + 1) * size ∧ a'.Capacity = a.Capacity := by
  have hdiv := Nat.div_add_mod (a.Cursor + size - 1) size
  have hmod := Nat.mod_lt (a.Cursor + size - 1) hsize
  rw [Nat.mul_comm] at hdiv
  have hle : ((a.Cursor + size - 1) / size + count) * size ≤ a.Cursor + (count + 1) * size := by
    rw [Nat.add_mul, Nat.add_mul]
    omega
  refine ⟨(a.Cursor + size - 1) / size,
    { a with Cursor := ((a.Cursor + size - 1) / size + count) * size }, ?_, hle, rfl⟩
  unfold GPUVirtualMemoryAllocator.AllocateIndex32
  simp only
  rw [if_pos (le_trans hle hroom)]

/-- What a successful `AddAttributeMorphs` has done. -/
theorem AddAttributeMorphs_inv (m m' : MeshData2) (at_ : MeshAttributePtr)
    (shapeCount res : Nat) (h : m.AddAttributeMorphs at_ shapeCount = .ok (res, m')) :
    ∃ i a count size offset allocator valuesIndexOffset allocator',
      at_ = .own i ∧ m.attributes.get? i = some a ∧ a.Morphs.Attribute = none ∧
      m.domainCount a.Domain = .ok count ∧ attributeElementSize a.Type_ = .ok size ∧
      m.data.AttributeAllocator.AllocateIndex32 size
        ((count + count * shapeCount % 2 ^ 32) % 2 ^ 32) = .ok (offset, allocator) ∧
      allocator.AllocateIndex32 sizeof.f32 shapeCount = .ok (valuesIndexOffset, allocator') ∧
      res = m.attributes.length ∧
      m' = { m with
             data := { m.data with AttributeAllocator := allocator' }
             attributes :=
               (m.attributes ++
                 [morphAttributeOf a offset size
                   ((count + count * shapeCount % 2 ^ 32) % 2 ^ 32)]).set i
                 (withMorphs a valuesIndexOffset shapeCount res) } := by
  unfold MeshData2.AddAttributeMorphs at h
  cases hd : m.deref at_ with
  | none => rw [hd] at h; cases h
  | some a =>
    rw [hd] at h
    simp only at h
    split at h
    · cases h
    · next hmorph =>
      split at h
      · cases h
      · next hcont =>
        cases at_ with
        | foreign p => simp [MeshData2.containsPtr] at hcont
        | own i =>
          cases hcount : m.domainCount a.Domain with
          | error e => rw [hcount] at h; cases h
          | ok count =>
            rw [hcount] at h
            simp only at h
            cases hadd : m.AddAttribute [] a.Domain a.Type_ (count * shapeCount % 2 ^ 32) with
            | error e => rw [hadd] at h; cases h
            | ok r =>
              obtain ⟨res1, m1⟩ := r
              rw [hadd] at h
              simp only at h
              obtain ⟨-, count', size, offset, allocator, hcount', hsize, halloc, hres1, hm1⟩ :=
                AddAttribute_inv m m1 _ _ _ _ res1 hadd
              rw [hcount] at hcount'
              cases hcount'
              cases hval : m1.data.AttributeAllocator.AllocateIndex32 sizeof.f32 shapeCount with
              | error e => rw [hval] at h; cases h
              | ok r2 =>
                obtain ⟨valuesIndexOffset, allocator'⟩ := r2
                rw [hval] at h
                simp only [Except.ok.injEq, Prod.mk.injEq] at h
                obtain ⟨hres, hm'⟩ := h
                subst hm1
                refine ⟨i, a, count, size, offset, allocator, valuesIndexOffset, allocator', rfl,
                  hd, by simpa using hmorph, hcount, hsize, halloc, hval, by rw [← hres, hres1], ?_⟩
                rw [← hm', ← hres, hres1]
                rfl

/-- When `AddAttributeMorphs` succeeds. -/
theorem AddAttributeMorphs_eq (m : MeshData2) (i shapeCount : Nat) (a : MeshAttribute)
    (count size offset valuesIndexOffset : Nat) (allocator allocator' : GPUVirtualMemoryAllocator)
    (hget : m.attributes.get? i = some a) (hmorph : a.Morphs.Attribute = none)
    (hcount : m.domainCount a.Domain = .ok count)
    (hsize : attributeElementSize a.Type_ = .ok size)
    (halloc : m.data.AttributeAllocator.AllocateIndex32 size
      ((count + count * shapeCount % 2 ^ 32) % 2 ^ 32) = .ok (offset, allocator))
    (hval : allocator.AllocateIndex32 sizeof.f32 shapeCount = .ok (valuesIndexOffset, allocator')) :
    m.AddAttributeMorphs (.own i) shapeCount =
      .ok (m.attributes.length,
        { m with
          data := { m.data with AttributeAllocator := allocator' }
          attributes :=
            (m.attributes ++
              [morphAttributeOf a offset size
                ((count + count * shapeCount % 2 ^ 32) % 2 ^ 32)]).set i
              (withMorphs a valuesIndexOffset shapeCount m.attributes.length) }) := by
  have hlt : i < m.attributes.length := by
    simp only [List.get?_eq_getElem?] at hget
    exact (List.getElem?_eq_some_iff.1 hget).1
  unfold MeshData2.AddAttributeMorphs
  simp only [MeshData2.deref, hget, hmorph, ne_eq, not_true_eq_false, ↓reduceIte,
    MeshData2.containsPtr, hlt, decide_True, Bool.true_eq_false, hcount]
  rw [AddAttribute_eq m [] a.Domain a.Type_ _ count size offset allocator (FindAttribute_nil m)
    hcount hsize halloc]
  simp only [hval]
  rfl

theorem attributeElementSize_of_ByteSize (type size : Nat)
    (h : ByteSizeOfAttribute type = .ok size) (hb : type ≠ MeshAttributeType.Boolean) :
    attributeElementSize type = .ok size := by
  rcases Nat.lt_or_ge type 14 with ht | ht
  · interval_cases type <;> first | exact h | exact absurd rfl hb
  · rw [ByteSizeOfAttribute_eq_documented] at h
    obtain ⟨k, rfl⟩ : ∃ k, type = k + 14 := ⟨type - 14, by omega⟩
    simp [documentedComponents] at h

theorem domainCount_of_cases (m : MeshData2) (domain count : Nat)
    (h : (domain = MeshAttributeDomain.Point ∧ count = m.pointCount) ∨
      (domain = MeshAttributeDomain.Face ∧ count = m.faceCount) ∨
      (domain = MeshAttributeDomain.Corner ∧ count = m.cornerCount)) :
    m.domainCount domain = .ok count := by
  rcases h with ⟨rfl, rfl⟩ | ⟨rfl, rfl⟩ | ⟨rfl, rfl⟩ <;> rfl

/-- C15. With `at` pointing to an attribute: `MeshData2::AddAttributeMorphs(at, shapeCount)`
fails with the precondition violation (a failed assertion, before anything is added,
allocated or written to `at`) if `at` already has a morph attribute, and also if `at` is not
one of the attributes of this mesh; in every other case in which the domain of `at` is
Point, Face or Corner it succeeds, given that the type of `at` is one `AddAttribute` can
create (any enumerated type but Boolean, as every attribute made by `AddAttribute` has) and
that the attribute allocator has room for the morph data and the weights, each with one
element of alignment. -/
theorem AddAttributeMorphs_preconditions (m : MeshData2) (at_ : MeshAttributePtr)
    (shapeCount : Nat) (a : MeshAttribute) (hderef : m.deref at_ = some a) :
    (a.Morphs.Attribute ≠ none →
        m.AddAttributeMorphs at_ shapeCount = .error .assertionFailure) ∧
      (m.containsPtr at_ = false →
        m.AddAttributeMorphs at_ shapeCount = .error .assertionFailure) ∧
      (a.Morphs.Attribute = none → m.containsPtr at_ = true →
        ∀ count size,
          ((a.Domain = MeshAttributeDomain.Point ∧ count = m.pointCount) ∨
            (a.Domain = MeshAttributeDomain.Face ∧ count = m.faceCount) ∨
            (a.Domain = MeshAttributeDomain.Corner ∧ count = m.cornerCount)) →
          ByteSizeOfAttribute a.Type_ = .ok size → a.Type_ ≠ MeshAttributeType.Boolean →
          m.data.AttributeAllocator.Cursor +
              ((count + count * shapeCount % 2 ^ 32) % 2 ^ 32 + 1) * size +
              (shapeCount + 1) * 4 ≤ m.data.AttributeAllocator.Capacity →
          ∃ res m', m.AddAttributeMorphs at_ shapeCount = .ok (res, m') ∧
            res = m.attributes.length) := by
  refine ⟨?_, ?_, ?_⟩
  · intro hmorph
    unfold MeshData2.AddAttributeMorphs
    simp only [hderef, ne_eq, hmorph, not_false_eq_true, ↓reduceIte]
  · intro hcont
    unfold MeshData2.AddAttributeMorphs
    simp only [hderef, hcont, ↓reduceIte, ite_self]
  · intro hmorph hcont count size hdom hbyte hbool hroom
    cases at_ with
    | foreign p => simp [MeshData2.containsPtr] at hcont
    | own i =>
      have hsize := attributeElementSize_of_ByteSize _ _ hbyte hbool
      have hpos := attributeElementSize_pos _ _ hsize
      have hcount := domainCount_of_cases m _ _ hdom
      obtain ⟨offset, allocator, halloc, hcur, hcap⟩ :=
        AllocateIndex32_ok m.data.AttributeAllocator size
          ((count + count * shapeCount % 2 ^ 32) % 2 ^ 32) hpos (by omega)
      obtain ⟨valuesIndexOffset, allocator', hval, -, -⟩ :=
        AllocateIndex32_ok allocator sizeof.f32 shapeCount (by decide)
          (by rw [hcap]; show allocator.Cursor + (shapeCount + 1) * 4 ≤ _; omega)
      exact ⟨_, _, AddAttributeMorphs_eq m i shapeCount a count size offset valuesIndexOffset
        allocator allocator' hderef hmorph hcount hsize halloc hval, rfl⟩

theorem AddAttributeMorphs_preconditions_witness :
    (sampleMeshWithAttribute [97]).deref (.own 0) = some (samplePointAttribute [97]) ∧
      (∃ res m', (sampleMeshWithAttribute [97]).AddAttributeMorphs (.own 0) 2 = .ok (res, m') ∧
        res = (sampleMeshWithAttribute [97]).attributes.length) ∧
      sampleMeshWithMorphs.deref (.own 0) = some (withMorphs (samplePointAttribute [97]) 4 2 1) ∧
      sampleMeshWithMorphs.AddAttributeMorphs (.own 0) 2 = .error .assertionFailure :=
  ⟨by decide,
    (AddAttributeMorphs_preconditions (sampleMeshWithAttribute [97]) (.own 0) 2
      (samplePointAttribute [97]) (by decide)).2.2 (by decide) (by decide) 4 1
      (Or.inl ⟨by decide, by decide⟩) (by decide) (by decide) (by decide),
    by decide,
    (AddAttributeMorphs_preconditions sampleMeshWithMorphs (.own 0) 2
      (withMorphs (samplePointAttribute [97]) 4 2 1) (by decide)).1 (by decide)⟩

theorem length_resize {α : Type} (v : List α) (n : Nat) (value : α) :
    (resize v n value).length = n := by
  simp only [resize, List.length_append, List.length_take, List.length_replicate]
  omega

theorem resize_nil {α : Type} (n : Nat) (value : α) :
    resize [] n value = List.replicate n value := by
  simp [resize]

/-- The catalog entries a successful `AddAttributeMorphs` leaves for `at` and for the morph
attribute. -/
theorem AddAttributeMorphs_entries (m : MeshData2) (i : Nat) (a a' morph : MeshAttribute)
    (hget : m.attributes.get? i = some a) :
    ((m.attributes ++ [morph]).set i a').get? i = some a' ∧
      ((m.attributes ++ [morph]).set i a').get? m.attributes.length = some morph := by
  have hlt : i < m.attributes.length := by
    simp only [List.get?_eq_getElem?] at hget
    exact (List.getElem?_eq_some_iff.1 hget).1
  constructor
  · simp only [List.get?_eq_getElem?]
    rw [List.getElem?_set_self (by simp; omega)]
  · simp only [List.get?_eq_getElem?]
    rw [List.getElem?_set_ne (by omega)]
    simp

/-- C16 (as stated, refuted). `AddAttributeMorphs(at, 2)` on a Point attribute of a mesh of
four points returns an attribute of twelve elements, three copies of the domain-sized
data, not two. -/
theorem AddAttributeMorphs_three_copies :
    (sampleMeshWithAttribute [97]).AddAttributeMorphs (.own 0) 2 =
        .ok (1, sampleMeshWithMorphs) ∧
      (sampleMeshWithMorphs.attributes.get? 1).map (fun a => a.elementCount) =
        some (3 * sampleMeshWithMorphs.pointCount) ∧
      (sampleMeshWithMorphs.attributes.get? 1).map (fun a => a.elementCount) ≠
        some (2 * sampleMeshWithMorphs.pointCount) := by
  decide

/-- C16 (amended). After a successful `AddAttributeMorphs(at, shapeCount)` the returned morph
attribute has the domain and type of `at` and holds the domain-sized data that
`AddAttribute` gives every attribute plus `shapeCount` additional copies of it: the element
count is the `u32` value of `count + count * shapeCount`, that is
`(shapeCount + 1) * count(at.Domain)` elements and
`(shapeCount + 1) * count(at.Domain) * byteSize(at.Type)` bytes whenever the product fits 32
bits, all zero; and exactly `shapeCount` scalar weight slots are allocated, the `f32`
slots from `at.Morphs.ValuesIndexOffset` on, after which the allocator cursor stands. -/
theorem AddAttributeMorphs_allocation (m m' : MeshData2) (at_ : MeshAttributePtr)
    (shapeCount res : Nat) (a : MeshAttribute) (hderef : m.deref at_ = some a)
    (h : m.AddAttributeMorphs at_ shapeCount = .ok (res, m')) :
    ∃ count size morph a',
      ((a.Domain = MeshAttributeDomain.Point ∧ count = m.pointCount) ∨
        (a.Domain = MeshAttributeDomain.Face ∧ count = m.faceCount) ∨
        (a.Domain = MeshAttributeDomain.Corner ∧ count = m.cornerCount)) ∧
      ByteSizeOfAttribute a.Type_ = .ok size ∧
      m'.attributes.get? res = some morph ∧ m'.attributes.length = m.attributes.length + 1 ∧
      morph.Domain = a.Domain ∧ morph.Type_ = a.Type_ ∧ morph.ElementSize = size ∧
      morph.Buffer =
        List.replicate ((count + count * shapeCount % 2 ^ 32) % 2 ^ 32 * size) 0 ∧
      morph.elementCount = (count + count * shapeCount % 2 ^ 32) % 2 ^ 32 ∧
      ((shapeCount + 1) * count < 2 ^ 32 →
        morph.elementCount = (shapeCount + 1) * count ∧
          morph.Buffer.length = (shapeCount + 1) * count * size) ∧
      m'.deref at_ = some a' ∧
      morph.IndexOffset * size + morph.Buffer.length ≤ a'.Morphs.ValuesIndexOffset * 4 ∧
      m'.data.AttributeAllocator.Cursor = (a'.Morphs.ValuesIndexOffset + shapeCount) * 4 := by
  obtain ⟨i, a0, count, size, offset, allocator, valuesIndexOffset, allocator', hat, hget,
    -, hcount, hsize, halloc, hval, hres, hm'⟩ := AddAttributeMorphs_inv m m' at_ shapeCount res h
  subst hat
  have ha : a0 = a := by
    have : some a0 = some a := by rw [← hget, ← hderef]; rfl
    exact Option.some.inj this
  subst ha
  have hpos := attributeElementSize_pos _ _ hsize
  obtain ⟨-, hcur1, -, -⟩ := AllocateIndex32_inv _ _ size _ offset hpos halloc
  obtain ⟨hcur2, hcur3, -, -⟩ :=
    AllocateIndex32_inv _ _ sizeof.f32 _ valuesIndexOffset (by decide) hval
  subst hres
  obtain ⟨hent1, hent2⟩ := AddAttributeMorphs_entries m i a0
    (withMorphs a0 valuesIndexOffset shapeCount m.attributes.length)
    (morphAttributeOf a0 offset size ((count + count * shapeCount % 2 ^ 32) % 2 ^ 32)) hget
  have hcountEq : (morphAttributeOf a0 offset size
      ((count + count * shapeCount % 2 ^ 32) % 2 ^ 32)).elementCount =
      (count + count * shapeCount % 2 ^ 32) % 2 ^ 32 := by
    simp only [MeshAttribute.elementCount, morphAttributeOf, List.length_replicate]
    exact Nat.mul_div_cancel_left _ hpos
  refine ⟨count, size,
    morphAttributeOf a0 offset size ((count + count * shapeCount % 2 ^ 32) % 2 ^ 32),
    withMorphs a0 valuesIndexOffset shapeCount m.attributes.length,
    domainCount_cases m _ _ hcount,
    attributeElementSize_eq_ByteSize _ _ hsize, ?_, ?_, rfl, rfl, rfl,
    by simp only [morphAttributeOf, Nat.mul_comm], hcountEq, ?_, ?_, ?_, ?_⟩
  · rw [hm']; exact hent2
  · rw [hm']; simp
  · intro hfit
    have hfit' : count + count * shapeCount < 2 ^ 32 := by
      have : (shapeCount + 1) * count = count + count * shapeCount := by ring
      omega
    have hmod : (count + count * shapeCount % 2 ^ 32) % 2 ^ 32 = (shapeCount + 1) * count := by
      rw [Nat.add_mod, Nat.mod_mod, ← Nat.add_mod, Nat.mod_eq_of_lt hfit']
      ring
    rw [hcountEq, hmod]
    refine ⟨rfl, ?_⟩
    simp only [morphAttributeOf, List.length_replicate, hmod]
    ring
  · rw [hm']; exact hent1
  · simp only [morphAttributeOf, withMorphs, List.length_replicate]
    have : offset * size + size * ((count + count * shapeCount % 2 ^ 32) % 2 ^ 32) =
        (offset + (count + count * shapeCount % 2 ^ 32) % 2 ^ 32) * size := by ring
    rw [this, ← hcur1]
    exact hcur2
  · rw [hm']
    simp only [withMorphs]
    exact hcur3

theorem AddAttributeMorphs_allocation_witness :
    (sampleMeshWithAttribute [97]).deref (.own 0) = some (samplePointAttribute [97]) ∧
      (sampleMeshWithAttribute [97]).AddAttributeMorphs (.own 0) 2 =
        .ok (1, sampleMeshWithMorphs) ∧
      ∃ count size morph a',
        ((MeshAttributeDomain.Point = MeshAttributeDomain.Point ∧ count = 4) ∨
          (MeshAttributeDomain.Point = MeshAttributeDomain.Face ∧ count = 2) ∨
          (MeshAttributeDomain.Point = MeshAttributeDomain.Corner ∧ count = 6)) ∧
        ByteSizeOfAttribute MeshAttributeType.UInt8 = .ok size ∧
        sampleMeshWithMorphs.attributes.get? 1 = some morph ∧
        sampleMeshWithMorphs.attributes.length =
          (sampleMeshWithAttribute [97]).attributes.length + 1 ∧
        morph.Domain = MeshAttributeDomain.Point ∧ morph.Type_ = MeshAttributeType.UInt8 ∧
        morph.ElementSize = size ∧
        morph.Buffer = List.replicate ((count + count * 2 % 2 ^ 32) % 2 ^ 32 * size) 0 ∧
        morph.elementCount = (count + count * 2 % 2 ^ 32) % 2 ^ 32 ∧
        ((2 + 1) * count < 2 ^ 32 →
          morph.elementCount = (2 + 1) * count ∧
            morph.Buffer.length = (2 + 1) * count * size) ∧
        sampleMeshWithMorphs.deref (.own 0) = some a' ∧
        morph.IndexOffset * size + morph.Buffer.length ≤ a'.Morphs.ValuesIndexOffset * 4 ∧
        sampleMeshWithMorphs.data.AttributeAllocator.Cursor =
          (a'.Morphs.ValuesIndexOffset + 2) * 4 :=
  ⟨by decide, by decide,
    AddAttributeMorphs_allocation (sampleMeshWithAttribute [97]) sampleMeshWithMorphs (.own 0) 2 1
      (samplePointAttribute [97]) (by decide) (by decide)⟩

/-- C17 (as stated, refuted). After `AddAttributeMorphs(at, 2)` the first entry of
`at.Morphs.Values` has the weight (`Value`) 0, not 1; it is the maximum (`Max`) that is 1. -/
theorem AddAttributeMorphs_first_value_zero :
    (sampleMeshWithAttribute [97]).AddAttributeMorphs (.own 0) 2 =
        .ok (1, sampleMeshWithMorphs) ∧
      ((sampleMeshWithMorphs.attributes.get? 0).bind (fun a => a.Morphs.Values.head?)).map
          (fun v => (v.Value, v.Min, v.Max)) = some (0, 0, f32One) ∧
      f32One ≠ 0 := by
  decide

/-- C17 (amended). After a successful `AddAttributeMorphs(at, shapeCount)`,
`at.Morphs.Attribute` is the returned attribute, the new last attribute of the catalog, and
`at.Morphs.Values` has exactly `shapeCount` entries of per-shape metadata (name, value, min,
max); when `at` had no entries before, as every attribute without a morph attribute, each
of them, the first included when `shapeCount >= 1`, is the default entry with empty name,
weight (`Value`) 0, `Min` 0 and `Max` 1. -/
theorem AddAttributeMorphs_values (m m' : MeshData2) (at_ : MeshAttributePtr)
    (shapeCount res : Nat) (a : MeshAttribute) (hderef : m.deref at_ = some a)
    (h : m.AddAttributeMorphs at_ shapeCount = .ok (res, m')) :
    ∃ a', m'.deref at_ = some a' ∧ a'.Morphs.Attribute = some res ∧
      res = m.attributes.length ∧ m'.attributes.length = m.attributes.length + 1 ∧
      a'.Morphs.Values.length = shapeCount ∧
      (a.Morphs.Values = [] →
        a'.Morphs.Values = List.replicate shapeCount defaultMeshMorph ∧
          (1 ≤ shapeCount →
            ∃ first, a'.Morphs.Values.head? = some first ∧ first.Name = [] ∧
              first.Value = 0 ∧ first.Min = 0 ∧ first.Max = f32One)) := by
  obtain ⟨i, a0, count, size, offset, allocator, valuesIndexOffset, allocator', hat, hget,
    -, -, -, -, -, hres, hm'⟩ := AddAttributeMorphs_inv m m' at_ shapeCount res h
  subst hat
  have ha : a0 = a := by
    have : some a0 = some a := by rw [← hget, ← hderef]; rfl
    exact Option.some.inj this
  subst ha
  subst hres
  obtain ⟨hent1, -⟩ := AddAttributeMorphs_entries m i a0
    (withMorphs a0 valuesIndexOffset shapeCount m.attributes.length)
    (morphAttributeOf a0 offset size ((count + count * shapeCount % 2 ^ 32) % 2 ^ 32)) hget
  refine ⟨withMorphs a0 valuesIndexOffset shapeCount m.attributes.length,
    by rw [hm']; exact hent1, rfl, rfl, by rw [hm']; simp, length_resize _ _ _, ?_⟩
  intro hnil
  have hrep : (withMorphs a0 valuesIndexOffset shapeCount m.attributes.length).Morphs.Values =
      List.replicate shapeCount defaultMeshMorph := by
    simp only [withMorphs, hnil, resize_nil]
  refine ⟨hrep, fun hone => ⟨defaultMeshMorph, ?_, rfl, rfl, rfl, rfl⟩⟩
  rw [hrep]
  obtain ⟨k, rfl⟩ : ∃ k, shapeCount = k + 1 := ⟨shapeCount - 1, by omega⟩
  rfl

theorem AddAttributeMorphs_values_witness :
    (sampleMeshWithAttribute [97]).deref (.own 0) = some (samplePointAttribute [97]) ∧
      (sampleMeshWithAttribute [97]).AddAttributeMorphs (.own 0) 2 =
        .ok (1, sampleMeshWithMorphs) ∧
      ∃ a', sampleMeshWithMorphs.deref (.own 0) = some a' ∧ a'.Morphs.Attribute = some 1 ∧
        1 = (sampleMeshWithAttribute [97]).attributes.length ∧
        sampleMeshWithMorphs.attributes.length =
          (sampleMeshWithAttribute [97]).attributes.length + 1 ∧
        a'.Morphs.Values.length = 2 ∧
        ((samplePointAttribute [97]).Morphs.Values = [] →
          a'.Morphs.Values = List.replicate 2 defaultMeshMorph ∧
            (1 ≤ 2 →
              ∃ first, a'.Morphs.Values.head? = some first ∧ first.Name = [] ∧
                first.Value = 0 ∧ first.Min = 0 ∧ first.Max = f32One)) :=
  ⟨by decide, by decide,
    AddAttributeMorphs_values (sampleMeshWithAttribute [97]) sampleMeshWithMorphs (.own 0) 2 1
      (samplePointAttribute [97]) (by decide) (by decide)⟩

/-! ## What every call keeps -/

theorem KeepsCatalog_refl (m : MeshData2) : KeepsCatalog m m :=
  ⟨rfl, rfl, rfl, [], by simp⟩

theorem KeepsCatalog_trans (m1 m2 m3 : MeshData2) (h12 : KeepsCatalog m1 m2)
    (h23 : KeepsCatalog m2 m3) : KeepsCatalog m1 m3 := by
  obtain ⟨hp, hf, hc, added, ha⟩ := h12
  obtain ⟨hp', hf', hc', added', ha'⟩ := h23
  exact ⟨hp'.trans hp, hf'.trans hf, hc'.trans hc, added ++ added', by
    rw [ha', ha, List.append_assoc]⟩

theorem KeepsCatalog_get (m m' : MeshData2) (h : KeepsCatalog m m') (j : Nat)
    (a : MeshAttribute) (hj : m.attributes.get? j = some a) :
    ∃ a', m'.attributes.get? j = some a' ∧ a'.shape = a.shape := by
  obtain ⟨-, -, -, added, ha⟩ := h
  simp only [List.get?_eq_getElem?] at hj ⊢
  obtain ⟨hlt, hget⟩ := List.getElem?_eq_some_iff.1 hj
  have h1 : (m'.attributes.map MeshAttribute.shape)[j]? = some a.shape := by
    rw [ha, List.getElem?_append_left (by simpa using hlt), List.getElem?_map, hj]
    rfl
  rw [List.getElem?_map] at h1
  cases hget' : m'.attributes[j]? with
  | none => rw [hget'] at h1; cases h1
  | some a' =>
    rw [hget'] at h1
    exact ⟨a', rfl, Option.some.inj h1⟩

theorem map_shape_set (l : List MeshAttribute) (i : Nat) (a a' : MeshAttribute)
    (hget : l.get? i = some a) (hshape : a'.shape = a.shape) :
    (l.set i a').map MeshAttribute.shape = l.map MeshAttribute.shape := by
  simp only [List.get?_eq_getElem?] at hget
  obtain ⟨hlt, hget⟩ := List.getElem?_eq_some_iff.1 hget
  apply List.ext_getElem?
  intro j
  simp only [List.getElem?_map]
  by_cases hij : i = j
  · subst hij
    rw [List.getElem?_set_self hlt, List.getElem?_eq_getElem hlt, hget]
    simp [hshape]
  · rw [List.getElem?_set_ne hij]

theorem AddAttribute_keeps (m m' : MeshData2) (name : Bytes) (domain type extraCount i : Nat)
    (h : m.AddAttribute name domain type extraCount = .ok (i, m')) : KeepsCatalog m m' := by
  obtain ⟨-, count, size, offset, allocator, -, -, -, -, hm'⟩ :=
    AddAttribute_inv m m' name domain type extraCount i h
  subst hm'
  exact ⟨rfl, rfl, rfl, _, List.map_append _ _ _⟩

theorem AddAttributeMorphs_keeps (m m' : MeshData2) (at_ : MeshAttributePtr)
    (shapeCount res : Nat) (h : m.AddAttributeMorphs at_ shapeCount = .ok (res, m')) :
    KeepsCatalog m m' := by
  obtain ⟨i, a, count, size, offset, allocator, valuesIndexOffset, allocator', -, hget,
    -, -, -, -, -, -, hm'⟩ := AddAttributeMorphs_inv m m' at_ shapeCount res h
  subst hm'
  refine ⟨rfl, rfl, rfl,
    [(morphAttributeOf a offset size
      ((count + count * shapeCount % 2 ^ 32) % 2 ^ 32)).shape], ?_⟩
  simp only
  have hget' : (m.attributes ++
      [morphAttributeOf a offset size ((count + count * shapeCount % 2 ^ 32) % 2 ^ 32)]).get? i =
      some a := by
    simp only [List.get?_eq_getElem?] at hget ⊢
    rw [List.getElem?_append_left (List.getElem?_eq_some_iff.1 hget).1]
    exact hget
  rw [map_shape_set _ i a (withMorphs a valuesIndexOffset shapeCount res) hget' rfl,
    List.map_append]
  rfl

theorem writeValues_length (w : Nat) (values : List Nat) (buf out : Bytes)
    (h : writeValues w values buf = .ok out) : out.length = buf.length := by
  unfold writeValues at h
  split at h
  · next hle =>
    cases h
    have hlen : (values.flatMap (toLE w)).length = values.length * w :=
      length_flatMap_const (toLE w) w values (fun v _ => toLE_length w v)
    simp only [List.length_append, List.length_drop, hlen]
    omega
  · cases h

/-- What `GetFaceIndices` has done when it returns: nothing, or one `AddAttribute` and the
filling of the two buffers. -/
theorem GetFaceIndices_inv (m m' : MeshData3D) (fi : Nat)
    (h : m.GetFaceIndices = .ok (fi, m')) :
    m' = m ∨
      ∃ (m2 : MeshData2) (faceIndex faceList : MeshAttribute) (indexBuffer listBuffer : Bytes)
        (type extraCount : Nat),
        m.toMeshData2.AddAttribute faceIndexName MeshAttributeDomain.Point type extraCount =
          .ok (fi, m2) ∧
        m2.attributes.get? fi = some faceIndex ∧ m2.attributes.get? 4 = some faceList ∧
        indexBuffer.length = faceIndex.Buffer.length ∧
        listBuffer.length = faceList.Buffer.length ∧
        m' = { m with
               toMeshData2 :=
                 { m2 with
                   attributes :=
                     (m2.attributes.set fi { faceIndex with Buffer := indexBuffer }).set 4
                       { faceList with Buffer := listBuffer } }
               faceIndices := some fi
               Uniform := { m.Uniform with FaceIndexOfPointOffset := faceIndex.IndexOffset } } := by
  unfold MeshData3D.GetFaceIndices at h
  split at h
  · simp only [Except.ok.injEq, Prod.mk.injEq] at h
    exact Or.inl h.2.symm
  · split at h
    · simp only at h
      split at h
      · cases h
      · split at h
        · cases h
        · next fi' m2 hadd =>
          split at h
          · next faceIndex faceList hfi h4 =>
            split at h
            · cases h
            · next indexBuffer hindex =>
              split at h
              · cases h
              · next listBuffer hlist =>
                simp only [Except.ok.injEq, Prod.mk.injEq] at h
                obtain ⟨hfi', hm'⟩ := h
                subst hfi'
                exact Or.inr ⟨m2, faceIndex, faceList, indexBuffer, listBuffer, _, _, hadd, hfi,
                  h4, writeValues_length _ _ _ _ hindex, writeValues_length _ _ _ _ hlist,
                  hm'.symm⟩
          · cases h
    · cases h

theorem get?_of_map_shape_eq (l l' : List MeshAttribute)
    (h : l'.map MeshAttribute.shape = l.map MeshAttribute.shape) (j : Nat) (b : MeshAttribute)
    (hj : l.get? j = some b) : ∃ b', l'.get? j = some b' ∧ b'.shape = b.shape := by
  simp only [List.get?_eq_getElem?] at hj ⊢
  have h1 : (l'.map MeshAttribute.shape)[j]? = some b.shape := by
    rw [h, List.getElem?_map, hj]
    rfl
  rw [List.getElem?_map] at h1
  cases hget' : l'[j]? with
  | none => rw [hget'] at h1; cases h1
  | some b' =>
    rw [hget'] at h1
    exact ⟨b', rfl, Option.some.inj h1⟩

theorem GetFaceIndices_keeps (m m' : MeshData3D) (fi : Nat)
    (h : m.GetFaceIndices = .ok (fi, m')) :
    KeepsCatalog m.toMeshData2 m'.toMeshData2 ∧ m'.name = m.name ∧ m'.uvMaps = m.uvMaps ∧
      m'.Uniform.UvOffset = m.Uniform.UvOffset ∧
      m'.Uniform.TangentOffset = m.Uniform.TangentOffset := by
  rcases GetFaceIndices_inv m m' fi h with rfl | ⟨m2, faceIndex, faceList, indexBuffer,
    listBuffer, type, extraCount, hadd, hfi, h4, hil, hll, rfl⟩
  · exact ⟨KeepsCatalog_refl _, rfl, rfl, rfl, rfl⟩
  · refine ⟨?_, rfl, rfl, rfl, rfl⟩
    have h1 : (m2.attributes.set fi { faceIndex with Buffer := indexBuffer }).map
        MeshAttribute.shape = m2.attributes.map MeshAttribute.shape :=
      map_shape_set _ fi faceIndex _ hfi (by simp [MeshAttribute.shape, hil])
    obtain ⟨b', hb', hshape⟩ := get?_of_map_shape_eq _ _ h1 4 faceList h4
    have h2 : ((m2.attributes.set fi { faceIndex with Buffer := indexBuffer }).set 4
        { faceList with Buffer := listBuffer }).map MeshAttribute.shape =
        m2.attributes.map MeshAttribute.shape := by
      rw [map_shape_set _ 4 b' _ hb' (by rw [hshape]; simp [MeshAttribute.shape, hll]), h1]
    obtain ⟨hp, hf, hc, added, ha⟩ := AddAttribute_keeps _ _ _ _ _ _ _ hadd
    exact ⟨hp, hf, hc, added, by simp only; rw [h2, ha]⟩

/-- What a successful `AddUvMap` has done. -/
theorem AddUvMap_inv (m m' : MeshData3D) (name : Bytes) (uv : Nat)
    (h : m.AddUvMap name = .ok (uv, m')) :
    ∃ (m1 m2 : MeshData2) (uvAttribute tgAttribute : MeshAttribute) (tg : Nat),
      m.toMeshData2.AddAttribute name MeshAttributeDomain.Corner MeshAttributeType.Vec2F16 0 =
        .ok (uv, m1) ∧
      m1.attributes.get? uv = some uvAttribute ∧
      m1.AddAttribute (tangentOfName uvAttribute.Name) MeshAttributeDomain.Corner
        MeshAttributeType.Vec3F16 0 = .ok (tg, m2) ∧
      m2.attributes.get? tg = some tgAttribute ∧
      m' = { m with
             toMeshData2 := m2
             Uniform :=
               if m.uvMaps = [] then
                 { m.Uniform with
                   UvOffset := uvAttribute.IndexOffset
                   TangentOffset := tgAttribute.IndexOffset }
               else m.Uniform
             uvMaps := m.uvMaps ++ [uv] } := by
  unfold MeshData3D.AddUvMap at h
  split at h
  · cases h
  · next uv' m1 hadd1 =>
    split at h
    · cases h
    · next uvAttribute huv =>
      split at h
      · cases h
      · next tg m2 hadd2 =>
        split at h
        · cases h
        · next tgAttribute htg =>
          simp only [Except.ok.injEq, Prod.mk.injEq] at h
          obtain ⟨huv', hm'⟩ := h
          subst huv'
          exact ⟨m1, m2, uvAttribute, tgAttribute, tg, hadd1, huv, hadd2, htg, hm'.symm⟩

theorem AddUvMap_keeps (m m' : MeshData3D) (name : Bytes) (uv : Nat)
    (h : m.AddUvMap name = .ok (uv, m')) :
    KeepsCatalog m.toMeshData2 m'.toMeshData2 ∧ m'.name = m.name ∧
      m'.uvMaps = m.uvMaps ++ [uv] ∧
      (m.uvMaps ≠ [] → m'.Uniform = m.Uniform) := by
  obtain ⟨m1, m2, uvAttribute, tgAttribute, tg, hadd1, -, hadd2, -, rfl⟩ :=
    AddUvMap_inv m m' name uv h
  refine ⟨KeepsCatalog_trans _ _ _ (AddAttribute_keeps _ _ _ _ _ _ _ hadd1)
    (AddAttribute_keeps _ _ _ _ _ _ _ hadd2), rfl, rfl, fun hne => ?_⟩
  simp only [hne, ↓reduceIte]

/-- Every successful call keeps the counts, the name and the attributes already in the
catalog; the UV list only grows, and the primary UV and tangent offsets change only in an
`AddUvMap` on a mesh without UV maps. -/
theorem call_keeps (m m' : MeshData3D) (c : MeshCall) (h : m.call c = .ok m') :
    KeepsCatalog m.toMeshData2 m'.toMeshData2 ∧ m'.name = m.name ∧
      (∃ more, m'.uvMaps = m.uvMaps ++ more) ∧
      (c.isAddUvMap = false ∨ m.uvMaps ≠ [] →
        m'.Uniform.UvOffset = m.Uniform.UvOffset ∧
          m'.Uniform.TangentOffset = m.Uniform.TangentOffset) ∧
      (c.isAddUvMap = false → m'.uvMaps = m.uvMaps) := by
  cases c with
  | addAttribute name domain type extraCount =>
    simp only [MeshData3D.call] at h
    split at h
    · cases h
    · next i m1 hadd =>
      cases h
      exact ⟨AddAttribute_keeps _ _ _ _ _ _ _ hadd, rfl, ⟨[], by simp⟩, fun _ => ⟨rfl, rfl⟩,
        fun _ => rfl⟩
  | addAttributeMorphs at_ shapeCount =>
    simp only [MeshData3D.call] at h
    split at h
    · cases h
    · next i m1 hadd =>
      cases h
      exact ⟨AddAttributeMorphs_keeps _ _ _ _ _ hadd, rfl, ⟨[], by simp⟩, fun _ => ⟨rfl, rfl⟩,
        fun _ => rfl⟩
  | addUvMap name =>
    simp only [MeshData3D.call] at h
    split at h
    · cases h
    · next uv m1 hadd =>
      cases h
      obtain ⟨hk, hn, hu, hU⟩ := AddUvMap_keeps _ _ _ _ hadd
      refine ⟨hk, hn, ⟨_, hu⟩, fun hor => ?_, fun hf => by simp [MeshCall.isAddUvMap] at hf⟩
      rcases hor with hf | hne
      · simp [MeshCall.isAddUvMap] at hf
      · rw [hU hne]
        exact ⟨rfl, rfl⟩
  | getFaceIndices =>
    simp only [MeshData3D.call] at h
    split at h
    · cases h
    · next fi m1 hget =>
      cases h
      obtain ⟨hk, hn, hu, h1, h2⟩ := GetFaceIndices_keeps _ _ _ hget
      exact ⟨hk, hn, ⟨[], by simp [hu]⟩, fun _ => ⟨h1, h2⟩, fun _ => hu⟩

theorem calls_keeps (calls : List MeshCall) (m m' : MeshData3D) (h : m.calls calls = .ok m') :
    KeepsCatalog m.toMeshData2 m'.toMeshData2 ∧ m'.name = m.name ∧
      (∃ more, m'.uvMaps = m.uvMaps ++ more) ∧
      ((∀ c ∈ calls, c.isAddUvMap = false) ∨ m.uvMaps ≠ [] →
        m'.Uniform.UvOffset = m.Uniform.UvOffset ∧
          m'.Uniform.TangentOffset = m.Uniform.TangentOffset) ∧
      ((∀ c ∈ calls, c.isAddUvMap = false) → m'.uvMaps = m.uvMaps) := by
  induction calls generalizing m with
  | nil =>
    simp only [MeshData3D.calls, Except.ok.injEq] at h
    subst h
    exact ⟨KeepsCatalog_refl _, rfl, ⟨[], by simp⟩, fun _ => ⟨rfl, rfl⟩, fun _ => rfl⟩
  | cons c rest ih =>
    simp only [MeshData3D.calls] at h
    split at h
    · cases h
    · next m1 hcall =>
      obtain ⟨hk1, hn1, ⟨more1, hu1⟩, hU1, hu1'⟩ := call_keeps m m1 c hcall
      obtain ⟨hk2, hn2, ⟨more2, hu2⟩, hU2, hu2'⟩ := ih m1 h
      refine ⟨KeepsCatalog_trans _ _ _ hk1 hk2, hn2.trans hn1,
        ⟨more1 ++ more2, by rw [hu2, hu1, List.append_assoc]⟩, fun hor => ?_, fun hall => ?_⟩
      · have hfirst : c.isAddUvMap = false ∨ m.uvMaps ≠ [] := by
          rcases hor with hall | hne
          · exact Or.inl (hall c (List.mem_cons_self _ _))
          · exact Or.inr hne
        have hrest : (∀ c ∈ rest, c.isAddUvMap = false) ∨ m1.uvMaps ≠ [] := by
          rcases hor with hall | hne
          · exact Or.inl (fun c hc => hall c (List.mem_cons_of_mem _ hc))
          · refine Or.inr ?_
            rw [hu1]
            intro hnil
            exact hne (List.append_eq_nil.1 hnil).1
        obtain ⟨a1, a2⟩ := hU1 hfirst
        obtain ⟨b1, b2⟩ := hU2 hrest
        exact ⟨b1.trans a1, b2.trans a2⟩
      · rw [hu2' (fun c hc => hall c (List.mem_cons_of_mem _ hc)),
          hu1' (hall c (List.mem_cons_self _ _))]

/-! ## The constructor -/

/-- What a successful construction has done. -/
theorem MeshData3D_new_inv (uniformMeshSize : Nat) (sceneBuffer : Nat → UniformMesh)
    (data : SceneData) (name : Bytes) (pointCount faceCount cornerCount : Nat) (m : MeshData3D)
    (h : MeshData3D.new uniformMeshSize sceneBuffer data name pointCount faceCount cornerCount =
      .ok m) :
    m.name = name ∧ m.pointCount = pointCount ∧ m.faceCount = faceCount ∧
      m.cornerCount = cornerCount ∧ m.uvMaps = [] ∧ m.faceIndices = none ∧
      m.Uniform.UvOffset = 2 ^ 32 - 1 ∧
      ∃ a0 a1 a2 a3 a4 : MeshAttribute, m.attributes = [a0, a1, a2, a3, a4] ∧
        a0.shape = (pointOfCornerName, MeshAttributeDomain.Corner,
          (if pointCount ≤ 65535 then MeshAttributeType.UInt16 else MeshAttributeType.UInt32),
          a0.IndexOffset, (if pointCount ≤ 65535 then 2 else 4),
          (if pointCount ≤ 65535 then 2 else 4) * (cornerCount % 2 ^ 32)) ∧
        a1.shape = (normalOfFaceName, MeshAttributeDomain.Face, MeshAttributeType.Vec3F16,
          a1.IndexOffset, 6, 6 * (faceCount % 2 ^ 32)) ∧
        a2.shape = (positionAttributeName, MeshAttributeDomain.Point, MeshAttributeType.Vec3,
          a2.IndexOffset, 12, 12 * (pointCount % 2 ^ 32)) ∧
        a3.shape = (normalName, MeshAttributeDomain.Point, MeshAttributeType.Vec3F16,
          a3.IndexOffset, 6, 6 * (pointCount % 2 ^ 32)) ∧
        a4.shape = (faceListName, MeshAttributeDomain.Point, MeshAttributeType.UInt32,
          a4.IndexOffset, 4, 4 * ((pointCount + 1) % 2 ^ 32)) := by
  unfold MeshData3D.new at h
  split at h
  · cases h
  · next meshIndex sceneAllocator hscene =>
    simp only at h
    split at h
    · cases h
    · next i1 m1 h1 =>
      split at h
      · cases h
      · next i2 m2 h2 =>
        split at h
        · cases h
        · next i3 m3 h3 =>
          split at h
          · cases h
          · next i4 m4 h4 =>
            split at h
            · cases h
            · next i5 m5 h5 =>
              obtain ⟨-, c1, s1, o1, al1, hc1, hs1, -, -, rfl⟩ := AddAttribute_inv _ _ _ _ _ _ _ h1
              obtain ⟨-, c2, s2, o2, al2, hc2, hs2, -, -, rfl⟩ := AddAttribute_inv _ _ _ _ _ _ _ h2
              obtain ⟨-, c3, s3, o3, al3, hc3, hs3, -, -, rfl⟩ := AddAttribute_inv _ _ _ _ _ _ _ h3
              obtain ⟨-, c4, s4, o4, al4, hc4, hs4, -, -, rfl⟩ := AddAttribute_inv _ _ _ _ _ _ _ h4
              obtain ⟨-, c5, s5, o5, al5, hc5, hs5, -, -, rfl⟩ := AddAttribute_inv _ _ _ _ _ _ _ h5
              cases hc1; cases hc2; cases hc3; cases hc4; cases hc5
              cases hs2; cases hs3; cases hs4; cases hs5
              rw [attributeElementSize_faceIndex] at hs1
              cases hs1
              simp only [List.nil_append, List.cons_append, List.get?_cons_zero,
                List.get?_cons_succ] at h
              cases h
              refine ⟨rfl, rfl, rfl, rfl, rfl, rfl, rfl, _, _, _, _, _, rfl, ?_, ?_, ?_, ?_, ?_⟩
              all_goals simp [MeshAttribute.shape, sizeof]

theorem shape_fields (a : MeshAttribute) (name : Bytes) (domain type offset size length : Nat)
    (h : a.shape = (name, domain, type, offset, size, length)) :
    a.Name = name ∧ a.Domain = domain ∧ a.Type_ = type ∧ a.IndexOffset = offset ∧
      a.ElementSize = size ∧ a.Buffer.length = length := by
  simp only [MeshAttribute.shape, Prod.mk.injEq] at h
  exact h

theorem shape_eq_fields (a b : MeshAttribute) (h : a.shape = b.shape) :
    a.Name = b.Name ∧ a.Domain = b.Domain ∧ a.Type_ = b.Type_ ∧
      a.IndexOffset = b.IndexOffset ∧ a.elementCount = b.elementCount :=
  have h' := shape_fields a _ _ _ _ _ _ h
  ⟨h'.1, h'.2.1, h'.2.2.1, h'.2.2.2.1, by
    unfold MeshAttribute.elementCount
    rw [h'.2.2.2.2.1, h'.2.2.2.2.2]⟩

theorem FixedCatalog_of_new (uniformMeshSize : Nat) (sceneBuffer : Nat → UniformMesh)
    (data : SceneData) (name : Bytes) (pointCount faceCount cornerCount : Nat) (m : MeshData3D)
    (hp : pointCount + 1 < 2 ^ 32)
    (h : MeshData3D.new uniformMeshSize sceneBuffer data name pointCount faceCount cornerCount =
      .ok m) : m.FixedCatalog := by
  obtain ⟨-, hpc, -, -, -, -, -, a0, a1, a2, a3, a4, hattrs, h0, h1, h2, h3, h4⟩ :=
    MeshData3D_new_inv _ _ _ _ _ _ _ _ h
  have f0 := shape_fields _ _ _ _ _ _ _ h0
  have f1 := shape_fields _ _ _ _ _ _ _ h1
  have f2 := shape_fields _ _ _ _ _ _ _ h2
  have f3 := shape_fields _ _ _ _ _ _ _ h3
  have f4 := shape_fields _ _ _ _ _ _ _ h4
  refine ⟨a0, a1, a2, a3, a4, by rw [hattrs]; rfl, by rw [hattrs]; rfl, by rw [hattrs]; rfl,
    by rw [hattrs]; rfl, by rw [hattrs]; rfl, f0.1, f0.2.1, by rw [f0.2.2.1, hpc], f1.1, f1.2.1,
    f1.2.2.1, f2.1, f2.2.1, f2.2.2.1, f3.1, f3.2.1, f3.2.2.1, f4.1, f4.2.1, f4.2.2.1, ?_⟩
  unfold MeshAttribute.elementCount
  rw [f4.2.2.2.2.1, f4.2.2.2.2.2, Nat.mod_eq_of_lt hp, hpc]
  exact Nat.mul_div_cancel_left _ (by decide)

theorem FixedCatalog_keeps (m m' : MeshData3D)
    (hk : KeepsCatalog m.toMeshData2 m'.toMeshData2) (h : m.FixedCatalog) : m'.FixedCatalog := by
  obtain ⟨a0, a1, a2, a3, a4, g0, g1, g2, g3, g4, p⟩ := h
  obtain ⟨b0, e0, s0⟩ := KeepsCatalog_get _ _ hk 0 a0 g0
  obtain ⟨b1, e1, s1⟩ := KeepsCatalog_get _ _ hk 1 a1 g1
  obtain ⟨b2, e2, s2⟩ := KeepsCatalog_get _ _ hk 2 a2 g2
  obtain ⟨b3, e3, s3⟩ := KeepsCatalog_get _ _ hk 3 a3 g3
  obtain ⟨b4, e4, s4⟩ := KeepsCatalog_get _ _ hk 4 a4 g4
  have f0 := shape_eq_fields _ _ s0
  have f1 := shape_eq_fields _ _ s1
  have f2 := shape_eq_fields _ _ s2
  have f3 := shape_eq_fields _ _ s3
  have f4 := shape_eq_fields _ _ s4
  refine ⟨b0, b1, b2, b3, b4, e0, e1, e2, e3, e4, ?_⟩
  rw [f0.1, f0.2.1, f0.2.2.1, f1.1, f1.2.1, f1.2.2.1, f2.1, f2.2.1, f2.2.2.1, f3.1, f3.2.1,
    f3.2.2.1, f4.1, f4.2.1, f4.2.2.1, f4.2.2.2.2, hk.1]
  exact p

/-- C18. Immediately after the construction of a `MeshData3D`, and after every later sequence
of successful `AddAttribute`, `AddAttributeMorphs`, `AddUvMap` and `GetFaceIndices` calls,
catalog positions 0 to 4 hold, in this order, `PointOfCorner` (Corner domain; UInt16 if
`pointCount <= 65535`, otherwise UInt32), `NormalOfFace` (Face domain, Vec3F16), `Position`
(Point domain, Vec3), `Normal` (Point domain, Vec3F16) and `FaceList` (Point domain,
UInt32, `PointCount + 1` elements); the name and the counts of the mesh stay those given
to the constructor. The point count is below `2^32 - 1`, as it is for every mesh whose
positions fit the attribute buffer. -/
theorem MeshData3D_fixed_catalog (uniformMeshSize : Nat) (sceneBuffer : Nat → UniformMesh)
    (data : SceneData) (name : Bytes) (pointCount faceCount cornerCount : Nat)
    (m0 m : MeshData3D) (calls : List MeshCall) (hp : pointCount + 1 < 2 ^ 32)
    (hnew : MeshData3D.new uniformMeshSize sceneBuffer data name pointCount faceCount
      cornerCount = .ok m0)
    (hcalls : m0.calls calls = .ok m) :
    m0.FixedCatalog ∧ m.FixedCatalog ∧ m.name = name ∧ m.pointCount = pointCount ∧
      m.faceCount = faceCount ∧ m.cornerCount = cornerCount := by
  have h0 := FixedCatalog_of_new _ _ _ _ _ _ _ _ hp hnew
  obtain ⟨hname, hpc, hfc, hcc, -⟩ := MeshData3D_new_inv _ _ _ _ _ _ _ _ hnew
  obtain ⟨hk, hn, -⟩ := calls_keeps calls m0 m hcalls
  exact ⟨h0, FixedCatalog_keeps m0 m hk h0, hn.trans hname, hk.1.trans hpc,
    hk.2.1.trans hfc, hk.2.2.1.trans hcc⟩

theorem MeshData3D_fixed_catalog_witness :
    2 + 1 < 2 ^ 32 ∧
      MeshData3D.new 64 (fun _ => {}) sampleSceneData [109] 2 1 3 = .ok sampleConstructedMesh ∧
      sampleConstructedMesh.calls sampleMeshCalls = .ok sampleMeshSecondUv ∧
      sampleConstructedMesh.FixedCatalog ∧ sampleMeshSecondUv.FixedCatalog ∧
      sampleMeshSecondUv.name = [109] ∧ sampleMeshSecondUv.pointCount = 2 ∧
      sampleMeshSecondUv.faceCount = 1 ∧ sampleMeshSecondUv.cornerCount = 3 :=
  ⟨by decide, by decide, by decide,
    MeshData3D_fixed_catalog 64 (fun _ => {}) sampleSceneData [109] 2 1 3 sampleConstructedMesh
      sampleMeshSecondUv sampleMeshCalls (by decide) (by decide) (by decide)⟩

/-! ## UV maps -/

theorem get?_append_two {α : Type} (l : List α) (a b : α) :
    (l ++ [a, b]).get? l.length = some a ∧ (l ++ [a, b]).get? (l.length + 1) = some b := by
  constructor
  · rw [List.get?_eq_getElem?, List.getElem?_append_right (le_refl _)]
    simp
  · rw [List.get?_eq_getElem?, List.getElem?_append_right (Nat.le_succ _)]
    simp

theorem AddAttribute_last (m m' : MeshData2) (name : Bytes) (domain type extraCount i : Nat)
    (h : m.AddAttribute name domain type extraCount = .ok (i, m')) :
    ∃ a, m'.attributes = m.attributes ++ [a] ∧ i = m.attributes.length ∧
      m'.attributes.get? i = some a ∧ a.Name = name ∧ a.Domain = domain ∧ a.Type_ = type := by
  obtain ⟨-, count, size, offset, allocator, -, -, -, hi, rfl⟩ :=
    AddAttribute_inv m m' name domain type extraCount i h
  subst hi
  exact ⟨_, rfl, rfl, by simp, rfl, rfl, rfl⟩

/-- The two attributes a successful `AddUvMap` appends, and what it records. -/
theorem AddUvMap_effect (m m' : MeshData3D) (name : Bytes) (uv : Nat)
    (h : m.AddUvMap name = .ok (uv, m')) :
    ∃ uvAttribute tgAttribute : MeshAttribute,
      m'.attributes = m.attributes ++ [uvAttribute, tgAttribute] ∧ uv = m.attributes.length ∧
      uvAttribute.Name = name ∧ uvAttribute.Domain = MeshAttributeDomain.Corner ∧
      uvAttribute.Type_ = MeshAttributeType.Vec2F16 ∧
      tgAttribute.Name = tangentOfName name ∧
      tgAttribute.Domain = MeshAttributeDomain.Corner ∧
      tgAttribute.Type_ = MeshAttributeType.Vec3F16 ∧
      m'.uvMaps = m.uvMaps ++ [uv] ∧
      (m.uvMaps = [] →
        m'.Uniform.UvOffset = uvAttribute.IndexOffset ∧
          m'.Uniform.TangentOffset = tgAttribute.IndexOffset) ∧
      (m.uvMaps ≠ [] → m'.Uniform = m.Uniform) := by
  obtain ⟨m1, m2, uvAttribute, tgAttribute, tg, hadd1, huv, hadd2, htg, rfl⟩ :=
    AddUvMap_inv m m' name uv h
  obtain ⟨a1, hattrs1, hi1, hget1, hn1, hd1, ht1⟩ := AddAttribute_last _ _ _ _ _ _ _ hadd1
  obtain ⟨a2, hattrs2, hi2, hget2, hn2, hd2, ht2⟩ := AddAttribute_last _ _ _ _ _ _ _ hadd2
  have e1 : uvAttribute = a1 := Option.some.inj (huv.symm.trans hget1)
  have e2 : tgAttribute = a2 := Option.some.inj (htg.symm.trans hget2)
  subst e1
  subst e2
  refine ⟨uvAttribute, tgAttribute, ?_, hi1, hn1, hd1, ht1, by rw [hn2, hn1], hd2, ht2, rfl,
    ?_, ?_⟩
  · show m2.attributes = _
    rw [hattrs2, hattrs1, List.append_assoc]
    rfl
  · intro hnil
    simp only [hnil, ↓reduceIte, and_self]
  · intro hne
    simp only [hne, ↓reduceIte]

/-- C19. Each successful `MeshData3D::AddUvMap(name)` appends a Corner-domain Vec2F16
attribute named `name` and, paired with it, a Corner-domain Vec3F16 tangent attribute
(named `TangentOf` followed by `name`), and appends the UV attribute to the UV list. From
a newly constructed mesh: as long as no `AddUvMap` has been called (whatever else has),
`UvOffset` keeps its initial value `0xFFFFFFFF` and the UV list is empty; and after the first
`AddUvMap` and any further calls (`AddUvMap` among them, so after any `k >= 1` calls of
it), the mesh-uniform's `UvOffset` and `TangentOffset` equal the `IndexOffset`s of the UV
and tangent attributes that the first call created, which still hold their positions, and
the first entry of the UV list is that UV attribute. -/
theorem AddUvMap_primary (uniformMeshSize : Nat) (sceneBuffer : Nat → UniformMesh)
    (data : SceneData) (name : Bytes) (pointCount faceCount cornerCount : Nat)
    (m0 m1 m2 m3 : MeshData3D) (before later : List MeshCall) (uvName : Bytes) (uv : Nat)
    (hnew : MeshData3D.new uniformMeshSize sceneBuffer data name pointCount faceCount
      cornerCount = .ok m0)
    (hbefore : m0.calls before = .ok m1) (hnone : ∀ c ∈ before, c.isAddUvMap = false)
    (hfirst : m1.AddUvMap uvName = .ok (uv, m2))
    (hlater : m2.calls later = .ok m3) :
    (∀ (ma mb : MeshData3D) (n : Bytes) (i : Nat), ma.AddUvMap n = .ok (i, mb) →
        ∃ uvAttribute tgAttribute : MeshAttribute,
          mb.attributes = ma.attributes ++ [uvAttribute, tgAttribute] ∧
          i = ma.attributes.length ∧
          uvAttribute.Name = n ∧ uvAttribute.Domain = MeshAttributeDomain.Corner ∧
          uvAttribute.Type_ = MeshAttributeType.Vec2F16 ∧
          tgAttribute.Name = tangentOfName n ∧
          tgAttribute.Domain = MeshAttributeDomain.Corner ∧
          tgAttribute.Type_ = MeshAttributeType.Vec3F16 ∧
          mb.uvMaps = ma.uvMaps ++ [i]) ∧
      m0.Uniform.UvOffset = 2 ^ 32 - 1 ∧ m1.Uniform.UvOffset = 2 ^ 32 - 1 ∧ m1.uvMaps = [] ∧
      ∃ uvAttribute tgAttribute uvAttribute' tgAttribute' : MeshAttribute,
        m2.attributes.get? uv = some uvAttribute ∧
        m2.attributes.get? (uv + 1) = some tgAttribute ∧
        uvAttribute.Name = uvName ∧ tgAttribute.Name = tangentOfName uvName ∧
        m3.attributes.get? uv = some uvAttribute' ∧
        m3.attributes.get? (uv + 1) = some tgAttribute' ∧
        uvAttribute'.Name = uvName ∧ tgAttribute'.Name = tangentOfName uvName ∧
        uvAttribute'.IndexOffset = uvAttribute.IndexOffset ∧
        tgAttribute'.IndexOffset = tgAttribute.IndexOffset ∧
        m3.Uniform.UvOffset = uvAttribute.IndexOffset ∧
        m3.Uniform.TangentOffset = tgAttribute.IndexOffset ∧
        m3.uvMaps.head? = some uv := by
  obtain ⟨-, -, -, -, huv0, -, hoff0, -⟩ := MeshData3D_new_inv _ _ _ _ _ _ _ _ hnew
  obtain ⟨-, -, -, hU1, hu1⟩ := calls_keeps before m0 m1 hbefore
  have huv1 : m1.uvMaps = [] := by rw [hu1 hnone, huv0]
  have hoff1 : m1.Uniform.UvOffset = 2 ^ 32 - 1 := by rw [(hU1 (Or.inl hnone)).1, hoff0]
  obtain ⟨uvAttribute, tgAttribute, hattrs, hi, hn, -, -, htn, -, -, hu2, hfirstU, -⟩ :=
    AddUvMap_effect m1 m2 uvName uv hfirst
  obtain ⟨hoffU, hoffT⟩ := hfirstU huv1
  have hne2 : m2.uvMaps ≠ [] := by rw [hu2]; simp
  obtain ⟨hk, -, ⟨more, hu3⟩, hU3, -⟩ := calls_keeps later m2 m3 hlater
  obtain ⟨h3U, h3T⟩ := hU3 (Or.inr hne2)
  have hg1 : m2.attributes.get? uv = some uvAttribute := by
    rw [hattrs, hi]; exact (get?_append_two _ _ _).1
  have hg2 : m2.attributes.get? (uv + 1) = some tgAttribute := by
    rw [hattrs, hi]; exact (get?_append_two _ _ _).2
  obtain ⟨uvAttribute', hg1', s1⟩ := KeepsCatalog_get _ _ hk uv uvAttribute hg1
  obtain ⟨tgAttribute', hg2', s2⟩ := KeepsCatalog_get _ _ hk (uv + 1) tgAttribute hg2
  have f1 := shape_eq_fields _ _ s1
  have f2 := shape_eq_fields _ _ s2
  refine ⟨fun ma mb n i hab => ?_, hoff0, hoff1, huv1, uvAttribute, tgAttribute, uvAttribute',
    tgAttribute', hg1, hg2, hn, htn, hg1', hg2', f1.1.trans hn, f2.1.trans htn, f1.2.2.2.1,
    f2.2.2.2.1, h3U.trans hoffU, h3T.trans hoffT, ?_⟩
  · obtain ⟨a, b, h1, h2, h3, h4, h5, h6, h7, h8, h9, -⟩ := AddUvMap_effect ma mb n i hab
    exact ⟨a, b, h1, h2, h3, h4, h5, h6, h7, h8, h9⟩
  · rw [hu3, hu2, huv1]
    rfl

theorem AddUvMap_primary_witness :
    MeshData3D.new 64 (fun _ => {}) sampleSceneData [109] 2 1 3 = .ok sampleConstructedMesh ∧
      sampleConstructedMesh.calls
          [.addAttribute [120] MeshAttributeDomain.Face MeshAttributeType.UInt32 0] =
        .ok sampleMeshBeforeUv ∧
      sampleMeshBeforeUv.AddUvMap [117] = .ok (6, sampleMeshFirstUv) ∧
      sampleMeshFirstUv.calls sampleLaterCalls = .ok sampleMeshSecondUv ∧
      sampleMeshBeforeUv.Uniform.UvOffset = 2 ^ 32 - 1 ∧
      sampleMeshSecondUv.uvMaps = [6, 9] ∧
      sampleMeshSecondUv.attributes.map (fun a => a.IndexOffset) =
        [0, 1, 1, 6, 12, 15, 16, 13, 48, 26, 20] ∧
      sampleMeshSecondUv.Uniform.UvOffset = 16 ∧ sampleMeshSecondUv.Uniform.TangentOffset = 13 :=
  have h := AddUvMap_primary 64 (fun _ => {}) sampleSceneData [109] 2 1 3 sampleConstructedMesh
    sampleMeshBeforeUv sampleMeshFirstUv sampleMeshSecondUv
    [.addAttribute [120] MeshAttributeDomain.Face MeshAttributeType.UInt32 0] sampleLaterCalls
    [117] 6 (by decide) (by decide) (by decide) (by decide) (by decide)
  ⟨by decide, by decide, by decide, by decide, h.2.2.1, by decide, by decide, by decide,
    by decide⟩

/-! ## The scene loader -/

theorem SameMesh_refl (m : MeshData3D) : SameMesh m m := ⟨rfl, rfl, rfl, rfl⟩

theorem SameMesh_trans (m1 m2 m3 : MeshData3D) (h12 : SameMesh m1 m2) (h23 : SameMesh m2 m3) :
    SameMesh m1 m3 :=
  ⟨h23.1.trans h12.1, h23.2.1.trans h12.2.1, h23.2.2.1.trans h12.2.2.1,
    h23.2.2.2.trans h12.2.2.2⟩

theorem copyToAttribute_same (m m' : MeshData3D) (index : Nat) (src : Bytes)
    (h : m.copyToAttribute index src = .ok m') : SameMesh m m' := by
  unfold MeshData3D.copyToAttribute at h
  split at h
  · cases h
  · split at h
    · cases h
    · cases h
      exact ⟨rfl, rfl, rfl, rfl⟩

theorem loadMorphs_same (m m' : MeshData3D) (pos : MeshFileAttribute)
    (h : loadMorphs m pos = .ok m') : SameMesh m m' := by
  unfold loadMorphs at h
  split at h
  · split at h
    · cases h
    · next mAtt m1 hadd =>
      obtain ⟨hp, hf, hc, -⟩ := AddAttributeMorphs_keeps _ _ _ _ _ hadd
      split at h
      · split at h
        · cases h
        · cases h
          exact ⟨rfl, hp, hf, hc⟩
      · cases h
  · cases h
    exact SameMesh_refl m

theorem loadUvMaps_same (mf : MeshFile) (indices : List Nat) (m m' : MeshData3D)
    (h : loadUvMaps mf indices m = .ok m') : SameMesh m m' := by
  induction indices generalizing m with
  | nil =>
    simp only [loadUvMaps, Except.ok.injEq] at h
    subst h
    exact SameMesh_refl m
  | cons uvIndex rest ih =>
    simp only [loadUvMaps] at h
    split at h
    · cases h
    · split at h
      · cases h
      · split at h
        · cases h
        · next uvAtt m1 hadd =>
          split at h
          · split at h
            · cases h
            · next m2 hcopy =>
              obtain ⟨hk, hn, -⟩ := AddUvMap_keeps _ _ _ _ hadd
              have h1 : SameMesh m m1 := ⟨hn, hk.1, hk.2.1, hk.2.2.1⟩
              exact SameMesh_trans _ _ _ (SameMesh_trans _ _ _ h1
                (copyToAttribute_same _ _ _ _ hcopy)) (ih m2 h)
          · cases h

theorem loadMeshFile_spec (uniformMeshSize : Nat) (sceneBuffer : Nat → UniformMesh)
    (sceneData sceneData' : SceneData) (mf : MeshFile) (entry : Option MeshData3D)
    (h : loadMeshFile uniformMeshSize sceneBuffer sceneData mf = .ok (entry, sceneData')) :
    LoadedFrom mf entry := by
  unfold loadMeshFile at h
  split at h
  · next hzero =>
    simp only [Except.ok.injEq, Prod.mk.injEq] at h
    obtain ⟨rfl, -⟩ := h
    exact ⟨⟨fun _ => hzero, fun _ => rfl⟩, fun mesh hm => (by cases hm)⟩
  · next hzero =>
    split at h
    · cases h
    · split at h
      · cases h
      · next mesh hnew =>
        split at h
        · cases h
        · split at h
          · cases h
          · next mesh1 hcopy1 =>
            split at h
            · cases h
            · next mesh2 hmorphs =>
              split at h
              · cases h
              · split at h
                · cases h
                · next mesh3 hcopy2 =>
                  split at h
                  · cases h
                  · next mesh4 huv =>
                    simp only [Except.ok.injEq, Prod.mk.injEq] at h
                    obtain ⟨rfl, -⟩ := h
                    obtain ⟨hname, hpc, hfc, hcc, -⟩ := MeshData3D_new_inv _ _ _ _ _ _ _ _ hnew
                    obtain ⟨hn, hp, hf, hc⟩ := SameMesh_trans _ _ _ (SameMesh_trans _ _ _
                      (SameMesh_trans _ _ _ (copyToAttribute_same _ _ _ _ hcopy1)
                        (loadMorphs_same _ _ _ hmorphs)) (copyToAttribute_same _ _ _ _ hcopy2))
                      (loadUvMaps_same _ _ _ _ huv)
                    refine ⟨⟨fun hnone => (by cases hnone), fun hz => absurd hz hzero⟩, ?_⟩
                    intro m hm
                    cases hm
                    exact ⟨hn.trans hname, hp.trans hpc, hf.trans hfc, hc.trans hcc, rfl⟩

theorem loadMeshFiles_spec (uniformMeshSize : Nat) (sceneBuffer : Nat → UniformMesh)
    (files : List MeshFile) (sceneData sceneData' : SceneData)
    (meshes : List (Option MeshData3D))
    (h : loadMeshFiles uniformMeshSize sceneBuffer sceneData files = .ok (meshes, sceneData')) :
    List.Forall₂ LoadedFrom files meshes := by
  induction files generalizing sceneData sceneData' meshes with
  | nil =>
    simp only [loadMeshFiles, Except.ok.injEq, Prod.mk.injEq] at h
    obtain ⟨rfl, -⟩ := h
    exact List.Forall₂.nil
  | cons mf rest ih =>
    simp only [loadMeshFiles] at h
    split at h
    · cases h
    · next entry sceneData1 hmesh =>
      split at h
      · cases h
      · next others sceneData2 hrest =>
        simp only [Except.ok.injEq, Prod.mk.injEq] at h
        obtain ⟨rfl, -⟩ := h
        exact List.Forall₂.cons (loadMeshFile_spec _ _ _ _ _ _ hmesh) (ih _ _ _ hrest)

theorem forall₂_get? {α β : Type} (R : α → β → Prop) (l : List α) (l' : List β)
    (h : List.Forall₂ R l l') (i : Nat) (a : α) (hi : l.get? i = some a) :
    ∃ b, l'.get? i = some b ∧ R a b := by
  induction h generalizing i with
  | nil => cases hi
  | cons hab _ ih =>
    cases i with
    | zero =>
      simp only [List.get?_cons_zero, Option.some.injEq] at hi
      subst hi
      exact ⟨_, rfl, hab⟩
    | succ i => exact ih i hi

theorem SceneFile_Load_of_Save (v : SceneFile) (old : Bytes) (hv : v.Valid) :
    SceneFile.Load (v.Save (some old)) = .ok v := by
  unfold SceneFile.Load SceneFile.Save
  simp only
  rw [UnSerializeUInt_Serialize 4 _ SceneFileMagic_lt]
  simp only [ne_eq, not_true_eq_false, ↓reduceIte]
  rw [SceneFile_UnSerialize_Serialize v hv]

theorem LoadSceneFile_of_Save (uniformMeshSize : Nat) (sceneBuffer : Nat → UniformMesh)
    (sceneData sceneData' : SceneData) (v : SceneFile) (old : Bytes)
    (meshes : List (Option MeshData3D)) (hv : v.Valid)
    (h : loadMeshFiles uniformMeshSize sceneBuffer sceneData v.Meshes = .ok (meshes, sceneData')) :
    LoadSceneFile uniformMeshSize sceneBuffer sceneData (v.Save (some old)) =
      .ok ({ MeshDatas := meshes, Objects := v.Objects, Collection := v.Collection },
        sceneData') := by
  rw [LoadSceneFile, SceneFile_Load_of_Save v old hv]
  simp only
  rw [h]

theorem sampleLoadableScene_loads :
    LoadSceneFile 64 (fun _ => {}) sampleSceneData (sampleLoadableScene.Save (some [])) =
      .ok (sampleLoadedScene, sampleLoadedTriangle.data) :=
  LoadSceneFile_of_Save 64 (fun _ => {}) sampleSceneData sampleLoadedTriangle.data
    sampleLoadableScene [] [some sampleLoadedTriangle, none] (by decide) (by decide)

/-! ## When the loader returns -/

theorem FindAttribute_none_of_not_mem (m : MeshData2) (name : Bytes)
    (h : name ∉ m.attributes.map (fun a => a.Name)) : m.FindAttribute name = none := by
  refine (FindAttribute_eq_none_iff m name).2 (Or.inr fun a ha hname => h ?_)
  exact List.mem_map.2 ⟨a, ha, hname⟩

/-- An `AddAttribute` with a fresh name, a domain and a type it knows and room in the
allocator succeeds. -/
theorem AddAttribute_ok (m : MeshData2) (name : Bytes) (domain type extraCount count size : Nat)
    (hname : m.FindAttribute name = none) (hcount : m.domainCount domain = .ok count)
    (hsize : attributeElementSize type = .ok size)
    (hroom : m.data.AttributeAllocator.Cursor + ((count + extraCount) % 2 ^ 32 + 1) * size ≤
      m.data.AttributeAllocator.Capacity) :
    ∃ offset allocator,
      m.AddAttribute name domain type extraCount =
        .ok (m.attributes.length,
          { m with
            data := { m.data with AttributeAllocator := allocator }
            attributes := m.attributes ++
              [zeroAttribute name domain type offset size ((count + extraCount) % 2 ^ 32)] }) ∧
      allocator.Cursor ≤
        m.data.AttributeAllocator.Cursor + ((count + extraCount) % 2 ^ 32 + 1) * size ∧
      allocator.Capacity = m.data.AttributeAllocator.Capacity := by
  obtain ⟨offset, allocator, halloc, hcur, hcap⟩ :=
    AllocateIndex32_ok m.data.AttributeAllocator size ((count + extraCount) % 2 ^ 32)
      (attributeElementSize_pos type size hsize) hroom
  exact ⟨offset, allocator,
    AddAttribute_eq m name domain type extraCount count size offset allocator hname hcount hsize
      halloc, hcur, hcap⟩

theorem copyAt_length (src dst out : Bytes) (offset : Nat) (h : copyAt src dst offset = .ok out) :
    out.length = dst.length := by
  unfold copyAt at h
  split at h
  · cases h
    simp only [List.length_append, List.length_take, List.length_drop]
    omega
  · cases h

theorem copyAt_ok (src dst : Bytes) (offset : Nat) (h : offset + src.length ≤ dst.length) :
    ∃ out, copyAt src dst offset = .ok out ∧ out.length = dst.length := by
  have : copyAt src dst offset =
      .ok (dst.take offset ++ src ++ dst.drop (offset + src.length)) := by
    unfold copyAt
    rw [if_pos h]
  exact ⟨_, this, copyAt_length _ _ _ _ this⟩

/-- A copy into an attribute that exists and is large enough succeeds and changes nothing but
the contents of that buffer. -/
theorem copyToAttribute_ok (m : MeshData3D) (index : Nat) (src : Bytes) (a : MeshAttribute)
    (hget : m.attributes.get? index = some a) (hlen : src.length ≤ a.Buffer.length) :
    ∃ buffer, buffer.length = a.Buffer.length ∧
      m.copyToAttribute index src =
        .ok { m with
              toMeshData2 :=
                { m.toMeshData2 with
                  attributes := m.attributes.set index { a with Buffer := buffer } } } := by
  obtain ⟨out, hout, hlen'⟩ := copyAt_ok src a.Buffer 0 (by omega)
  refine ⟨out, hlen', ?_⟩
  unfold MeshData3D.copyToAttribute
  rw [hget]
  simp only [hout]

/-- One successful `AddAttribute`, by what it leaves. -/
theorem AddAttribute_step (m : MeshData2) (name : Bytes) (domain type extraCount count size : Nat)
    (hfresh : name ∉ m.attributes.map (fun a => a.Name))
    (hcount : m.domainCount domain = .ok count)
    (hsize : attributeElementSize type = .ok size)
    (hroom : m.data.AttributeAllocator.Cursor + ((count + extraCount) % 2 ^ 32 + 1) * size ≤
      m.data.AttributeAllocator.Capacity) :
    ∃ offset m',
      m.AddAttribute name domain type extraCount = .ok (m.attributes.length, m') ∧
      m'.attributes = m.attributes ++
        [zeroAttribute name domain type offset size ((count + extraCount) % 2 ^ 32)] ∧
      m'.pointCount = m.pointCount ∧ m'.faceCount = m.faceCount ∧
      m'.cornerCount = m.cornerCount ∧ m'.MaterialRanges = m.MaterialRanges ∧
      m'.data.SceneAllocator = m.data.SceneAllocator ∧
      m'.data.AttributeAllocator.Cursor ≤
        m.data.AttributeAllocator.Cursor + ((count + extraCount) % 2 ^ 32 + 1) * size ∧
      m'.data.AttributeAllocator.Capacity = m.data.AttributeAllocator.Capacity := by
  obtain ⟨offset, allocator, h, hcur, hcap⟩ :=
    AddAttribute_ok m name domain type extraCount count size
      (FindAttribute_none_of_not_mem m name hfresh) hcount hsize hroom
  exact ⟨offset, _, h, rfl, rfl, rfl, rfl, rfl, rfl, hcur, hcap⟩

theorem domainCount_point (m : MeshData2) :
    m.domainCount MeshAttributeDomain.Point = .ok m.pointCount := rfl

theorem domainCount_face (m : MeshData2) :
    m.domainCount MeshAttributeDomain.Face = .ok m.faceCount := rfl

theorem domainCount_corner (m : MeshData2) :
    m.domainCount MeshAttributeDomain.Corner = .ok m.cornerCount := rfl

/-- The constructor succeeds when the scene buffer has room for the mesh record and the
attribute buffer for the five attributes. -/
theorem MeshData3D_new_ok (uniformMeshSize : Nat) (sceneBuffer : Nat → UniformMesh)
    (data : SceneData) (name : Bytes) (P F C : Nat) (hsize : 0 < uniformMeshSize)
    (hP : P < 2 ^ 32) (hF : F < 2 ^ 32) (hC : C < 2 ^ 32)
    (hscene : data.SceneAllocator.Cursor + 2 * uniformMeshSize ≤ data.SceneAllocator.Capacity)
    (hroom : data.AttributeAllocator.Cursor +
      ((C + 1) * 4 + (F + 1) * 6 + (P + 1) * 12 + (P + 1) * 6 + (P + 2) * 4) ≤
        data.AttributeAllocator.Capacity) :
    ∃ m o0 o1 o2 o3 o4,
      MeshData3D.new uniformMeshSize sceneBuffer data name P F C = .ok m ∧
      m.attributes =
        [ zeroAttribute pointOfCornerName MeshAttributeDomain.Corner
            (if P ≤ 65535 then MeshAttributeType.UInt16 else MeshAttributeType.UInt32) o0
            (if P ≤ 65535 then 2 else 4) C,
          zeroAttribute normalOfFaceName MeshAttributeDomain.Face MeshAttributeType.Vec3F16 o1 6 F,
          zeroAttribute positionAttributeName MeshAttributeDomain.Point MeshAttributeType.Vec3
            o2 12 P,
          zeroAttribute normalName MeshAttributeDomain.Point MeshAttributeType.Vec3F16 o3 6 P,
          zeroAttribute faceListName MeshAttributeDomain.Point MeshAttributeType.UInt32 o4 4
            ((P + 1) % 2 ^ 32) ] ∧
      m.name = name ∧ m.pointCount = P ∧ m.faceCount = F ∧ m.cornerCount = C ∧
      m.uvMaps = [] ∧
      m.data.SceneAllocator.Cursor ≤ data.SceneAllocator.Cursor + 2 * uniformMeshSize ∧
      m.data.SceneAllocator.Capacity = data.SceneAllocator.Capacity ∧
      m.data.AttributeAllocator.Cursor ≤ data.AttributeAllocator.Cursor +
        ((C + 1) * 4 + (F + 1) * 6 + (P + 1) * 12 + (P + 1) * 6 + (P + 2) * 4) ∧
      m.data.AttributeAllocator.Capacity = data.AttributeAllocator.Capacity := by
  obtain ⟨meshIndex, sceneAllocator, hsa, hscur, hscap⟩ :=
    AllocateIndex32_ok data.SceneAllocator uniformMeshSize 1 hsize (by omega)
  have hidx : (if P ≤ 65535 then 2 else 4) ≤ 4 := by split <;> omega
  have hmodP : (P + 0) % 2 ^ 32 = P := by rw [Nat.add_zero, Nat.mod_eq_of_lt hP]
  have hmodF : (F + 0) % 2 ^ 32 = F := by rw [Nat.add_zero, Nat.mod_eq_of_lt hF]
  have hmodC : (C + 0) % 2 ^ 32 = C := by rw [Nat.add_zero, Nat.mod_eq_of_lt hC]
  have hmodP1 : (P + 1) % 2 ^ 32 ≤ P + 1 := Nat.mod_le _ _
  have hC4 : (C + 1) * (if P ≤ 65535 then 2 else 4) ≤ (C + 1) * 4 :=
    Nat.mul_le_mul_left _ hidx
  obtain ⟨o0, m1, h1, ha1, hp1, hf1, hc1, -, hs1, hcur1, hcap1⟩ :=
    AddAttribute_step
      ({ data := { data with SceneAllocator := sceneAllocator }, pointCount := P,
         faceCount := F, cornerCount := C } : MeshData2)
      pointOfCornerName MeshAttributeDomain.Corner
      (if P ≤ 65535 then MeshAttributeType.UInt16 else MeshAttributeType.UInt32) 0 C
      (if P ≤ 65535 then 2 else 4) (by simp) rfl (attributeElementSize_faceIndex P)
      (by rw [hmodC]; simp only; omega)
  simp only [List.nil_append, hmodC] at ha1 hcur1 hcap1 hp1 hf1 hc1 hs1
  obtain ⟨o1, m2, h2, ha2, hp2, hf2, hc2, -, hs2, hcur2, hcap2⟩ :=
    AddAttribute_step m1 normalOfFaceName MeshAttributeDomain.Face MeshAttributeType.Vec3F16 0 F 6
      (by
        rw [ha1]
        simp only [List.map_cons, List.map_nil, List.map_append, zeroAttribute, List.cons_append,
          List.nil_append]
        decide) (by rw [domainCount_face, hf1]) rfl
      (by rw [hmodF, hcap1]; omega)
  rw [hmodF] at ha2 hcur2
  obtain ⟨o2, m3, h3, ha3, hp3, hf3, hc3, -, hs3, hcur3, hcap3⟩ :=
    AddAttribute_step m2 positionAttributeName MeshAttributeDomain.Point MeshAttributeType.Vec3 0
      P 12 (by
        rw [ha2, ha1]
        simp only [List.map_cons, List.map_nil, List.map_append, zeroAttribute, List.cons_append,
          List.nil_append]
        decide) (by rw [domainCount_point, hp2, hp1]) rfl
      (by rw [hmodP, hcap2, hcap1]; omega)
  rw [hmodP] at ha3 hcur3
  obtain ⟨o3, m4, h4, ha4, hp4, hf4, hc4, -, hs4, hcur4, hcap4⟩ :=
    AddAttribute_step m3 normalName MeshAttributeDomain.Point MeshAttributeType.Vec3F16 0
      P 6 (by
        rw [ha3, ha2, ha1]
        simp only [List.map_cons, List.map_nil, List.map_append, zeroAttribute, List.cons_append,
          List.nil_append]
        decide) (by rw [domainCount_point, hp3, hp2, hp1]) rfl
      (by rw [hmodP, hcap3, hcap2, hcap1]; omega)
  rw [hmodP] at ha4 hcur4
  obtain ⟨o4, m5, h5, ha5, hp5, hf5, hc5, -, hs5, hcur5, hcap5⟩ :=
    AddAttribute_step m4 faceListName MeshAttributeDomain.Point MeshAttributeType.UInt32 1
      P 4 (by
        rw [ha4, ha3, ha2, ha1]
        simp only [List.map_cons, List.map_nil, List.map_append, zeroAttribute, List.cons_append,
          List.nil_append]
        decide) (by rw [domainCount_point, hp4, hp3, hp2, hp1]) rfl
      (by rw [hcap4, hcap3, hcap2, hcap1]; omega)
  have hattrs : m5.attributes =
      [ zeroAttribute pointOfCornerName MeshAttributeDomain.Corner
          (if P ≤ 65535 then MeshAttributeType.UInt16 else MeshAttributeType.UInt32) o0
          (if P ≤ 65535 then 2 else 4) C,
        zeroAttribute normalOfFaceName MeshAttributeDomain.Face MeshAttributeType.Vec3F16 o1 6 F,
        zeroAttribute positionAttributeName MeshAttributeDomain.Point MeshAttributeType.Vec3
          o2 12 P,
        zeroAttribute normalName MeshAttributeDomain.Point MeshAttributeType.Vec3F16 o3 6 P,
        zeroAttribute faceListName MeshAttributeDomain.Point MeshAttributeType.UInt32 o4 4
          ((P + 1) % 2 ^ 32) ] := by
    rw [ha5, ha4, ha3, ha2, ha1]
    rfl
  have hnew : ∃ m, MeshData3D.new uniformMeshSize sceneBuffer data name P F C = .ok m ∧
      m.toMeshData2 = m5 ∧ m.name = name ∧ m.uvMaps = [] := by
    unfold MeshData3D.new
    rw [hsa]
    simp only
    rw [h1]
    simp only
    rw [h2]
    simp only
    rw [h3]
    simp only
    rw [h4]
    simp only
    rw [h5]
    simp only [hattrs, List.get?_cons_zero, List.get?_cons_succ]
    exact ⟨_, rfl, rfl, rfl, rfl⟩
  obtain ⟨m, hm, hto, hname, huv⟩ := hnew
  refine ⟨m, o0, o1, o2, o3, o4, hm, by rw [hto]; exact hattrs, hname,
    by rw [hto, hp5, hp4, hp3, hp2, hp1], by rw [hto, hf5, hf4, hf3, hf2, hf1],
    by rw [hto, hc5, hc4, hc3, hc2, hc1], huv, ?_, ?_, ?_, ?_⟩
  · rw [hto, hs5, hs4, hs3, hs2, hs1]; exact hscur
  · rw [hto, hs5, hs4, hs3, hs2, hs1]; exact hscap
  · rw [hto]; omega
  · rw [hto, hcap5, hcap4, hcap3, hcap2, hcap1]

theorem AddAttribute_step_find (m : MeshData2) (name : Bytes)
    (domain type extraCount count size : Nat)
    (hname : m.FindAttribute name = none)
    (hcount : m.domainCount domain = .ok count)
    (hsize : attributeElementSize type = .ok size)
    (hroom : m.data.AttributeAllocator.Cursor + ((count + extraCount) % 2 ^ 32 + 1) * size ≤
      m.data.AttributeAllocator.Capacity) :
    ∃ offset m',
      m.AddAttribute name domain type extraCount = .ok (m.attributes.length, m') ∧
      m'.attributes = m.attributes ++
        [zeroAttribute name domain type offset size ((count + extraCount) % 2 ^ 32)] ∧
      m'.pointCount = m.pointCount ∧ m'.faceCount = m.faceCount ∧
      m'.cornerCount = m.cornerCount ∧ m'.MaterialRanges = m.MaterialRanges ∧
      m'.data.SceneAllocator = m.data.SceneAllocator ∧
      m'.data.AttributeAllocator.Cursor ≤
        m.data.AttributeAllocator.Cursor + ((count + extraCount) % 2 ^ 32 + 1) * size ∧
      m'.data.AttributeAllocator.Capacity = m.data.AttributeAllocator.Capacity := by
  obtain ⟨offset, allocator, h, hcur, hcap⟩ :=
    AddAttribute_ok m name domain type extraCount count size hname hcount hsize hroom
  exact ⟨offset, _, h, rfl, rfl, rfl, rfl, rfl, rfl, hcur, hcap⟩

theorem tangentOfName_ne (name : Bytes) : tangentOfName name ≠ name := by
  intro h
  have := congrArg List.length h
  simp only [tangentOfName, List.length_append, List.length_cons, List.length_nil] at this
  omega

theorem tangentOfName_ne_nil (name : Bytes) : tangentOfName name ≠ [] := by
  simp [tangentOfName]

/-- An `AddUvMap` whose two names are free succeeds when the allocator has room. -/
theorem AddUvMap_ok (m : MeshData3D) (name : Bytes)
    (hfresh : name = [] ∨ name ∉ m.attributes.map (fun a => a.Name))
    (htangent : tangentOfName name ∉ m.attributes.map (fun a => a.Name))
    (hC : m.cornerCount < 2 ^ 32)
    (hroom : m.data.AttributeAllocator.Cursor +
      ((m.cornerCount + 1) * 4 + (m.cornerCount + 1) * 6) ≤ m.data.AttributeAllocator.Capacity) :
    ∃ m' o1 o2,
      m.AddUvMap name = .ok (m.attributes.length, m') ∧
      m'.attributes = m.attributes ++
        [ zeroAttribute name MeshAttributeDomain.Corner MeshAttributeType.Vec2F16 o1 4
            m.cornerCount,
          zeroAttribute (tangentOfName name) MeshAttributeDomain.Corner
            MeshAttributeType.Vec3F16 o2 6 m.cornerCount ] ∧
      m'.name = m.name ∧ m'.pointCount = m.pointCount ∧ m'.faceCount = m.faceCount ∧
      m'.cornerCount = m.cornerCount ∧
      m'.data.SceneAllocator = m.data.SceneAllocator ∧
      m'.data.AttributeAllocator.Cursor ≤ m.data.AttributeAllocator.Cursor +
        ((m.cornerCount + 1) * 4 + (m.cornerCount + 1) * 6) ∧
      m'.data.AttributeAllocator.Capacity = m.data.AttributeAllocator.Capacity := by
  have hmodC : (m.cornerCount + 0) % 2 ^ 32 = m.cornerCount := by
    rw [Nat.add_zero, Nat.mod_eq_of_lt hC]
  have hfind : m.toMeshData2.FindAttribute name = none := by
    rcases hfresh with h | h
    · rw [h]; exact FindAttribute_nil _
    · exact FindAttribute_none_of_not_mem _ _ h
  obtain ⟨o1, m1, h1, ha1, hp1, hf1, hc1, -, hs1, hcur1, hcap1⟩ :=
    AddAttribute_step_find m.toMeshData2 name MeshAttributeDomain.Corner
      MeshAttributeType.Vec2F16 0 m.cornerCount 4 hfind rfl rfl (by rw [hmodC]; omega)
  rw [hmodC] at ha1 hcur1
  have hget1 : m1.attributes.get? m.attributes.length =
      some (zeroAttribute name MeshAttributeDomain.Corner MeshAttributeType.Vec2F16 o1 4
        m.cornerCount) := by
    rw [ha1]; simp
  obtain ⟨o2, m2, h2, ha2, hp2, hf2, hc2, -, hs2, hcur2, hcap2⟩ :=
    AddAttribute_step m1 (tangentOfName name) MeshAttributeDomain.Corner
      MeshAttributeType.Vec3F16 0 m.cornerCount 6
      (by
        rw [ha1, List.map_append, List.mem_append]
        rintro (h | h)
        · exact htangent h
        · simp only [List.map_cons, List.map_nil, List.mem_singleton, zeroAttribute] at h
          exact tangentOfName_ne name h)
      (by rw [domainCount_corner, hc1]) rfl (by rw [hmodC, hcap1]; omega)
  rw [hmodC] at ha2 hcur2
  have hlen1 : m1.attributes.length = m.attributes.length + 1 := by rw [ha1]; simp
  have hget2 : m2.attributes.get? m1.attributes.length =
      some (zeroAttribute (tangentOfName name) MeshAttributeDomain.Corner
        MeshAttributeType.Vec3F16 o2 6 m.cornerCount) := by
    rw [ha2]; simp
  have hadd : ∃ m', m.AddUvMap name = .ok (m.attributes.length, m') ∧ m'.toMeshData2 = m2 ∧
      m'.name = m.name := by
    unfold MeshData3D.AddUvMap
    rw [h1]
    simp only
    rw [hget1]
    simp only
    have hz : (zeroAttribute name MeshAttributeDomain.Corner MeshAttributeType.Vec2F16 o1 4
        m.cornerCount).Name = name := rfl
    rw [hz, h2]
    simp only
    rw [hget2]
    exact ⟨_, rfl, rfl, rfl⟩
  obtain ⟨m', hm', hto, hname⟩ := hadd
  refine ⟨m', o1, o2, hm', ?_, hname, by rw [hto, hp2, hp1], by rw [hto, hf2, hf1],
    by rw [hto, hc2, hc1], by rw [hto, hs2, hs1], ?_, by rw [hto, hcap2, hcap1]⟩
  · rw [hto, ha2, ha1, List.append_assoc]; rfl
  · rw [hto]; omega

theorem map_name_set (l : List MeshAttribute) (i : Nat) (a a' : MeshAttribute)
    (hget : l.get? i = some a) (hname : a'.Name = a.Name) :
    (l.set i a').map (fun x => x.Name) = l.map (fun x => x.Name) := by
  simp only [List.get?_eq_getElem?] at hget
  obtain ⟨hlt, hget⟩ := List.getElem?_eq_some_iff.1 hget
  apply List.ext_getElem?
  intro j
  simp only [List.getElem?_map]
  by_cases hij : i = j
  · subst hij
    rw [List.getElem?_set_self hlt, List.getElem?_eq_getElem hlt, hget]
    simp [hname]
  · rw [List.getElem?_set_ne hij]

theorem copyToAttribute_step (m : MeshData3D) (index : Nat) (src : Bytes) (a : MeshAttribute)
    (hget : m.attributes.get? index = some a) (hlen : src.length ≤ a.Buffer.length) :
    ∃ buffer m', m.copyToAttribute index src = .ok m' ∧ buffer.length = a.Buffer.length ∧
      m'.attributes = m.attributes.set index { a with Buffer := buffer } ∧
      m'.data = m.data ∧ m'.name = m.name ∧ m'.pointCount = m.pointCount ∧
      m'.faceCount = m.faceCount ∧ m'.cornerCount = m.cornerCount := by
  obtain ⟨buffer, hlen', h⟩ := copyToAttribute_ok m index src a hget hlen
  exact ⟨buffer, _, h, hlen', rfl, rfl, rfl, rfl, rfl, rfl⟩

theorem FreshUvNames_congr (names : List Bytes) (used used' : List Bytes)
    (h : ∀ x, x ≠ [] → (x ∈ used ↔ x ∈ used')) (hf : FreshUvNames used names) :
    FreshUvNames used' names := by
  induction names generalizing used used' with
  | nil => trivial
  | cons name rest ih =>
    obtain ⟨h1, h2, h3⟩ := hf
    refine ⟨?_, ?_, ih _ _ ?_ h3⟩
    · rcases h1 with h1 | h1
      · exact Or.inl h1
      · by_cases hn : name = []
        · exact Or.inl hn
        · exact Or.inr (fun hmem => h1 ((h name hn).2 hmem))
    · exact fun hmem => h2 ((h _ (tangentOfName_ne_nil name)).2 hmem)
    · intro x hx
      simp only [List.mem_append, List.mem_cons, List.mem_singleton, List.not_mem_nil, or_false]
      rw [h x hx]

/-- The UV loop of the loader runs to its end when every index refers to a Vec2F16 attribute
with a value per corner, the names are free in turn and the allocator has room. -/
theorem loadUvMaps_ok (mf : MeshFile) (indices : List Nat) (m : MeshData3D)
    (hvalid : ∀ i ∈ indices, ∃ uv, mf.Attributes.get? i = some uv ∧
      uv.Type_ = MeshAttributeType.Vec2F16 ∧ mf.CornerCount * 4 ≤ uv.Buffer.length)
    (hC : mf.CornerCount < 2 ^ 32) (hmC : m.cornerCount = mf.CornerCount)
    (hfresh : FreshUvNames (m.attributes.map (fun a => a.Name))
      (indices.map (fun i => ((mf.Attributes.get? i).map (fun a => a.Name)).getD [])))
    (hroom : m.data.AttributeAllocator.Cursor +
      indices.length * ((mf.CornerCount + 1) * 4 + (mf.CornerCount + 1) * 6) ≤
        m.data.AttributeAllocator.Capacity) :
    ∃ m', loadUvMaps mf indices m = .ok m' ∧
      m'.data.SceneAllocator = m.data.SceneAllocator ∧
      m'.data.AttributeAllocator.Cursor ≤ m.data.AttributeAllocator.Cursor +
        indices.length * ((mf.CornerCount + 1) * 4 + (mf.CornerCount + 1) * 6) ∧
      m'.data.AttributeAllocator.Capacity = m.data.AttributeAllocator.Capacity := by
  induction indices generalizing m with
  | nil => exact ⟨m, rfl, rfl, by simp, rfl⟩
  | cons uvIndex rest ih =>
    obtain ⟨uv, hget, htype, hlen⟩ := hvalid uvIndex (List.mem_cons_self _ _)
    simp only [List.map_cons, hget, Option.map_some', Option.getD_some] at hfresh
    obtain ⟨hf1, hf2, hf3⟩ := hfresh
    rw [List.length_cons, Nat.succ_mul] at hroom
    obtain ⟨m1, o1, o2, hadd, hattrs, -, -, -, hc1, hs1, hcur1, hcap1⟩ :=
      AddUvMap_ok m uv.Name hf1 hf2 (by rw [hmC]; exact hC) (by rw [hmC]; omega)
    have hget1 : m1.attributes.get? m.attributes.length =
        some (zeroAttribute uv.Name MeshAttributeDomain.Corner MeshAttributeType.Vec2F16 o1 4
          m.cornerCount) := by
      rw [hattrs]; exact (get?_append_two _ _ _).1
    obtain ⟨buffer, m2, hcopy, -, hattrs2, hdata2, -, -, -, hc2⟩ := copyToAttribute_step m1
      m.attributes.length (uv.Buffer.take (mf.CornerCount * sizeof.Vector2F16)) _ hget1 (by
        simp only [zeroAttribute, List.length_replicate, List.length_take, hmC]
        have : sizeof.Vector2F16 = 4 := rfl
        rw [this]
        omega)
    obtain ⟨m', hm', hs', hcur', hcap'⟩ := ih m2
      (fun i hi => hvalid i (List.mem_cons_of_mem _ hi))
      (hc2.trans (hc1.trans hmC))
      (by
        rw [hattrs2, map_name_set _ _ _
          { zeroAttribute uv.Name MeshAttributeDomain.Corner MeshAttributeType.Vec2F16 o1 4
              m.cornerCount with Buffer := buffer } hget1 rfl, hattrs, List.map_append]
        exact hf3)
      (by
        rw [hdata2, hcap1]
        rw [hmC] at hcur1
        omega)
    rw [hdata2] at hs' hcur' hcap'
    refine ⟨m', ?_, hs'.trans hs1, ?_, hcap'.trans hcap1⟩
    · simp only [loadUvMaps, hget, htype, ne_eq, not_true_eq_false, ↓reduceIte, hadd]
      have h4 : sizeof.Vector2F16 = 4 := rfl
      rw [if_pos (by rw [h4]; exact hlen), hcopy]
      exact hm'
    · rw [hmC] at hcur1
      rw [List.length_cons, Nat.succ_mul]
      omega

theorem copyMorphs_ok (morphs : List MeshFileMorph) (i it : Nat) (values : List MeshMorph)
    (buffer : Bytes) (hi : i + morphs.length ≤ values.length)
    (hit : it + (morphs.map (fun morph => morph.Buffer.length)).sum ≤ buffer.length) :
    ∃ values' buffer', copyMorphs morphs i it values buffer = .ok (values', buffer') ∧
      buffer'.length = buffer.length ∧ values'.length = values.length := by
  induction morphs generalizing i it values buffer with
  | nil => exact ⟨values, buffer, rfl, rfl, rfl⟩
  | cons morph rest ih =>
    simp only [List.length_cons, List.map_cons, List.sum_cons] at hi hit
    obtain ⟨out, hout, hlen⟩ := copyAt_ok morph.Buffer buffer it (by omega)
    obtain ⟨values', buffer', h, hb, hv⟩ := ih (i + 1) (it + morph.Buffer.length)
      (values.set i
        { Name := morph.Name, Value := morph.Value, Min := morph.Min, Max := morph.Max })
      out (by simp only [List.length_set]; omega) (by omega)
    refine ⟨values', buffer', ?_, hb.trans hlen, by rw [hv, List.length_set]⟩
    simp only [copyMorphs]
    rw [if_pos (by omega), hout]
    exact h

theorem sum_map_le {α : Type} (l : List α) (f : α → Nat) (B : Nat) (h : ∀ a ∈ l, f a ≤ B) :
    (l.map f).sum ≤ l.length * B := by
  induction l with
  | nil => simp
  | cons a rest ih =>
    simp only [List.map_cons, List.sum_cons, List.length_cons, Nat.succ_mul]
    have := h a (List.mem_cons_self _ _)
    have := ih (fun b hb => h b (List.mem_cons_of_mem _ hb))
    omega

/-- An `AddAttributeMorphs` on an attribute of the mesh without morphs succeeds when the
allocator has room. -/
theorem AddAttributeMorphs_ok (m : MeshData2) (i shapeCount : Nat) (a : MeshAttribute)
    (count size : Nat) (hget : m.attributes.get? i = some a)
    (hmorph : a.Morphs.Attribute = none) (hcount : m.domainCount a.Domain = .ok count)
    (hsize : attributeElementSize a.Type_ = .ok size)
    (hroom : m.data.AttributeAllocator.Cursor +
      ((count + count * shapeCount % 2 ^ 32) % 2 ^ 32 + 1) * size + (shapeCount + 1) * 4 ≤
        m.data.AttributeAllocator.Capacity) :
    ∃ offset valuesIndexOffset m',
      m.AddAttributeMorphs (.own i) shapeCount = .ok (m.attributes.length, m') ∧
      m'.attributes =
        (m.attributes ++
          [morphAttributeOf a offset size ((count + count * shapeCount % 2 ^ 32) % 2 ^ 32)]).set i
          (withMorphs a valuesIndexOffset shapeCount m.attributes.length) ∧
      m'.pointCount = m.pointCount ∧ m'.faceCount = m.faceCount ∧
      m'.cornerCount = m.cornerCount ∧ m'.MaterialRanges = m.MaterialRanges ∧
      m'.data.SceneAllocator = m.data.SceneAllocator ∧
      m'.data.AttributeAllocator.Cursor ≤ m.data.AttributeAllocator.Cursor +
        ((count + count * shapeCount % 2 ^ 32) % 2 ^ 32 + 1) * size + (shapeCount + 1) * 4 ∧
      m'.data.AttributeAllocator.Capacity = m.data.AttributeAllocator.Capacity := by
  have hpos := attributeElementSize_pos _ _ hsize
  obtain ⟨offset, allocator, halloc, hcur, hcap⟩ :=
    AllocateIndex32_ok m.data.AttributeAllocator size
      ((count + count * shapeCount % 2 ^ 32) % 2 ^ 32) hpos (by omega)
  obtain ⟨valuesIndexOffset, allocator', hval, hcur', hcap'⟩ :=
    AllocateIndex32_ok allocator sizeof.f32 shapeCount (by decide)
      (by rw [hcap]; show allocator.Cursor + (shapeCount + 1) * 4 ≤ _; omega)
  have hcur'' : allocator'.Cursor ≤ allocator.Cursor + (shapeCount + 1) * 4 := hcur'
  exact ⟨offset, valuesIndexOffset, _,
    AddAttributeMorphs_eq m i shapeCount a count size offset valuesIndexOffset allocator
      allocator' hget hmorph hcount hsize halloc hval, rfl, rfl, rfl, rfl, rfl, rfl,
    by simp only; omega, by simp only; rw [hcap', hcap]⟩

theorem map_name_set_of (l : List MeshAttribute) (i : Nat) (a' : MeshAttribute)
    (h : ∀ a, l.get? i = some a → a'.Name = a.Name) :
    (l.set i a').map (fun x => x.Name) = l.map (fun x => x.Name) := by
  cases hget : l.get? i with
  | none =>
    simp only [List.get?_eq_getElem?] at hget
    rw [List.set_eq_of_length_le (List.getElem?_eq_none_iff.1 hget)]
  | some a => exact map_name_set l i a a' hget (h a hget)

/-- The shape-key block of the loader runs to its end on a mesh whose `Position` attribute,
at position 2, has no morphs yet, when every shape key has at most one delta per point, the
whole fits 32 bits and the allocator has room. -/
theorem loadMorphs_ok (mesh : MeshData3D) (pos : MeshFileAttribute) (a2 : MeshAttribute)
    (P : Nat) (hget2 : mesh.attributes.get? 2 = some a2)
    (hmorph : a2.Morphs.Attribute = none)
    (hdom : a2.Domain = MeshAttributeDomain.Point) (htype : a2.Type_ = MeshAttributeType.Vec3)
    (hP : mesh.pointCount = P)
    (hcond : 1 < pos.Morphs.length →
      pos.Morphs.length < 2 ^ 32 ∧ P * (pos.Morphs.length + 1) < 2 ^ 32 ∧
        ∀ morph ∈ pos.Morphs, morph.Buffer.length ≤ 12 * P)
    (hroom : mesh.data.AttributeAllocator.Cursor +
      (if 1 < pos.Morphs.length then
        (P * (pos.Morphs.length + 1) + 1) * 12 + (pos.Morphs.length + 1) * 4 else 0) ≤
        mesh.data.AttributeAllocator.Capacity) :
    ∃ m', loadMorphs mesh pos = .ok m' ∧
      (∀ x, x ≠ [] →
        (x ∈ m'.attributes.map (fun a => a.Name) ↔ x ∈ mesh.attributes.map (fun a => a.Name))) ∧
      m'.attributes.get? 0 = mesh.attributes.get? 0 ∧
      m'.name = mesh.name ∧ m'.pointCount = mesh.pointCount ∧ m'.faceCount = mesh.faceCount ∧
      m'.cornerCount = mesh.cornerCount ∧
      m'.data.SceneAllocator = mesh.data.SceneAllocator ∧
      m'.data.AttributeAllocator.Cursor ≤ mesh.data.AttributeAllocator.Cursor +
        (if 1 < pos.Morphs.length then
          (P * (pos.Morphs.length + 1) + 1) * 12 + (pos.Morphs.length + 1) * 4 else 0) ∧
      m'.data.AttributeAllocator.Capacity = mesh.data.AttributeAllocator.Capacity := by
  by_cases hn : 1 < pos.Morphs.length
  · obtain ⟨hn32, hfit, hbuf⟩ := hcond hn
    rw [if_pos hn] at hroom ⊢
    have hmodn : pos.Morphs.length % 2 ^ 32 = pos.Morphs.length := Nat.mod_eq_of_lt hn32
    have hle : P * pos.Morphs.length ≤ P * (pos.Morphs.length + 1) :=
      Nat.mul_le_mul_left _ (Nat.le_succ _)
    have hexp : P * (pos.Morphs.length + 1) = P + P * pos.Morphs.length := by ring
    have helems : (P + P * pos.Morphs.length % 2 ^ 32) % 2 ^ 32 =
        P * (pos.Morphs.length + 1) := by
      rw [Nat.mod_eq_of_lt (by omega), Nat.mod_eq_of_lt (by omega), hexp]
    have hlen2 : 2 < mesh.attributes.length := by
      simp only [List.get?_eq_getElem?] at hget2
      exact (List.getElem?_eq_some_iff.1 hget2).1
    obtain ⟨offset, valuesIndexOffset, m1, hadd, hattrs, hp1, hf1, hc1, -, hs1, hcur1, hcap1⟩ :=
      AddAttributeMorphs_ok mesh.toMeshData2 2 pos.Morphs.length a2 P 12 hget2 hmorph
        (by rw [hdom, domainCount_point, hP]) (by rw [htype]; rfl)
        (by rw [helems]; omega)
    rw [helems] at hattrs hcur1
    obtain ⟨hent1, hent2⟩ := AddAttributeMorphs_entries mesh.toMeshData2 2 a2
      (withMorphs a2 valuesIndexOffset pos.Morphs.length mesh.attributes.length)
      (morphAttributeOf a2 offset 12 (P * (pos.Morphs.length + 1))) hget2
    rw [← hattrs] at hent1 hent2
    have hsum := sum_map_le pos.Morphs (fun morph => morph.Buffer.length) (12 * P) hbuf
    obtain ⟨values, buffer, hcopy, -, -⟩ := copyMorphs_ok pos.Morphs 0 0
      (withMorphs a2 valuesIndexOffset pos.Morphs.length mesh.attributes.length).Morphs.Values
      (morphAttributeOf a2 offset 12 (P * (pos.Morphs.length + 1))).Buffer
      (by simp only [withMorphs, length_resize]; omega)
      (by
        simp only [morphAttributeOf, List.length_replicate]
        have : pos.Morphs.length * (12 * P) ≤ 12 * (P * (pos.Morphs.length + 1)) := by
          rw [hexp]
          ring_nf
          omega
        omega)
    refine ⟨{ mesh with
        toMeshData2 :=
          { m1 with
            attributes :=
              (m1.attributes.set 2
                { withMorphs a2 valuesIndexOffset pos.Morphs.length mesh.attributes.length with
                  Morphs :=
                    { (withMorphs a2 valuesIndexOffset pos.Morphs.length
                        mesh.attributes.length).Morphs with Values := values } }).set
                mesh.attributes.length
                { morphAttributeOf a2 offset 12 (P * (pos.Morphs.length + 1)) with
                  Buffer := buffer } } },
      ?_, ?_, ?_, rfl, hp1, hf1, hc1, hs1, ?_, hcap1⟩
    · unfold loadMorphs
      rw [if_pos hn, hmodn, hadd]
      simp only
      rw [hent1, hent2]
      simp only
      rw [hcopy]
    · intro x hx
      simp only
      have hget2' : (m1.attributes.set 2
          { withMorphs a2 valuesIndexOffset pos.Morphs.length mesh.attributes.length with
            Morphs :=
              { (withMorphs a2 valuesIndexOffset pos.Morphs.length
                  mesh.attributes.length).Morphs with Values := values } }).get?
          mesh.attributes.length =
          some (morphAttributeOf a2 offset 12 (P * (pos.Morphs.length + 1))) := by
        simp only [List.get?_eq_getElem?] at hent2 ⊢
        rw [List.getElem?_set_ne (by omega)]
        exact hent2
      rw [map_name_set_of _ _ _ (fun a ha => by
          rw [hget2'] at ha
          cases ha
          rfl),
        map_name_set_of _ _ _ (fun a ha => by
          rw [hent1] at ha
          cases ha
          rfl), hattrs,
        map_name_set_of _ _ _ (fun a ha => by
          have h2 : (mesh.attributes ++
              [morphAttributeOf a2 offset 12 (P * (pos.Morphs.length + 1))]).get? 2 =
              some a2 := by
            simp only [List.get?_eq_getElem?] at hget2 ⊢
            rw [List.getElem?_append_left hlen2]
            exact hget2
          rw [h2] at ha
          cases ha
          rfl), List.map_append]
      simp only [List.mem_append, List.map_cons, List.map_nil, List.mem_singleton,
        morphAttributeOf]
      constructor
      · rintro (h | h)
        · exact h
        · exact absurd h hx
      · exact Or.inl
    · simp only [List.get?_eq_getElem?]
      rw [List.getElem?_set_ne (by omega), List.getElem?_set_ne (by omega), hattrs,
        List.getElem?_set_ne (by omega), List.getElem?_append_left (by omega)]
    · simp only
      omega
  · rw [if_neg hn] at hroom ⊢
    refine ⟨mesh, ?_, fun x _ => Iff.rfl, rfl, rfl, rfl, rfl, rfl, rfl, by omega, rfl⟩
    unfold loadMorphs
    rw [if_neg (by omega)]

theorem shapeKeys_of_find (mf : MeshFile) (pos : MeshFileAttribute)
    (h : mf.Attributes.find? (fun a => a.Name = positionName) = some pos) :
    (if mf.shapeKeys = [] then 0
      else (mf.PointCount * (mf.shapeKeys.length + 1) + 1) * 12 + (mf.shapeKeys.length + 1) * 4) =
    (if 1 < pos.Morphs.length then
      (mf.PointCount * (pos.Morphs.length + 1) + 1) * 12 + (pos.Morphs.length + 1) * 4
      else 0) := by
  unfold MeshFile.shapeKeys
  rw [h]
  simp only
  by_cases hn : 1 < pos.Morphs.length
  · have hne : pos.Morphs ≠ [] := by
      intro hnil
      rw [hnil] at hn
      simp at hn
    simp only [gt_iff_lt, hn, ↓reduceIte, hne]
  · simp only [gt_iff_lt, hn, ↓reduceIte]

/-- The loader builds the mesh of a well-formed mesh file whenever the scene buffer has room
for one more mesh record and the attribute buffer for the attributes of the mesh. -/
theorem loadMeshFile_ok (uniformMeshSize : Nat) (sceneBuffer : Nat → UniformMesh)
    (sceneData : SceneData) (mf : MeshFile) (hwf : mf.WellFormed) (hsize : 0 < uniformMeshSize)
    (hscene : sceneData.SceneAllocator.Cursor + 2 * uniformMeshSize ≤
      sceneData.SceneAllocator.Capacity)
    (hroom : sceneData.AttributeAllocator.Cursor + mf.attributeBytes ≤
      sceneData.AttributeAllocator.Capacity) :
    ∃ entry sceneData',
      loadMeshFile uniformMeshSize sceneBuffer sceneData mf = .ok (entry, sceneData') ∧
      sceneData'.SceneAllocator.Cursor ≤ sceneData.SceneAllocator.Cursor + 2 * uniformMeshSize ∧
      sceneData'.SceneAllocator.Capacity = sceneData.SceneAllocator.Capacity ∧
      sceneData'.AttributeAllocator.Cursor ≤
        sceneData.AttributeAllocator.Cursor + mf.attributeBytes ∧
      sceneData'.AttributeAllocator.Capacity = sceneData.AttributeAllocator.Capacity := by
  by_cases hF0 : mf.FaceCount = 0
  · refine ⟨none, sceneData, ?_, by omega, rfl, by omega, rfl⟩
    unfold loadMeshFile
    rw [if_pos hF0]
  · rcases hwf with h0 | ⟨hP, hF, hC, hdiv, ⟨pos, hpos, hposlen, hmorphs⟩,
      ⟨cvs, hcvs, hcvslen⟩, huv, hfresh⟩
    · exact absurd h0 hF0
    · unfold MeshFile.attributeBytes at hroom
      rw [if_neg hF0, shapeKeys_of_find mf pos hpos] at hroom
      obtain ⟨m, o0, o1, o2, o3, o4, hnew, hattrs, hname, hpc, hfc, hcc, -, hsc, hscap, hac,
        hacap⟩ := MeshData3D_new_ok uniformMeshSize sceneBuffer sceneData mf.Name mf.PointCount
          mf.FaceCount mf.CornerCount hsize hP hF hC hscene (by omega)
      -- the positions
      obtain ⟨b2, m1, hcopy1, -, hattrs1, hdata1, -, hpc1, -, hcc1⟩ :=
        copyToAttribute_step m 2 pos.Buffer
          (zeroAttribute positionAttributeName MeshAttributeDomain.Point MeshAttributeType.Vec3
            o2 12 mf.PointCount) (by rw [hattrs]; rfl)
          (by simp only [zeroAttribute, List.length_replicate]; exact hposlen)
      have hget2 : m1.attributes.get? 2 =
          some { zeroAttribute positionAttributeName MeshAttributeDomain.Point
                   MeshAttributeType.Vec3 o2 12 mf.PointCount with Buffer := b2 } := by
        rw [hattrs1, hattrs]; rfl
      have hget0 : m1.attributes.get? 0 =
          some (zeroAttribute pointOfCornerName MeshAttributeDomain.Corner
            (if mf.PointCount ≤ 65535 then MeshAttributeType.UInt16 else MeshAttributeType.UInt32)
            o0 (if mf.PointCount ≤ 65535 then 2 else 4) mf.CornerCount) := by
        rw [hattrs1, hattrs]; rfl
      have hnames1 : m1.attributes.map (fun a => a.Name) = mandatoryNames := by
        rw [hattrs1, hattrs]; rfl
      -- the shape keys
      obtain ⟨m2, hmorph, hnames2, hget0', -, -, -, hcc2, hs2, hcur2, hcap2⟩ :=
        loadMorphs_ok m1 pos _ mf.PointCount hget2 rfl rfl rfl (hpc1.trans hpc) hmorphs
          (by rw [hdata1, hacap]; omega)
      rw [hdata1] at hs2 hcur2 hcap2
      -- the corner indices
      obtain ⟨b0, m3, hcopy2, -, hattrs3, hdata3, -, -, -, hcc3⟩ :=
        copyToAttribute_step m2 0 cvs.Buffer _ (hget0'.trans hget0)
          (by
            simp only [zeroAttribute, List.length_replicate]
            exact hcvslen)
      have hnames3 : ∀ x, x ≠ [] →
          (x ∈ mandatoryNames ↔ x ∈ m3.attributes.map (fun a => a.Name)) := by
        intro x hx
        rw [hattrs3, map_name_set_of _ _ _ (fun a ha => by
          rw [hget0'.trans hget0] at ha
          cases ha
          rfl), hnames2 x hx, hnames1]
      -- the UV maps
      obtain ⟨m4, huvs, hs4, hcur4, hcap4⟩ := loadUvMaps_ok mf mf.UvIndices m3 huv hC
        (hcc3.trans (hcc2.trans (hcc1.trans hcc)))
        (FreshUvNames_congr _ _ _ hnames3 hfresh)
        (by rw [hdata3, hcap2, hacap]; omega)
      rw [hdata3] at hs4 hcur4 hcap4
      refine ⟨some { m4 with
          MaterialRanges := mf.Materials.map (fun r => (r.Offset, r.Count)) }, m4.data,
        ?_, ?_, ?_, ?_, ?_⟩
      · unfold loadMeshFile
        rw [if_neg hF0, if_neg (by simp [hdiv]), hnew]
        simp only
        rw [hpos]
        simp only
        rw [hcopy1]
        simp only
        rw [hmorph]
        simp only
        rw [hcvs]
        simp only
        rw [hcopy2]
        simp only
        rw [huvs]
      · rw [hs4, hs2]; exact hsc
      · rw [hs4, hs2]; exact hscap
      · unfold MeshFile.attributeBytes
        rw [if_neg hF0, shapeKeys_of_find mf pos hpos]
        omega
      · rw [hcap4, hcap2, hacap]

theorem loadMeshFiles_ok (uniformMeshSize : Nat) (sceneBuffer : Nat → UniformMesh)
    (files : List MeshFile) (sceneData : SceneData) (hwf : ∀ mf ∈ files, mf.WellFormed)
    (hsize : 0 < uniformMeshSize)
    (hscene : sceneData.SceneAllocator.Cursor +
      (files.filter (fun mf => decide (mf.FaceCount ≠ 0))).length * (2 * uniformMeshSize) ≤
        sceneData.SceneAllocator.Capacity)
    (hroom : sceneData.AttributeAllocator.Cursor +
      (files.map MeshFile.attributeBytes).sum ≤ sceneData.AttributeAllocator.Capacity) :
    ∃ meshes sceneData',
      loadMeshFiles uniformMeshSize sceneBuffer sceneData files = .ok (meshes, sceneData') := by
  induction files generalizing sceneData with
  | nil => exact ⟨[], sceneData, rfl⟩
  | cons mf rest ih =>
    simp only [List.map_cons, List.sum_cons] at hroom
    by_cases hF0 : mf.FaceCount = 0
    · have hfilter : (List.filter (fun mf => decide (mf.FaceCount ≠ 0)) (mf :: rest)) =
          List.filter (fun mf => decide (mf.FaceCount ≠ 0)) rest := by
        rw [List.filter_cons]
        simp [hF0]
      rw [hfilter] at hscene
      obtain ⟨meshes, sceneData', h⟩ := ih sceneData
        (fun x hx => hwf x (List.mem_cons_of_mem _ hx)) hscene (by omega)
      refine ⟨none :: meshes, sceneData', ?_⟩
      simp only [loadMeshFiles, loadMeshFile, hF0, ↓reduceIte, h]
    · have hfilter : (List.filter (fun mf => decide (mf.FaceCount ≠ 0)) (mf :: rest)).length =
          (List.filter (fun mf => decide (mf.FaceCount ≠ 0)) rest).length + 1 := by
        rw [List.filter_cons]
        simp [hF0]
      rw [hfilter, Nat.succ_mul] at hscene
      obtain ⟨entry, sceneData1, h1, hsc, hscap, hac, hacap⟩ :=
        loadMeshFile_ok uniformMeshSize sceneBuffer sceneData mf
          (hwf mf (List.mem_cons_self _ _)) hsize (by omega) (by omega)
      obtain ⟨meshes, sceneData', h⟩ := ih sceneData1
        (fun x hx => hwf x (List.mem_cons_of_mem _ hx)) (by rw [hscap]; omega)
        (by rw [hacap]; omega)
      refine ⟨entry :: meshes, sceneData', ?_⟩
      simp only [loadMeshFiles, h1, h]

theorem sampleTriangleFile_wellFormed : sampleTriangleFile.WellFormed := by
  refine Or.inr ⟨by decide, by decide, by decide, by decide, ⟨_, rfl, by decide, fun _ => ?_⟩,
    ⟨_, rfl, by decide⟩, ?_, ?_⟩
  · exact ⟨by decide, by decide, by decide⟩
  · intro i hi
    have : i = 2 := by simpa [sampleTriangleFile] using hi
    subst this
    exact ⟨_, rfl, rfl, by decide⟩
  · exact ⟨Or.inr (by decide), by decide, trivial⟩

theorem sampleLoadableScene_wellFormed : ∀ mf ∈ sampleLoadableScene.Meshes, mf.WellFormed := by
  intro mf hmf
  have : mf = sampleTriangleFile ∨ mf = sampleEmptyMeshFile := by
    simpa [sampleLoadableScene] using hmf
  rcases this with rfl | rfl
  · exact sampleTriangleFile_wellFormed
  · exact Or.inl rfl

/-- C20. For every loadable `SceneFile`: whenever `LoadSceneFile` returns, the mesh list
returned has the length of the file's mesh list; for every position `i`, entry `i` is null
if and only if mesh `i` of the file has `FaceCount = 0`, and otherwise it is a mesh with the
name and the point, face and corner counts of mesh `i` whose `MaterialRanges` is the file's
material-range list mapped to `(Offset, Count)` pairs in the same order, so every
`ObjectInstance.DataIndex` addresses the same mesh before and after loading; the objects
and the root collection are those of the file, unchanged. And `LoadSceneFile` does return
whenever every mesh of the file is well formed (no faces, or uniform topology, a `position`
and a `.corner_vert` attribute that fit, shape keys of one delta per point, UV indices of
Vec2F16 attributes with a value per corner, UV names that do not clash), the scene buffer
has room for a record per mesh with faces and the attribute buffer for their attributes. -/
theorem LoadSceneFile_meshes (uniformMeshSize : Nat) (sceneBuffer : Nat → UniformMesh)
    (sceneData : SceneData) (file : Option Bytes) (sf : SceneFile)
    (hload : SceneFile.Load file = .ok sf) :
    (∀ (scene : LoadedScene) (sceneData' : SceneData),
        LoadSceneFile uniformMeshSize sceneBuffer sceneData file = .ok (scene, sceneData') →
        scene.MeshDatas.length = sf.Meshes.length ∧
          (∀ i mf, sf.Meshes.get? i = some mf →
            ∃ entry, scene.MeshDatas.get? i = some entry ∧
              (entry = none ↔ mf.FaceCount = 0) ∧
              ∀ mesh, entry = some mesh →
                mesh.name = mf.Name ∧ mesh.pointCount = mf.PointCount ∧
                  mesh.faceCount = mf.FaceCount ∧ mesh.cornerCount = mf.CornerCount ∧
                  mesh.MaterialRanges = mf.Materials.map (fun r => (r.Offset, r.Count))) ∧
          scene.Objects = sf.Objects ∧ scene.Collection = sf.Collection) ∧
      ((∀ mf ∈ sf.Meshes, mf.WellFormed) → 0 < uniformMeshSize →
        sceneData.SceneAllocator.Cursor +
            (sf.Meshes.filter (fun mf => decide (mf.FaceCount ≠ 0))).length *
              (2 * uniformMeshSize) ≤ sceneData.SceneAllocator.Capacity →
        sceneData.AttributeAllocator.Cursor + (sf.Meshes.map MeshFile.attributeBytes).sum ≤
            sceneData.AttributeAllocator.Capacity →
        ∃ scene sceneData',
          LoadSceneFile uniformMeshSize sceneBuffer sceneData file = .ok (scene, sceneData')) := by
  constructor
  · intro scene sceneData' h
    rw [LoadSceneFile, hload] at h
    simp only at h
    split at h
    · cases h
    · next meshes sceneData1 hmeshes =>
      simp only [Except.ok.injEq, Prod.mk.injEq] at h
      obtain ⟨rfl, -⟩ := h
      have hall := loadMeshFiles_spec _ _ _ _ _ _ hmeshes
      refine ⟨hall.length_eq.symm, ?_, rfl, rfl⟩
      intro i mf hi
      obtain ⟨entry, hentry, hfrom⟩ := forall₂_get? _ _ _ hall i mf hi
      exact ⟨entry, hentry, hfrom.1, hfrom.2⟩
  · intro hwf hsize hscene hroom
    obtain ⟨meshes, sceneData', h⟩ :=
      loadMeshFiles_ok uniformMeshSize sceneBuffer sf.Meshes sceneData hwf hsize hscene hroom
    refine ⟨{ MeshDatas := meshes, Objects := sf.Objects, Collection := sf.Collection },
      sceneData', ?_⟩
    rw [LoadSceneFile, hload]
    simp only
    rw [h]

theorem LoadSceneFile_meshes_witness :
    SceneFile.Load (sampleLoadableScene.Save (some [])) = .ok sampleLoadableScene ∧
      LoadSceneFile 64 (fun _ => {}) sampleSceneData (sampleLoadableScene.Save (some [])) =
        .ok (sampleLoadedScene, sampleLoadedTriangle.data) ∧
      (sampleLoadedScene.MeshDatas.length = sampleLoadableScene.Meshes.length ∧
        (∀ i mf, sampleLoadableScene.Meshes.get? i = some mf →
          ∃ entry, sampleLoadedScene.MeshDatas.get? i = some entry ∧
            (entry = none ↔ mf.FaceCount = 0) ∧
            ∀ mesh, entry = some mesh →
              mesh.name = mf.Name ∧ mesh.pointCount = mf.PointCount ∧
                mesh.faceCount = mf.FaceCount ∧ mesh.cornerCount = mf.CornerCount ∧
                mesh.MaterialRanges = mf.Materials.map (fun r => (r.Offset, r.Count))) ∧
        sampleLoadedScene.Objects = sampleLoadableScene.Objects ∧
        sampleLoadedScene.Collection = sampleLoadableScene.Collection) ∧
      (∀ mf ∈ sampleLoadableScene.Meshes, mf.WellFormed) ∧
      ∃ scene sceneData',
        LoadSceneFile 64 (fun _ => {}) sampleSceneData (sampleLoadableScene.Save (some [])) =
          .ok (scene, sceneData') :=
  have h := LoadSceneFile_meshes 64 (fun _ => {}) sampleSceneData
    (sampleLoadableScene.Save (some [])) sampleLoadableScene
    (SceneFile_Load_of_Save sampleLoadableScene [] (by decide))
  ⟨SceneFile_Load_of_Save sampleLoadableScene [] (by decide), sampleLoadableScene_loads,
    h.1 sampleLoadedScene sampleLoadedTriangle.data sampleLoadableScene_loads,
    sampleLoadableScene_wellFormed,
    h.2 sampleLoadableScene_wellFormed (by decide) (by decide) (by decide)⟩

/-! ## Meshes that the reordering leaves alone -/

/-- C21. If the mesh has at most one material range, or has no attribute named
`material_index`, `ReorderMeshFaces` returns and leaves the whole `MeshFile` unchanged: the
name, the four counts, every attribute (name, domain, type, buffer, morphs), the UV indices
and every material range. -/
theorem ReorderMeshFaces_noop (mf : MeshFile)
    (h : mf.Materials.length ≤ 1 ∨ ∀ a ∈ mf.Attributes, a.Name ≠ materialIndexName) :
    ReorderMeshFaces mf = .ok mf := by
  unfold ReorderMeshFaces
  rcases h with h | h
  · rw [if_pos h]
  · have hfind : mf.Attributes.find? (fun a => a.Name = materialIndexName) = none := by
      rw [List.find?_eq_none]
      intro a ha
      simpa using h a ha
    rw [hfind]
    split <;> rfl

theorem ReorderMeshFaces_noop_witness :
    ((sampleReorderMesh [⟨0, 0, 4⟩]).Materials.length ≤ 1 ∧
        ReorderMeshFaces (sampleReorderMesh [⟨0, 0, 4⟩]) = .ok (sampleReorderMesh [⟨0, 0, 4⟩])) ∧
      (2 ≤ sampleNoIndexMesh.Materials.length ∧
        (∀ a ∈ sampleNoIndexMesh.Attributes, a.Name ≠ materialIndexName) ∧
        ReorderMeshFaces sampleNoIndexMesh = .ok sampleNoIndexMesh) :=
  ⟨⟨by decide, ReorderMeshFaces_noop _ (Or.inl (by decide))⟩,
    ⟨by decide, by decide, ReorderMeshFaces_noop _ (Or.inr (by decide))⟩⟩

/-- C28 (failing input). A mesh without faces, built through the exporter interface, that
has two material ranges and an attribute named `material_index`: the scan of the ids reads
nothing, and the next statement, `cornerPerFace = mf->CornerCount / mf->FaceCount`, divides
by zero, in `ReorderMeshFaces` and so in `SceneFileAddMesh`. With at most one material
range, or without the attribute, the same mesh is returned unchanged. -/
theorem ReorderMeshFaces_no_faces :
    (CreateMeshFile [] 1 0 0 0).exportCalls sampleUvOps sampleNoFacesCalls =
        .ok sampleNoFacesMesh ∧
      sampleNoFacesMesh.FaceCount = 0 ∧
      ReorderMeshFaces sampleNoFacesMesh = .error .divisionByZero ∧
      SceneFileAddMesh emptySceneFile sampleNoFacesMesh = .error .divisionByZero ∧
      ReorderMeshFaces { sampleNoFacesMesh with Materials := [⟨0, 0, 0⟩] } =
        .ok { sampleNoFacesMesh with Materials := [⟨0, 0, 0⟩] } ∧
      ReorderMeshFaces { sampleNoFacesMesh with Attributes := [] } =
        .ok { sampleNoFacesMesh with Attributes := [] } :=
  ⟨by decide, by decide, by decide, rfl, by decide, by decide⟩

/-- C27 (failing input). Face ids 2, 2, 1, 2 and three material ranges, as three
`MeshFileAddMaterial` calls leave them (offset 0, count `FaceCount` = 4 each): the material
loop rewrites the first two entries and leaves the third, so the ranges are
(0, 1), (1, 3), (0, 4): the third does not start where the second ends, it overlaps both,
and the counts sum to 8, not to `FaceCount`. With just the two materials in use the ranges
tile the four faces. -/
theorem ReorderMeshFaces_ranges_not_tiling :
    (CreateMeshFile [] 4 0 4 8).exportCalls sampleUvOps sampleThreeMaterialCalls =
        .ok (sampleReorderMesh [⟨0, 0, 4⟩, ⟨1, 0, 4⟩, ⟨2, 0, 4⟩]) ∧
    (ReorderMeshFaces (sampleReorderMesh [⟨0, 0, 4⟩, ⟨1, 0, 4⟩, ⟨2, 0, 4⟩])).map
        (fun mf => (mf.FaceCount, mf.Materials.map (fun r => (r.Offset, r.Count)))) =
      .ok (4, [(0, 1), (1, 3), (0, 4)]) ∧
    ¬ MaterialsTile [⟨0, 0, 1⟩, ⟨1, 1, 3⟩, ⟨2, 0, 4⟩] 0 4 ∧
    ([(0, 1), (1, 3), (0, 4)].map (fun r : Nat × Nat => r.2)).sum = 8 ∧
    (ReorderMeshFaces (sampleReorderMesh [⟨1, 0, 4⟩, ⟨2, 0, 4⟩])).map
        (fun mf => decide (MaterialsTile mf.Materials 0 mf.FaceCount)) = .ok true := by
  decide

end Renderer

/-! ## Saving -/

namespace Renderer

/-- C25. When the target file cannot be opened for writing, `MeshFile::Save` and
`SceneFile::Save` return normally and there is still no file content; when it can be
opened, whatever it held before is replaced by the four magic bytes (`K`, `M`, `F`, 0 and
`K`, `S`, `C`, 0) followed by the serialized body, so the new content does not depend on the
old one. -/
theorem Save_unopened_or_replaced (v : MeshFile) (s : SceneFile) (old : Bytes) :
    v.Save none = none ∧ s.Save none = none ∧
      v.Save (some old) = some ([75, 77, 70, 0] ++ v.Serialize) ∧
      s.Save (some old) = some ([75, 83, 67, 0] ++ s.Serialize) ∧
      v.Save (some old) = v.Save (some []) ∧ s.Save (some old) = s.Save (some []) :=
  ⟨rfl, rfl, rfl, rfl, rfl, rfl⟩

end Renderer

/-! ## The ordered-map reader keeps what the destination held -/

theorem readEntries_flatMap {α β : Type} (less : α → α → Bool) (key : α → Bytes)
    (value : β → Bytes) (readKey : Reader α) (readValue : Reader β) :
    ∀ (m dest : OrderedMap α β) (rest : Bytes),
      (∀ p ∈ m, ∀ tl, readKey (key p.1 ++ tl) = .ok (p.1, tl)) →
      (∀ p ∈ m, ∀ tl, readValue (value p.2 ++ tl) = .ok (p.2, tl)) →
      readEntries less readKey readValue m.length dest
          (m.flatMap (fun p => key p.1 ++ value p.2) ++ rest) =
        .ok (m.foldl (fun d p => d.assign less p.1 p.2) dest, rest) := by
  intro m
  induction m with
  | nil => intro dest rest _ _; rfl
  | cons p m ih =>
    intro dest rest hk hv
    simp only [List.length_cons, List.flatMap_cons, List.append_assoc, readEntries,
      List.foldl_cons]
    rw [hk p (List.mem_cons_self _ _)]
    simp only
    rw [hv p (List.mem_cons_self _ _)]
    exact ih _ _ (fun q hq => hk q (List.mem_cons_of_mem _ hq))
      (fun q hq => hv q (List.mem_cons_of_mem _ hq))

/-- What `UnSerialize` makes of a serialized map: every entry of the serialized map is
assigned into the destination, in key order; nothing is removed from the destination. -/
theorem UnSerializeMap_Serialize {α β : Type} (less : α → α → Bool) (key : α → Bytes)
    (value : β → Bytes) (readKey : Reader α) (readValue : Reader β)
    (m dest : OrderedMap α β) (rest : Bytes) (hlen : m.length < 2 ^ 64)
    (hk : ∀ p ∈ m, ∀ tl, readKey (key p.1 ++ tl) = .ok (p.1, tl))
    (hv : ∀ p ∈ m, ∀ tl, readValue (value p.2 ++ tl) = .ok (p.2, tl)) :
    UnSerializeMap less readKey readValue dest (SerializeMap key value m ++ rest) =
      .ok (m.foldl (fun d p => d.assign less p.1 p.2) dest, rest) := by
  unfold UnSerializeMap SerializeMap
  rw [List.append_assoc, UnSerializeUInt_Serialize 8 _ hlen]
  exact readEntries_flatMap less key value readKey readValue m dest rest hk hv

/-- C29 (failing input). Maps from `u32` to `u32`. Reading the bytes of the empty map
into a destination that holds the entry (1, 2) leaves the entry there; reading the bytes of
the map with the one entry (1, 9) into a destination that holds (1, 2) and (5, 6) replaces
the value of key 1 and keeps the entry (5, 6). Only an empty destination ends up equal to
the map that was serialized. -/
theorem UnSerializeMap_keeps_destination :
    UnSerializeMap lessNat (UnSerializeUInt 4) (UnSerializeUInt 4) [(1, 2)]
        (SerializeMap (SerializeUInt 4) (SerializeUInt 4) []) = .ok ([(1, 2)], []) ∧
      UnSerializeMap lessNat (UnSerializeUInt 4) (UnSerializeUInt 4) [(1, 2), (5, 6)]
        (SerializeMap (SerializeUInt 4) (SerializeUInt 4) [(1, 9)]) =
          .ok ([(1, 9), (5, 6)], []) ∧
      UnSerializeMap lessNat (UnSerializeUInt 4) (UnSerializeUInt 4) []
        (SerializeMap (SerializeUInt 4) (SerializeUInt 4) [(1, 9), (3, 4)]) =
          .ok ([(1, 9), (3, 4)], []) := by
  decide

namespace Renderer

/-! ## The UV conversion -/

theorem modf_of_nonneg (v : ℚ) (h : 0 ≤ v) : modf v = (Int.fract v, (⌊v⌋ : ℚ)) := by
  unfold modf
  have hnum : 0 ≤ v.num := Rat.num_nonneg.mpr h
  have hden : (0 : ℤ) ≤ v.den := Int.ofNat_nonneg _
  simp only [Int.tdiv_eq_ediv hnum hden, ← Rat.floor_def, Int.fract]

theorem modf_eq (v : ℚ) (i : ℤ) (h0 : 0 ≤ v) (h1 : (i : ℚ) ≤ v) (h2 : v < i + 1) :
    modf v = (v - i, (i : ℚ)) := by
  have hfloor : ⌊v⌋ = i := Int.floor_eq_iff.mpr ⟨h1, h2⟩
  rw [modf_of_nonneg v h0, Int.fract, hfloor]

theorem modf_thirteen_tenths : modf (13 / 10) = (3 / 10, 1) := by
  rw [modf_eq (13 / 10) 1 (by norm_num) (by norm_num) (by norm_num)]
  norm_num

theorem modf_seventeen_tenths : modf (17 / 10) = (7 / 10, 1) := by
  rw [modf_eq (17 / 10) 1 (by norm_num) (by norm_num) (by norm_num)]
  norm_num

theorem uvConvertY_thirteen_tenths : uvConvertY (13 / 10) = 17 / 10 := by
  unfold uvConvertY
  rw [modf_thirteen_tenths]
  norm_num

theorem uvConvertY_eq (y : ℚ) : uvConvertY y = (modf y).2 + (1 - (modf y).1) := by
  unfold uvConvertY
  simp only
  ring

/-- C22 (as stated, refuted). For `y = 1.3` the converted value is 1.7: its integer part is
1 and its fractional part is 0.7, not 0.3. -/
theorem uvConvertY_fraction_not_kept :
    uvConvertY (13 / 10) = 17 / 10 ∧ modf (13 / 10) = (3 / 10, 1) ∧
      modf (uvConvertY (13 / 10)) = (7 / 10, 1) ∧ (modf (uvConvertY (13 / 10))).1 ≠ 3 / 10 := by
  refine ⟨uvConvertY_thirteen_tenths, modf_thirteen_tenths, ?_, ?_⟩
  · rw [uvConvertY_thirteen_tenths, modf_seventeen_tenths]
  · rw [uvConvertY_thirteen_tenths, modf_seventeen_tenths]
    norm_num

/-- C22 (amended). The UV conversion that `MeshFileAddAttribute` applies to the `y`
component (in exact arithmetic, before the rounding to half precision) keeps the integral
part `i` of `y` and replaces its fractional part `f` by `1 - f`: the result is
`i + (1 - f) = 2 i + 1 - y`. For every `y >= 0` that is not an integer the result has the
integer part of `y` and the fractional part `1 - f`; for `y = 1.3` the stored value is 1.7,
with fractional part 0.7 and integer part 1. -/
theorem uvConvertY_flips (y : ℚ) :
    uvConvertY y = (modf y).2 + (1 - (modf y).1) ∧ uvConvertY y = 2 * (modf y).2 + 1 - y ∧
      (0 ≤ y → (modf y).1 ≠ 0 → modf (uvConvertY y) = (1 - (modf y).1, (modf y).2)) := by
  refine ⟨uvConvertY_eq y, ?_, ?_⟩
  · rw [uvConvertY_eq]
    unfold modf
    simp only
    ring
  · intro h0 hf
    rw [uvConvertY_eq, modf_of_nonneg y h0] at *
    simp only at hf ⊢
    have hf0 : 0 ≤ Int.fract y := Int.fract_nonneg y
    have hf1 : Int.fract y < 1 := Int.fract_lt_one y
    have hpos : 0 < Int.fract y := lt_of_le_of_ne hf0 (Ne.symm hf)
    have hfl : (0 : ℚ) ≤ (⌊y⌋ : ℚ) := by exact_mod_cast Int.floor_nonneg.mpr h0
    have hr : 0 ≤ (⌊y⌋ : ℚ) + (1 - Int.fract y) := by linarith
    rw [modf_of_nonneg _ hr]
    have hfloor : ⌊(⌊y⌋ : ℚ) + (1 - Int.fract y)⌋ = ⌊y⌋ := by
      rw [Int.floor_eq_iff]
      constructor <;> linarith
    have hfr : Int.fract ((⌊y⌋ : ℚ) + (1 - Int.fract y)) = 1 - Int.fract y := by
      rw [Int.fract_eq_iff]
      exact ⟨by linarith, by linarith, ⌊y⌋, by ring⟩
    rw [hfr, hfloor]

theorem uvConvertY_flips_witness :
    (0 : ℚ) ≤ 13 / 10 ∧ (modf (13 / 10)).1 ≠ 0 ∧
      modf (uvConvertY (13 / 10)) = (1 - (modf (13 / 10)).1, (modf (13 / 10)).2) :=
  ⟨by norm_num, by rw [modf_thirteen_tenths]; norm_num,
    (uvConvertY_flips (13 / 10)).2.2 (by norm_num) (by rw [modf_thirteen_tenths]; norm_num)⟩

/-! ## The first and the later calls of `GetFaceIndices` -/

theorem flatten_set_append : ∀ (B : List (List Nat)) (i : Nat) (f : List Nat) (x : Nat),
    B.get? i = some f →
      (B.set i (f ++ [x])).length = B.length ∧
      (B.set i (f ++ [x])).flatten.length = B.flatten.length + 1 ∧
      ∀ y ∈ (B.set i (f ++ [x])).flatten, y ∈ B.flatten ∨ y = x := by
  intro B
  induction B with
  | nil => intro i f x h; cases h
  | cons b B ih =>
    intro i f x h
    cases i with
    | zero =>
      simp only [List.get?_cons_zero, Option.some.injEq] at h
      subst h
      refine ⟨by simp, ?_, ?_⟩
      · simp only [List.set_cons_zero, List.flatten_cons, List.length_append, List.length_cons,
          List.length_nil]
        omega
      · intro y hy
        simp only [List.set_cons_zero, List.flatten_cons, List.mem_append, List.mem_cons,
          List.mem_singleton, List.not_mem_nil, or_false] at hy ⊢
        tauto
    | succ i =>
      simp only [List.get?_cons_succ] at h
      obtain ⟨h1, h2, h3⟩ := ih i f x h
      refine ⟨by simp, ?_, ?_⟩
      · simp only [List.set_cons_succ, List.flatten_cons, List.length_append, h2]
        omega
      · intro y hy
        simp only [List.set_cons_succ, List.flatten_cons, List.mem_append] at hy ⊢
        rcases hy with hy | hy
        · exact Or.inl (Or.inl hy)
        · rcases h3 y hy with h | h
          · exact Or.inl (Or.inr h)
          · exact Or.inr h

/-- What the corner loop has done when it returns: one face id emplaced per visit. -/
theorem createCorners_inv (w : Nat) (buf : Bytes) :
    ∀ (visits : List (Nat × Nat)) (B : List (List Nat)) (e : Nat) (B' : List (List Nat))
      (e' : Nat), e < 2 ^ 32 → createCorners w buf visits B e = .ok (B', e') →
      e' = (e + visits.length) % 2 ^ 32 ∧ B'.length = B.length ∧
        B'.flatten.length = B.flatten.length + visits.length ∧
        ∀ y ∈ B'.flatten, y ∈ B.flatten ∨ ∃ v ∈ visits, y = v.1 := by
  intro visits
  induction visits with
  | nil =>
    intro B e B' e' he h
    simp only [createCorners, Except.ok.injEq, Prod.mk.injEq] at h
    obtain ⟨rfl, rfl⟩ := h
    exact ⟨by rw [List.length_nil, Nat.add_zero, Nat.mod_eq_of_lt he], rfl, by simp,
      fun y hy => Or.inl hy⟩
  | cons v visits ih =>
    intro B e B' e' he h
    obtain ⟨faceId, cornerId⟩ := v
    unfold createCorners at h
    split at h
    · cases h
    · next vertexId _ =>
      split at h
      · cases h
      · next faces hfaces =>
        obtain ⟨h1, h2, h3, h4⟩ := ih _ _ _ _ (Nat.mod_lt _ (by norm_num)) h
        obtain ⟨s1, s2, s3⟩ := flatten_set_append B vertexId faces faceId hfaces
        refine ⟨?_, h2.trans s1, ?_, ?_⟩
        · rw [h1, List.length_cons]
          omega
        · rw [h3, s2, List.length_cons]
          omega
        · intro y hy
          rcases h4 y hy with h | ⟨v, hv, rfl⟩
          · rcases s3 y h with h | h
            · exact Or.inl h
            · exact Or.inr ⟨(faceId, cornerId), List.mem_cons_self _ _, h⟩
          · exact Or.inr ⟨v, List.mem_cons_of_mem _ hv, rfl⟩

theorem flatMap_length_const {α β : Type} (f : α → List β) (w : Nat) (v : List α)
    (h : ∀ a ∈ v, (f a).length = w) : (v.flatMap f).length = v.length * w := by
  induction v with
  | nil => simp
  | cons a v ih =>
    simp only [List.flatMap_cons, List.length_append, List.length_cons]
    rw [h a (List.mem_cons_self _ _), ih (fun b hb => h b (List.mem_cons_of_mem _ hb))]
    ring

theorem cornerVisits_length (faceCount cornerCount : Nat) :
    (cornerVisits faceCount cornerCount).length = faceCount * (cornerCount / faceCount) := by
  unfold cornerVisits
  rw [flatMap_length_const _ (cornerCount / faceCount) _ (fun a _ => by simp)]
  simp

theorem cornerVisits_fst_lt (faceCount cornerCount : Nat) :
    ∀ v ∈ cornerVisits faceCount cornerCount, v.1 < faceCount := by
  intro v hv
  unfold cornerVisits at hv
  rw [List.mem_flatMap] at hv
  obtain ⟨f, hf, hv⟩ := hv
  rw [List.mem_map] at hv
  obtain ⟨c, _, rfl⟩ := hv
  simpa using hf

theorem flatten_replicate_nil (n : Nat) : (List.replicate n ([] : List Nat)).flatten = [] := by
  induction n with
  | zero => rfl
  | succ n ih => rw [List.replicate_succ, List.flatten_cons, ih]; rfl

/-- The buckets after the corner loop: every bucket has received, in visit order, the face
ids of the visits whose corner reads its point. -/
theorem createCorners_buckets (w : Nat) (buf : Bytes) :
    ∀ (visits : List (Nat × Nat)) (B : List (List Nat)) (e : Nat) (B' : List (List Nat))
      (e' : Nat), createCorners w buf visits B e = .ok (B', e') →
      ∀ v, B'.getD v [] = B.getD v [] ++
        (visits.filter (fun x => decide (readAt w buf x.2 = .ok v))).map (fun x => x.1) := by
  intro visits
  induction visits with
  | nil =>
    intro B e B' e' h v
    simp only [createCorners, Except.ok.injEq, Prod.mk.injEq] at h
    rw [← h.1]
    simp
  | cons x visits ih =>
    intro B e B' e' h v
    obtain ⟨faceId, cornerId⟩ := x
    unfold createCorners at h
    split at h
    · cases h
    · next vertexId hread =>
      split at h
      · cases h
      · next faces hfaces =>
        rw [ih _ _ _ _ h v]
        rw [List.get?_eq_getElem?] at hfaces
        obtain ⟨hlt, hget⟩ := List.getElem?_eq_some_iff.1 hfaces
        by_cases hv : v = vertexId
        · subst hv
          simp only [List.filter_cons, hread, decide_True, if_true, List.map_cons,
            List.getD_eq_getElem?_getD, List.getElem?_set_self hlt, hfaces, Option.getD_some,
            List.append_assoc, List.singleton_append]
        · have hne : ¬ vertexId = v := fun hc => hv hc.symm
          simp only [List.filter_cons, hread, Except.ok.injEq, hne, decide_False, Bool.false_eq_true,
            if_false, List.getD_eq_getElem?_getD, List.getElem?_set_ne hne]

theorem getD_replicate_nil (n v : Nat) : (List.replicate n ([] : List Nat)).getD v [] = [] := by
  rw [List.getD_eq_getElem?_getD]
  cases h : (List.replicate n ([] : List Nat))[v]? with
  | none => rfl
  | some l =>
    have hmem := List.getElem?_mem h
    rw [List.eq_of_mem_replicate hmem]
    rfl

theorem writeValues_exact (w : Nat) (values : List Nat) (buf out : Bytes)
    (h : writeValues w values buf = .ok out) (hlen : buf.length = values.length * w) :
    out = values.flatMap (toLE w) := by
  unfold writeValues at h
  split at h
  · rw [← Except.ok.inj h, List.drop_of_length_le (le_of_eq hlen), List.append_nil]
  · cases h

/-- What the first `GetFaceIndices` has done when it returns: the attribute `FaceIndex` is
allocated for exactly the face ids emplaced by the corner loop and holds them, and the
buffer of `FaceList` is rewritten. -/
theorem GetFaceIndices_first (m m' : MeshData3D) (fi : Nat) (hnull : m.faceIndices = none)
    (hP : m.pointCount < 2 ^ 32) (hC : m.cornerCount < 2 ^ 32)
    (h : m.GetFaceIndices = .ok (fi, m')) :
    ∃ (B : List (List Nat)) (offset : Nat) (allocator : GPUVirtualMemoryAllocator)
      (fl : MeshAttribute) (listBuffer : Bytes) (m2 : MeshData2) (poc : MeshAttribute),
      fi = m.attributes.length ∧ 4 < m.attributes.length ∧ m.attributes.get? 4 = some fl ∧
      m.toMeshData2.FindAttribute faceIndexName = none ∧
      B.length = (m.pointCount + 1) % 2 ^ 32 ∧
      B.flatten.length = m.faceCount * (m.cornerCount / m.faceCount) ∧
      (∀ id ∈ B.flatten, id < m.faceCount) ∧
      m.toMeshData2.AddAttribute faceIndexName MeshAttributeDomain.Point
          (if m.faceCount ≤ 65535 then MeshAttributeType.UInt16 else MeshAttributeType.UInt32)
          ((B.flatten.length + 2 ^ 32 - m.pointCount) % 2 ^ 32) = .ok (fi, m2) ∧
      m.data.AttributeAllocator.AllocateIndex32 (if m.faceCount ≤ 65535 then 2 else 4)
        B.flatten.length = .ok (offset, allocator) ∧
      writeValues 4 (faceListValues B 0) fl.Buffer = .ok listBuffer ∧
      m' = afterGetFaceIndices m offset allocator fl
        (B.flatten.flatMap (toLE (if m.faceCount ≤ 65535 then 2 else 4))) listBuffer ∧
      m.attributes.get? 0 = some poc ∧
      createCorners (if poc.Type_ = MeshAttributeType.UInt32 then 4 else 2) poc.Buffer
        (cornerVisits m.faceCount m.cornerCount)
        (List.replicate ((m.pointCount + 1) % 2 ^ 32) []) 0 = .ok (B, B.flatten.length) := by
  unfold MeshData3D.GetFaceIndices at h
  rw [hnull] at h
  simp only at h
  split at h
  · next poc fl h0 h4 =>
    split at h
    · cases h
    · next facesOfVertices emplaceCount hcc =>
      split at h
      · cases h
      · next fi' m2 hadd =>
        split at h
        · next faceIndex faceList hget h4' =>
          split at h
          · cases h
          · next indexBuffer hindex =>
            split at h
            · cases h
            · next listBuffer hlist =>
              simp only [Except.ok.injEq, Prod.mk.injEq] at h
              obtain ⟨hfi', hm'⟩ := h
              subst hfi'
              have h5 : 4 < m.attributes.length := by
                by_contra hc
                rw [List.get?_eq_none.mpr (by omega)] at h4
                cases h4
              -- the corner loop
              obtain ⟨he, hBlen, hflat, hmem⟩ := createCorners_inv _ _ _ _ _ _ _ (by norm_num) hcc
              rw [List.length_replicate] at hBlen
              have hadd0 := hadd
              rw [flatten_replicate_nil, List.length_nil, Nat.zero_add,
                cornerVisits_length] at hflat
              have hn : m.faceCount * (m.cornerCount / m.faceCount) ≤ m.cornerCount :=
                Nat.mul_div_le _ _
              rw [Nat.zero_add, cornerVisits_length, Nat.mod_eq_of_lt (by omega)] at he
              subst he
              have hids : ∀ id ∈ facesOfVertices.flatten, id < m.faceCount := by
                intro id hid
                rcases hmem id hid with h | ⟨v, hv, rfl⟩
                · rw [flatten_replicate_nil] at h
                  cases h
                · exact cornerVisits_fst_lt _ _ v hv
              -- the new attribute
              obtain ⟨hname, count, size, offset, allocator, hcount, hsize, halloc, hidx, hm2⟩ :=
                AddAttribute_inv _ _ _ _ _ _ _ hadd
              have hcount' : count = m.pointCount := by
                rcases domainCount_cases _ _ _ hcount with ⟨_, h⟩ | ⟨h, _⟩ | ⟨h, _⟩
                · exact h
                · exact absurd h (by decide)
                · exact absurd h (by decide)
              subst hcount'
              rw [attributeElementSize_faceIndex] at hsize
              simp only [Except.ok.injEq] at hsize
              subst hsize
              rw [u32_sub_add _ _ hP (by omega)] at halloc hm2
              subst hm2
              subst hidx
              simp only [List.get?_eq_getElem?, List.getElem?_append_right (le_refl _),
                Nat.sub_self, List.getElem?_cons_zero, Option.some.injEq] at hget
              simp only [List.get?_eq_getElem?, List.getElem?_append_left h5] at h4'
              rw [List.get?_eq_getElem?, h4'] at h4
              simp only [Option.some.injEq] at h4
              subst h4
              subst hget
              -- the values written
              have hib : indexBuffer = facesOfVertices.flatten.flatMap
                  (toLE (if m.faceCount ≤ 65535 then 2 else 4)) := by
                apply writeValues_exact _ _ _ _ hindex
                simp only [List.length_replicate, hflat]
                exact Nat.mul_comm _ _
              refine ⟨facesOfVertices, offset, allocator, faceList, listBuffer, _, poc, rfl,
                h5, by rw [List.get?_eq_getElem?, h4'], hname, hBlen, hflat, hids,
                by rw [hflat]; exact hadd0, by rw [hflat]; exact halloc, hlist, ?_, h0,
                by rw [hflat]; exact hcc⟩
              rw [← hm', ← hib]
              simp only [afterGetFaceIndices, faceIndexAttribute, List.set_append_right, le_refl,
                Nat.sub_self, List.set_cons_zero]
        · cases h
  · cases h

theorem faceListValues_lt : ∀ (B : List (List Nat)) (i : Nat), i < 256 ^ 4 →
    ∀ x ∈ faceListValues B i, x < 256 ^ 4 := by
  intro B
  induction B with
  | nil => intro i _ x hx; cases hx
  | cons b B ih =>
    intro i hi x hx
    rw [faceListValues, List.mem_cons] at hx
    rcases hx with rfl | hx
    · exact hi
    · exact ih _ (Nat.mod_lt _ (by norm_num)) x hx

theorem readValues_of_writeValues (w : Nat) (values : List Nat) (buf out : Bytes)
    (h : writeValues w values buf = .ok out) (hv : ∀ x ∈ values, x < 256 ^ w) :
    readValues w out values.length = .ok values := by
  have hle : values.length * w ≤ buf.length := by
    unfold writeValues at h
    split at h
    · assumption
    · cases h
  obtain ⟨out', h1, _, h3⟩ := readValues_writeValues w values buf hv hle
  rw [h] at h1
  rw [Except.ok.inj h1]
  exact h3

theorem readValues_flatMap (w : Nat) (values : List Nat) (hv : ∀ x ∈ values, x < 256 ^ w) :
    readValues w (values.flatMap (toLE w)) values.length = .ok values := by
  have h : writeValues w values (values.flatMap (toLE w)) = .ok (values.flatMap (toLE w)) := by
    have hl : (values.flatMap (toLE w)).length = values.length * w :=
      length_flatMap_const _ w _ (fun a _ => toLE_length w a)
    unfold writeValues
    rw [if_pos (le_of_eq hl.symm), List.drop_of_length_le (le_of_eq hl), List.append_nil]
  exact readValues_of_writeValues w values _ _ h hv

theorem GetFaceIndices_some (m : MeshData3D) (fi : Nat) (h : m.faceIndices = some fi) :
    m.GetFaceIndices = .ok (fi, m) := by
  unfold MeshData3D.GetFaceIndices
  rw [h]

theorem call_faceIndices (m m' : MeshData3D) (c : MeshCall) (fi : Nat)
    (hfi : m.faceIndices = some fi) (h : m.call c = .ok m') : m'.faceIndices = some fi := by
  cases c with
  | addAttribute name domain type extraCount =>
    simp only [MeshData3D.call] at h
    split at h
    · cases h
    · cases h
      exact hfi
  | addAttributeMorphs at_ shapeCount =>
    simp only [MeshData3D.call] at h
    split at h
    · cases h
    · cases h
      exact hfi
  | addUvMap name =>
    simp only [MeshData3D.call] at h
    split at h
    · cases h
    · next uv m1 huv =>
      cases h
      obtain ⟨_, _, _, _, _, _, _, _, _, hm'⟩ := AddUvMap_inv _ _ _ _ huv
      rw [hm']
      exact hfi
  | getFaceIndices =>
    simp only [MeshData3D.call, GetFaceIndices_some m fi hfi] at h
    cases h
    exact hfi

theorem calls_faceIndices : ∀ (calls : List MeshCall) (m m' : MeshData3D) (fi : Nat),
    m.faceIndices = some fi → m.calls calls = .ok m' → m'.faceIndices = some fi := by
  intro calls
  induction calls with
  | nil =>
    intro m m' fi hfi h
    simp only [MeshData3D.calls, Except.ok.injEq] at h
    rw [← h]
    exact hfi
  | cons c calls ih =>
    intro m m' fi hfi h
    simp only [MeshData3D.calls] at h
    split at h
    · cases h
    · next m1 hc => exact ih m1 m' fi (call_faceIndices m m1 c fi hfi hc) h

theorem faceId_lt_width (faceCount id : Nat) (hF : faceCount < 2 ^ 32) (h : id < faceCount) :
    id < 256 ^ (if faceCount ≤ 65535 then 2 else 4) := by
  split
  · norm_num; omega
  · norm_num at hF ⊢; omega

theorem afterGetFaceIndices_other (m : MeshData3D) (offset : Nat)
    (allocator : GPUVirtualMemoryAllocator) (fl : MeshAttribute) (ib lb : Bytes) :
    (afterGetFaceIndices m offset allocator fl ib lb).attributes.length =
        m.attributes.length + 1 ∧
      ∀ j, j < m.attributes.length → j ≠ 4 →
        (afterGetFaceIndices m offset allocator fl ib lb).attributes.get? j =
          m.attributes.get? j := by
  unfold afterGetFaceIndices
  refine ⟨by simp, ?_⟩
  intro j hj h4
  simp only [List.get?_eq_getElem?]
  rw [List.getElem?_set_ne (Ne.symm h4), List.getElem?_set_ne (by omega),
    List.getElem?_append_left hj]

theorem flatten_take_le (B : List (List Nat)) (p : Nat) :
    (B.take p).flatten.length ≤ B.flatten.length := by
  have h := congrArg (fun l : List (List Nat) => l.flatten.length) (List.take_append_drop p B)
  simp only [List.flatten_append, List.length_append] at h
  omega

/-- C24. `GetFaceIndices` is memoized. On a mesh on which it has not run, whenever the
first call returns, it has added exactly one attribute, at the end of the catalog: the
Point-domain attribute `FaceIndex`, of type UInt16 (2-byte elements) if `FaceCount <=
65535` and UInt32 (4-byte elements) otherwise, whose buffer holds exactly the face ids
emplaced by the corner loop, each smaller than `FaceCount` and so stored without loss in
that width; it has filled `FaceList` (position 4): there is one bucket per point of
0 .. `PointCount`, the bucket of a point holds the face ids of the visited corners that
read that point from the point-of-corner buffer, in visit order, and the first
`PointCount + 1` values of `FaceList` are, point by point, the number of ids in the buckets
before it; it has left every other attribute as it was; and it has recorded the new
attribute, so that every later call, directly after it or after any other calls on the
mesh, returns the same attribute and the mesh unchanged (no attribute added, no allocation,
no buffer written). The first call does return under the preconditions of C7. -/
theorem GetFaceIndices_memoized (m : MeshData3D) (hnull : m.faceIndices = none)
    (hP : m.pointCount < 2 ^ 32) (hF : m.faceCount < 2 ^ 32) (hC : m.cornerCount < 2 ^ 32) :
    (∀ fi m', m.GetFaceIndices = .ok (fi, m') →
      fi = m.attributes.length ∧ m'.attributes.length = m.attributes.length + 1 ∧
      m'.faceIndices = some fi ∧
      (∀ j, j < m.attributes.length → j ≠ 4 → m'.attributes.get? j = m.attributes.get? j) ∧
      (∃ (poc : MeshAttribute) (B : List (List Nat)) (offset : Nat) (fl : MeshAttribute)
          (listBuffer : Bytes),
        m.attributes.get? 0 = some poc ∧
        B.length = (m.pointCount + 1) % 2 ^ 32 ∧
        (∀ p, B.getD p [] =
          ((cornerVisits m.faceCount m.cornerCount).filter (fun x =>
            decide (readAt (if poc.Type_ = MeshAttributeType.UInt32 then 4 else 2) poc.Buffer
              x.2 = .ok p))).map (fun x => x.1)) ∧
        B.flatten.length = m.faceCount * (m.cornerCount / m.faceCount) ∧
        m'.attributes.get? fi = some (faceIndexAttribute m.faceCount offset
          (B.flatten.flatMap (toLE (if m.faceCount ≤ 65535 then 2 else 4)))) ∧
        (∀ id ∈ B.flatten, id < m.faceCount ∧ id < 256 ^ (if m.faceCount ≤ 65535 then 2 else 4)) ∧
        readValues (if m.faceCount ≤ 65535 then 2 else 4)
          (B.flatten.flatMap (toLE (if m.faceCount ≤ 65535 then 2 else 4))) B.flatten.length =
            .ok B.flatten ∧
        m.attributes.get? 4 = some fl ∧
        m'.attributes.get? 4 = some { fl with Buffer := listBuffer } ∧
        listBuffer.length = fl.Buffer.length ∧
        writeValues 4 (faceListValues B 0) fl.Buffer = .ok listBuffer ∧
        readValues 4 listBuffer B.length = .ok (faceListValues B 0) ∧
        readValues 4 listBuffer ((m.pointCount + 1) % 2 ^ 32) = .ok (faceListValues B 0) ∧
        (faceListValues B 0).length = (m.pointCount + 1) % 2 ^ 32 ∧
        ∀ p, p < (m.pointCount + 1) % 2 ^ 32 →
          (faceListValues B 0).getD p 0 = (B.take p).flatten.length) ∧
      m'.GetFaceIndices = .ok (fi, m') ∧
      ∀ later m'', m'.calls later = .ok m'' → m''.GetFaceIndices = .ok (fi, m'')) ∧
    (∀ (pts : List Nat) (poc fl : MeshAttribute) (offset : Nat)
        (allocator : GPUVirtualMemoryAllocator),
      m.pointCount + 1 < 2 ^ 32 → m.faceCount ∣ m.cornerCount →
      m.attributes.get? 0 = some poc →
      readValues (if poc.Type_ = MeshAttributeType.UInt32 then 4 else 2) poc.Buffer
        m.cornerCount = .ok pts →
      (∀ p ∈ pts, p < m.pointCount) →
      m.attributes.get? 4 = some fl → (m.pointCount + 1) * 4 ≤ fl.Buffer.length →
      m.toMeshData2.FindAttribute faceIndexName = none →
      m.data.AttributeAllocator.AllocateIndex32 (if m.faceCount ≤ 65535 then 2 else 4)
        m.cornerCount = .ok (offset, allocator) →
      ∃ m', m.GetFaceIndices = .ok (m.attributes.length, m')) := by
  constructor
  · intro fi m' h
    obtain ⟨B, offset, allocator, fl, listBuffer, m2, poc, hfi, h5, h4, -, hBlen, hflat, hids,
      -, -, hlist, hm', h0, hcc⟩ := GetFaceIndices_first m m' fi hnull hP hC h
    subst hm'
    subst hfi
    obtain ⟨hlen, hother⟩ := afterGetFaceIndices_other m offset allocator fl
      (B.flatten.flatMap (toLE (if m.faceCount ≤ 65535 then 2 else 4))) listBuffer
    obtain ⟨hg4, hgfi⟩ := get?_afterGetFaceIndices m offset allocator fl
      (B.flatten.flatMap (toLE (if m.faceCount ≤ 65535 then 2 else 4))) listBuffer h5
    have hrep : ∀ id ∈ B.flatten, id < 256 ^ (if m.faceCount ≤ 65535 then 2 else 4) :=
      fun id hid => faceId_lt_width m.faceCount id hF (hids id hid)
    have hfl := readValues_of_writeValues 4 _ _ _ hlist
      (faceListValues_lt B 0 (by norm_num))
    rw [faceListValues_length] at hfl
    have hbuckets : ∀ p, B.getD p [] =
        ((cornerVisits m.faceCount m.cornerCount).filter (fun x =>
          decide (readAt (if poc.Type_ = MeshAttributeType.UInt32 then 4 else 2) poc.Buffer
            x.2 = .ok p))).map (fun x => x.1) := by
      intro p
      have hb := createCorners_buckets _ _ _ _ _ _ _ hcc p
      rw [getD_replicate_nil, List.nil_append] at hb
      exact hb
    have hcounts : ∀ p, p < (m.pointCount + 1) % 2 ^ 32 →
        (faceListValues B 0).getD p 0 = (B.take p).flatten.length := by
      intro p hp
      rw [faceListValues_getD B 0 p (by norm_num) (by rw [hBlen]; exact hp), Nat.zero_add]
      have h1 := flatten_take_le B p
      have h2 : m.faceCount * (m.cornerCount / m.faceCount) ≤ m.cornerCount :=
        Nat.mul_div_le _ _
      exact Nat.mod_eq_of_lt (by omega)
    refine ⟨rfl, hlen, rfl, hother, ⟨poc, B, offset, fl, listBuffer, h0, hBlen, hbuckets, hflat,
      hgfi, fun id hid => ⟨hids id hid, hrep id hid⟩, readValues_flatMap _ _ hrep, h4, hg4,
      writeValues_length _ _ _ _ hlist, hlist, hfl, by rw [← hBlen]; exact hfl,
      by rw [faceListValues_length, hBlen], hcounts⟩, GetFaceIndices_some _ _ rfl, ?_⟩
    intro later m'' hlater
    exact GetFaceIndices_some _ _ (calls_faceIndices later _ m'' _ rfl hlater)
  · intro pts poc fl offset allocator hP1 hdiv h0 hread hlt h4 hfl hname halloc
    obtain ⟨ib, lb, hok, -, -⟩ := GetFaceIndices_eq m pts poc fl offset allocator hnull hP1 hC
      hdiv h0 hread hlt h4 hfl hname halloc
    exact ⟨_, hok⟩

theorem GetFaceIndices_memoized_witness :
    sampleSparseMesh.faceIndices = none ∧
      sampleSparseMesh.GetFaceIndices = .ok (5, sampleSparseMeshIndexed) ∧
      sampleSparseMeshIndexed.attributes.length = sampleSparseMesh.attributes.length + 1 ∧
      sampleSparseMeshIndexed.GetFaceIndices = .ok (5, sampleSparseMeshIndexed) ∧
      (∀ later m'', sampleSparseMeshIndexed.calls later = .ok m'' →
        m''.GetFaceIndices = .ok (5, m'')) ∧
      (sampleSparseMesh.attributes.get? 4).map (fun a => readValues 4 a.Buffer 7) =
        some (.ok [0, 0, 0, 0, 0, 0, 0]) ∧
      (sampleSparseMeshIndexed.attributes.get? 4).map (fun a => readValues 4 a.Buffer 7) =
        some (.ok [0, 1, 1, 2, 2, 2, 4]) :=
  have h := (GetFaceIndices_memoized sampleSparseMesh (by decide) (by decide) (by decide)
    (by decide)).1 5 sampleSparseMeshIndexed (by decide)
  ⟨by decide, by decide, h.2.1, h.2.2.2.2.2.1, h.2.2.2.2.2.2, by decide, by decide⟩

theorem attributeElementSize_Boolean :
    attributeElementSize MeshAttributeType.Boolean = .error .runtimeError := by
  decide

/-- C26 (as stated, refuted). `Boolean` is one of the enumerated types and
`ByteSizeOfAttribute` gives it one byte, but `AddAttribute` on a mesh without attributes and
with room in the allocator throws for it. -/
theorem AddAttribute_rejects_Boolean :
    ByteSizeOfAttribute MeshAttributeType.Boolean = .ok 1 ∧
      sampleMeshData2.FindAttribute [98] = none ∧
      sampleMeshData2.AddAttribute [98] MeshAttributeDomain.Point MeshAttributeType.Boolean 0 =
        .error .runtimeError := by
  decide

/-- C26 (amended). For every attribute type `t` of the enumerated set other than `Boolean`
(the types for which `ByteSizeOfAttribute` returns a size), `MeshData2::AddAttribute` with a
name not yet present, a domain that has a count and room in the allocator succeeds, the
recorded `ElementSize` equals `ByteSizeOfAttribute(t)` and the buffer has
`elementCount x ByteSizeOfAttribute(t)` bytes. Whenever `AddAttribute` succeeds, for any
type, the recorded `ElementSize` is what `ByteSizeOfAttribute` returns for the type. For
`Boolean`, which is in neither conditional chain, `AddAttribute` never succeeds. -/
theorem AddAttribute_element_size (m : MeshData2) (name : Bytes)
    (domain type extraCount count size : Nat)
    (hsize : ByteSizeOfAttribute type = .ok size) (hb : type ≠ MeshAttributeType.Boolean)
    (hname : m.FindAttribute name = none) (hcount : m.domainCount domain = .ok count)
    (hroom : m.data.AttributeAllocator.Cursor + ((count + extraCount) % 2 ^ 32 + 1) * size ≤
      m.data.AttributeAllocator.Capacity) :
    (∃ m' a, m.AddAttribute name domain type extraCount = .ok (m.attributes.length, m') ∧
        m'.attributes = m.attributes ++ [a] ∧ a.Name = name ∧ a.Domain = domain ∧
        a.Type_ = type ∧ a.ElementSize = size ∧
        a.Buffer.length = (count + extraCount) % 2 ^ 32 * size) ∧
      (∀ (m0 m1 : MeshData2) (name0 : Bytes) (domain0 type0 extraCount0 i : Nat),
        m0.AddAttribute name0 domain0 type0 extraCount0 = .ok (i, m1) →
        ∃ a, m1.attributes.get? i = some a ∧ a.Type_ = type0 ∧
          ByteSizeOfAttribute type0 = .ok a.ElementSize ∧
          a.Buffer.length % a.ElementSize = 0) ∧
      (∀ (m0 : MeshData2) (name0 : Bytes) (domain0 extraCount0 : Nat) (r : Nat × MeshData2),
        m0.AddAttribute name0 domain0 MeshAttributeType.Boolean extraCount0 ≠ .ok r) := by
  refine ⟨?_, ?_, ?_⟩
  · obtain ⟨offset, allocator, hadd, -, -⟩ := AddAttribute_ok m name domain type extraCount
      count size hname hcount (attributeElementSize_of_ByteSize type size hsize hb) hroom
    refine ⟨_, _, hadd, rfl, rfl, rfl, rfl, rfl, ?_⟩
    simp only [zeroAttribute, List.length_replicate]
    exact Nat.mul_comm _ _
  · intro m0 m1 name0 domain0 type0 extraCount0 i h
    obtain ⟨-, count0, size0, offset, allocator, -, hsize0, -, hi, hm1⟩ :=
      AddAttribute_inv _ _ _ _ _ _ _ h
    subst hm1
    subst hi
    refine ⟨zeroAttribute name0 domain0 type0 offset size0 ((count0 + extraCount0) % 2 ^ 32), by
      rw [List.get?_eq_getElem?, List.getElem?_append_right (le_refl _)]
      simp only [Nat.sub_self, List.getElem?_cons_zero, zeroAttribute], rfl,
      attributeElementSize_eq_ByteSize _ _ hsize0, ?_⟩
    simp only [zeroAttribute, List.length_replicate, Nat.mul_mod_right]
  · intro m0 name0 domain0 extraCount0 r h
    obtain ⟨-, count0, size0, offset, allocator, -, hsize0, -⟩ :=
      AddAttribute_inv _ _ _ _ _ _ _ h
    rw [attributeElementSize_Boolean] at hsize0
    cases hsize0

theorem AddAttribute_element_size_witness :
    ByteSizeOfAttribute MeshAttributeType.Vec3Int = .ok 12 ∧
      sampleMeshData2.domainCount MeshAttributeDomain.Corner = .ok 6 ∧
      ∃ m' a,
        sampleMeshData2.AddAttribute [98] MeshAttributeDomain.Corner MeshAttributeType.Vec3Int 0 =
          .ok (sampleMeshData2.attributes.length, m') ∧
        m'.attributes = sampleMeshData2.attributes ++ [a] ∧ a.Name = [98] ∧
        a.Domain = MeshAttributeDomain.Corner ∧ a.Type_ = MeshAttributeType.Vec3Int ∧
        a.ElementSize = 12 ∧ a.Buffer.length = (6 + 0) % 2 ^ 32 * 12 :=
  ⟨by decide, by decide,
    (AddAttribute_element_size sampleMeshData2 [98] MeshAttributeDomain.Corner
      MeshAttributeType.Vec3Int 0 6 12 (by decide) (by decide) (by decide) (by decide)
      (by decide)).1⟩

/-! ## The buffers built by the exporter interface -/

theorem chunks_mem_length (w : Nat) : ∀ (n : Nat) (raw : Bytes), n * w ≤ raw.length →
    ∀ c ∈ chunks w n raw, c.length = w := by
  intro n
  induction n with
  | zero => intro _ _ c hc; cases hc
  | succ n ih =>
    intro raw h c hc
    rw [chunks, List.mem_cons] at hc
    rw [Nat.succ_mul] at h
    rcases hc with rfl | hc
    · rw [List.length_take]
      omega
    · exact ih (raw.drop w) (by rw [List.length_drop]; omega) c hc

theorem swapYZ_length (v : Bytes) (h : v.length = 12) : (swapYZ v).length = 12 := by
  unfold swapYZ
  simp only [List.length_append, List.length_take, List.length_drop]
  omega

theorem convert_length (ops : UvOps) (v : Bytes) : (ops.convert v).length = 4 := by
  unfold UvOps.convert
  rw [List.length_append, toLE_length, toLE_length]

theorem SizedU32_of_counts (mf mf' : MeshFile) (a : MeshFileAttribute)
    (h : ∀ d, mf'.elementCount d = mf.elementCount d) (ha : a.SizedU32 mf) : a.SizedU32 mf' := by
  obtain ⟨n, size, h1, h2, h3⟩ := ha
  exact ⟨n, size, by rw [h, h1], h2, h3⟩

/-- What `MeshFileAddAttribute` has done from line 252 on when it returns. -/
theorem storeAttribute_inv (mf mf' : MeshFile) (name : Bytes) (domain type : Nat)
    (buffer : Bytes) (isUv : Bool) (h : storeAttribute mf name domain type buffer isUv = .ok mf') :
    ∃ (vec : Bytes) (n size : Nat),
      mf.elementCount domain = some n ∧ ByteSizeOfAttribute type = .ok size ∧
      vec.length = n * size % 2 ^ 32 ∧
      mf' = { mf with
              UvIndices :=
                if isUv then mf.UvIndices ++ [mf.Attributes.length % 2 ^ 32] else mf.UvIndices
              Attributes := mf.Attributes ++
                [{ Name := name, Domain := domain, Type_ := type, Buffer := vec, Morphs := [] }] } := by
  unfold storeAttribute at h
  split at h
  · cases h
  · next count hcount =>
    split at h
    · cases h
    · next size hsize =>
      simp only at h
      split at h
      · cases h
      · next hlen =>
        have htake : (buffer.take (size * count % 2 ^ 32)).length = count * size % 2 ^ 32 := by
          rw [Nat.mul_comm size count] at hlen ⊢
          rw [List.length_take, Nat.min_eq_left (by omega)]
        split at h
        · cases h
        · next vec hvec =>
          refine ⟨vec, count, size, hcount, hsize, ?_, (Except.ok.inj h).symm⟩
          split at hvec
          · split at hvec
            · next hle =>
              rw [← Except.ok.inj hvec, List.length_append, List.length_drop,
                flatMap_length_const swapYZ 12 _ (fun c hc =>
                  swapYZ_length c (chunks_mem_length 12 count _ hle c hc)),
                chunks_length, ← htake]
              omega
            · cases hvec
          · rw [← Except.ok.inj hvec]
            exact htake

/-- What `MeshFileAddAttribute` has done from line 246 on when it returns. -/
theorem addIndexAttribute_inv (mf mf' : MeshFile) (name : Bytes) (domain type : Nat)
    (buffer : Bytes) (isUv : Bool)
    (h : addIndexAttribute mf name domain type buffer isUv = .ok mf') :
    ∃ (vec : Bytes) (n size : Nat) (pushes : Bool),
      mf.elementCount domain = some n ∧
      ByteSizeOfAttribute
        (if type ≠ MeshAttributeType.UInt16 ∧ name = cornerVertName ∧ mf.PointCount ≤ 65535 then
          MeshAttributeType.UInt16 else type) = .ok size ∧
      vec.length = n * size % 2 ^ 32 ∧
      (pushes = true → isUv = true ∧
        ¬ (type ≠ MeshAttributeType.UInt16 ∧ name = cornerVertName ∧ mf.PointCount ≤ 65535)) ∧
      mf' = { mf with
              UvIndices :=
                if pushes then mf.UvIndices ++ [mf.Attributes.length % 2 ^ 32] else mf.UvIndices
              Attributes := mf.Attributes ++
                [{ Name := name, Domain := domain,
                   Type_ :=
                     (if type ≠ MeshAttributeType.UInt16 ∧ name = cornerVertName ∧
                        mf.PointCount ≤ 65535 then MeshAttributeType.UInt16 else type),
                   Buffer := vec, Morphs := [] }] } := by
  unfold addIndexAttribute at h
  by_cases hc : type ≠ MeshAttributeType.UInt16 ∧ name = cornerVertName ∧ mf.PointCount ≤ 65535
  · rw [if_pos hc] at h
    split at h
    · cases h
    · split at h
      · cases h
      · obtain ⟨vec, n, size, h1, h2, h3, h4⟩ := storeAttribute_inv _ _ _ _ _ _ _ h
        refine ⟨vec, n, size, false, h1, by rw [if_pos hc]; exact h2, h3,
          (fun hp => Bool.noConfusion hp), ?_⟩
        rw [if_pos hc]
        exact h4
  · rw [if_neg hc] at h
    obtain ⟨vec, n, size, h1, h2, h3, h4⟩ := storeAttribute_inv _ _ _ _ _ _ _ h
    refine ⟨vec, n, size, isUv, h1, by rw [if_neg hc]; exact h2, h3, fun hp => ⟨hp, hc⟩, ?_⟩
    rw [if_neg hc]
    exact h4

/-- What `MeshFileAddAttribute` has done when it returns: one attribute appended, under the
stored type, with a buffer of the computed size, and its position appended to the UV
indices only when it is stored as `Vec2F16`. -/
theorem MeshFileAddAttribute_inv (ops : UvOps) (mf mf' : MeshFile) (name : Bytes)
    (domain type : Nat) (buffer : Bytes) (isUv : Bool)
    (h : MeshFileAddAttribute ops mf name domain type buffer isUv = .ok mf') :
    ∃ (vec : Bytes) (n size : Nat) (pushes : Bool),
      mf.elementCount domain = some n ∧
      ByteSizeOfAttribute (storedType mf name type isUv) = .ok size ∧
      vec.length = n * size % 2 ^ 32 ∧
      (pushes = true → storedType mf name type isUv = MeshAttributeType.Vec2F16) ∧
      mf' = { mf with
              UvIndices :=
                if pushes then mf.UvIndices ++ [mf.Attributes.length % 2 ^ 32] else mf.UvIndices
              Attributes := mf.Attributes ++
                [{ Name := name, Domain := domain, Type_ := storedType mf name type isUv,
                   Buffer := vec, Morphs := [] }] } := by
  unfold MeshFileAddAttribute at h
  unfold storedType
  by_cases hc : isUv = true ∧ type ≠ MeshAttributeType.Vec2F16
  · rw [if_pos hc] at h
    split at h
    · cases h
    · split at h
      · cases h
      · split at h
        · cases h
        · obtain ⟨vec, n, size, pushes, h1, h2, h3, h4, h5⟩ := addIndexAttribute_inv _ _ _ _ _ _ _ h
          simp only [if_pos hc]
          refine ⟨vec, n, size, pushes, h1, h2, h3, fun hp => ?_, h5⟩
          rw [if_neg (h4 hp).2]
  · rw [if_neg hc] at h
    obtain ⟨vec, n, size, pushes, h1, h2, h3, h4, h5⟩ := addIndexAttribute_inv _ _ _ _ _ _ _ h
    simp only [if_neg hc]
    refine ⟨vec, n, size, pushes, h1, h2, h3, fun hp => ?_, h5⟩
    rw [if_neg (h4 hp).2]
    by_contra hne
    exact hc ⟨(h4 hp).1, hne⟩

theorem elementCount_congr (mf mf' : MeshFile) (hP : mf'.PointCount = mf.PointCount)
    (hE : mf'.EdgeCount = mf.EdgeCount) (hF : mf'.FaceCount = mf.FaceCount)
    (hC : mf'.CornerCount = mf.CornerCount) (d : Nat) :
    mf'.elementCount d = mf.elementCount d := by
  unfold MeshFile.elementCount
  rw [hP, hE, hF, hC]

theorem reorderAttribute_shape (m : RangeMap) (cpf : Nat) (a a' : MeshFileAttribute)
    (h : reorderAttribute m cpf a = .ok a') : a'.shape = a.shape ∧ a'.Morphs = a.Morphs := by
  unfold reorderAttribute at h
  split at h
  · split at h
    · cases h
    · simp only at h
      split at h
      · cases h
      · next atData _ =>
        split at h
        · next hle =>
          rw [← Except.ok.inj h]
          refine ⟨?_, rfl⟩
          simp only [MeshFileAttribute.shape, List.length_append, List.length_drop, Prod.mk.injEq,
            true_and]
          omega
        · cases h
  · rw [← Except.ok.inj h]
    exact ⟨rfl, rfl⟩

theorem reorderAttributes_shape (m : RangeMap) (cpf : Nat) :
    ∀ (attributes attributes' : List MeshFileAttribute),
      reorderAttributes m cpf attributes = .ok attributes' →
      attributes'.map MeshFileAttribute.shape = attributes.map MeshFileAttribute.shape ∧
        attributes'.map (fun a => a.Morphs) = attributes.map (fun a => a.Morphs) := by
  intro attributes
  induction attributes with
  | nil =>
    intro attributes' h
    rw [reorderAttributes] at h
    rw [← Except.ok.inj h]
    exact ⟨rfl, rfl⟩
  | cons a rest ih =>
    intro attributes' h
    rw [reorderAttributes] at h
    split at h
    · cases h
    · next a' ha =>
      split at h
      · cases h
      · next rest' hrest =>
        rw [← Except.ok.inj h]
        obtain ⟨h1, h2⟩ := reorderAttribute_shape m cpf a a' ha
        obtain ⟨h3, h4⟩ := ih rest' hrest
        simp only [List.map_cons, h1, h2, h3, h4, and_self]

/-- What `ReorderMeshFaces` keeps whenever it returns: the name, the four counts, the UV
indices and, of every attribute in its position, the name, the domain, the type, the
length of the buffer and the morphs. -/
theorem ReorderMeshFaces_shape (mf mf' : MeshFile) (h : ReorderMeshFaces mf = .ok mf') :
    mf'.Name = mf.Name ∧ mf'.PointCount = mf.PointCount ∧ mf'.EdgeCount = mf.EdgeCount ∧
      mf'.FaceCount = mf.FaceCount ∧ mf'.CornerCount = mf.CornerCount ∧
      mf'.UvIndices = mf.UvIndices ∧
      mf'.Attributes.map MeshFileAttribute.shape = mf.Attributes.map MeshFileAttribute.shape ∧
      mf'.Attributes.map (fun a => a.Morphs) = mf.Attributes.map (fun a => a.Morphs) := by
  unfold ReorderMeshFaces at h
  split at h
  · rw [← Except.ok.inj h]
    exact ⟨rfl, rfl, rfl, rfl, rfl, rfl, rfl, rfl⟩
  · split at h
    · rw [← Except.ok.inj h]
      exact ⟨rfl, rfl, rfl, rfl, rfl, rfl, rfl, rfl⟩
    · split at h
      · cases h
      · simp only at h
        split at h
        · cases h
        · split at h
          · cases h
          · next attributes hattrs =>
            split at h
            · cases h
            · rw [← Except.ok.inj h]
              obtain ⟨h1, h2⟩ := reorderAttributes_shape _ _ _ _ hattrs
              exact ⟨rfl, rfl, rfl, rfl, rfl, rfl, h1, h2⟩

theorem map_shape_set_same (l : List MeshFileAttribute) (i : Nat) (a b : MeshFileAttribute)
    (hget : l.get? i = some a) (hshape : b.shape = a.shape) :
    (l.set i b).map MeshFileAttribute.shape = l.map MeshFileAttribute.shape := by
  rw [List.map_set, hshape]
  apply List.ext_getElem?
  intro j
  rw [List.get?_eq_getElem?] at hget
  by_cases hj : i = j
  · subst hj
    rw [List.getElem?_set_self', List.getElem?_map, hget]
    rfl
  · rw [List.getElem?_set_ne hj]

theorem MeshFileAddShapeKey_shape (mf mf' : MeshFile) (name relativeName : Bytes)
    (value min max : Nat) (buffer : Bytes)
    (h : MeshFileAddShapeKey mf name relativeName value min max buffer = .ok mf') :
    mf'.PointCount = mf.PointCount ∧ mf'.EdgeCount = mf.EdgeCount ∧
      mf'.FaceCount = mf.FaceCount ∧ mf'.CornerCount = mf.CornerCount ∧
      mf'.UvIndices = mf.UvIndices ∧
      mf'.Attributes.map MeshFileAttribute.shape = mf.Attributes.map MeshFileAttribute.shape := by
  unfold MeshFileAddShapeKey at h
  simp only at h
  split at h
  · cases h
  · next it hit =>
    split at h
    · cases h
    · rw [← Except.ok.inj h]
      exact ⟨rfl, rfl, rfl, rfl, rfl, map_shape_set_same _ _ it _ hit rfl⟩

theorem shape_get? (l l' : List MeshFileAttribute)
    (h : l'.map MeshFileAttribute.shape = l.map MeshFileAttribute.shape) (i : Nat)
    (a : MeshFileAttribute) (ha : l.get? i = some a) :
    ∃ a', l'.get? i = some a' ∧ a'.shape = a.shape := by
  simp only [List.get?_eq_getElem?] at ha ⊢
  have h1 : (l'.map MeshFileAttribute.shape)[i]? = some a.shape := by
    rw [h, List.getElem?_map, ha]
    rfl
  rw [List.getElem?_map] at h1
  cases hget : l'[i]? with
  | none => rw [hget] at h1; cases h1
  | some a' =>
    rw [hget] at h1
    exact ⟨a', rfl, Option.some.inj h1⟩

theorem SizedU32_of_shape (mf mf' : MeshFile) (a a' : MeshFileAttribute)
    (hcounts : ∀ d, mf'.elementCount d = mf.elementCount d) (hshape : a'.shape = a.shape)
    (ha : a.SizedU32 mf) : a'.SizedU32 mf' := by
  obtain ⟨n, size, h1, h2, h3⟩ := ha
  simp only [MeshFileAttribute.shape, Prod.mk.injEq] at hshape
  obtain ⟨-, hd, ht, hl⟩ := hshape
  exact ⟨n, size, by rw [hcounts, hd, h1], by rw [ht, h2], by rw [hl, h3]⟩

/-- The invariant passes to a mesh file with the same counts, the same UV indices and
attributes of the same shapes. -/
theorem Built_of_shape (mf mf' : MeshFile)
    (hcounts : ∀ d, mf'.elementCount d = mf.elementCount d)
    (huv : mf'.UvIndices = mf.UvIndices)
    (hshape : mf'.Attributes.map MeshFileAttribute.shape =
      mf.Attributes.map MeshFileAttribute.shape)
    (h : mf.Built) : mf'.Built := by
  obtain ⟨hs, hu⟩ := h
  constructor
  · intro a' ha'
    obtain ⟨i, hi, hget⟩ := List.getElem_of_mem ha'
    have hget' : mf'.Attributes.get? i = some a' := by
      rw [List.get?_eq_getElem?, List.getElem?_eq_getElem hi, hget]
    obtain ⟨a, hga, hsh⟩ := shape_get? mf'.Attributes mf.Attributes hshape.symm i a' hget'
    rw [List.get?_eq_getElem?] at hga
    exact SizedU32_of_shape mf mf' a a' hcounts hsh.symm (hs a (List.getElem?_mem hga))
  · intro i hi
    rw [huv] at hi
    obtain ⟨a, hga, hty⟩ := hu i hi
    obtain ⟨a', hga', hsh⟩ := shape_get? mf.Attributes mf'.Attributes hshape i a hga
    refine ⟨a', hga', ?_⟩
    simp only [MeshFileAttribute.shape, Prod.mk.injEq] at hsh
    rw [hsh.2.2.1, hty]

theorem MeshFileAddAttribute_Built (ops : UvOps) (mf mf' : MeshFile) (name : Bytes)
    (domain type : Nat) (buffer : Bytes) (isUv : Bool)
    (h : MeshFileAddAttribute ops mf name domain type buffer isUv = .ok mf')
    (hb : mf.Built) (hlen : mf'.Attributes.length ≤ 2 ^ 32) : mf'.Built := by
  obtain ⟨vec, n, size, pushes, h1, h2, h3, h4, h5⟩ :=
    MeshFileAddAttribute_inv ops mf mf' name domain type buffer isUv h
  obtain ⟨hs, hu⟩ := hb
  subst h5
  simp only [List.length_append, List.length_singleton] at hlen
  constructor
  · intro a ha
    simp only [List.mem_append, List.mem_singleton] at ha
    rcases ha with ha | rfl
    · exact SizedU32_of_counts mf _ a (fun _ => rfl) (hs a ha)
    · exact ⟨n, size, h1, h2, h3⟩
  · intro i hi
    have hold : ∀ (x : MeshFileAttribute), ∀ j ∈ mf.UvIndices, ∃ a,
        (mf.Attributes ++ [x]).get? j = some a ∧ a.Type_ = MeshAttributeType.Vec2F16 := by
      intro x j hj
      obtain ⟨a, hga, hty⟩ := hu j hj
      refine ⟨a, ?_, hty⟩
      rw [List.get?_eq_getElem?] at hga ⊢
      obtain ⟨hlt, _⟩ := List.getElem?_eq_some_iff.1 hga
      rw [List.getElem?_append_left hlt, hga]
    cases hp : pushes with
    | false =>
      rw [hp] at hi
      exact hold _ i hi
    | true =>
      rw [hp] at hi
      simp only [if_true, List.mem_append, List.mem_singleton] at hi
      rcases hi with hi | rfl
      · exact hold _ i hi
      · rw [Nat.mod_eq_of_lt (by omega)]
        refine ⟨MeshFileAttribute.mk name domain (storedType mf name type isUv) vec [], ?_,
          h4 hp⟩
        rw [List.get?_eq_getElem?, List.getElem?_append_right (le_refl _)]
        simp only [Nat.sub_self, List.getElem?_cons_zero]

theorem exportCall_counts (ops : UvOps) (mf mf' : MeshFile) (c : ExportCall)
    (h : mf.exportCall ops c = .ok mf') :
    mf'.PointCount = mf.PointCount ∧ mf'.EdgeCount = mf.EdgeCount ∧
      mf'.FaceCount = mf.FaceCount ∧ mf'.CornerCount = mf.CornerCount ∧
      mf.Attributes.length ≤ mf'.Attributes.length := by
  cases c with
  | addAttribute name domain type buffer isUv =>
    obtain ⟨vec, n, size, pushes, -, -, -, -, h5⟩ :=
      MeshFileAddAttribute_inv ops mf mf' name domain type buffer isUv h
    subst h5
    exact ⟨rfl, rfl, rfl, rfl, by simp⟩
  | addShapeKey name relativeName value min max buffer =>
    obtain ⟨h1, h2, h3, h4, -, h6⟩ := MeshFileAddShapeKey_shape mf mf' _ _ _ _ _ _ h
    have := congrArg List.length h6
    simp only [List.length_map] at this
    exact ⟨h1, h2, h3, h4, le_of_eq this.symm⟩
  | addMaterial id =>
    simp only [MeshFile.exportCall, Except.ok.injEq] at h
    subst h
    exact ⟨rfl, rfl, rfl, rfl, le_refl _⟩
  | reorder =>
    obtain ⟨-, h1, h2, h3, h4, -, h6, -⟩ := ReorderMeshFaces_shape mf mf' h
    have := congrArg List.length h6
    simp only [List.length_map] at this
    exact ⟨h1, h2, h3, h4, le_of_eq this.symm⟩

theorem exportCalls_length_le (ops : UvOps) : ∀ (calls : List ExportCall) (mf mf' : MeshFile),
    mf.exportCalls ops calls = .ok mf' → mf.Attributes.length ≤ mf'.Attributes.length := by
  intro calls
  induction calls with
  | nil =>
    intro mf mf' h
    simp only [MeshFile.exportCalls, Except.ok.injEq] at h
    rw [h]
  | cons c calls ih =>
    intro mf mf' h
    simp only [MeshFile.exportCalls] at h
    split at h
    · cases h
    · next mf1 hc =>
      exact le_trans (exportCall_counts ops mf mf1 c hc).2.2.2.2 (ih mf1 mf' h)

theorem exportCall_Built (ops : UvOps) (mf mf' : MeshFile) (c : ExportCall)
    (h : mf.exportCall ops c = .ok mf') (hb : mf.Built)
    (hlen : mf'.Attributes.length ≤ 2 ^ 32) : mf'.Built := by
  cases c with
  | addAttribute name domain type buffer isUv =>
    exact MeshFileAddAttribute_Built ops mf mf' name domain type buffer isUv h hb hlen
  | addShapeKey name relativeName value min max buffer =>
    obtain ⟨h1, h2, h3, h4, h5, h6⟩ := MeshFileAddShapeKey_shape mf mf' _ _ _ _ _ _ h
    exact Built_of_shape mf mf' (elementCount_congr mf mf' h1 h2 h3 h4) h5 h6 hb
  | addMaterial id =>
    simp only [MeshFile.exportCall, Except.ok.injEq] at h
    subst h
    exact Built_of_shape mf _ (fun _ => rfl) rfl rfl hb
  | reorder =>
    obtain ⟨-, h1, h2, h3, h4, h5, h6, -⟩ := ReorderMeshFaces_shape mf mf' h
    exact Built_of_shape mf mf' (elementCount_congr mf mf' h1 h2 h3 h4) h5 h6 hb

theorem exportCalls_Built (ops : UvOps) : ∀ (calls : List ExportCall) (mf mf' : MeshFile),
    mf.exportCalls ops calls = .ok mf' → mf.Built → mf'.Attributes.length ≤ 2 ^ 32 →
      mf'.Built ∧ mf'.PointCount = mf.PointCount ∧ mf'.EdgeCount = mf.EdgeCount ∧
        mf'.FaceCount = mf.FaceCount ∧ mf'.CornerCount = mf.CornerCount ∧
        mf.Attributes.length ≤ mf'.Attributes.length := by
  intro calls
  induction calls with
  | nil =>
    intro mf mf' h hb _
    simp only [MeshFile.exportCalls, Except.ok.injEq] at h
    subst h
    exact ⟨hb, rfl, rfl, rfl, rfl, le_refl _⟩
  | cons c calls ih =>
    intro mf mf' h hb hlen
    simp only [MeshFile.exportCalls] at h
    split at h
    · cases h
    · next mf1 hc =>
      obtain ⟨c1, c2, c3, c4, c5⟩ := exportCall_counts ops mf mf1 c hc
      have hlen1 := exportCalls_length_le ops calls mf1 mf' h
      obtain ⟨b, d1, d2, d3, d4, d5⟩ := ih mf1 mf' h
        (exportCall_Built ops mf mf1 c hc hb (le_trans hlen1 hlen)) hlen
      exact ⟨b, d1.trans c1, d2.trans c2, d3.trans c3, d4.trans c4, le_trans c5 d5⟩

/-! ### When `MeshFileAddAttribute` returns -/

theorem storeAttribute_ok (mf : MeshFile) (name : Bytes) (domain type : Nat) (buffer : Bytes)
    (isUv : Bool) (n size : Nat) (hn : mf.elementCount domain = some n)
    (hsize : ByteSizeOfAttribute type = .ok size) (hfit : n * 16 < 2 ^ 32)
    (hbuf : n * size ≤ buffer.length) :
    ∃ mf', storeAttribute mf name domain type buffer isUv = .ok mf' := by
  have hle := (ByteSizeOfAttribute_bounds type size hsize).2
  have hmul : size * n ≤ 16 * n := Nat.mul_le_mul_right n hle
  have hcomm : size * n = n * size := Nat.mul_comm _ _
  have hmod : size * n % 2 ^ 32 = size * n := Nat.mod_eq_of_lt (by omega)
  unfold storeAttribute
  rw [hn, hsize]
  simp only [hmod]
  rw [if_neg (by omega)]
  by_cases hv : type = MeshAttributeType.Vec3
  · have h12 : size = 12 := by
      rw [hv] at hsize
      have h : ByteSizeOfAttribute MeshAttributeType.Vec3 = .ok 12 := by decide
      rw [h] at hsize
      exact (Except.ok.inj hsize).symm
    subst h12
    rw [if_pos hv, if_pos (by rw [List.length_take, Nat.min_eq_left (by omega)]; omega)]
    exact ⟨_, rfl⟩
  · rw [if_neg hv]
    exact ⟨_, rfl⟩

theorem elementCount_Corner (mf : MeshFile) :
    mf.elementCount MeshAttributeDomain.Corner = some mf.CornerCount := by
  unfold MeshFile.elementCount
  rw [if_neg (by decide), if_neg (by decide), if_neg (by decide), if_pos rfl]

theorem addIndexAttribute_ok (mf : MeshFile) (name : Bytes) (domain type : Nat) (buffer : Bytes)
    (isUv : Bool) (n size : Nat) (hn : mf.elementCount domain = some n)
    (hsize : ByteSizeOfAttribute type = .ok size) (hfit : n * 16 < 2 ^ 32)
    (hbuf : n * size ≤ buffer.length)
    (hidx : type ≠ MeshAttributeType.UInt16 → name = cornerVertName → mf.PointCount ≤ 65535 →
      domain = MeshAttributeDomain.Corner ∧ 4 * mf.CornerCount ≤ buffer.length) :
    ∃ mf', addIndexAttribute mf name domain type buffer isUv = .ok mf' := by
  unfold addIndexAttribute
  by_cases hc : type ≠ MeshAttributeType.UInt16 ∧ name = cornerVertName ∧ mf.PointCount ≤ 65535
  · obtain ⟨hd, hb⟩ := hidx hc.1 hc.2.1 hc.2.2
    rw [if_pos hc, if_neg (by rw [hd]; simp), if_neg (by omega)]
    subst hd
    have hn' : mf.CornerCount = n := by
      rw [elementCount_Corner] at hn
      exact Option.some.inj hn
    exact storeAttribute_ok mf name _ _ _ false n 2 hn (by decide) hfit (by
      rw [flatMap_length_const (fun v => toLE 2 (fromLE v)) 2 _
        (fun v _ => toLE_length 2 _), chunks_length, hn'])
  · rw [if_neg hc]
    exact storeAttribute_ok mf name domain type buffer isUv n size hn hsize hfit hbuf

/-- `MeshFileAddAttribute` returns when the domain has an element count, the type a byte
size, the buffer passed in holds the elements, their bytes can be counted in a `u32`, and
the assertions of the two conversions hold. -/
theorem MeshFileAddAttribute_ok (ops : UvOps) (mf : MeshFile) (name : Bytes)
    (domain type : Nat) (buffer : Bytes) (isUv : Bool) (n size : Nat)
    (hn : mf.elementCount domain = some n) (hsize : ByteSizeOfAttribute type = .ok size)
    (hfit : n * 16 < 2 ^ 32) (hbuf : n * size ≤ buffer.length)
    (huv : isUv = true → type ≠ MeshAttributeType.Vec2F16 →
      domain = MeshAttributeDomain.Corner ∧ type = MeshAttributeType.Vec2)
    (hidx : name = cornerVertName → mf.PointCount ≤ 65535 → type ≠ MeshAttributeType.UInt16 →
      domain = MeshAttributeDomain.Corner ∧ (isUv = true ∨ 4 ≤ size)) :
    ∃ mf', MeshFileAddAttribute ops mf name domain type buffer isUv = .ok mf' := by
  unfold MeshFileAddAttribute
  by_cases hc : isUv = true ∧ type ≠ MeshAttributeType.Vec2F16
  · obtain ⟨hd, ht⟩ := huv hc.1 hc.2
    subst hd
    subst ht
    have hn' : mf.CornerCount = n := by
      rw [elementCount_Corner] at hn
      exact Option.some.inj hn
    have h8 : size = 8 := by
      have h : ByteSizeOfAttribute MeshAttributeType.Vec2 = .ok 8 := by decide
      rw [h] at hsize
      exact (Except.ok.inj hsize).symm
    subst h8
    have hlen : ((chunks 8 mf.CornerCount buffer).flatMap ops.convert).length =
        mf.CornerCount * 4 := by
      rw [flatMap_length_const ops.convert 4 _ (fun v _ => convert_length ops v), chunks_length]
    rw [if_pos hc, if_neg (by simp), if_neg (by simp), if_neg (by omega)]
    exact addIndexAttribute_ok mf name _ _ _ true n 4 hn (by decide) hfit
      (by rw [hlen, hn'])
      (fun _ _ _ => ⟨rfl, by rw [hlen]; omega⟩)
  · rw [if_neg hc]
    refine addIndexAttribute_ok mf name domain type buffer isUv n size hn hsize hfit hbuf ?_
    intro ht hname hP
    obtain ⟨hd, hs⟩ := hidx hname hP ht
    refine ⟨hd, ?_⟩
    subst hd
    have hn' : mf.CornerCount = n := by
      rw [elementCount_Corner] at hn
      exact Option.some.inj hn
    have h4 : 4 ≤ size := by
      rcases hs with hs | hs
      · have hty : type = MeshAttributeType.Vec2F16 := by
          by_contra hne
          exact hc ⟨hs, hne⟩
        have h : ByteSizeOfAttribute MeshAttributeType.Vec2F16 = .ok 4 := by decide
        rw [hty, h] at hsize
        rw [← Except.ok.inj hsize]
      · exact hs
    have : n * 4 ≤ n * size := Nat.mul_le_mul_left _ h4
    omega

theorem elementCount_cases (mf : MeshFile) (d n : Nat) (h : mf.elementCount d = some n) :
    n = mf.PointCount ∨ n = mf.EdgeCount ∨ n = mf.FaceCount ∨ n = mf.CornerCount := by
  unfold MeshFile.elementCount at h
  split at h
  · exact Or.inl (Option.some.inj h).symm
  · split at h
    · exact Or.inr (Or.inl (Option.some.inj h).symm)
    · split at h
      · exact Or.inr (Or.inr (Or.inl (Option.some.inj h).symm))
      · split at h
        · exact Or.inr (Or.inr (Or.inr (Option.some.inj h).symm))
        · cases h

theorem Sized_of_SizedU32 (mf : MeshFile) (a : MeshFileAttribute) (h : a.SizedU32 mf)
    (hfit : ∀ n, mf.elementCount a.Domain = some n → n * 16 < 2 ^ 32) : a.Sized mf := by
  obtain ⟨n, size, h1, h2, h3⟩ := h
  have hle := (ByteSizeOfAttribute_bounds _ size h2).2
  have hmul : n * size ≤ n * 16 := Nat.mul_le_mul_left n hle
  have := hfit n h1
  unfold MeshFileAttribute.Sized
  rw [h1, h2]
  simp only
  rw [h3, Nat.mod_eq_of_lt (by omega)]

theorem storedType_uv (mf : MeshFile) (name : Bytes) (type : Nat) :
    storedType mf name type true =
      (if name = cornerVertName ∧ mf.PointCount ≤ 65535 then MeshAttributeType.UInt16
        else MeshAttributeType.Vec2F16) := by
  unfold storedType
  by_cases ht : type = MeshAttributeType.Vec2F16
  · subst ht
    simp only [ne_eq, not_true_eq_false, and_false, if_false]
    by_cases hc : name = cornerVertName ∧ mf.PointCount ≤ 65535
    · rw [if_pos ⟨by decide, hc⟩, if_pos hc]
    · rw [if_neg (fun h => hc h.2), if_neg hc]
  · simp only [ne_eq, ht, not_false_eq_true, and_self, if_true]
    by_cases hc : name = cornerVertName ∧ mf.PointCount ≤ 65535
    · rw [if_pos ⟨by decide, hc⟩, if_pos hc]
    · rw [if_neg (fun h => hc h.2), if_neg hc]

theorem storedType_indices (mf : MeshFile) (type : Nat) :
    storedType mf cornerVertName type false =
      (if mf.PointCount ≤ 65535 then MeshAttributeType.UInt16 else type) := by
  unfold storedType
  simp only [Bool.false_eq_true, false_and, if_false, true_and]
  by_cases hP : mf.PointCount ≤ 65535
  · rw [if_pos hP]
    by_cases ht : type = MeshAttributeType.UInt16
    · rw [if_neg (fun h => h.1 ht), ht]
    · rw [if_pos ⟨ht, hP⟩]
  · rw [if_neg hP, if_neg (fun h => hP h.2)]

theorem storedType_plain (mf : MeshFile) (name : Bytes) (type : Nat)
    (h : name ≠ cornerVertName) : storedType mf name type false = type := by
  unfold storedType
  simp only [Bool.false_eq_true, false_and, if_false]
  rw [if_neg (fun hc => h hc.2.1)]

theorem Built_CreateMeshFile (name : Bytes) (p e f c : Nat) :
    (CreateMeshFile name p e f c).Built :=
  ⟨fun _ ha => (by cases ha), fun _ hi => (by cases hi)⟩

/-- C23. Every attribute that `MeshFileAddAttribute` appends to a `MeshFile` is stored under
the name and domain given and the type actually stored (`Vec2F16` for a UV map, `UInt16`
for `.corner_vert` indices on a mesh of at most 65535 points, the given type otherwise) with
a buffer of `elementCount(domain) x ByteSizeOfAttribute(type)` bytes, the product computed
in `u32` as the code does, which is the exact product for every mesh whose attributes stay
below 2^32 bytes; on every mesh built from `CreateMeshFile` by calls of the exporter
interface (`MeshFileAddAttribute`, `MeshFileAddShapeKey`, `MeshFileAddMaterial`,
`ReorderMeshFaces`) every attribute has such a buffer and every entry of `UvIndices` is the
position of a `Vec2F16` attribute; `ReorderMeshFaces` keeps the length of every buffer, with
the name, domain and type of every attribute; and `MeshFileAddAttribute` does return when
the domain and the type are valid, the buffer passed in holds the elements and the
assertions of the two conversions hold. -/
theorem MeshFileAddAttribute_buffers (ops : UvOps) :
    (∀ (mf mf' : MeshFile) (name : Bytes) (domain type : Nat) (buffer : Bytes) (isUv : Bool),
      MeshFileAddAttribute ops mf name domain type buffer isUv = .ok mf' →
      ∃ a n size, mf'.Attributes = mf.Attributes ++ [a] ∧ a.Name = name ∧ a.Domain = domain ∧
        a.Type_ = storedType mf name type isUv ∧
        mf'.elementCount a.Domain = some n ∧ ByteSizeOfAttribute a.Type_ = .ok size ∧
        a.Buffer.length = n * size % 2 ^ 32 ∧
        (n * 16 < 2 ^ 32 → a.Buffer.length = n * size ∧ a.Sized mf')) ∧
    (∀ (mf : MeshFile) (name : Bytes) (type : Nat),
      storedType mf name type true =
        (if name = cornerVertName ∧ mf.PointCount ≤ 65535 then MeshAttributeType.UInt16
          else MeshAttributeType.Vec2F16) ∧
      storedType mf cornerVertName type false =
        (if mf.PointCount ≤ 65535 then MeshAttributeType.UInt16 else type) ∧
      (name ≠ cornerVertName → storedType mf name type false = type)) ∧
    (∀ (name : Bytes) (p e f c : Nat) (calls : List ExportCall) (mf' : MeshFile),
      (CreateMeshFile name p e f c).exportCalls ops calls = .ok mf' →
      mf'.Attributes.length ≤ 2 ^ 32 →
      (∀ a ∈ mf'.Attributes, a.SizedU32 mf' ∧
        (p < 2 ^ 28 ∧ e < 2 ^ 28 ∧ f < 2 ^ 28 ∧ c < 2 ^ 28 → a.Sized mf')) ∧
      ∀ i ∈ mf'.UvIndices, ∃ a, mf'.Attributes.get? i = some a ∧
        a.Type_ = MeshAttributeType.Vec2F16) ∧
    (∀ (mf mf' : MeshFile), ReorderMeshFaces mf = .ok mf' →
      mf'.Attributes.map (fun a => a.Buffer.length) =
          mf.Attributes.map (fun a => a.Buffer.length) ∧
        mf'.Attributes.map MeshFileAttribute.shape =
          mf.Attributes.map MeshFileAttribute.shape) ∧
    (∀ (mf : MeshFile) (name : Bytes) (domain type : Nat) (buffer : Bytes) (isUv : Bool)
        (n size : Nat),
      mf.elementCount domain = some n → ByteSizeOfAttribute type = .ok size →
      n * 16 < 2 ^ 32 → n * size ≤ buffer.length →
      (isUv = true → type ≠ MeshAttributeType.Vec2F16 →
        domain = MeshAttributeDomain.Corner ∧ type = MeshAttributeType.Vec2) →
      (name = cornerVertName → mf.PointCount ≤ 65535 → type ≠ MeshAttributeType.UInt16 →
        domain = MeshAttributeDomain.Corner ∧ (isUv = true ∨ 4 ≤ size)) →
      ∃ mf', MeshFileAddAttribute ops mf name domain type buffer isUv = .ok mf') := by
  refine ⟨?_, fun mf name type => ⟨storedType_uv mf name type, storedType_indices mf type,
    storedType_plain mf name type⟩, ?_, ?_, ?_⟩
  · intro mf mf' name domain type buffer isUv h
    obtain ⟨vec, n, size, pushes, h1, h2, h3, -, h5⟩ :=
      MeshFileAddAttribute_inv ops mf mf' name domain type buffer isUv h
    subst h5
    refine ⟨MeshFileAttribute.mk name domain (storedType mf name type isUv) vec [], n, size,
      rfl, rfl, rfl, rfl, h1, h2, h3, fun hfit => ?_⟩
    have hs : (MeshFileAttribute.mk name domain (storedType mf name type isUv) vec []).Sized
        mf := Sized_of_SizedU32 mf _ ⟨n, size, h1, h2, h3⟩ (fun n' hn' => by
        rw [h1] at hn'
        rw [← Option.some.inj hn']
        exact hfit)
    refine ⟨?_, hs⟩
    have hle := (ByteSizeOfAttribute_bounds _ size h2).2
    have hmul : n * size ≤ n * 16 := Nat.mul_le_mul_left n hle
    rw [h3, Nat.mod_eq_of_lt (by omega)]
  · intro name p e f c calls mf' h hlen
    obtain ⟨⟨hs, hu⟩, hP, hE, hF, hC, -⟩ := exportCalls_Built ops calls _ mf' h
      (Built_CreateMeshFile name p e f c) hlen
    refine ⟨fun a ha => ⟨hs a ha, fun hfit => ?_⟩, hu⟩
    apply Sized_of_SizedU32 mf' a (hs a ha)
    intro n hn
    have hp : mf'.PointCount = p := hP
    have he : mf'.EdgeCount = e := hE
    have hf : mf'.FaceCount = f := hF
    have hc : mf'.CornerCount = c := hC
    rcases elementCount_cases mf' _ n hn with h | h | h | h <;> norm_num at hfit ⊢ <;> omega
  · intro mf mf' h
    obtain ⟨-, -, -, -, -, -, h7, -⟩ := ReorderMeshFaces_shape mf mf' h
    refine ⟨?_, h7⟩
    have := congrArg (List.map (fun s : Bytes × Nat × Nat × Nat => s.2.2.2)) h7
    simpa only [List.map_map, Function.comp, MeshFileAttribute.shape] using this
  · intro mf name domain type buffer isUv n size hn hsize hfit hbuf huv hidx
    exact MeshFileAddAttribute_ok ops mf name domain type buffer isUv n size hn hsize hfit hbuf
      huv hidx

theorem MeshFileAddAttribute_buffers_witness :
    (CreateMeshFile [116] 3 3 1 3).exportCalls sampleUvOps sampleExportCalls =
        .ok sampleExportedMesh ∧
      (∀ a ∈ sampleExportedMesh.Attributes, a.Sized sampleExportedMesh) ∧
      (∀ i ∈ sampleExportedMesh.UvIndices, ∃ a, sampleExportedMesh.Attributes.get? i = some a ∧
        a.Type_ = MeshAttributeType.Vec2F16) ∧
      sampleExportedMesh.Attributes.map (fun a => (a.Type_, a.Buffer.length)) =
        [(MeshAttributeType.Vec3, 3 * 12), (MeshAttributeType.UInt16, 3 * 2),
          (MeshAttributeType.Vec2F16, 3 * 4), (MeshAttributeType.Vec2F16, 3 * 4),
          (MeshAttributeType.UInt32, 1 * 4)] :=
  have h := (MeshFileAddAttribute_buffers sampleUvOps).2.2.1 [116] 3 3 1 3 sampleExportCalls
    sampleExportedMesh (by decide) (by decide)
  ⟨by decide, fun a ha => (h.1 a ha).2 (by decide), h.2, by decide⟩

end Renderer

end Kaey
